import Mathlib

/-!
# go-testdeep: a shallow embedding of the operators and their Match methods

The Go sources embedded here are `td_between.go` (Between, N, Gt, Gte, Lt, Lte),
`td_array_each.go` (ArrayEach), `td_map.go` (Map, SubMapOf, SuperMapOf),
`td_isa.go`, `td_nil.go`, `td_zero.go`, `td_ptr.go`, `td_ignore.go`, `td_nan.go`
and `types.go`.  Values of package `reflect` are modelled by the inductive type
`Value`; a Go `panic` is the error side of `Except Panic`.
-/

namespace testdeep

/-! ## reflect.Kind and reflect.Type -/

/-- The kinds of package reflect (`reflect.Kind`). -/
inductive Kind where
  | invalid | bool
  | int | int8 | int16 | int32 | int64
  | uint | uint8 | uint16 | uint32 | uint64 | uintptr
  | float32 | float64 | complex64 | complex128
  | array | chan | func | interface | map | ptr | slice | string | struct
  | rawPointer
  deriving DecidableEq, Repr

/-- The signed integer kinds: `case reflect.Int, reflect.Int8, reflect.Int16,
reflect.Int32, reflect.Int64`. -/
def Kind.isInt : Kind → Bool
  | .int | .int8 | .int16 | .int32 | .int64 => true
  | _ => false

/-- The unsigned integer kinds: `case reflect.Uint, reflect.Uint8,
reflect.Uint16, reflect.Uint32, reflect.Uint64`. -/
def Kind.isUint : Kind → Bool
  | .uint | .uint8 | .uint16 | .uint32 | .uint64 => true
  | _ => false

/-- The float kinds: `case reflect.Float32, reflect.Float64`. -/
def Kind.isFloat : Kind → Bool
  | .float32 | .float64 => true
  | _ => false

/-- Width in bits of the integer kinds; `int` and `uint` are 64 bits wide, as on
the 64-bit platforms Go targets (amd64, arm64). -/
def Kind.bits : Kind → Nat
  | .int8 | .uint8 => 8
  | .int16 | .uint16 => 16
  | .int32 | .uint32 | .float32 => 32
  | _ => 64

/-- The name a predeclared type prints under. -/
def Kind.str : Kind → String
  | .invalid => "invalid" | .bool => "bool"
  | .int => "int" | .int8 => "int8" | .int16 => "int16" | .int32 => "int32"
  | .int64 => "int64"
  | .uint => "uint" | .uint8 => "uint8" | .uint16 => "uint16"
  | .uint32 => "uint32" | .uint64 => "uint64" | .uintptr => "uintptr"
  | .float32 => "float32" | .float64 => "float64"
  | .complex64 => "complex64" | .complex128 => "complex128"
  | .array => "array" | .chan => "chan" | .func => "func"
  | .interface => "interface" | .map => "map" | .ptr => "ptr"
  | .slice => "slice" | .string => "string" | .struct => "struct"
  | .rawPointer => "unsafe.Pointer"

mutual
/-- A Go type (`reflect.Type`).  Two Go types are identical exactly when their
descriptions are equal: a defined type is its package path, its printed name and
its underlying type; every other type is a type literal. -/
inductive GoType where
  | basic (k : Kind)
  | named (pkgPath : String) (name : String) (under : GoType)
  | ptr (elem : GoType)
  | slice (elem : GoType)
  | array (len : Nat) (elem : GoType)
  | map (key : GoType) (val : GoType)
  | chan (elem : GoType)
  | func (signature : String)
  | iface (methods : List String)
  | struct (fields : Fields)
/-- The field list of a struct type. -/
inductive Fields where
  | nil
  | cons (name : String) (t : GoType) (rest : Fields)
end

mutual
/-- Identity of Go types (`==` and `!=` on `reflect.Type`) is decidable. -/
def GoType.decEq : (a b : GoType) → Decidable (a = b)
  | .basic k, .basic k2 =>
    if h : k = k2 then isTrue (by rw [h])
    else isFalse (by intro e; cases e; exact h rfl)
  | .named p n u, .named p2 n2 u2 =>
    if h1 : p = p2 then
      if h2 : n = n2 then
        match GoType.decEq u u2 with
        | isTrue h3 => isTrue (by rw [h1, h2, h3])
        | isFalse h3 => isFalse (by intro e; cases e; exact h3 rfl)
      else isFalse (by intro e; cases e; exact h2 rfl)
    else isFalse (by intro e; cases e; exact h1 rfl)
  | .ptr e, .ptr e2 =>
    match GoType.decEq e e2 with
    | isTrue h3 => isTrue (by rw [h3])
    | isFalse h3 => isFalse (by intro e; cases e; exact h3 rfl)
  | .slice e, .slice e2 =>
    match GoType.decEq e e2 with
    | isTrue h3 => isTrue (by rw [h3])
    | isFalse h3 => isFalse (by intro e; cases e; exact h3 rfl)
  | .chan e, .chan e2 =>
    match GoType.decEq e e2 with
    | isTrue h3 => isTrue (by rw [h3])
    | isFalse h3 => isFalse (by intro e; cases e; exact h3 rfl)
  | .array l e, .array l2 e2 =>
    if h1 : l = l2 then
      match GoType.decEq e e2 with
      | isTrue h3 => isTrue (by rw [h1, h3])
      | isFalse h3 => isFalse (by intro e; cases e; exact h3 rfl)
    else isFalse (by intro e; cases e; exact h1 rfl)
  | .map k v, .map k2 v2 =>
    match GoType.decEq k k2, GoType.decEq v v2 with
    | isTrue h1, isTrue h2 => isTrue (by rw [h1, h2])
    | isFalse h1, _ => isFalse (by intro e; cases e; exact h1 rfl)
    | _, isFalse h1 => isFalse (by intro e; cases e; exact h1 rfl)
  | .func s, .func s2 =>
    if h : s = s2 then isTrue (by rw [h])
    else isFalse (by intro e; cases e; exact h rfl)
  | .iface m, .iface m2 =>
    if h : m = m2 then isTrue (by rw [h])
    else isFalse (by intro e; cases e; exact h rfl)
  | .struct f, .struct f2 =>
    match Fields.decEq f f2 with
    | isTrue h3 => isTrue (by rw [h3])
    | isFalse h3 => isFalse (by intro e; cases e; exact h3 rfl)
  | .basic _, .named .. | .basic _, .ptr _ | .basic _, .slice _
  | .basic _, .array .. | .basic _, .map .. | .basic _, .chan _
  | .basic _, .func _ | .basic _, .iface _ | .basic _, .struct _ =>
    isFalse (by intro e; cases e)
  | .named .., .basic _ | .named .., .ptr _ | .named .., .slice _
  | .named .., .array .. | .named .., .map .. | .named .., .chan _
  | .named .., .func _ | .named .., .iface _ | .named .., .struct _ =>
    isFalse (by intro e; cases e)
  | .ptr _, .basic _ | .ptr _, .named .. | .ptr _, .slice _
  | .ptr _, .array .. | .ptr _, .map .. | .ptr _, .chan _
  | .ptr _, .func _ | .ptr _, .iface _ | .ptr _, .struct _ =>
    isFalse (by intro e; cases e)
  | .slice _, .basic _ | .slice _, .named .. | .slice _, .ptr _
  | .slice _, .array .. | .slice _, .map .. | .slice _, .chan _
  | .slice _, .func _ | .slice _, .iface _ | .slice _, .struct _ =>
    isFalse (by intro e; cases e)
  | .array .., .basic _ | .array .., .named .. | .array .., .ptr _
  | .array .., .slice _ | .array .., .map .. | .array .., .chan _
  | .array .., .func _ | .array .., .iface _ | .array .., .struct _ =>
    isFalse (by intro e; cases e)
  | .map .., .basic _ | .map .., .named .. | .map .., .ptr _
  | .map .., .slice _ | .map .., .array .. | .map .., .chan _
  | .map .., .func _ | .map .., .iface _ | .map .., .struct _ =>
    isFalse (by intro e; cases e)
  | .chan _, .basic _ | .chan _, .named .. | .chan _, .ptr _
  | .chan _, .slice _ | .chan _, .array .. | .chan _, .map ..
  | .chan _, .func _ | .chan _, .iface _ | .chan _, .struct _ =>
    isFalse (by intro e; cases e)
  | .func _, .basic _ | .func _, .named .. | .func _, .ptr _
  | .func _, .slice _ | .func _, .array .. | .func _, .map ..
  | .func _, .chan _ | .func _, .iface _ | .func _, .struct _ =>
    isFalse (by intro e; cases e)
  | .iface _, .basic _ | .iface _, .named .. | .iface _, .ptr _
  | .iface _, .slice _ | .iface _, .array .. | .iface _, .map ..
  | .iface _, .chan _ | .iface _, .func _ | .iface _, .struct _ =>
    isFalse (by intro e; cases e)
  | .struct _, .basic _ | .struct _, .named .. | .struct _, .ptr _
  | .struct _, .slice _ | .struct _, .array .. | .struct _, .map ..
  | .struct _, .chan _ | .struct _, .func _ | .struct _, .iface _ =>
    isFalse (by intro e; cases e)
/-- Equality of struct field lists is decidable. -/
def Fields.decEq : (a b : Fields) → Decidable (a = b)
  | .nil, .nil => isTrue rfl
  | .cons n t r, .cons n2 t2 r2 =>
    if h1 : n = n2 then
      match GoType.decEq t t2, Fields.decEq r r2 with
      | isTrue h2, isTrue h3 => isTrue (by rw [h1, h2, h3])
      | isFalse h2, _ => isFalse (by intro e; cases e; exact h2 rfl)
      | _, isFalse h2 => isFalse (by intro e; cases e; exact h2 rfl)
    else isFalse (by intro e; cases e; exact h1 rfl)
  | .nil, .cons .. => isFalse (by intro e; cases e)
  | .cons .., .nil => isFalse (by intro e; cases e)
end

instance : DecidableEq GoType := GoType.decEq

instance : DecidableEq Fields := Fields.decEq

/-- The method `reflect.Type.Kind`: a defined type has the kind of its
underlying type. -/
def GoType.kind : GoType → Kind
  | .basic k => k
  | .named _ _ u => u.kind
  | .ptr _ => .ptr
  | .slice _ => .slice
  | .array _ _ => .array
  | .map _ _ => .map
  | .chan _ => .chan
  | .func _ => .func
  | .iface _ => .interface
  | .struct _ => .struct

/-- The underlying type of a type. -/
def GoType.underlying : GoType → GoType
  | .named _ _ u => u.underlying
  | t => t

/-- The names of the fields of a struct type, in the order of the fields. -/
def Fields.names : Fields → List String
  | .nil => []
  | .cons n _ rest => n :: rest.names

/-- The names of the fields of the struct type `t`, in the order of the fields
(none for a type that is not a struct type). -/
def GoType.fieldNames (t : GoType) : List String :=
  match t.underlying with
  | .struct fs => fs.names
  | _ => []

mutual
/-- The method `reflect.Type.str`. -/
def GoType.str : GoType → String
  | .basic k => k.str
  | .named _ n _ => n
  | .ptr e => "*" ++ e.str
  | .slice e => "[]" ++ e.str
  | .array n e => "[" ++ toString n ++ "]" ++ e.str
  | .map k v => "map[" ++ k.str ++ "]" ++ v.str
  | .chan e => "chan " ++ e.str
  | .func s => s
  | .iface [] => "interface \x7b\x7d"
  | .iface (m :: ms) =>
    "interface \x7b " ++ String.intercalate "; " (m :: ms) ++ " \x7d"
  | .struct .nil => "struct \x7b\x7d"
  | .struct (.cons n t r) => "struct \x7b " ++ Fields.str (.cons n t r) ++ " \x7d"
/-- The fields of a struct type as `reflect.Type.str` prints them. -/
def Fields.str : Fields → String
  | .nil => ""
  | .cons n t .nil => n ++ " " ++ t.str
  | .cons n t (.cons n2 t2 r) =>
    n ++ " " ++ t.str ++ "; " ++ Fields.str (.cons n2 t2 r)
end

/-- The type `time.Time`: `timeType = reflect.TypeOf(time.Time{})` of types.go. -/
def timeType : GoType :=
  .named "time" "time.Time"
    (.struct (.cons "wall" (.basic .uint64) (.cons "ext" (.basic .int64)
      (.cons "loc" (.ptr (.named "time" "time.Location" (.struct .nil))) .nil))))

/-- The method `reflect.Type.ConvertibleTo`, for a struct type converted to a
struct type (the only use the sources make of it): a struct converts to a
struct exactly when the two have identical underlying types. -/
def GoType.ConvertibleTo (t u : GoType) : Bool :=
  decide (t.underlying = u.underlying)

/-! ## Values -/

/-- A Go string: an immutable sequence of bytes.  The comparison operators
of Go order strings lexicographically, byte by byte. -/
def GoString : Type := List (Fin 256)

instance : LinearOrder GoString := inferInstanceAs (LinearOrder (List (Fin 256)))

/-- The bytes (UTF-8) of a string literal. -/
def GoString.ofString (s : String) : GoString :=
  s.toUTF8.toList.map (fun b => Fin.ofNat b.toNat)

/-- A float64 as the comparison operators of Go see it (IEEE 754): not-a-number,
the two infinities, or a finite value (both zeros being the value 0). -/
inductive GoFloat where
  | nan
  | negInf
  | finite (q : ℚ)
  | posInf
  deriving DecidableEq

/-- The operator `<` on floats: false as soon as one operand is NaN. -/
def GoFloat.lt : GoFloat → GoFloat → Bool
  | .nan, _ | _, .nan => false
  | .negInf, .negInf => false
  | .negInf, _ => true
  | _, .negInf => false
  | .posInf, _ => false
  | .finite _, .posInf => true
  | .finite a, .finite b => decide (a < b)

/-- The operator `<=` on floats: false as soon as one operand is NaN. -/
def GoFloat.le : GoFloat → GoFloat → Bool
  | .nan, _ | _, .nan => false
  | .negInf, _ => true
  | _, .posInf => true
  | .posInf, _ => false
  | .finite _, .negInf => false
  | .finite a, .finite b => decide (a ≤ b)

/-- The operator `>` on floats. -/
def GoFloat.gt (a b : GoFloat) : Bool := GoFloat.lt b a

/-- The operator `>=` on floats. -/
def GoFloat.ge (a b : GoFloat) : Bool := GoFloat.le b a

/-- The operator `==` on floats: NaN is equal to nothing, itself included. -/
def GoFloat.eq : GoFloat → GoFloat → Bool
  | .nan, _ | _, .nan => false
  | a, b => decide (a = b)

/-- A `reflect.Value`: the zero Value (`invalid`), or a type together with the
datum of that type.  A nil pointer, slice, map or interface holds `none`; a
struct whose type is `time.Time` or converts to it is `time`, holding the
instant it denotes (in nanoseconds) and a number for the rest of its
representation (location, monotonic reading), which `==` compares and
`After` and `Before` do not; any other struct is `struct`. -/
inductive Value where
  | invalid
  | bool (t : GoType) (b : Bool)
  | int (t : GoType) (i : Int)
  | uint (t : GoType) (n : Nat)
  | float (t : GoType) (f : GoFloat)
  | complex (t : GoType) (re : GoFloat) (im : GoFloat)
  | string (t : GoType) (s : GoString)
  | time (t : GoType) (instant : Int) (repr : Nat)
  | struct (t : GoType) (fields : List Value)
  | ptr (t : GoType) (elem : Option Value)
  | slice (t : GoType) (elems : Option (List Value))
  | array (t : GoType) (elems : List Value)
  | map (t : GoType) (entries : Option (List (Value × Value)))
  | iface (t : GoType) (dynamic : Option Value)
  | func (t : GoType) (isNil : Bool)
  | chan (t : GoType) (isNil : Bool)

/-- What a Go panic carries: a message (`panic("...")`), or the
`*reflect.ValueError` package reflect raises when a method is called on a Value
of the wrong kind. -/
inductive Panic where
  | msg (s : String)
  | valueError (method : String) (kind : Kind)
  deriving DecidableEq, Repr

/-- The method `reflect.Value.IsValid`. -/
def Value.IsValid : Value → Bool
  | .invalid => false
  | _ => true

/-- The type a valid Value carries. -/
def Value.typ : Value → Option GoType
  | .invalid => none
  | .bool t _ | .int t _ | .uint t _ | .float t _ | .complex t _ _
  | .string t _ | .time t _ _ | .struct t _ | .ptr t _ | .slice t _
  | .array t _ | .map t _ | .iface t _ | .func t _ | .chan t _ => some t

/-- The method `reflect.Value.Kind`: `Invalid` for the zero Value. -/
def Value.kind (v : Value) : Kind :=
  match v.typ with
  | none => .invalid
  | some t => t.kind

/-- The method `reflect.Value.Type`; it panics on the zero Value. -/
def Value.typeOf (v : Value) : Except Panic GoType :=
  match v.typ with
  | none => .error (.valueError "reflect.Value.Type" .invalid)
  | some t => .ok t

/-- The method `reflect.Value.Int`; it panics unless the Value holds a signed
integer. -/
def Value.asInt : Value → Except Panic Int
  | .int _ i => .ok i
  | v => .error (.valueError "reflect.Value.Int" v.kind)

/-- The method `reflect.Value.Uint`; it panics unless the Value holds an
unsigned integer. -/
def Value.asUint : Value → Except Panic Nat
  | .uint _ n => .ok n
  | v => .error (.valueError "reflect.Value.Uint" v.kind)

/-- The method `reflect.Value.Float`; it panics unless the Value holds a
float. -/
def Value.asFloat : Value → Except Panic GoFloat
  | .float _ f => .ok f
  | v => .error (.valueError "reflect.Value.Float" v.kind)

/-- The method `reflect.Value.String`: the string a string Value holds, and
for any other Value the text `<T Value>`, T being its type. -/
def Value.asString : Value → GoString
  | .string _ s => s
  | v =>
    match v.typ with
    | none => GoString.ofString "<invalid Value>"
    | some t => GoString.ofString ("<" ++ t.str ++ " Value>")

/-- The expression `v.Interface().(time.Time)`: `Interface` panics on the zero
Value, and the type assertion panics unless the dynamic type is `time.Time`. -/
def Value.asTime : Value → Except Panic Int
  | .invalid => .error (.valueError "reflect.Value.Interface" .invalid)
  | .time t i _ =>
    if t = timeType then .ok i
    else .error (.msg ("interface conversion: interface \x7b\x7d is " ++ t.str
      ++ ", not time.Time"))
  | v =>
    .error (.msg ("interface conversion: interface \x7b\x7d is "
      ++ (match v.typ with | some t => t.str | none => "nil") ++ ", not time.Time"))

/-- The method `reflect.Value.Convert`, for a struct converted to the struct
type `t`: the same datum under the type `t`. -/
def Value.Convert (v : Value) (t : GoType) : Value :=
  match v with
  | .time _ i r => .time t i r
  | .struct _ fs => .struct t fs
  | v => v

/-- Conversion of an `int64` to a signed integer type `w` bits wide (two's
complement truncation), as `reflect.Value.SetInt` stores it. -/
def wrapInt (w : Nat) (x : Int) : Int :=
  (x + 2 ^ (w - 1)) % 2 ^ w - 2 ^ (w - 1)

/-- Conversion of an integer to an unsigned integer type `w` bits wide
(truncation), as `reflect.Value.SetUint` stores it and as `uint64` arithmetic
wraps. -/
def wrapUint (w : Nat) (x : Int) : Nat :=
  (x % 2 ^ w).toNat

/-- The constant `math.MaxInt64`. -/
def MaxInt64 : Int := 2 ^ 63 - 1

/-- The constant `math.MinInt64`. -/
def MinInt64 : Int := -(2 ^ 63)

/-- The constant `math.MaxUint64`. -/
def MaxUint64 : Nat := 2 ^ 64 - 1

/-- The method `reflect.Value.Elem`: the pointee of a pointer (the zero Value
for a nil pointer), the dynamic value of an interface; it panics on any other
Value. -/
def Value.Elem : Value → Except Panic Value
  | .ptr _ (some v) => .ok v
  | .ptr _ none => .ok .invalid
  | .iface _ (some v) => .ok v
  | .iface _ none => .ok .invalid
  | v => .error (.valueError "reflect.Value.Elem" v.kind)

/-- The method `reflect.Value.Len` on an array or a slice (0 for a nil slice);
it panics on a Value that has no length. -/
def Value.Len : Value → Except Panic Nat
  | .array _ es => .ok es.length
  | .slice _ (some es) => .ok es.length
  | .slice _ none => .ok 0
  | .string _ s => .ok (List.length s)
  | .map _ (some es) => .ok es.length
  | .map _ none => .ok 0
  | v => .error (.valueError "reflect.Value.Len" v.kind)

/-- The method `reflect.Value.Index` on an array or a slice; it panics when
the index is out of range or the Value is not indexable. -/
def Value.Index : Value → Nat → Except Panic Value
  | .array _ es, i | .slice _ (some es), i =>
    match es.get? i with
    | some v => .ok v
    | none => .error (.msg "reflect: array index out of range")
  | .slice _ none, _ => .error (.msg "reflect: slice index out of range")
  | v, _ => .error (.valueError "reflect.Value.Index" v.kind)

mutual
/-- The operator `==` of Go on two dynamic values, as the language defines it
for comparable types: the types are identical and the values equal.  Booleans,
numbers, strings and times are compared by value (a NaN is equal to nothing); a
struct field by field, the blank fields (named `_`) being left out; an array
element by element; an interface value through the dynamic value it holds, two
nil interface values being equal; a pointer or a channel is equal to another
when both are nil.  Two pointers or two channels that are not nil are equal in
Go when they are the same pointer or channel: a Value holds no address, and
they are told apart here; `Value.comparedByValue` says of a value that it has
no such part.  Slices, maps and functions are not comparable. -/
def Value.eqDyn : Value → Value → Bool
  | .bool t a, .bool u b => decide (t = u) && decide (a = b)
  | .int t a, .int u b => decide (t = u) && decide (a = b)
  | .uint t a, .uint u b => decide (t = u) && decide (a = b)
  | .float t a, .float u b => decide (t = u) && GoFloat.eq a b
  | .complex t a c, .complex u b d =>
    decide (t = u) && GoFloat.eq a b && GoFloat.eq c d
  | .string t a, .string u b => decide (t = u) && decide (a = b)
  | .time t a r, .time u b q => decide (t = u) && decide (a = b) && decide (r = q)
  | .struct t fs, .struct u gs => decide (t = u) && Value.eqDynList t.fieldNames fs gs
  | .array t es, .array u gs => decide (t = u) && Value.eqDynList [] es gs
  | .ptr t a, .ptr u b => decide (t = u) && a.isNone && b.isNone
  | .chan t a, .chan u b => decide (t = u) && a && b
  | .iface _ (some a), .iface _ (some b) => Value.eqDyn a b
  | .iface _ none, .iface _ none => true
  | _, _ => false
/-- The operator `==` on the fields of two structs of one type, whose field
names are given, or on the elements of two arrays of one type (no name): all
the fields but the blank ones, or all the elements, are equal. -/
def Value.eqDynList : List String → List Value → List Value → Bool
  | _, [], [] => true
  | names, a :: as, b :: bs =>
    (decide (names.head? = some "_") || Value.eqDyn a b)
      && Value.eqDynList names.tail as bs
  | _, _, _ => false
end

/-- The dynamic value of a Value of interface type, which `Interface()` hands
over; any other Value is its own dynamic value. -/
def Value.dynamic : Value → Value
  | .iface _ (some v) => v
  | v => v

/-- The operator `==` on two `interface{}` values, given by the Values they
come from (`v.Interface()`): the comparison of a key with the keys of a map in
`reflect.Value.MapIndex` and in a `map[interface{}]bool`. -/
def Value.eqIface (a b : Value) : Bool :=
  Value.eqDyn a.dynamic b.dynamic

mutual
/-- Whether `==` on the value looks at values only: the value is a boolean, a
number, a string, a time, a nil pointer, a nil channel, a nil interface value,
or a struct, an array or an interface value made of such values.  A pointer or
a channel that is not nil is compared by its address, which a Value does not
hold; slices, maps and functions are not comparable. -/
def Value.comparedByValue : Value → Bool
  | .bool _ _ | .int _ _ | .uint _ _ | .float _ _ | .complex _ _ _
  | .string _ _ | .time _ _ _ => true
  | .struct _ fs => Value.comparedByValueList fs
  | .array _ es => Value.comparedByValueList es
  | .ptr _ e => e.isNone
  | .chan _ isNil => isNil
  | .iface _ none => true
  | .iface _ (some v) => v.comparedByValue
  | _ => false
/-- Whether every value of the list is compared by value. -/
def Value.comparedByValueList : List Value → Bool
  | [] => true
  | v :: vs => v.comparedByValue && Value.comparedByValueList vs
end

/-- Storing `x` with `reflect.Value.SetInt` in a fresh Value of the signed
integer type `t` (`reflect.New(t).Elem()`): `x` is truncated to the width of
`t`. -/
def Value.SetInt (t : GoType) (x : Int) : Value :=
  .int t (wrapInt t.kind.bits x)

/-- Storing `x` with `reflect.Value.SetUint` in a fresh Value of the unsigned
integer type `t`: `x` is truncated to the width of `t`. -/
def Value.SetUint (t : GoType) (x : Nat) : Value :=
  .uint t (wrapUint t.kind.bits x)

/-! ## Context and errors (package internal/ctxerr) -/

/-- One step of the path from the root of the compared data. -/
inductive PathStep where
  | field (name : String)
  | index (i : Nat)
  | mapKey (key : String)
  | ptr (levels : Nat)
  deriving DecidableEq, Repr

/-- Modelled from the spec: `ctxerr.Context`, whose declaration is not among
the sources.  It carries the current path (the steps from the root), the mode
flag (boolean or diagnostic), the maximum-error counter and the depth counter. -/
structure Context where
  Path : List PathStep
  Depth : Nat
  BooleanError : Bool
  MaxErrors : Int
  deriving DecidableEq, Repr

/-- The struct `location.Location`, whose declaration is not among the sources:
the fields types.go reads and writes. -/
structure Location where
  File : String := ""
  Func : String := ""
  Line : Nat := 0
  BehindCmp : Bool := false
  deriving DecidableEq, Repr

/-- What the fields `Got` and `Expected` of an error hold: nothing, a
`types.RawString`, the Value `got` that Match was given, or the operator itself
(known by what its method `String` returns). -/
inductive ErrorArg where
  | unset
  | RawString (s : String)
  | gotValue
  | operator (str : String)
  deriving DecidableEq, Repr

/-- Modelled from the spec: `ctxerr.Error`, the diagnostic, whose declaration is
not among the sources: the message (kind tag), the rendered actual and expected
values, an optional summary, the context (path snapshot) once collected, and
the location of the operator when it is set. -/
structure Error where
  Context : Option Context := none
  Message : String
  Got : ErrorArg := .unset
  Expected : ErrorArg := .unset
  Summary : Option String := none
  Location : Option Location := none
  deriving DecidableEq, Repr

/-- A `*ctxerr.Error` as Match returns it: `nil` (the match succeeded), the
sentinel `ctxerr.BooleanError` (mismatch, no detail), or a diagnostic. -/
inductive ErrorPtr where
  | nil
  | BooleanError
  | error (e : Error)
  deriving DecidableEq, Repr

/-- Modelled from the spec: `Context.CollectError` of internal/ctxerr, which is
not among the sources.  One failed comparison gives exactly one diagnostic,
carrying a snapshot of the path: the error comes back under the context that
collects it (unless it has one already); `nil` and the sentinel come back
unchanged. -/
def Context.CollectError (c : Context) : ErrorPtr → ErrorPtr
  | .nil => .nil
  | .BooleanError => .BooleanError
  | .error e =>
    match e.Context with
    | some _ => .error e
    | none => .error { e with Context := some c }

/-- Modelled from the spec: `Context.AddArrayIndex` of internal/ctxerr, which is
not among the sources: the context of a child, its path extended with the
index. -/
def Context.AddArrayIndex (c : Context) (idx : Nat) : Context :=
  { c with Path := c.Path ++ [.index idx] }

/-- Modelled from the spec: `Context.AddMapKey` of internal/ctxerr, which is not
among the sources: the context of a child, its path extended with the key (as
`util.ToString` renders it). -/
def Context.AddMapKey (c : Context) (key : String) : Context :=
  { c with Path := c.Path ++ [.mapKey key] }

/-- Modelled from the spec: `Context.AddPtr` of internal/ctxerr, which is not
among the sources: the context of the value pointed to, its path extended with
an indirection marker of the given number of levels. -/
def Context.AddPtr (c : Context) (levels : Nat) : Context :=
  { c with Path := c.Path ++ [.ptr levels] }

/-- Modelled from the spec: the method `SetLocationIfMissing` of the error,
which is not among the sources: a diagnostic that has no location yet takes the
location of the operator; `nil` and the sentinel come back unchanged. -/
def ErrorPtr.SetLocationIfMissing (err : ErrorPtr) (loc : Location) : ErrorPtr :=
  match err with
  | .nil => .nil
  | .BooleanError => .BooleanError
  | .error e =>
    match e.Location with
    | some _ => .error e
    | none => .error { e with Location := some loc }

/-- The struct `Base` of types.go (its `types.TestDeepStamp` is an empty
marker). -/
structure Base where
  location : Location := {}
  deriving DecidableEq, Repr

/-- The struct `tdExpectedType`, whose declaration is not among the sources: the
fields td_map.go sets, `expectedType` being `none` for the nil `reflect.Type`. -/
structure tdExpectedType extends Base where
  expectedType : Option GoType := none
  isPtr : Bool := false

/-- Modelled from the spec: the method `(*tdExpectedType).errorTypeMismatch`,
which is not among the sources: the "type mismatch" diagnostic, whose Got is
the rendering of the type of got it is given and whose Expected is the name of
the expected type (after a star when a pointer on it is expected). -/
def tdExpectedType.errorTypeMismatch (t : tdExpectedType) (gotType : ErrorArg) : Error :=
  { Message := "type mismatch"
    Got := gotType
    Expected := .RawString ((if t.isPtr then "*" else "")
      ++ (match t.expectedType with
          | some e => e.str
          | none => "nil")) }

/-- The type `tdSetResultKind`, whose declaration is not among the sources. -/
inductive tdSetResultKind where
  | itemsSetResult
  | keysSetResult
  deriving DecidableEq, Repr

/-- The struct `tdSetResult`, whose declaration is not among the sources: the
fields td_map.go sets (`Sort_` is its field `Sort`). -/
structure tdSetResult where
  Kind : tdSetResultKind
  Missing : List Value := []
  Extra : List Value := []
  Sort_ : Bool := false

/-- The collaborators the operators call and the sources do not hold: float
arithmetic (IEEE rounding), the rendering of values, the comparison engine
`deepValueEqual` and `getTime`. -/
structure Env where
  -- The float64 addition.
  fadd : GoFloat → GoFloat → GoFloat
  -- The float64 subtraction.
  fsub : GoFloat → GoFloat → GoFloat
  -- The conversion `float32(x)` of a float64.
  toFloat32 : GoFloat → GoFloat
  -- The function `util.ToString`.
  ToString : Value → String
  -- The call `fmt.Sprintf("%v", x)`.
  Sprintf_v : Value → String
  -- The engine `deepValueEqual(ctx, got, expected)`.
  deepValueEqual : Context → Value → Value → ErrorPtr
  -- The function `getTime(ctx, got, mustConvert)`: the instant and an error.
  getTime : Context → Value → Bool → Int × ErrorPtr
  -- The method `(*tdExpectedType).checkPtr(ctx, &got, nilAllowed)`: what got is
  -- after the call, and the error.
  checkPtr : tdExpectedType → Context → Value → Bool → Value × ErrorPtr
  -- The method `(*tdExpectedType).checkType(ctx, got)`.
  checkType : tdExpectedType → Context → Value → ErrorPtr
  -- The method `tdSetResult.Summary`.
  Summary : tdSetResult → String
  -- The function `tdutil.MapSortedKeys`: the keys of a map, sorted.
  MapSortedKeys : Value → List Value
  -- Whether a type implements an interface type (method sets are no part of
  -- the description of a type).
  Implements : GoType → GoType → Bool
  -- The function `deepValueEqualOK(got, expected)`: the engine in boolean mode.
  deepValueEqualOK : Value → Value → Bool

/-- Storing `x` with `reflect.Value.SetFloat` in a fresh Value of the float
type `t`: a float32 rounds `x`. -/
def Value.SetFloat (env : Env) (t : GoType) (x : GoFloat) : Value :=
  .float t (if t.kind = .float32 then env.toFloat32 x else x)

/-! ## td_between.go -/

/-- The type `boundCmp`. -/
inductive boundCmp where
  | boundNone
  | boundIn
  | boundOut
  deriving DecidableEq, Repr

/-- The struct `tdBetween`.  The embedded `Base` holds the place in the test
code where the operator was built; no method embedded here reads it, and it is
left out. -/
structure tdBetween where
  expectedMin : Value := .invalid
  expectedMax : Value := .invalid
  minBound : boundCmp := .boundNone
  maxBound : boundCmp := .boundNone

/-- The type `BoundsKind`. -/
inductive BoundsKind where
  | BoundsInIn
  | BoundsInOut
  | BoundsOutIn
  | BoundsOutOut
  deriving DecidableEq, Repr

/-- The struct `tdBetweenTime`; `expectedType` is `none` for the nil
`reflect.Type`. -/
structure tdBetweenTime extends tdBetween where
  expectedType : Option GoType := none
  mustConvert : Bool := false

/-- What the constructors of td_between.go return under the interface
`TestDeep`: a `*tdBetween` or a `*tdBetweenTime`. -/
inductive TestDeep where
  | tdBetween (b : tdBetween)
  | tdBetweenTime (bt : tdBetweenTime)

/-- The constant `usage` of function Between. -/
def Between.usage : String :=
  "usage: Between(NUM|STRING|TIME, NUM|STRING|TIME[, BOUNDS_KIND])"

/-- The method `(*tdBetween).initBetween`. -/
def tdBetween.initBetween (b : tdBetween) (usage : String) :
    Except Panic TestDeep :=
  let b : tdBetween :=
    if !b.expectedMax.IsValid then { b with expectedMax := b.expectedMin } else b
  let swapped : tdBetween :=
    { b with expectedMin := b.expectedMax, expectedMax := b.expectedMin }
  let k := b.expectedMin.kind
  if k.isInt then do
    let mn ← b.expectedMin.asInt
    let mx ← b.expectedMax.asInt
    if mn > mx then pure (.tdBetween swapped) else pure (.tdBetween b)
  else if k.isUint then do
    let mn ← b.expectedMin.asUint
    let mx ← b.expectedMax.asUint
    if mn > mx then pure (.tdBetween swapped) else pure (.tdBetween b)
  else if k.isFloat then do
    let mn ← b.expectedMin.asFloat
    let mx ← b.expectedMax.asFloat
    if GoFloat.gt mn mx then pure (.tdBetween swapped) else pure (.tdBetween b)
  else if k = .string then
    if b.expectedMin.asString > b.expectedMax.asString then pure (.tdBetween swapped)
    else pure (.tdBetween b)
  else if k = .struct then do
    let tmin ← b.expectedMin.typeOf
    let bt : tdBetweenTime :=
      if tmin = timeType then
        { totdBetween := b, expectedType := some timeType }
      else if tmin.ConvertibleTo timeType then
        { totdBetween :=
            { b with expectedMin := b.expectedMin.Convert timeType,
                     expectedMax := b.expectedMax.Convert timeType },
          expectedType := some tmin, mustConvert := true }
      else { }
    let mn ← bt.expectedMin.asTime
    let mx ← bt.expectedMax.asTime
    if mn > mx then
      pure (.tdBetweenTime
        { bt with expectedMin := bt.expectedMax, expectedMax := bt.expectedMin })
    else pure (.tdBetweenTime bt)
  else throw (.msg usage)

/-- The function `Between(from, to, bounds...)`.  An `interface{}` argument is
given as the Value `reflect.ValueOf` makes of it (the zero Value for nil). -/
def Between (from_ to_ : Value) (bounds : List BoundsKind) :
    Except Panic TestDeep := do
  let b : tdBetween := { expectedMin := from_, expectedMax := to_ }
  let b : tdBetween ←
    match bounds with
    | [] => pure { b with minBound := .boundIn, maxBound := .boundIn }
    | [k] =>
      pure { b with
        minBound :=
          if k = .BoundsInIn ∨ k = .BoundsInOut then .boundIn else .boundOut,
        maxBound :=
          if k = .BoundsInIn ∨ k = .BoundsOutIn then .boundIn else .boundOut }
    | _ :: _ :: _ => throw (.msg Between.usage)
  let tmax ← b.expectedMax.typeOf
  let tmin ← b.expectedMin.typeOf
  if tmax ≠ tmin then
    throw (.msg "from and to params must have the same type")
  b.initBetween Between.usage

/-- The method `(*tdBetween).nInt`. -/
def tdBetween.nInt (b : tdBetween) (tolerance : Value) : Except Panic tdBetween := do
  let diff ← tolerance.asInt
  if diff ≠ 0 then
    let base ← b.expectedMin.asInt
    let max := wrapInt 64 (base + diff)
    let max := if max < base then MaxInt64 else max
    let min := wrapInt 64 (base - diff)
    let min := if min > base then MinInt64 else min
    let t ← tolerance.typeOf
    pure { b with expectedMin := Value.SetInt t min, expectedMax := Value.SetInt t max }
  else pure b

/-- The method `(*tdBetween).nUint`. -/
def tdBetween.nUint (b : tdBetween) (tolerance : Value) : Except Panic tdBetween := do
  let diff ← tolerance.asUint
  if diff ≠ 0 then
    let base ← b.expectedMin.asUint
    let max := wrapUint 64 ((base : Int) + diff)
    let max := if max < base then MaxUint64 else max
    let min := wrapUint 64 ((base : Int) - diff)
    let min := if min > base then 0 else min
    let t ← tolerance.typeOf
    pure { b with expectedMin := Value.SetUint t min, expectedMax := Value.SetUint t max }
  else pure b

/-- The method `(*tdBetween).nFloat`. -/
def tdBetween.nFloat (env : Env) (b : tdBetween) (tolerance : Value) :
    Except Panic tdBetween := do
  let diff ← tolerance.asFloat
  if diff ≠ .finite 0 then
    let base ← b.expectedMin.asFloat
    let t ← tolerance.typeOf
    pure { b with
      expectedMin := Value.SetFloat env t (env.fsub base diff),
      expectedMax := Value.SetFloat env t (env.fadd base diff) }
  else pure b

/-- The constant `usage` of function N. -/
def N.usage : String :=
  "usage: N(\x7b,U\x7dINT\x7b,8,16,32,64\x7d|FLOAT\x7b32,64\x7d[, TOLERANCE])"

/-- The function `N(num, tolerance...)`. -/
def N (env : Env) (num : Value) (tolerance : List Value) : Except Panic TestDeep := do
  let n : tdBetween :=
    { expectedMin := num, minBound := .boundIn, maxBound := .boundIn }
  let k := n.expectedMin.kind
  if !(k.isInt || k.isUint || k.isFloat) then throw (.msg N.usage)
  let n : tdBetween := { n with expectedMax := n.expectedMin }
  match tolerance with
  | [] => pure (.tdBetween n)
  | [tol] =>
    let ttol ← tol.typeOf
    let tnum ← n.expectedMin.typeOf
    if ttol ≠ tnum then
      throw (.msg "tolerance param must have the same type as num one")
    let n ←
      if tol.kind.isInt then n.nInt tol
      else if tol.kind.isUint then n.nUint tol
      else n.nFloat env tol
    pure (.tdBetween n)
  | _ :: _ :: _ => throw (.msg N.usage)

/-- The function `Gt(val)`. -/
def Gt (val : Value) : Except Panic TestDeep :=
  tdBetween.initBetween { expectedMin := val, minBound := .boundOut }
    "usage: Gt(NUM|STRING|TIME)"

/-- The function `Gte(val)`. -/
def Gte (val : Value) : Except Panic TestDeep :=
  tdBetween.initBetween { expectedMin := val, minBound := .boundIn }
    "usage: Gte(NUM|STRING|TIME)"

/-- The function `Lt(val)`. -/
def Lt (val : Value) : Except Panic TestDeep :=
  tdBetween.initBetween { expectedMin := val, maxBound := .boundOut }
    "usage: Lt(NUM|STRING|TIME)"

/-- The function `Lte(val)`. -/
def Lte (val : Value) : Except Panic TestDeep :=
  tdBetween.initBetween { expectedMin := val, maxBound := .boundIn }
    "usage: Lte(NUM|STRING|TIME)"

/-- The method `(*tdBetween).matchInt`. -/
def tdBetween.matchInt (b : tdBetween) (got : Value) : Except Panic Bool := do
  let ok ←
    match b.minBound with
    | .boundIn => do
      let g ← got.asInt
      let m ← b.expectedMin.asInt
      pure (decide (g ≥ m))
    | .boundOut => do
      let g ← got.asInt
      let m ← b.expectedMin.asInt
      pure (decide (g > m))
    | .boundNone => pure true
  if ok then
    match b.maxBound with
    | .boundIn => do
      let g ← got.asInt
      let m ← b.expectedMax.asInt
      pure (decide (g ≤ m))
    | .boundOut => do
      let g ← got.asInt
      let m ← b.expectedMax.asInt
      pure (decide (g < m))
    | .boundNone => pure true
  else pure ok

/-- The method `(*tdBetween).matchUint`. -/
def tdBetween.matchUint (b : tdBetween) (got : Value) : Except Panic Bool := do
  let ok ←
    match b.minBound with
    | .boundIn => do
      let g ← got.asUint
      let m ← b.expectedMin.asUint
      pure (decide (g ≥ m))
    | .boundOut => do
      let g ← got.asUint
      let m ← b.expectedMin.asUint
      pure (decide (g > m))
    | .boundNone => pure true
  if ok then
    match b.maxBound with
    | .boundIn => do
      let g ← got.asUint
      let m ← b.expectedMax.asUint
      pure (decide (g ≤ m))
    | .boundOut => do
      let g ← got.asUint
      let m ← b.expectedMax.asUint
      pure (decide (g < m))
    | .boundNone => pure true
  else pure ok

/-- The method `(*tdBetween).matchFloat`. -/
def tdBetween.matchFloat (b : tdBetween) (got : Value) : Except Panic Bool := do
  let ok ←
    match b.minBound with
    | .boundIn => do
      let g ← got.asFloat
      let m ← b.expectedMin.asFloat
      pure (GoFloat.ge g m)
    | .boundOut => do
      let g ← got.asFloat
      let m ← b.expectedMin.asFloat
      pure (GoFloat.gt g m)
    | .boundNone => pure true
  if ok then
    match b.maxBound with
    | .boundIn => do
      let g ← got.asFloat
      let m ← b.expectedMax.asFloat
      pure (GoFloat.le g m)
    | .boundOut => do
      let g ← got.asFloat
      let m ← b.expectedMax.asFloat
      pure (GoFloat.lt g m)
    | .boundNone => pure true
  else pure ok

/-- The method `(*tdBetween).matchString`. -/
def tdBetween.matchString (b : tdBetween) (got : Value) : Bool :=
  let ok :=
    match b.minBound with
    | .boundIn => decide (got.asString ≥ b.expectedMin.asString)
    | .boundOut => decide (got.asString > b.expectedMin.asString)
    | .boundNone => true
  if ok then
    match b.maxBound with
    | .boundIn => decide (got.asString ≤ b.expectedMax.asString)
    | .boundOut => decide (got.asString < b.expectedMax.asString)
    | .boundNone => true
  else ok

/-- The method `reflect.Value.Interface`, which panics on the zero Value. -/
def Value.Interface : Value → Except Panic Value
  | .invalid => .error (.valueError "reflect.Value.Interface" .invalid)
  | v => .ok v

/-- The operator `==` on two `interface{}` values, `none` being nil. -/
def ifaceEq : Option Value → Option Value → Bool
  | none, none => true
  | some a, some b => Value.eqIface a b
  | _, _ => false

/-- The function `util.TernRune`. -/
def TernRune (cond : Bool) (a b : String) : String :=
  if cond then a else b

/-- The method `(*tdBetween).String`. -/
def tdBetween.String (env : Env) (b : tdBetween) : Except Panic String := do
  let (min, minStr) ←
    if b.minBound ≠ .boundNone then do
      let min ← b.expectedMin.Interface
      if b.expectedMin.kind = .string then pure (some min, env.ToString min)
      else pure (some min, env.Sprintf_v min)
    else pure ((none : Option Value), "")
  let (max, maxStr) ←
    if b.maxBound ≠ .boundNone then do
      let max ← b.expectedMax.Interface
      if b.expectedMax.kind = .string then pure (some max, env.ToString max)
      else pure (some max, env.Sprintf_v max)
    else pure ((none : Option Value), "")
  if ifaceEq min max then pure minStr
  else if min.isSome then
    if max.isSome then
      pure (minStr ++ " " ++ TernRune (b.minBound = .boundIn) "≤" "<" ++ " got "
        ++ TernRune (b.maxBound = .boundIn) "≤" "<" ++ " " ++ maxStr)
    else pure (TernRune (b.minBound = .boundIn) "≥" ">" ++ " " ++ minStr)
  else pure (TernRune (b.maxBound = .boundIn) "≤" "<" ++ " " ++ maxStr)

/-- The method `(*tdBetween).Match`. -/
def tdBetween.Match (env : Env) (b : tdBetween) (ctx : Context) (got : Value) :
    Except Panic ErrorPtr := do
  let tgot ← got.typeOf
  let tmin ← b.expectedMin.typeOf
  if tgot ≠ tmin then
    if ctx.BooleanError then pure .BooleanError
    else
      pure (ctx.CollectError (.error
        { Message := "type mismatch",
          Got := .RawString tgot.str,
          Expected := .RawString tmin.str }))
  else
    let k := got.kind
    let ok ←
      if k.isInt then b.matchInt got
      else if k.isUint then b.matchUint got
      else if k.isFloat then b.matchFloat got
      else if k = .string then pure (b.matchString got)
      else pure false
    if ok then pure .nil
    else if ctx.BooleanError then pure .BooleanError
    else
      let gotStr :=
        if got.kind = .string then env.ToString got else env.Sprintf_v got
      let expected ← b.String env
      pure (ctx.CollectError (.error
        { Message := "values differ",
          Got := .RawString gotStr,
          Expected := .RawString expected }))

/-- The method `(*tdBetween).TypeBehind`. -/
def tdBetween.TypeBehind (b : tdBetween) : Except Panic GoType :=
  b.expectedMin.typeOf

/-- The method `(*tdBetweenTime).Match`. -/
def tdBetweenTime.Match (env : Env) (b : tdBetweenTime) (ctx : Context)
    (got : Value) : Except Panic ErrorPtr := do
  let tgot ← got.typeOf
  if some tgot ≠ b.expectedType then
    if ctx.BooleanError then pure .BooleanError
    else
      match b.expectedType with
      | none =>
        throw (.msg "runtime error: invalid memory address or nil pointer dereference")
      | some texp =>
        pure (ctx.CollectError (.error
          { Message := "type mismatch",
            Got := .RawString tgot.str,
            Expected := .RawString texp.str }))
  else
    let (cmpGot, err) := env.getTime ctx got b.mustConvert
    if err ≠ .nil then pure (ctx.CollectError err)
    else
      let ok ←
        if b.minBound ≠ .boundNone then do
          let min ← b.expectedMin.asTime
          if b.minBound = .boundIn then pure (decide (¬ min > cmpGot))
          else pure (decide (cmpGot > min))
        else pure true
      let ok ←
        if ok ∧ b.maxBound ≠ .boundNone then do
          let max ← b.expectedMax.asTime
          if b.maxBound = .boundIn then pure (decide (¬ max < cmpGot))
          else pure (decide (cmpGot < max))
        else pure ok
      if ok then pure .nil
      else if ctx.BooleanError then pure .BooleanError
      else
        let g ← got.Interface
        let expected ← b.totdBetween.String env
        pure (ctx.CollectError (.error
          { Message := "values differ",
            Got := .RawString (env.Sprintf_v g),
            Expected := .RawString expected }))

/-- The method `(*tdBetweenTime).TypeBehind`. -/
def tdBetweenTime.TypeBehind (b : tdBetweenTime) : Option GoType :=
  b.expectedType

/-- The method `Match` of the interface `TestDeep`, dispatched on the operator. -/
def TestDeep.Match (env : Env) (op : TestDeep) (ctx : Context) (got : Value) :
    Except Panic ErrorPtr :=
  match op with
  | .tdBetween b => b.Match env ctx got
  | .tdBetweenTime bt => bt.Match env ctx got

/-! ## td_array_each.go -/

/-- The struct `tdArrayEach` (the embedded `BaseOKNil` left out, as `Base` is
in `tdBetween`). -/
structure tdArrayEach where
  expected : Value

/-- The function `ArrayEach(expectedValue)`. -/
def ArrayEach (expectedValue : Value) : tdArrayEach :=
  { expected := expectedValue }

/-- The loop `for idx := 0; idx < gotLen; idx++` of `(*tdArrayEach).Match`,
with `n` iterations left to run from index `idx` (`n = gotLen - idx`). -/
def tdArrayEach.loop (env : Env) (a : tdArrayEach) (ctx : Context) (got : Value) :
    Nat → Nat → Except Panic ErrorPtr
  | 0, _ => pure .nil
  | n + 1, idx => do
    let item ← got.Index idx
    let err := env.deepValueEqual (ctx.AddArrayIndex idx) item a.expected
    if err ≠ .nil then pure err
    else tdArrayEach.loop env a ctx got n (idx + 1)

/-- The `case reflect.Array, reflect.Slice` of `(*tdArrayEach).Match`. -/
def tdArrayEach.matchItems (env : Env) (a : tdArrayEach) (ctx : Context)
    (got : Value) : Except Panic ErrorPtr := do
  let gotLen ← got.Len
  a.loop env ctx got gotLen 0

/-- The end of `(*tdArrayEach).Match`, reached when got is of no usable kind. -/
def tdArrayEach.badType (ctx : Context) (got : Value) : Except Panic ErrorPtr := do
  if ctx.BooleanError then pure .BooleanError
  else
    let tgot ← got.typeOf
    pure (ctx.CollectError (.error
      { Message := "bad type",
        Got := .RawString tgot.str,
        Expected := .RawString "Slice OR Array OR *Slice OR *Array" }))

/-- The method `(*tdArrayEach).Match`. -/
def tdArrayEach.Match (env : Env) (a : tdArrayEach) (ctx : Context) (got : Value) :
    Except Panic ErrorPtr := do
  if !got.IsValid then
    if ctx.BooleanError then pure .BooleanError
    else
      pure (ctx.CollectError (.error
        { Message := "nil value",
          Got := .RawString "nil",
          Expected := .RawString "Slice OR Array OR *Slice OR *Array" }))
  else
    match got.kind with
    | .ptr => do
      let gotElem ← got.Elem
      if !gotElem.IsValid then
        if ctx.BooleanError then pure .BooleanError
        else
          let tgot ← got.typeOf
          pure (ctx.CollectError (.error
            { Message := "nil pointer",
              Got := .RawString ("nil " ++ tgot.str),
              Expected := .RawString "Slice OR Array OR *Slice OR *Array" }))
      else if gotElem.kind ≠ .array ∧ gotElem.kind ≠ .slice then
        tdArrayEach.badType ctx got
      else a.matchItems env ctx gotElem
    | .array | .slice => a.matchItems env ctx got
    | _ => tdArrayEach.badType ctx got

/-! ## td_map.go -/

/-- The method `reflect.Type.Elem`; it panics unless the type is an array, a
chan, a map, a pointer or a slice. -/
def GoType.Elem (t : GoType) : Except Panic GoType :=
  match t.underlying with
  | .ptr e | .slice e | .array _ e | .chan e | .map _ e => .ok e
  | _ => .error (.msg ("reflect: Elem of invalid type " ++ t.str))

/-- The method `reflect.Type.Key`; it panics unless the type is a map. -/
def GoType.Key (t : GoType) : Except Panic GoType :=
  match t.underlying with
  | .map k _ => .ok k
  | _ => .error (.msg ("reflect: Key of non-map type " ++ t.str))

/-- Whether a type has a name, in the sense of package reflect: defined types
and predeclared types have one, type literals have none. -/
def GoType.hasName : GoType → Bool
  | .named .. | .basic _ => true
  | _ => false

/-- The method `reflect.Type.AssignableTo`: identical types, or identical
underlying types one of which has no name, or an interface type the type
implements. -/
def GoType.AssignableTo (env : Env) (t u : GoType) : Bool :=
  decide (t = u)
    || (!(t.hasName && u.hasName) && decide (t.kind = u.kind)
        && decide (t.underlying = u.underlying))
    || (decide (u.kind = .interface) && env.Implements t u)

/-- The interface type `TestDeep`: `testDeeper` of types.go. -/
def testDeeper : GoType :=
  .named "github.com/maxatome/go-testdeep" "testdeep.TestDeep"
    (.iface ["GetLocation", "HandleInvalid", "Match", "String", "TypeBehind",
      "_TestDeep", "setLocation"])

/-- The method `reflect.Value.IsNil`; it panics unless the Value is a chan,
a func, an interface, a map, a pointer or a slice. -/
def Value.IsNil : Value → Except Panic Bool
  | .ptr _ e => .ok e.isNone
  | .slice _ e => .ok e.isNone
  | .map _ e => .ok e.isNone
  | .iface _ e => .ok e.isNone
  | .func _ b => .ok b
  | .chan _ b => .ok b
  | v => .error (.valueError "reflect.Value.IsNil" v.kind)

/-- The key/value pairs of a map Value (none for a nil map or another
Value). -/
def Value.mapEntries : Value → List (Value × Value)
  | .map _ (some es) => es
  | _ => []

/-- The method `reflect.Value.MapIndex`: the value the map holds at the key, the
key being found with `==`; the zero Value when the map has no such key.  It
panics unless the Value is a map.  The key is looked up as it is: it is taken
to be of the key type of the map, or the key type to be an interface type
(`Value.takesKey`), so that assigning it to the key type changes nothing. -/
def Value.MapIndex (v key : Value) : Except Panic Value :=
  match v with
  | .map _ _ =>
    match v.mapEntries.find? (fun p => Value.eqIface p.1 key) with
    | some p => .ok p.2
    | none => .ok .invalid
  | _ => .error (.valueError "reflect.Value.MapIndex" v.kind)

/-- The map `v` takes the key `k` as it is: the type of `k` is the key type of
the map, or the key type of the map is an interface type.  (A key of another
type that is assignable to the key type, one of the two types having no name,
is converted by `MapIndex` before it is looked up.) -/
def Value.takesKey (v k : Value) : Prop :=
  ∃ t kt, v.typ = some t ∧ t.Key = .ok kt ∧ (kt.kind = .interface ∨ k.typ = some kt)

mutual
/-- The zero value of the type `t`, built along the shape of its underlying
type. -/
def Value.zeroOf (t : GoType) : GoType → Value
  | .basic k =>
    match k with
    | .bool => .bool t false
    | .int | .int8 | .int16 | .int32 | .int64 => .int t 0
    | .uint | .uint8 | .uint16 | .uint32 | .uint64 | .uintptr => .uint t 0
    | .float32 | .float64 => .float t (.finite 0)
    | .complex64 | .complex128 => .complex t (.finite 0) (.finite 0)
    | .string => .string t []
    | .rawPointer => .ptr t none
    | _ => .invalid
  | .named _ _ u => Value.zeroOf t u
  | .ptr _ => .ptr t none
  | .slice _ => .slice t none
  | .array n e => .array t (List.replicate n (Value.zeroOf e e))
  | .map _ _ => .map t none
  | .chan _ => .chan t true
  | .func _ => .func t true
  | .iface _ => .iface t none
  | .struct fs =>
    if GoType.struct fs = timeType.underlying then .time t 0 0
    else .struct t (Value.zeroFields fs)
/-- The zero values of the fields of a struct type. -/
def Value.zeroFields : Fields → List Value
  | .nil => []
  | .cons _ ft rest => Value.zeroOf ft ft :: Value.zeroFields rest
end

/-- The function `reflect.Zero`: the zero value of a type. -/
def Value.Zero (t : GoType) : Value :=
  Value.zeroOf t t

/-- The type `mapKind`. -/
inductive mapKind where
  | allMap
  | subMap
  | superMap
  deriving DecidableEq, Repr

/-- The struct `mapEntryInfo`. -/
structure mapEntryInfo where
  key : Value
  expected : Value

/-- The struct `tdMap`. -/
structure tdMap extends tdExpectedType where
  expectedEntries : List mapEntryInfo := []
  kind : mapKind := .allMap

/-- Whether a map Value holds the key (found with `==`). -/
def Value.hasKey (v key : Value) : Bool :=
  v.mapEntries.any (fun p => Value.eqIface p.1 key)

/-- The value a map Value holds at the key, the zero Value when it holds no
such key: what `MapIndex` returns on a map. -/
def Value.mapGet (v key : Value) : Value :=
  match v.mapEntries.find? (fun p => Value.eqIface p.1 key) with
  | some p => p.2
  | none => .invalid

/-- Whether a `map[interface{}]bool` set, given by the list of its keys, holds
the key `k` (found with `==`). -/
def keySetMem (s : List Value) (k : Value) : Bool :=
  s.any (fun x => Value.eqIface x k)

/-- The assignment `set[k] = true` on a `map[interface{}]bool` set given by
the list of its keys. -/
def keySetInsert (s : List Value) (k : Value) : List Value :=
  if keySetMem s k then s else s ++ [k]

/-- The loop `for key, expectedValue := range entries` of
`populateExpectedEntries`: `MapEntries` is given by its key/value pairs in the
order the range visits them, a nil value being the zero Value. -/
def tdMap.populateFromEntries (env : Env) (keyType valueType : GoType) :
    List (Value × Value) → Except Panic (List mapEntryInfo)
  | [] => pure []
  | (key, expectedValue) :: rest => do
    let tkey ← key.typeOf
    if !tkey.AssignableTo env keyType then
      throw (.msg ("expected key " ++ env.ToString key ++ " type mismatch: "
        ++ tkey.str ++ " != model key type (" ++ keyType.str ++ ")"))
    else
      let expected ←
        if !expectedValue.IsValid then
          match valueType.kind with
          | .chan | .func | .interface | .map | .ptr | .slice =>
            pure (Value.Zero valueType)
          | _ =>
            throw (.msg ("expected key " ++ env.ToString key
              ++ " value cannot be nil as entries value type is " ++ valueType.str))
        else do
          let texp ← expectedValue.typeOf
          if !env.Implements texp testDeeper && !texp.AssignableTo env valueType then
            throw (.msg ("expected key " ++ env.ToString key
              ++ " value type mismatch: " ++ texp.str ++ " != model key type ("
              ++ valueType.str ++ ")"))
          else pure expectedValue
      let tail ← tdMap.populateFromEntries env keyType valueType rest
      pure ({ key := key, expected := expected } :: tail)

/-- The call `tdutil.MapEach(expectedModel, ...)` of `populateExpectedEntries`:
`MapEach` (not among the sources) calls the function on every key/value pair
of the model, here in the order of the list; `checkedEntries` is the set of the
keys of `entries`. -/
def tdMap.populateFromModel (env : Env) (checkedEntries : List Value) :
    List (Value × Value) → Except Panic (List mapEntryInfo)
  | [] => pure []
  | (k, v) :: rest =>
    if keySetMem checkedEntries k then
      throw (.msg (env.ToString k ++ " entry exists in both model & expectedEntries"))
    else do
      let tail ← tdMap.populateFromModel env checkedEntries rest
      pure ({ key := k, expected := v } :: tail)

/-- The method `(*tdMap).populateExpectedEntries`. -/
def tdMap.populateExpectedEntries (env : Env) (m : tdMap)
    (entries : List (Value × Value)) (expectedModel : Value) : Except Panic tdMap := do
  let keysInModel ← if expectedModel.IsValid then expectedModel.Len else pure 0
  let et ←
    match m.expectedType with
    | some t => pure t
    | none =>
      throw (.msg "runtime error: invalid memory address or nil pointer dereference")
  let keyType ← et.Key
  let valueType ← et.Elem
  let fromEntries ← tdMap.populateFromEntries env keyType valueType entries
  if keysInModel = 0 then pure { m with expectedEntries := fromEntries }
  else do
    let fromModel ←
      tdMap.populateFromModel env (entries.map Prod.fst) expectedModel.mapEntries
    pure { m with expectedEntries := fromEntries ++ fromModel }

/-- The function `newMap`; `base` is the Base `NewBase(4)` makes at the place
of the call. -/
def newMap (env : Env) (base : Base) (model : Value) (entries : List (Value × Value))
    (kind : mapKind) : Except Panic tdMap := do
  let vmodel := model
  let m : tdMap := { toBase := base, kind := kind }
  let usage : Panic :=
    .msg ("usage: " ++ m.location.Func ++ "(MAP|&MAP, EXPECTED_ENTRIES)")
  match vmodel.kind with
  | .ptr =>
    let t ← vmodel.typeOf
    let te ← t.Elem
    if te.kind ≠ .map then throw usage
    else
      let m : tdMap := { m with isPtr := true }
      if (← vmodel.IsNil) then
        tdMap.populateExpectedEntries env { m with expectedType := some te } entries .invalid
      else
        let vmodel ← vmodel.Elem
        let t ← vmodel.typeOf
        tdMap.populateExpectedEntries env { m with expectedType := some t } entries vmodel
  | .map =>
    let t ← vmodel.typeOf
    tdMap.populateExpectedEntries env { m with expectedType := some t } entries vmodel
  | _ => throw usage

/-- The function `Map(model, expectedEntries)`. -/
def Map (env : Env) (base : Base) (model : Value) (expectedEntries : List (Value × Value)) :
    Except Panic tdMap :=
  newMap env base model expectedEntries .allMap

/-- The function `SubMapOf(model, expectedEntries)`. -/
def SubMapOf (env : Env) (base : Base) (model : Value)
    (expectedEntries : List (Value × Value)) : Except Panic tdMap :=
  newMap env base model expectedEntries .subMap

/-- The function `SuperMapOf(model, expectedEntries)`. -/
def SuperMapOf (env : Env) (base : Base) (model : Value)
    (expectedEntries : List (Value × Value)) : Except Panic tdMap :=
  newMap env base model expectedEntries .superMap

/-- The loop `for _, entryInfo := range m.expectedEntries` of `(*tdMap).Match`,
from the keys not found and the keys found so far: the error that ends the
loop (nil when it runs to its end), `notFoundKeys` and `foundKeys`. -/
def tdMap.matchEntries (env : Env) (ctx : Context) (got : Value) :
    List mapEntryInfo → List Value → List Value →
      Except Panic (ErrorPtr × List Value × List Value)
  | [], notFoundKeys, foundKeys => pure (.nil, notFoundKeys, foundKeys)
  | entryInfo :: rest, notFoundKeys, foundKeys => do
    let gotValue ← got.MapIndex entryInfo.key
    if !gotValue.IsValid then
      tdMap.matchEntries env ctx got rest (notFoundKeys ++ [entryInfo.key]) foundKeys
    else
      let gotValue ← got.MapIndex entryInfo.key
      let err := env.deepValueEqual (ctx.AddMapKey (env.ToString entryInfo.key))
        gotValue entryInfo.expected
      if err ≠ .nil then pure (err, notFoundKeys, foundKeys)
      else
        tdMap.matchEntries env ctx got rest notFoundKeys
          (keySetInsert foundKeys entryInfo.key)

/-- The constant `errorMessage` of `(*tdMap).Match`. -/
def tdMap.errorMessage : String := "comparing hash keys of %%"

/-- The method `(*tdMap).Match`. -/
def tdMap.Match (env : Env) (m : tdMap) (ctx : Context) (got : Value) :
    Except Panic ErrorPtr := do
  let (got, err) := env.checkPtr m.totdExpectedType ctx got true
  if err ≠ .nil then pure (ctx.CollectError err)
  else
    let err := env.checkType m.totdExpectedType ctx got
    if err ≠ .nil then pure (ctx.CollectError err)
    else
      let (err, notFoundKeys, foundKeys) ←
        tdMap.matchEntries env ctx got m.expectedEntries [] []
      if err ≠ .nil then pure err
      else if m.kind = .superMap then
        if notFoundKeys.length = 0 then pure .nil
        else if ctx.BooleanError then pure .BooleanError
        else
          pure (ctx.CollectError (.error
            { Message := tdMap.errorMessage,
              Summary := some (env.Summary
                { Kind := .keysSetResult, Missing := notFoundKeys, Sort_ := true }) }))
      else
        let gotLen ← got.Len
        if gotLen = foundKeys.length then
          if m.kind = .subMap then pure .nil
          else if notFoundKeys.length = 0 then pure .nil
          else if ctx.BooleanError then pure .BooleanError
          else
            pure (ctx.CollectError (.error
              { Message := tdMap.errorMessage,
                Summary := some (env.Summary
                  { Kind := .keysSetResult, Missing := notFoundKeys, Sort_ := true }) }))
        else if ctx.BooleanError then pure .BooleanError
        else
          let res : tdSetResult :=
            { Kind := .keysSetResult, Missing := notFoundKeys,
              Extra := (env.MapSortedKeys got).filter (fun k => !keySetMem foundKeys k),
              Sort_ := true }
          pure (ctx.CollectError (.error
            { Message := tdMap.errorMessage, Summary := some (env.Summary res) }))

/-- The keys of the key/value pairs are pairwise different for `==`, as the
keys of a Go map are. -/
def distinctKeys (es : List (Value × Value)) : Prop :=
  es.Pairwise (fun p q => Value.eqIface p.1 q.1 = false)

instance (es : List (Value × Value)) : Decidable (distinctKeys es) :=
  inferInstanceAs (Decidable
    (es.Pairwise (fun (p q : Value × Value) => Value.eqIface p.1 q.1 = false)))

/-- Every key of the key/value pairs is compared by value: `==` on the keys
is then what `Value.eqIface` computes. -/
def keysByValue (es : List (Value × Value)) : Prop :=
  ∀ p ∈ es, p.1.comparedByValue = true

instance (es : List (Value × Value)) : Decidable (keysByValue es) :=
  inferInstanceAs (Decidable (∀ p ∈ es, p.1.comparedByValue = true))

/-- The arguments of `Map`, `SubMapOf` and `SuperMapOf` are well-formed Go
values: the keys of `expectedEntries` (a Go map) are pairwise different, and so
are those of the model or of the map it points to; and all these keys are
compared by value. -/
def distinctArgs (model : Value) (entries : List (Value × Value)) : Prop :=
  (distinctKeys entries ∧ distinctKeys model.mapEntries
    ∧ ∀ v, model.Elem = .ok v → distinctKeys v.mapEntries)
  ∧ keysByValue entries ∧ keysByValue model.mapEntries
    ∧ ∀ v, model.Elem = .ok v → keysByValue v.mapEntries

/-- For the operator `m`, the actual value `got` is a map of the expected type:
`checkPtr` and `checkType` (neither is among the sources) find nothing to say,
`checkPtr` leaving the map `g` to compare, a well-formed map Value (its keys
pairwise different, its stored values valid); the keys of `g` are compared by
value, and `g` takes every expected key of `m` as it is. -/
def tdMap.gotIsMap (env : Env) (m : tdMap) (ctx : Context) (got g : Value) : Prop :=
  env.checkPtr m.totdExpectedType ctx got true = (g, .nil)
    ∧ env.checkType m.totdExpectedType ctx g = .nil
    ∧ (∃ t es, g = Value.map t es)
    ∧ distinctKeys g.mapEntries
    ∧ (∀ p ∈ g.mapEntries, p.2.IsValid = true)
    ∧ keysByValue g.mapEntries
    ∧ ∀ e ∈ m.expectedEntries, g.takesKey e.key

/-- The engine on the expected entry `e`, as `(*tdMap).Match` calls it on a map
got that holds the key of `e`. -/
def tdMap.compareEntry (env : Env) (ctx : Context) (got : Value) (e : mapEntryInfo) :
    ErrorPtr :=
  env.deepValueEqual (ctx.AddMapKey (env.ToString e.key)) (got.mapGet e.key) e.expected

/-- The expected keys the map got does not hold, in the order of the expected
entries. -/
def tdMap.missingKeys (m : tdMap) (got : Value) : List Value :=
  (m.expectedEntries.filter (fun e => !got.hasKey e.key)).map (fun e => e.key)

/-- Whether the key `k` is the key of an expected entry. -/
def tdMap.isExpected (m : tdMap) (k : Value) : Bool :=
  m.expectedEntries.any (fun e => Value.eqIface e.key k)

/-- The keys of the map got that are the key of no expected entry, in sorted
key order. -/
def tdMap.extraKeys (env : Env) (m : tdMap) (got : Value) : List Value :=
  (env.MapSortedKeys got).filter (fun k => !m.isExpected k)

/-- The error `(*tdMap).Match` returns when the keys differ: the sentinel in
boolean mode, else the diagnostic whose summary is made of the missing and of
the extra keys, to be sorted. -/
def tdMap.keysError (env : Env) (ctx : Context) (missing extra : List Value) :
    ErrorPtr :=
  if ctx.BooleanError then .BooleanError
  else
    .error
      { Context := some ctx, Message := tdMap.errorMessage,
        Summary := some (env.Summary
          { Kind := .keysSetResult, Missing := missing, Extra := extra, Sort_ := true }) }

/-! ## types.go -/

/-- The method `Base.HandleInvalid`: the operator does not handle nil values
directly. -/
def Base.HandleInvalid (_ : Base) : Bool :=
  false

/-- The struct `BaseOKNil`. -/
structure BaseOKNil extends Base

/-- The method `BaseOKNil.HandleInvalid`: the operator handles nil values
directly. -/
def BaseOKNil.HandleInvalid (_ : BaseOKNil) : Bool :=
  true

/-- Whether a kind is one of those `reflect.Value.IsNil` takes: chan, func,
interface, map, pointer, slice. -/
def Kind.isNilable : Kind → Bool
  | .chan | .func | .interface | .map | .ptr | .slice => true
  | _ => false

/-! ## td_isa.go -/

/-- The struct `tdIsa`. -/
structure tdIsa extends tdExpectedType where
  checkImplement : Bool := false

/-- The function `Isa(model)`; `base` is the Base `NewBase(3)` makes at the
place of the call.  `reflect.ValueOf(model).Type()` panics on a nil model. -/
def Isa (base : Base) (model : Value) : Except Panic tdIsa := do
  let modelType ← model.typeOf
  let checkImplement ←
    (if modelType.kind = .ptr then do
      let e ← modelType.Elem
      pure (decide (e.kind = .interface))
    else pure false)
  pure { toBase := base, expectedType := some modelType, checkImplement := checkImplement }

/-- The method `(*tdIsa).Match`. -/
def tdIsa.Match (env : Env) (i : tdIsa) (ctx : Context) (got : Value) :
    Except Panic ErrorPtr := do
  let gotType ← got.typeOf
  if some gotType = i.expectedType then pure .nil
  else
    let implements ←
      (if i.checkImplement then
        (match i.expectedType with
        | some t => do
          let e ← t.Elem
          pure (env.Implements gotType e)
        | none =>
          throw (.msg "runtime error: invalid memory address or nil pointer dereference"))
      else pure false)
    if implements then pure .nil
    else if ctx.BooleanError then pure .BooleanError
    else
      pure (ctx.CollectError (.error
        (i.totdExpectedType.errorTypeMismatch (.RawString gotType.str))))

/-! ## td_nil.go -/

/-- The struct `tdNil`. -/
structure tdNil extends BaseOKNil

/-- The function `Nil()`; `base` is what `NewBaseOKNil(3)` makes at the place
of the call. -/
def Nil (base : BaseOKNil) : tdNil :=
  { toBaseOKNil := base }

/-- The method `(*tdNil).String`. -/
def tdNil.String (_ : tdNil) : String :=
  "nil"

/-- The method `(*tdNil).Match`. -/
def tdNil.Match (n : tdNil) (ctx : Context) (got : Value) : Except Panic ErrorPtr := do
  if !got.IsValid then pure .nil
  else
    let isNil ←
      (match got.kind with
      | .chan | .func | .interface | .map | .ptr | .slice => got.IsNil
      | _ => pure false)
    if isNil then pure .nil
    else if ctx.BooleanError then pure .BooleanError
    else
      pure (ctx.CollectError (.error
        { Message := "non-nil", Got := .gotValue, Expected := .operator n.String }))

/-- The struct `tdNotNil`. -/
structure tdNotNil extends BaseOKNil

/-- The function `NotNil()`. -/
def NotNil (base : BaseOKNil) : tdNotNil :=
  { toBaseOKNil := base }

/-- The method `(*tdNotNil).String`. -/
def tdNotNil.String (_ : tdNotNil) : String :=
  "not nil"

/-- The method `(*tdNotNil).Match`. -/
def tdNotNil.Match (n : tdNotNil) (ctx : Context) (got : Value) :
    Except Panic ErrorPtr := do
  let notNil ←
    (if got.IsValid then
      (match got.kind with
      | .chan | .func | .interface | .map | .ptr | .slice => do
        let isNil ← got.IsNil
        pure (!isNil)
      | _ => pure true)
    else pure false)
  if notNil then pure .nil
  else if ctx.BooleanError then pure .BooleanError
  else
    pure (ctx.CollectError (.error
      { Message := "nil value", Got := .gotValue, Expected := .operator n.String }))

/-! ## td_zero.go -/

/-- The struct `tdZero`. -/
structure tdZero extends BaseOKNil

/-- The function `Zero()`. -/
def Zero (base : BaseOKNil) : tdZero :=
  { toBaseOKNil := base }

/-- The method `(*tdZero).String`. -/
def tdZero.String (_ : tdZero) : String :=
  "Zero()"

/-- The method `(*tdZero).Match`; `reflect.New(got.Type()).Elem()` is the zero
value of the type of got. -/
def tdZero.Match (env : Env) (_ : tdZero) (ctx : Context) (got : Value) :
    Except Panic ErrorPtr := do
  if !got.IsValid then pure .nil
  else
    let t ← got.typeOf
    pure (env.deepValueEqual ctx got (Value.Zero t))

/-- The struct `tdNotZero`. -/
structure tdNotZero extends BaseOKNil

/-- The function `NotZero()`. -/
def NotZero (base : BaseOKNil) : tdNotZero :=
  { toBaseOKNil := base }

/-- The method `(*tdNotZero).String`. -/
def tdNotZero.String (_ : tdNotZero) : String :=
  "NotZero()"

/-- The method `(*tdNotZero).Match`. -/
def tdNotZero.Match (env : Env) (z : tdNotZero) (ctx : Context) (got : Value) :
    Except Panic ErrorPtr := do
  let notZero ←
    (if got.IsValid then do
      let t ← got.typeOf
      pure (!env.deepValueEqualOK got (Value.Zero t))
    else pure false)
  if notZero then pure .nil
  else if ctx.BooleanError then pure .BooleanError
  else
    pure (ctx.CollectError (.error
      { Message := "zero value", Got := .gotValue, Expected := .operator z.String }))

/-! ## td_ptr.go -/

/-- The struct `tdPtr`; `TestDeepBase` is the name td_ptr.go gives to
`Base`. -/
structure tdPtr extends Base where
  expectedValue : Value := .invalid
  isTestDeeper : Bool := false

/-- The function `Ptr(val)`; `val.(TestDeep)` holds when the type of `val`
implements the interface `TestDeep`; otherwise the expected value is a pointer
`reflect.New` makes, set to `val`. -/
def Ptr (env : Env) (base : Base) (val : Value) : Except Panic tdPtr := do
  let vval := val
  if vval.IsValid then
    let t ← vval.typeOf
    if env.Implements t testDeeper then
      pure { toBase := base, expectedValue := vval, isTestDeeper := true }
    else
      pure { toBase := base, expectedValue := .ptr (.ptr t) (some vval) }
  else throw (.msg "usage: Ptr(NON_NIL_VALUE)")

/-- The method `(*tdPtr).String`. -/
def tdPtr.String (p : tdPtr) : Except Panic String :=
  if p.isTestDeeper then pure "*<something>"
  else do
    let t ← p.expectedValue.typeOf
    pure t.str

/-- The method `(*tdPtr).Match`. -/
def tdPtr.Match (env : Env) (p : tdPtr) (ctx : Context) (got : Value) :
    Except Panic ErrorPtr := do
  if got.kind ≠ .ptr then
    if ctx.BooleanError then pure .BooleanError
    else
      let tgot ← got.typeOf
      let expected ← p.String
      pure (.error
        { Context := some ctx, Message := "pointer type mismatch",
          Got := .RawString tgot.str, Expected := .RawString expected,
          Location := some p.location })
  else
    let err ←
      (if p.isTestDeeper then do
        let elem ← got.Elem
        pure (env.deepValueEqual (ctx.AddPtr 1) elem p.expectedValue)
      else pure (env.deepValueEqual ctx got p.expectedValue))
    pure (err.SetLocationIfMissing p.location)

/-- The struct `tdPPtr`. -/
structure tdPPtr extends tdPtr

/-- The function `PPtr(val)`. -/
def PPtr (env : Env) (base : Base) (val : Value) : Except Panic tdPPtr := do
  let vval := val
  if vval.IsValid then
    let t ← vval.typeOf
    if env.Implements t testDeeper then
      pure { toBase := base, expectedValue := vval, isTestDeeper := true }
    else
      let pVval : Value := .ptr (.ptr t) (some vval)
      pure { toBase := base, expectedValue := .ptr (.ptr (.ptr t)) (some pVval) }
  else throw (.msg "usage: PPtr(NON_NIL_VALUE)")

/-- The method `(*tdPPtr).String`. -/
def tdPPtr.String (p : tdPPtr) : Except Panic String :=
  if p.isTestDeeper then pure "**<something>"
  else do
    let t ← p.expectedValue.typeOf
    pure t.str

/-- The method `(*tdPPtr).Match`; `got.Elem()` is called only when got is a
pointer. -/
def tdPPtr.Match (env : Env) (p : tdPPtr) (ctx : Context) (got : Value) :
    Except Panic ErrorPtr := do
  let mismatch ←
    (if got.kind ≠ .ptr then pure true
    else do
      let elem ← got.Elem
      pure (decide (elem.kind ≠ .ptr)))
  if mismatch then
    if ctx.BooleanError then pure .BooleanError
    else
      let tgot ← got.typeOf
      let expected ← p.String
      pure (.error
        { Context := some ctx, Message := "pointer type mismatch",
          Got := .RawString tgot.str, Expected := .RawString expected,
          Location := some p.location })
  else
    let err ←
      (if p.isTestDeeper then do
        let elem ← got.Elem
        let elem2 ← elem.Elem
        pure (env.deepValueEqual (ctx.AddPtr 2) elem2 p.expectedValue)
      else pure (env.deepValueEqual ctx got p.expectedValue))
    pure (err.SetLocationIfMissing p.location)

/-! ## td_ignore.go -/

/-- The struct `tdIgnore`. -/
structure tdIgnore extends BaseOKNil

/-- The variable `ignoreSingleton`. -/
def ignoreSingleton : tdIgnore :=
  {}

/-- The function `Ignore()`. -/
def Ignore : tdIgnore :=
  ignoreSingleton

/-- The method `(*tdIgnore).Match`. -/
def tdIgnore.Match (_ : tdIgnore) (_ : Context) (_ : Value) : Except Panic ErrorPtr :=
  pure .nil

/-- The method `HandleInvalid` of `tdIgnore`: the one of the embedded
`BaseOKNil`. -/
def tdIgnore.HandleInvalid (i : tdIgnore) : Bool :=
  i.toBaseOKNil.HandleInvalid

/-- The method `(*tdIgnore).String`. -/
def tdIgnore.String (_ : tdIgnore) : String :=
  "Ignore()"

/-! ## td_nan.go -/

/-- The function `math.IsNaN`. -/
def GoFloat.IsNaN : GoFloat → Bool
  | .nan => true
  | _ => false

/-- The struct `tdNaN`. -/
structure tdNaN extends Base

/-- The function `NaN()`. -/
def NaN (base : Base) : tdNaN :=
  { toBase := base }

/-- The method `(*tdNaN).String`. -/
def tdNaN.String (_ : tdNaN) : String :=
  "NaN"

/-- The method `(*tdNaN).Match`. -/
def tdNaN.Match (n : tdNaN) (ctx : Context) (got : Value) : Except Panic ErrorPtr := do
  match got.kind with
  | .float32 | .float64 =>
    let f ← got.asFloat
    if f.IsNaN then pure .nil
    else
      pure (ctx.CollectError (.error
        { Message := "values differ", Got := .gotValue, Expected := .operator n.String }))
  | _ =>
    let tgot ← got.typeOf
    pure (ctx.CollectError (.error
      { Message := "type mismatch", Got := .RawString tgot.str,
        Expected := .RawString "float32 OR float64" }))

/-- The struct `tdNotNaN`. -/
structure tdNotNaN extends Base

/-- The function `NotNaN()`. -/
def NotNaN (base : Base) : tdNotNaN :=
  { toBase := base }

/-- The method `(*tdNotNaN).String`. -/
def tdNotNaN.String (_ : tdNotNaN) : String :=
  "not NaN"

/-- The method `(*tdNotNaN).Match`. -/
def tdNotNaN.Match (n : tdNotNaN) (ctx : Context) (got : Value) :
    Except Panic ErrorPtr := do
  match got.kind with
  | .float32 | .float64 =>
    let f ← got.asFloat
    if !f.IsNaN then pure .nil
    else
      pure (ctx.CollectError (.error
        { Message := "values differ", Got := .gotValue, Expected := .operator n.String }))
  | _ =>
    let tgot ← got.typeOf
    pure (ctx.CollectError (.error
      { Message := "type mismatch", Got := .RawString tgot.str,
        Expected := .RawString "float32 OR float64" }))

/-! ## types.go: pkgFunc, and the methods the operators get from Base -/

/-- The call `strings.LastIndex(s, sep)` for a separator made of the single
byte `c`: the index of the last byte `c` of `s`, if any. -/
def lastIndexByte (c : Fin 256) : List (Fin 256) → Option Nat
  | [] => none
  | x :: xs =>
    match lastIndexByte c xs with
    | some i => some (i + 1)
    | none => if x = c then some 0 else none

/-- The function `strings.LastIndex(s, sep)` for a separator made of the single
byte `c`: -1 when `s` holds no such byte. -/
def LastIndex (s : List (Fin 256)) (c : Fin 256) : Int :=
  match lastIndexByte c s with
  | some i => (i : Int)
  | none => -1

/-- The function `pkgFunc(full)`, a Go string being the list of its bytes (46
is the dot, 41 the closing parenthesis); the slice expression `full[:dotPos]`
panics when `dotPos` is negative. -/
def pkgFunc (full : List (Fin 256)) : Except Panic (List (Fin 256) × List (Fin 256)) := do
  let dotPos := LastIndex full 46
  if dotPos < 0 then throw (.msg "runtime error: slice bounds out of range")
  else
    let pkg := full.take dotPos.toNat
    let fn := full.drop (dotPos.toNat + 1)
    if dotPos > 0 ∧ pkg.getLast? = some 41 then
      let dotPos := LastIndex pkg 46
      if dotPos < 0 then throw (.msg "runtime error: slice bounds out of range")
      else pure (full.take dotPos.toNat, full.drop (dotPos.toNat + 1))
    else pure (pkg, fn)

/-- The method `Base.TypeBehind`: the nil `reflect.Type`. -/
def Base.TypeBehind (_ : Base) : Option GoType :=
  none

/-- The method `HandleInvalid` of `tdBetween`: the one of the embedded `Base`
(which the struct of the model leaves out, the method reading nothing of its
receiver). -/
def tdBetween.HandleInvalid (_ : tdBetween) : Bool :=
  Base.HandleInvalid {}

/-- The method `HandleInvalid` of the interface `TestDeep` on what the
constructors of td_between.go return: `tdBetweenTime` embeds `tdBetween`. -/
def TestDeep.HandleInvalid : TestDeep → Bool
  | .tdBetween b => b.HandleInvalid
  | .tdBetweenTime bt => bt.totdBetween.HandleInvalid

/-- The method `HandleInvalid` of `tdArrayEach`: the one of the embedded
`BaseOKNil` (which the struct of the model leaves out). -/
def tdArrayEach.HandleInvalid (_ : tdArrayEach) : Bool :=
  BaseOKNil.HandleInvalid {}

/-- The method `TypeBehind` of `tdArrayEach`: the one of `Base`, that
`BaseOKNil` embeds. -/
def tdArrayEach.TypeBehind (_ : tdArrayEach) : Option GoType :=
  Base.TypeBehind {}

/-- The method `HandleInvalid` of `tdMap`: the one of the `Base` that
`tdExpectedType` embeds. -/
def tdMap.HandleInvalid (m : tdMap) : Bool :=
  m.toBase.HandleInvalid

/-- The method `HandleInvalid` of `tdIsa`: the one of the `Base` that
`tdExpectedType` embeds. -/
def tdIsa.HandleInvalid (i : tdIsa) : Bool :=
  i.toBase.HandleInvalid

/-- The method `HandleInvalid` of `tdNil`. -/
def tdNil.HandleInvalid (n : tdNil) : Bool :=
  n.toBaseOKNil.HandleInvalid

/-- The method `TypeBehind` of `tdNil`. -/
def tdNil.TypeBehind (n : tdNil) : Option GoType :=
  n.toBase.TypeBehind

/-- The method `HandleInvalid` of `tdNotNil`. -/
def tdNotNil.HandleInvalid (n : tdNotNil) : Bool :=
  n.toBaseOKNil.HandleInvalid

/-- The method `TypeBehind` of `tdNotNil`. -/
def tdNotNil.TypeBehind (n : tdNotNil) : Option GoType :=
  n.toBase.TypeBehind

/-- The method `HandleInvalid` of `tdZero`. -/
def tdZero.HandleInvalid (z : tdZero) : Bool :=
  z.toBaseOKNil.HandleInvalid

/-- The method `TypeBehind` of `tdZero`. -/
def tdZero.TypeBehind (z : tdZero) : Option GoType :=
  z.toBase.TypeBehind

/-- The method `HandleInvalid` of `tdNotZero`. -/
def tdNotZero.HandleInvalid (z : tdNotZero) : Bool :=
  z.toBaseOKNil.HandleInvalid

/-- The method `TypeBehind` of `tdNotZero`. -/
def tdNotZero.TypeBehind (z : tdNotZero) : Option GoType :=
  z.toBase.TypeBehind

/-- The method `TypeBehind` of `tdIgnore`. -/
def tdIgnore.TypeBehind (i : tdIgnore) : Option GoType :=
  i.toBase.TypeBehind

/-- The method `HandleInvalid` of `tdNaN`. -/
def tdNaN.HandleInvalid (n : tdNaN) : Bool :=
  n.toBase.HandleInvalid

/-- The method `TypeBehind` of `tdNaN`. -/
def tdNaN.TypeBehind (n : tdNaN) : Option GoType :=
  n.toBase.TypeBehind

/-- The method `HandleInvalid` of `tdNotNaN`. -/
def tdNotNaN.HandleInvalid (n : tdNotNaN) : Bool :=
  n.toBase.HandleInvalid

/-- The method `TypeBehind` of `tdNotNaN`. -/
def tdNotNaN.TypeBehind (n : tdNotNaN) : Option GoType :=
  n.toBase.TypeBehind

/-! ## td_map.go: the method String -/

/-- Modelled from the spec: the method `(*tdExpectedType).expectedTypeStr`,
which is not among the sources: the name of the expected type, after a star
when a pointer on it is expected. -/
def tdExpectedType.expectedTypeStr (t : tdExpectedType) : String :=
  (if t.isPtr then "*" else "")
    ++ (match t.expectedType with
        | some e => e.str
        | none => "nil")

/-- The method `(*tdMap).String`: the expected entries are written in the
order of the slice `expectedEntries`. -/
def tdMap.String (env : Env) (m : tdMap) : String :=
  (if m.kind ≠ .allMap then m.location.Func ++ "(" else "")
    ++ m.totdExpectedType.expectedTypeStr
    ++ (if m.expectedEntries.length = 0 then "\x7b\x7d"
        else
          "\x7b\n"
            ++ String.join (m.expectedEntries.map (fun entryInfo =>
                "  " ++ env.ToString entryInfo.key ++ ": "
                  ++ env.ToString entryInfo.expected ++ ",\n"))
            ++ "\x7d")
    ++ (if m.kind ≠ .allMap then ")" else "")

/-! ## Statements on the arguments of Map, SubMapOf and SuperMapOf -/

/-- The model is a map of the type `t`, itself a `map[kt]vt`, or a pointer to
such a map, nil or not; `mv` is the map whose entries are expected (the zero
Value for a nil pointer). -/
def isMapModel (model : Value) (t kt vt : GoType) (mv : Value) : Prop :=
  t.underlying = .map kt vt ∧
  ((∃ es, model = .map t es ∧ mv = model)
    ∨ (∃ pt, pt.kind = .ptr ∧ pt.Elem = .ok t
        ∧ ((model = .ptr pt none ∧ mv = .invalid)
          ∨ (∃ es, model = .ptr pt (some (.map t es)) ∧ mv = .map t es))))

/-- An entry of `expectedEntries` breaks the contract of the constructors, the
model being a `map[kt]vt`: its key has a type that is not assignable to `kt`,
or its value is nil while `vt` is not a chan, func, interface, map, pointer or
slice type, or its value is not an operator and has a type that is not
assignable to `vt`. -/
def badEntry (env : Env) (kt vt : GoType) (p : Value × Value) : Prop :=
  (∃ tk, p.1.typ = some tk ∧ tk.AssignableTo env kt = false)
  ∨ (p.2.IsValid = false ∧ vt.kind.isNilable = false)
  ∨ (∃ tv, p.2.typ = some tv ∧ env.Implements tv testDeeper = false
      ∧ tv.AssignableTo env vt = false)

/-- The three constructors `Map`, `SubMapOf` and `SuperMapOf` all panic on the
arguments. -/
def constructorsPanic (env : Env) (base : Base) (model : Value)
    (entries : List (Value × Value)) : Prop :=
  (∃ e, Map env base model entries = .error e)
  ∧ (∃ e, SubMapOf env base model entries = .error e)
  ∧ (∃ e, SuperMapOf env base model entries = .error e)

/-! ## Outcomes of a match -/

/-- The test the match methods make of got against the lower bound `min`,
according to `minBound`. -/
def boundCmp.admitsMin {α : Type} [LinearOrder α] (c : boundCmp) (min got : α) : Bool :=
  match c with
  | .boundIn => decide (got ≥ min)
  | .boundOut => decide (got > min)
  | .boundNone => true

/-- The test the match methods make of got against the upper bound `max`,
according to `maxBound`. -/
def boundCmp.admitsMax {α : Type} [LinearOrder α] (c : boundCmp) (max got : α) : Bool :=
  match c with
  | .boundIn => decide (got ≤ max)
  | .boundOut => decide (got < max)
  | .boundNone => true

/-- The operator was built without panic and its Match returns nil on got:
got is matched. -/
def accepts (env : Env) (r : Except Panic TestDeep) (ctx : Context) (got : Value) :
    Bool :=
  match r with
  | .ok op =>
    match op.Match env ctx got with
    | .ok .nil => true
    | _ => false
  | .error _ => false

/-- The operator was built without panic and its Match returns, without
panic, an error that is not nil: got is not matched. -/
def rejects (env : Env) (r : Except Panic TestDeep) (ctx : Context) (got : Value) :
    Bool :=
  match r with
  | .ok op =>
    match op.Match env ctx got with
    | .ok .nil => false
    | .ok _ => true
    | .error _ => false
  | .error _ => false

/-- The operator `r` matches, among the values `mk g`, exactly those with `P g`:
it is built without panic, its Match returns nil when `P g` holds and returns an
error (without panic) when it does not. -/
def matchesExactly {α : Type} (env : Env) (r : Except Panic TestDeep) (ctx : Context)
    (mk : α → Value) (P : α → Prop) [DecidablePred P] : Prop :=
  ∀ g, accepts env r ctx (mk g) = decide (P g) ∧ rejects env r ctx (mk g) = !decide (P g)

/-! ## A concrete environment, to evaluate the operators on sample inputs -/

/-- Exact addition of finite floats (no rounding); NaN otherwise. -/
def GoFloat.addExact : GoFloat → GoFloat → GoFloat
  | .finite a, .finite b => .finite (a + b)
  | _, _ => .nan

/-- Exact subtraction of finite floats (no rounding); NaN otherwise. -/
def GoFloat.subExact : GoFloat → GoFloat → GoFloat
  | .finite a, .finite b => .finite (a - b)
  | _, _ => .nan

/-- A sample environment: exact float arithmetic, constant renderings, and
an engine that never finds two values equal. -/
def sampleEnv : Env :=
  { fadd := GoFloat.addExact
    fsub := GoFloat.subExact
    toFloat32 := fun x => x
    ToString := fun _ => "got"
    Sprintf_v := fun _ => "got"
    deepValueEqual := fun _ _ _ => .BooleanError
    getTime := fun _ _ _ => (0, .nil)
    checkPtr := fun t _ got _ =>
      if t.isPtr then
        match got with
        | .ptr _ (some v) => (v, .nil)
        | .ptr _ none => (.invalid, .nil)
        | _ => (got, .BooleanError)
      else (got, .nil)
    checkType := fun t _ got =>
      if got.typ = t.expectedType then .nil else .BooleanError
    Summary := fun r =>
      "missing " ++ toString r.Missing.length ++ ", extra " ++ toString r.Extra.length
    MapSortedKeys := fun v =>
      match v with
      | .map _ (some es) => es.map Prod.fst
      | _ => []
    Implements := fun _ u => decide (u.underlying = .iface [])
    deepValueEqualOK := fun _ _ => false }

/-- A sample engine: two values are equal when `==` finds them so; otherwise
the result is the "values differ" diagnostic under the context at hand, the
sentinel in boolean mode. -/
def sampleEngine (ctx : Context) (got expected : Value) : ErrorPtr :=
  if Value.eqIface got expected then .nil
  else if ctx.BooleanError then .BooleanError
  else .error { Context := some ctx, Message := "values differ" }

/-- The sample environment with the sample engine. -/
def eqEnv : Env :=
  { sampleEnv with
    deepValueEqual := sampleEngine
    deepValueEqualOK := fun got expected => Value.eqIface got expected }

/-- A sample context: the root of the data, in diagnostic mode. -/
def sampleCtx : Context :=
  { Path := [], Depth := 0, BooleanError := false, MaxErrors := 10 }

/-- The sample map type `map[string]int`. -/
def sampleMapType : GoType :=
  .map (.basic .string) (.basic .int)

/-- The string of the single byte `c`, as a Value: 97 is "a", 98 is "b", 99 is
"c". -/
def sampleKey (c : Fin 256) : Value :=
  .string (.basic .string) [c]

/-- The int `n`, as a Value. -/
def sampleInt (n : Int) : Value :=
  .int (.basic .int) n

/-- The `map[string]int` of the given single-byte keys and values, as a Value. -/
def sampleMap (es : List (Fin 256 × Int)) : Value :=
  .map sampleMapType (some (es.map (fun p => (sampleKey p.1, sampleInt p.2))))

/-- The operator `Map`, `SubMapOf` or `SuperMapOf` (after the kind) builds from
the model `map[string]int{"a": 1, "b": 2}` and no expected entries. -/
def sampleMapOp (kind : mapKind) : tdMap :=
  { expectedType := some sampleMapType
    expectedEntries := [⟨sampleKey 97, sampleInt 1⟩, ⟨sampleKey 98, sampleInt 2⟩]
    kind := kind }

/-- A sample context in boolean mode, at the root of the data. -/
def boolCtx : Context :=
  { Path := [], Depth := 0, BooleanError := true, MaxErrors := 10 }

/-- The type of a sample operator: a pointer to the struct `tdIgnore`. -/
def sampleOpType : GoType :=
  .ptr (.named "github.com/maxatome/go-testdeep" "testdeep.tdIgnore" (.struct .nil))

/-- A sample operator, as the Value `reflect.ValueOf` makes of it. -/
def sampleOp : Value :=
  .ptr sampleOpType
    (some (.struct (.named "github.com/maxatome/go-testdeep" "testdeep.tdIgnore"
      (.struct .nil)) []))

/-- The sample environment in which the type of the sample operator, and no
other type, implements `TestDeep`, and whose engine accepts every value against
the sample operator and compares with `==` otherwise. -/
def opEnv : Env :=
  { eqEnv with
    Implements := fun t u => decide (t = sampleOpType) && decide (u = testDeeper)
    deepValueEqual := fun ctx got expected =>
      if expected.typ = some sampleOpType then .nil else sampleEngine ctx got expected }

/-- The sample defined type `type MyInt int`. -/
def sampleMyInt : GoType :=
  .named "main" "main.MyInt" (.basic .int)

/-- The sample map type `map[string][]int`, whose values can be nil. -/
def sampleSliceMapType : GoType :=
  .map (.basic .string) (.slice (.basic .int))

/-- A sample rendering of values: a string by the characters of its bytes, an
integer by its decimal digits, anything else by a question mark. -/
def sampleToString : Value → String
  | .string _ s => String.mk (s.map (fun b => Char.ofNat b.val))
  | .int _ i => toString i
  | _ => "?"

/-- The sample environment whose `util.ToString` is the sample rendering. -/
def renderEnv : Env :=
  { eqEnv with ToString := sampleToString }

/-- The bytes of the Go string "the/package.Foo". -/
def samplePkgFoo : List (Fin 256) :=
  [116, 104, 101, 47, 112, 97, 99, 107, 97, 103, 101, 46, 70, 111, 111]

/-- The bytes of the Go string "the/package.(*T).Foo". -/
def samplePkgMethod : List (Fin 256) :=
  [116, 104, 101, 47, 112, 97, 99, 107, 97, 103, 101, 46, 40, 42, 84, 41, 46, 70, 111, 111]

/-- The sample map type `map[[1]int]int`, whose keys are arrays. -/
def sampleArrayMapType : GoType :=
  .map (.array 1 (.basic .int)) (.basic .int)

/-- The array `[1]int{n}`, as a Value. -/
def sampleArrayKey (n : Int) : Value :=
  .array (.array 1 (.basic .int)) [sampleInt n]

/-- The `map[[1]int]int` of the given keys `[1]int{k}` and values, as a
Value. -/
def sampleArrayMap (es : List (Int × Int)) : Value :=
  .map sampleArrayMapType (some (es.map (fun p => (sampleArrayKey p.1, sampleInt p.2))))

/-- The sample struct type `struct { A int; B string }`. -/
def sampleStructType : GoType :=
  .struct (.cons "A" (.basic .int) (.cons "B" (.basic .string) .nil))

/-- The struct `struct { A int; B string }{a, "b"}`, `b` being a single byte, as
a Value. -/
def sampleStructKey (a : Int) (b : Fin 256) : Value :=
  .struct sampleStructType [sampleInt a, sampleKey b]

/-- The `map[struct { A int; B string }]int` of the given keys and values, as a
Value. -/
def sampleStructMap (es : List ((Int × Fin 256) × Int)) : Value :=
  .map (.map sampleStructType (.basic .int))
    (some (es.map (fun p => (sampleStructKey p.1.1 p.1.2, sampleInt p.2))))

/-- The sample map type `map[interface{}]int`. -/
def sampleIfaceMapType : GoType :=
  .map (.iface []) (.basic .int)

/-- The `map[interface{}]int` of the given single-byte string keys and values,
as a Value: each key is a Value of interface type that holds the string. -/
def sampleIfaceMap (es : List (Fin 256 × Int)) : Value :=
  .map sampleIfaceMapType
    (some (es.map (fun p => (.iface (.iface []) (some (sampleKey p.1)), sampleInt p.2))))

/-! ## Lemmas on kinds -/

theorem Kind.isUint_not_isInt {k : Kind} (h : k.isUint = true) : k.isInt = false := by
  cases k <;> simp_all [Kind.isUint, Kind.isInt]

theorem Kind.isFloat_not_isInt {k : Kind} (h : k.isFloat = true) : k.isInt = false := by
  cases k <;> simp_all [Kind.isFloat, Kind.isInt]

theorem Kind.isFloat_not_isUint {k : Kind} (h : k.isFloat = true) : k.isUint = false := by
  cases k <;> simp_all [Kind.isFloat, Kind.isUint]

theorem Kind.isInt_ne_string {k : Kind} (h : k.isInt = true) : k ≠ .string := by
  intro e; rw [e] at h; simp [Kind.isInt] at h

theorem Kind.isUint_ne_string {k : Kind} (h : k.isUint = true) : k ≠ .string := by
  intro e; rw [e] at h; simp [Kind.isUint] at h

theorem Kind.isFloat_ne_string {k : Kind} (h : k.isFloat = true) : k ≠ .string := by
  intro e; rw [e] at h; simp [Kind.isFloat] at h

/-! ## Lemmas on `initBetween` -/

theorem initBetween_int (t : GoType) (ht : t.kind.isInt = true) (a b : Int)
    (mb xb : boundCmp) (u : String) :
    tdBetween.initBetween ⟨.int t a, .int t b, mb, xb⟩ u
      = .ok (.tdBetween ⟨.int t (min a b), .int t (max a b), mb, xb⟩) := by
  rcases le_or_lt a b with h | h
  · simp [tdBetween.initBetween, Value.IsValid, Value.kind, Value.typ, ht,
      Value.asInt, h, not_lt.mpr h, Bind.bind, Except.bind, pure, Except.pure]
  · simp [tdBetween.initBetween, Value.IsValid, Value.kind, Value.typ, ht,
      Value.asInt, h, h.le, Bind.bind, Except.bind, pure, Except.pure]

theorem initBetween_uint (t : GoType) (ht : t.kind.isUint = true) (a b : Nat)
    (mb xb : boundCmp) (u : String) :
    tdBetween.initBetween ⟨.uint t a, .uint t b, mb, xb⟩ u
      = .ok (.tdBetween ⟨.uint t (min a b), .uint t (max a b), mb, xb⟩) := by
  have hi := Kind.isUint_not_isInt ht
  rcases le_or_lt a b with h | h
  · simp [tdBetween.initBetween, Value.IsValid, Value.kind, Value.typ, ht, hi,
      Value.asUint, h, not_lt.mpr h, Bind.bind, Except.bind, pure, Except.pure]
  · simp [tdBetween.initBetween, Value.IsValid, Value.kind, Value.typ, ht, hi,
      Value.asUint, h, h.le, Bind.bind, Except.bind, pure, Except.pure]

theorem initBetween_string (t : GoType) (ht : t.kind = .string) (a b : GoString)
    (mb xb : boundCmp) (u : String) :
    tdBetween.initBetween ⟨.string t a, .string t b, mb, xb⟩ u
      = .ok (.tdBetween ⟨.string t (min a b), .string t (max a b), mb, xb⟩) := by
  rcases le_or_lt a b with h | h
  · simp [tdBetween.initBetween, Value.IsValid, Value.kind, Value.typ, ht,
      Value.asString, h, not_lt.mpr h, pure, Except.pure, Kind.isInt, Kind.isUint,
      Kind.isFloat]
  · simp [tdBetween.initBetween, Value.IsValid, Value.kind, Value.typ, ht,
      Value.asString, h, h.le, pure, Except.pure, Kind.isInt, Kind.isUint,
      Kind.isFloat]

theorem initBetween_float (t : GoType) (ht : t.kind.isFloat = true) (a b : GoFloat)
    (mb xb : boundCmp) (u : String) :
    tdBetween.initBetween ⟨.float t a, .float t b, mb, xb⟩ u
      = .ok (.tdBetween (if GoFloat.gt a b = true then ⟨.float t b, .float t a, mb, xb⟩
          else ⟨.float t a, .float t b, mb, xb⟩)) := by
  have h1 := Kind.isFloat_not_isInt ht
  have h2 := Kind.isFloat_not_isUint ht
  by_cases h : GoFloat.gt a b = true
  · simp [tdBetween.initBetween, Value.IsValid, Value.kind, Value.typ, ht, h1, h2,
      Value.asFloat, h, Bind.bind, Except.bind, pure, Except.pure]
  · simp [tdBetween.initBetween, Value.IsValid, Value.kind, Value.typ, ht, h1, h2,
      Value.asFloat, h, Bind.bind, Except.bind, pure, Except.pure]

/-- With `expectedMax` left unset, `initBetween` copies `expectedMin` into it. -/
theorem initBetween_unset (v : Value) (mb xb : boundCmp) (u : String) :
    tdBetween.initBetween ⟨v, .invalid, mb, xb⟩ u
      = tdBetween.initBetween ⟨v, v, mb, xb⟩ u := by
  simp [tdBetween.initBetween, Value.IsValid]

/-! ## Lemmas on `Match` -/

theorem String_ok (env : Env) (b : tdBetween) (h1 : b.expectedMin.IsValid = true)
    (h2 : b.expectedMax.IsValid = true) : ∃ s, b.String env = .ok s := by
  obtain ⟨mn, mx, mb, xb⟩ := b
  have e1 : mn.Interface = .ok mn := by
    cases mn <;> simp_all [Value.Interface, Value.IsValid]
  have e2 : mx.Interface = .ok mx := by
    cases mx <;> simp_all [Value.Interface, Value.IsValid]
  simp only [tdBetween.String, e1, e2, Bind.bind, Except.bind, pure, Except.pure]
  cases mb <;> cases xb <;> simp <;> split_ifs <;> simp

theorem matchInt_eq (t u v : GoType) (lo hi g : Int) (mb xb : boundCmp) :
    tdBetween.matchInt ⟨.int t lo, .int u hi, mb, xb⟩ (.int v g)
      = .ok (mb.admitsMin lo g && xb.admitsMax hi g) := by
  cases mb <;> cases xb <;>
    simp [tdBetween.matchInt, Value.asInt, Bind.bind, Except.bind, pure, Except.pure,
      boundCmp.admitsMin, boundCmp.admitsMax] <;>
    (try split) <;> simp_all

theorem matchUint_eq (t u v : GoType) (lo hi g : Nat) (mb xb : boundCmp) :
    tdBetween.matchUint ⟨.uint t lo, .uint u hi, mb, xb⟩ (.uint v g)
      = .ok (mb.admitsMin lo g && xb.admitsMax hi g) := by
  cases mb <;> cases xb <;>
    simp [tdBetween.matchUint, Value.asUint, Bind.bind, Except.bind, pure, Except.pure,
      boundCmp.admitsMin, boundCmp.admitsMax] <;>
    (try split) <;> simp_all

theorem matchString_eq (t u v : GoType) (lo hi g : GoString) (mb xb : boundCmp) :
    tdBetween.matchString ⟨.string t lo, .string u hi, mb, xb⟩ (.string v g)
      = (mb.admitsMin lo g && xb.admitsMax hi g) := by
  cases mb <;> cases xb <;>
    simp [tdBetween.matchString, Value.asString, boundCmp.admitsMin,
      boundCmp.admitsMax]

/-- The shape of the result of `Match` on a got of the type of the bounds. -/
theorem Match_int_eq (env : Env) (ctx : Context) (t : GoType) (ht : t.kind.isInt = true)
    (lo hi g : Int) (mb xb : boundCmp) :
    ∃ s, tdBetween.Match env ⟨.int t lo, .int t hi, mb, xb⟩ ctx (.int t g)
      = .ok (if (mb.admitsMin lo g && xb.admitsMax hi g) = true then .nil
             else if ctx.BooleanError = true then .BooleanError
             else .error { Context := some ctx, Message := "values differ",
                           Got := .RawString (env.Sprintf_v (.int t g)),
                           Expected := .RawString s }) := by
  obtain ⟨s, hs⟩ := String_ok env ⟨.int t lo, .int t hi, mb, xb⟩ rfl rfl
  refine ⟨s, ?_⟩
  have hk := Kind.isInt_ne_string ht
  simp only [tdBetween.Match, Value.typeOf, Value.typ, Value.kind, ht, matchInt_eq, hs,
    Bind.bind, Except.bind, pure, Except.pure, Context.CollectError]
  simp [hk]
  split_ifs <;> rfl

theorem Match_uint_eq (env : Env) (ctx : Context) (t : GoType)
    (ht : t.kind.isUint = true) (lo hi g : Nat) (mb xb : boundCmp) :
    ∃ s, tdBetween.Match env ⟨.uint t lo, .uint t hi, mb, xb⟩ ctx (.uint t g)
      = .ok (if (mb.admitsMin lo g && xb.admitsMax hi g) = true then .nil
             else if ctx.BooleanError = true then .BooleanError
             else .error { Context := some ctx, Message := "values differ",
                           Got := .RawString (env.Sprintf_v (.uint t g)),
                           Expected := .RawString s }) := by
  obtain ⟨s, hs⟩ := String_ok env ⟨.uint t lo, .uint t hi, mb, xb⟩ rfl rfl
  refine ⟨s, ?_⟩
  have hk := Kind.isUint_ne_string ht
  have hi := Kind.isUint_not_isInt ht
  simp only [tdBetween.Match, Value.typeOf, Value.typ, Value.kind, ht, hi, matchUint_eq,
    hs, Bind.bind, Except.bind, pure, Except.pure, Context.CollectError]
  simp [hk]
  split_ifs <;> rfl

theorem Match_string_eq (env : Env) (ctx : Context) (t : GoType)
    (ht : t.kind = .string) (lo hi g : GoString) (mb xb : boundCmp) :
    ∃ s, tdBetween.Match env ⟨.string t lo, .string t hi, mb, xb⟩ ctx (.string t g)
      = .ok (if (mb.admitsMin lo g && xb.admitsMax hi g) = true then .nil
             else if ctx.BooleanError = true then .BooleanError
             else .error { Context := some ctx, Message := "values differ",
                           Got := .RawString (env.ToString (.string t g)),
                           Expected := .RawString s }) := by
  obtain ⟨s, hs⟩ := String_ok env ⟨.string t lo, .string t hi, mb, xb⟩ rfl rfl
  refine ⟨s, ?_⟩
  simp only [tdBetween.Match, Value.typeOf, Value.typ, Value.kind, ht, matchString_eq,
    hs, Bind.bind, Except.bind, pure, Except.pure, Context.CollectError]
  simp [Kind.isInt, Kind.isUint, Kind.isFloat]
  split_ifs <;> rfl

theorem accepts_int (env : Env) (ctx : Context) (t : GoType) (ht : t.kind.isInt = true)
    (lo hi g : Int) (mb xb : boundCmp) :
    accepts env (.ok (.tdBetween ⟨.int t lo, .int t hi, mb, xb⟩)) ctx (.int t g)
      = (mb.admitsMin lo g && xb.admitsMax hi g) := by
  obtain ⟨s, hs⟩ := Match_int_eq env ctx t ht lo hi g mb xb
  simp only [accepts, TestDeep.Match, hs]
  generalize (mb.admitsMin lo g && xb.admitsMax hi g) = ok
  cases ok <;> cases ctx.BooleanError <;> simp

theorem rejects_int (env : Env) (ctx : Context) (t : GoType) (ht : t.kind.isInt = true)
    (lo hi g : Int) (mb xb : boundCmp) :
    rejects env (.ok (.tdBetween ⟨.int t lo, .int t hi, mb, xb⟩)) ctx (.int t g)
      = !(mb.admitsMin lo g && xb.admitsMax hi g) := by
  obtain ⟨s, hs⟩ := Match_int_eq env ctx t ht lo hi g mb xb
  simp only [rejects, TestDeep.Match, hs]
  generalize (mb.admitsMin lo g && xb.admitsMax hi g) = ok
  cases ok <;> cases ctx.BooleanError <;> simp

theorem accepts_uint (env : Env) (ctx : Context) (t : GoType)
    (ht : t.kind.isUint = true) (lo hi g : Nat) (mb xb : boundCmp) :
    accepts env (.ok (.tdBetween ⟨.uint t lo, .uint t hi, mb, xb⟩)) ctx (.uint t g)
      = (mb.admitsMin lo g && xb.admitsMax hi g) := by
  obtain ⟨s, hs⟩ := Match_uint_eq env ctx t ht lo hi g mb xb
  simp only [accepts, TestDeep.Match, hs]
  generalize (mb.admitsMin lo g && xb.admitsMax hi g) = ok
  cases ok <;> cases ctx.BooleanError <;> simp

theorem rejects_uint (env : Env) (ctx : Context) (t : GoType)
    (ht : t.kind.isUint = true) (lo hi g : Nat) (mb xb : boundCmp) :
    rejects env (.ok (.tdBetween ⟨.uint t lo, .uint t hi, mb, xb⟩)) ctx (.uint t g)
      = !(mb.admitsMin lo g && xb.admitsMax hi g) := by
  obtain ⟨s, hs⟩ := Match_uint_eq env ctx t ht lo hi g mb xb
  simp only [rejects, TestDeep.Match, hs]
  generalize (mb.admitsMin lo g && xb.admitsMax hi g) = ok
  cases ok <;> cases ctx.BooleanError <;> simp

theorem accepts_string (env : Env) (ctx : Context) (t : GoType)
    (ht : t.kind = .string) (lo hi g : GoString) (mb xb : boundCmp) :
    accepts env (.ok (.tdBetween ⟨.string t lo, .string t hi, mb, xb⟩)) ctx (.string t g)
      = (mb.admitsMin lo g && xb.admitsMax hi g) := by
  obtain ⟨s, hs⟩ := Match_string_eq env ctx t ht lo hi g mb xb
  simp only [accepts, TestDeep.Match, hs]
  generalize (mb.admitsMin lo g && xb.admitsMax hi g) = ok
  cases ok <;> cases ctx.BooleanError <;> simp

theorem rejects_string (env : Env) (ctx : Context) (t : GoType)
    (ht : t.kind = .string) (lo hi g : GoString) (mb xb : boundCmp) :
    rejects env (.ok (.tdBetween ⟨.string t lo, .string t hi, mb, xb⟩)) ctx (.string t g)
      = !(mb.admitsMin lo g && xb.admitsMax hi g) := by
  obtain ⟨s, hs⟩ := Match_string_eq env ctx t ht lo hi g mb xb
  simp only [rejects, TestDeep.Match, hs]
  generalize (mb.admitsMin lo g && xb.admitsMax hi g) = ok
  cases ok <;> cases ctx.BooleanError <;> simp

/-! ## The operators the constructors build -/

theorem Between_int (t : GoType) (ht : t.kind.isInt = true) (a b : Int)
    (k : BoundsKind) :
    Between (.int t a) (.int t b) [k]
      = .ok (.tdBetween ⟨.int t (min a b), .int t (max a b),
          if k = .BoundsInIn ∨ k = .BoundsInOut then .boundIn else .boundOut,
          if k = .BoundsInIn ∨ k = .BoundsOutIn then .boundIn else .boundOut⟩) := by
  simp [Between, Value.typeOf, Value.typ, Bind.bind, Except.bind, pure, Except.pure,
    initBetween_int t ht]

theorem Between_int_default (t : GoType) (ht : t.kind.isInt = true) (a b : Int) :
    Between (.int t a) (.int t b) []
      = .ok (.tdBetween ⟨.int t (min a b), .int t (max a b), .boundIn, .boundIn⟩) := by
  simp [Between, Value.typeOf, Value.typ, Bind.bind, Except.bind, pure, Except.pure,
    initBetween_int t ht]

theorem Between_uint (t : GoType) (ht : t.kind.isUint = true) (a b : Nat)
    (k : BoundsKind) :
    Between (.uint t a) (.uint t b) [k]
      = .ok (.tdBetween ⟨.uint t (min a b), .uint t (max a b),
          if k = .BoundsInIn ∨ k = .BoundsInOut then .boundIn else .boundOut,
          if k = .BoundsInIn ∨ k = .BoundsOutIn then .boundIn else .boundOut⟩) := by
  simp [Between, Value.typeOf, Value.typ, Bind.bind, Except.bind, pure, Except.pure,
    initBetween_uint t ht]

theorem Between_uint_default (t : GoType) (ht : t.kind.isUint = true) (a b : Nat) :
    Between (.uint t a) (.uint t b) []
      = .ok (.tdBetween ⟨.uint t (min a b), .uint t (max a b), .boundIn, .boundIn⟩) := by
  simp [Between, Value.typeOf, Value.typ, Bind.bind, Except.bind, pure, Except.pure,
    initBetween_uint t ht]

theorem Between_string (t : GoType) (ht : t.kind = .string) (a b : GoString)
    (k : BoundsKind) :
    Between (.string t a) (.string t b) [k]
      = .ok (.tdBetween ⟨.string t (min a b), .string t (max a b),
          if k = .BoundsInIn ∨ k = .BoundsInOut then .boundIn else .boundOut,
          if k = .BoundsInIn ∨ k = .BoundsOutIn then .boundIn else .boundOut⟩) := by
  simp [Between, Value.typeOf, Value.typ, Bind.bind, Except.bind, pure, Except.pure,
    initBetween_string t ht]

theorem Between_string_default (t : GoType) (ht : t.kind = .string) (a b : GoString) :
    Between (.string t a) (.string t b) []
      = .ok (.tdBetween ⟨.string t (min a b), .string t (max a b), .boundIn, .boundIn⟩) := by
  simp [Between, Value.typeOf, Value.typ, Bind.bind, Except.bind, pure, Except.pure,
    initBetween_string t ht]

/-! ## C1: order-independence of Between -/

/-- C1: for same-typed operands lo <= hi (signed integers, unsigned integers,
strings) and every bounds kind k, `Between(hi, lo, k)` builds the very operator
`Between(lo, hi, k)` builds (lower bound lo, upper bound hi), so both accept
exactly the same values. -/
theorem Between_order_independent (env : Env) (ctx : Context) (k : BoundsKind)
    (got : Value) (ti tu ts : GoType) (hti : ti.kind.isInt = true)
    (htu : tu.kind.isUint = true) (hts : ts.kind = .string)
    (lo hi : Int) (hle : lo ≤ hi) (ulo uhi : Nat) (hule : ulo ≤ uhi)
    (slo shi : GoString) (hsle : slo ≤ shi) :
    ((∃ b, Between (.int ti lo) (.int ti hi) [k] = .ok (.tdBetween b)
        ∧ Between (.int ti hi) (.int ti lo) [k] = .ok (.tdBetween b)
        ∧ b.expectedMin = .int ti lo ∧ b.expectedMax = .int ti hi)
      ∧ accepts env (Between (.int ti hi) (.int ti lo) [k]) ctx got
          = accepts env (Between (.int ti lo) (.int ti hi) [k]) ctx got)
    ∧ ((∃ b, Between (.uint tu ulo) (.uint tu uhi) [k] = .ok (.tdBetween b)
        ∧ Between (.uint tu uhi) (.uint tu ulo) [k] = .ok (.tdBetween b)
        ∧ b.expectedMin = .uint tu ulo ∧ b.expectedMax = .uint tu uhi)
      ∧ accepts env (Between (.uint tu uhi) (.uint tu ulo) [k]) ctx got
          = accepts env (Between (.uint tu ulo) (.uint tu uhi) [k]) ctx got)
    ∧ ((∃ b, Between (.string ts slo) (.string ts shi) [k] = .ok (.tdBetween b)
        ∧ Between (.string ts shi) (.string ts slo) [k] = .ok (.tdBetween b)
        ∧ b.expectedMin = .string ts slo ∧ b.expectedMax = .string ts shi)
      ∧ accepts env (Between (.string ts shi) (.string ts slo) [k]) ctx got
          = accepts env (Between (.string ts slo) (.string ts shi) [k]) ctx got) := by
  have e1 : Between (.int ti hi) (.int ti lo) [k] = Between (.int ti lo) (.int ti hi) [k] := by
    rw [Between_int ti hti, Between_int ti hti, min_comm, max_comm]
  have e2 : Between (.uint tu uhi) (.uint tu ulo) [k]
      = Between (.uint tu ulo) (.uint tu uhi) [k] := by
    rw [Between_uint tu htu, Between_uint tu htu, min_comm, max_comm]
  have e3 : Between (.string ts shi) (.string ts slo) [k]
      = Between (.string ts slo) (.string ts shi) [k] := by
    rw [Between_string ts hts, Between_string ts hts, min_comm, max_comm]
  refine ⟨⟨?_, by rw [e1]⟩, ⟨?_, by rw [e2]⟩, ⟨?_, by rw [e3]⟩⟩
  · rw [e1, Between_int ti hti, min_eq_left hle, max_eq_right hle]
    exact ⟨_, rfl, rfl, rfl, rfl⟩
  · rw [e2, Between_uint tu htu, min_eq_left hule, max_eq_right hule]
    exact ⟨_, rfl, rfl, rfl, rfl⟩
  · rw [e3, Between_string ts hts, min_eq_left hsle, max_eq_right hsle]
    exact ⟨_, rfl, rfl, rfl, rfl⟩

/-- C1 on concrete operands: int 1 <= 5, uint 2 <= 7, "a" <= "b", bounds
`BoundsInOut`, got the int 5. -/
theorem Between_order_independent_witness :
    ((1 : Int) ≤ 5 ∧ (2 : Nat) ≤ 7 ∧ (([97] : List (Fin 256)) : GoString) ≤ [98])
    ∧ ((∃ b, Between (.int (.basic .int) 1) (.int (.basic .int) 5) [.BoundsInOut]
          = .ok (.tdBetween b)
        ∧ Between (.int (.basic .int) 5) (.int (.basic .int) 1) [.BoundsInOut]
          = .ok (.tdBetween b)
        ∧ b.expectedMin = .int (.basic .int) 1 ∧ b.expectedMax = .int (.basic .int) 5)
      ∧ accepts sampleEnv (Between (.int (.basic .int) 5) (.int (.basic .int) 1)
          [.BoundsInOut]) sampleCtx (.int (.basic .int) 5)
          = accepts sampleEnv (Between (.int (.basic .int) 1) (.int (.basic .int) 5)
          [.BoundsInOut]) sampleCtx (.int (.basic .int) 5)) :=
  ⟨⟨by decide, by decide, by decide⟩,
    (Between_order_independent sampleEnv sampleCtx .BoundsInOut (.int (.basic .int) 5)
      (.basic .int) (.basic .uint) (.basic .string) rfl rfl rfl 1 5 (by decide) 2 7
      (by decide) [97] [98] (by decide)).1⟩

/-! ## C2 and C4: the accepted sets -/

theorem matchesExactly_int (env : Env) (ctx : Context) (t : GoType)
    (ht : t.kind.isInt = true) (lo hi : Int) (mb xb : boundCmp) (P : Int → Prop)
    [DecidablePred P]
    (hP : ∀ g, (mb.admitsMin lo g && xb.admitsMax hi g) = decide (P g)) :
    matchesExactly env (.ok (.tdBetween ⟨.int t lo, .int t hi, mb, xb⟩)) ctx
      (Value.int t) P := by
  intro g
  rw [accepts_int env ctx t ht, rejects_int env ctx t ht, hP]
  exact ⟨rfl, rfl⟩

theorem matchesExactly_uint (env : Env) (ctx : Context) (t : GoType)
    (ht : t.kind.isUint = true) (lo hi : Nat) (mb xb : boundCmp) (P : Nat → Prop)
    [DecidablePred P]
    (hP : ∀ g, (mb.admitsMin lo g && xb.admitsMax hi g) = decide (P g)) :
    matchesExactly env (.ok (.tdBetween ⟨.uint t lo, .uint t hi, mb, xb⟩)) ctx
      (Value.uint t) P := by
  intro g
  rw [accepts_uint env ctx t ht, rejects_uint env ctx t ht, hP]
  exact ⟨rfl, rfl⟩

theorem matchesExactly_string (env : Env) (ctx : Context) (t : GoType)
    (ht : t.kind = .string) (lo hi : GoString) (mb xb : boundCmp) (P : GoString → Prop)
    [DecidablePred P]
    (hP : ∀ g, (mb.admitsMin lo g && xb.admitsMax hi g) = decide (P g)) :
    matchesExactly env (.ok (.tdBetween ⟨.string t lo, .string t hi, mb, xb⟩)) ctx
      (Value.string t) P := by
  intro g
  rw [accepts_string env ctx t ht, rejects_string env ctx t ht, hP]
  exact ⟨rfl, rfl⟩

theorem admits_in_in {α : Type} [LinearOrder α] (lo hi g : α) :
    (boundCmp.boundIn.admitsMin lo g && boundCmp.boundIn.admitsMax hi g)
      = decide (lo ≤ g ∧ g ≤ hi) := by
  simp [boundCmp.admitsMin, boundCmp.admitsMax, Bool.decide_and]

theorem admits_out_out {α : Type} [LinearOrder α] (lo hi g : α) :
    (boundCmp.boundOut.admitsMin lo g && boundCmp.boundOut.admitsMax hi g)
      = decide (lo < g ∧ g < hi) := by
  simp [boundCmp.admitsMin, boundCmp.admitsMax, Bool.decide_and]

theorem not_strictly_between_left {α : Type} [LinearOrder α] (a b : α) :
    ¬ (min a b < a ∧ a < max a b) := by
  rintro ⟨h1, h2⟩
  rcases le_total a b with h | h
  · rw [min_eq_left h] at h1; exact lt_irrefl _ h1
  · rw [max_eq_left h] at h2; exact lt_irrefl _ h2

theorem not_strictly_between_right {α : Type} [LinearOrder α] (a b : α) :
    ¬ (min a b < b ∧ b < max a b) := by
  rintro ⟨h1, h2⟩
  rcases le_total a b with h | h
  · rw [max_eq_right h] at h2; exact lt_irrefl _ h2
  · rw [min_eq_right h] at h1; exact lt_irrefl _ h1

/-- C2: for integer or string operands a, b and every got of their type,
`Between(a, b, BoundsInIn)` and `Between(a, b)` match got iff
min(a,b) <= got <= max(a,b), so they accept a and b; `Between(a, b, BoundsOutOut)`
matches got iff min(a,b) < got < max(a,b), so it rejects a and b. -/
theorem Between_in_in_out_out (env : Env) (ctx : Context) (ti tu ts : GoType)
    (hti : ti.kind.isInt = true) (htu : tu.kind.isUint = true)
    (hts : ts.kind = .string) (a b : Int) (ua ub : Nat) (sa sb : GoString) :
    (matchesExactly env (Between (.int ti a) (.int ti b) [.BoundsInIn]) ctx
        (Value.int ti) (fun g => min a b ≤ g ∧ g ≤ max a b)
      ∧ matchesExactly env (Between (.int ti a) (.int ti b) []) ctx
        (Value.int ti) (fun g => min a b ≤ g ∧ g ≤ max a b)
      ∧ matchesExactly env (Between (.int ti a) (.int ti b) [.BoundsOutOut]) ctx
        (Value.int ti) (fun g => min a b < g ∧ g < max a b)
      ∧ accepts env (Between (.int ti a) (.int ti b) [.BoundsInIn]) ctx (.int ti a) = true
      ∧ accepts env (Between (.int ti a) (.int ti b) [.BoundsInIn]) ctx (.int ti b) = true
      ∧ rejects env (Between (.int ti a) (.int ti b) [.BoundsOutOut]) ctx (.int ti a) = true
      ∧ rejects env (Between (.int ti a) (.int ti b) [.BoundsOutOut]) ctx (.int ti b) = true)
    ∧ (matchesExactly env (Between (.uint tu ua) (.uint tu ub) [.BoundsInIn]) ctx
        (Value.uint tu) (fun g => min ua ub ≤ g ∧ g ≤ max ua ub)
      ∧ matchesExactly env (Between (.uint tu ua) (.uint tu ub) []) ctx
        (Value.uint tu) (fun g => min ua ub ≤ g ∧ g ≤ max ua ub)
      ∧ matchesExactly env (Between (.uint tu ua) (.uint tu ub) [.BoundsOutOut]) ctx
        (Value.uint tu) (fun g => min ua ub < g ∧ g < max ua ub)
      ∧ accepts env (Between (.uint tu ua) (.uint tu ub) [.BoundsInIn]) ctx (.uint tu ua) = true
      ∧ accepts env (Between (.uint tu ua) (.uint tu ub) [.BoundsInIn]) ctx (.uint tu ub) = true
      ∧ rejects env (Between (.uint tu ua) (.uint tu ub) [.BoundsOutOut]) ctx (.uint tu ua) = true
      ∧ rejects env (Between (.uint tu ua) (.uint tu ub) [.BoundsOutOut]) ctx (.uint tu ub) = true)
    ∧ (matchesExactly env (Between (.string ts sa) (.string ts sb) [.BoundsInIn]) ctx
        (Value.string ts) (fun g => min sa sb ≤ g ∧ g ≤ max sa sb)
      ∧ matchesExactly env (Between (.string ts sa) (.string ts sb) []) ctx
        (Value.string ts) (fun g => min sa sb ≤ g ∧ g ≤ max sa sb)
      ∧ matchesExactly env (Between (.string ts sa) (.string ts sb) [.BoundsOutOut]) ctx
        (Value.string ts) (fun g => min sa sb < g ∧ g < max sa sb)
      ∧ accepts env (Between (.string ts sa) (.string ts sb) [.BoundsInIn]) ctx
          (.string ts sa) = true
      ∧ accepts env (Between (.string ts sa) (.string ts sb) [.BoundsInIn]) ctx
          (.string ts sb) = true
      ∧ rejects env (Between (.string ts sa) (.string ts sb) [.BoundsOutOut]) ctx
          (.string ts sa) = true
      ∧ rejects env (Between (.string ts sa) (.string ts sb) [.BoundsOutOut]) ctx
          (.string ts sb) = true) := by
  have i1 := matchesExactly_int env ctx ti hti (min a b) (max a b) .boundIn .boundIn
    (fun g => min a b ≤ g ∧ g ≤ max a b) (fun g => admits_in_in _ _ g)
  have i2 := matchesExactly_int env ctx ti hti (min a b) (max a b) .boundOut .boundOut
    (fun g => min a b < g ∧ g < max a b) (fun g => admits_out_out _ _ g)
  have u1 := matchesExactly_uint env ctx tu htu (min ua ub) (max ua ub) .boundIn .boundIn
    (fun g => min ua ub ≤ g ∧ g ≤ max ua ub) (fun g => admits_in_in _ _ g)
  have u2 := matchesExactly_uint env ctx tu htu (min ua ub) (max ua ub) .boundOut .boundOut
    (fun g => min ua ub < g ∧ g < max ua ub) (fun g => admits_out_out _ _ g)
  have s1 := matchesExactly_string env ctx ts hts (min sa sb) (max sa sb) .boundIn .boundIn
    (fun g => min sa sb ≤ g ∧ g ≤ max sa sb) (fun g => admits_in_in _ _ g)
  have s2 := matchesExactly_string env ctx ts hts (min sa sb) (max sa sb) .boundOut
    .boundOut (fun g => min sa sb < g ∧ g < max sa sb) (fun g => admits_out_out _ _ g)
  simp only [Between_int ti hti, Between_int_default ti hti, Between_uint tu htu,
    Between_uint_default tu htu, Between_string ts hts, Between_string_default ts hts]
  simp only [true_or, or_true, if_true, reduceIte, reduceCtorEq, or_self, if_false]
  refine ⟨⟨i1, i1, i2, ?_, ?_, ?_, ?_⟩, ⟨u1, u1, u2, ?_, ?_, ?_, ?_⟩,
    ⟨s1, s1, s2, ?_, ?_, ?_, ?_⟩⟩
  · rw [(i1 a).1]; exact decide_eq_true ⟨min_le_left _ _, le_max_left _ _⟩
  · rw [(i1 b).1]; exact decide_eq_true ⟨min_le_right _ _, le_max_right _ _⟩
  · rw [(i2 a).2, decide_eq_false (not_strictly_between_left _ _)]; rfl
  · rw [(i2 b).2, decide_eq_false (not_strictly_between_right _ _)]; rfl
  · rw [(u1 ua).1]; exact decide_eq_true ⟨min_le_left _ _, le_max_left _ _⟩
  · rw [(u1 ub).1]; exact decide_eq_true ⟨min_le_right _ _, le_max_right _ _⟩
  · rw [(u2 ua).2, decide_eq_false (not_strictly_between_left _ _)]; rfl
  · rw [(u2 ub).2, decide_eq_false (not_strictly_between_right _ _)]; rfl
  · rw [(s1 sa).1]; exact decide_eq_true ⟨min_le_left _ _, le_max_left _ _⟩
  · rw [(s1 sb).1]; exact decide_eq_true ⟨min_le_right _ _, le_max_right _ _⟩
  · rw [(s2 sa).2, decide_eq_false (not_strictly_between_left _ _)]; rfl
  · rw [(s2 sb).2, decide_eq_false (not_strictly_between_right _ _)]; rfl

/-- C2 on concrete operands: `Between(10, 1)` with both bounds included accepts
10 and 1; with both bounds excluded it rejects them. -/
theorem Between_in_in_out_out_witness :
    ((GoType.basic .int).kind.isInt = true ∧ (GoType.basic .uint).kind.isUint = true
      ∧ (GoType.basic .string).kind = .string)
    ∧ accepts sampleEnv (Between (.int (.basic .int) 10) (.int (.basic .int) 1)
        [.BoundsInIn]) sampleCtx (.int (.basic .int) 10) = true
    ∧ accepts sampleEnv (Between (.int (.basic .int) 10) (.int (.basic .int) 1)
        [.BoundsInIn]) sampleCtx (.int (.basic .int) 1) = true
    ∧ rejects sampleEnv (Between (.int (.basic .int) 10) (.int (.basic .int) 1)
        [.BoundsOutOut]) sampleCtx (.int (.basic .int) 10) = true
    ∧ rejects sampleEnv (Between (.int (.basic .int) 10) (.int (.basic .int) 1)
        [.BoundsOutOut]) sampleCtx (.int (.basic .int) 1) = true :=
  ⟨⟨rfl, rfl, rfl⟩,
    (Between_in_in_out_out sampleEnv sampleCtx (.basic .int) (.basic .uint)
      (.basic .string) rfl rfl rfl 10 1 7 2 [98] [97]).1.2.2.2⟩

theorem Gt_int (t : GoType) (ht : t.kind.isInt = true) (v : Int) (mb xb : boundCmp)
    (u : String) :
    tdBetween.initBetween ⟨.int t v, .invalid, mb, xb⟩ u
      = .ok (.tdBetween ⟨.int t v, .int t v, mb, xb⟩) := by
  rw [initBetween_unset, initBetween_int t ht, min_self, max_self]

theorem Gt_uint (t : GoType) (ht : t.kind.isUint = true) (v : Nat) (mb xb : boundCmp)
    (u : String) :
    tdBetween.initBetween ⟨.uint t v, .invalid, mb, xb⟩ u
      = .ok (.tdBetween ⟨.uint t v, .uint t v, mb, xb⟩) := by
  rw [initBetween_unset, initBetween_uint t ht, min_self, max_self]

theorem Gt_string (t : GoType) (ht : t.kind = .string) (v : GoString) (mb xb : boundCmp)
    (u : String) :
    tdBetween.initBetween ⟨.string t v, .invalid, mb, xb⟩ u
      = .ok (.tdBetween ⟨.string t v, .string t v, mb, xb⟩) := by
  rw [initBetween_unset, initBetween_string t ht, min_self, max_self]

/-- C4: for an integer or string val and every got of its type, `Gt(val)`
matches got iff got > val, `Gte(val)` iff got >= val, `Lt(val)` iff got < val,
`Lte(val)` iff got <= val. -/
theorem Gt_Gte_Lt_Lte_match (env : Env) (ctx : Context) (ti tu ts : GoType)
    (hti : ti.kind.isInt = true) (htu : tu.kind.isUint = true)
    (hts : ts.kind = .string) (v : Int) (uv : Nat) (sv : GoString) :
    (matchesExactly env (Gt (.int ti v)) ctx (Value.int ti) (fun g => g > v)
      ∧ matchesExactly env (Gte (.int ti v)) ctx (Value.int ti) (fun g => g ≥ v)
      ∧ matchesExactly env (Lt (.int ti v)) ctx (Value.int ti) (fun g => g < v)
      ∧ matchesExactly env (Lte (.int ti v)) ctx (Value.int ti) (fun g => g ≤ v))
    ∧ (matchesExactly env (Gt (.uint tu uv)) ctx (Value.uint tu) (fun g => g > uv)
      ∧ matchesExactly env (Gte (.uint tu uv)) ctx (Value.uint tu) (fun g => g ≥ uv)
      ∧ matchesExactly env (Lt (.uint tu uv)) ctx (Value.uint tu) (fun g => g < uv)
      ∧ matchesExactly env (Lte (.uint tu uv)) ctx (Value.uint tu) (fun g => g ≤ uv))
    ∧ (matchesExactly env (Gt (.string ts sv)) ctx (Value.string ts) (fun g => g > sv)
      ∧ matchesExactly env (Gte (.string ts sv)) ctx (Value.string ts) (fun g => g ≥ sv)
      ∧ matchesExactly env (Lt (.string ts sv)) ctx (Value.string ts) (fun g => g < sv)
      ∧ matchesExactly env (Lte (.string ts sv)) ctx (Value.string ts)
          (fun g => g ≤ sv)) := by
  simp only [Gt, Gte, Lt, Lte, Gt_int ti hti, Gt_uint tu htu, Gt_string ts hts]
  refine ⟨⟨?_, ?_, ?_, ?_⟩, ⟨?_, ?_, ?_, ?_⟩, ⟨?_, ?_, ?_, ?_⟩⟩
  all_goals first
    | exact matchesExactly_int env ctx ti hti _ _ _ _ _
        (fun g => by simp [boundCmp.admitsMin, boundCmp.admitsMax])
    | exact matchesExactly_uint env ctx tu htu _ _ _ _ _
        (fun g => by simp [boundCmp.admitsMin, boundCmp.admitsMax])
    | exact matchesExactly_string env ctx ts hts _ _ _ _ _
        (fun g => by simp [boundCmp.admitsMin, boundCmp.admitsMax])

/-- C4 on concrete operands: `Gt(3)` accepts the int 4 and rejects the int 3. -/
theorem Gt_Gte_Lt_Lte_match_witness :
    ((GoType.basic .int).kind.isInt = true ∧ (GoType.basic .uint).kind.isUint = true
      ∧ (GoType.basic .string).kind = .string)
    ∧ accepts sampleEnv (Gt (.int (.basic .int) 3)) sampleCtx (.int (.basic .int) 4)
        = decide ((4 : Int) > 3)
    ∧ rejects sampleEnv (Gt (.int (.basic .int) 3)) sampleCtx (.int (.basic .int) 3)
        = !decide ((3 : Int) > 3) :=
  ⟨⟨rfl, rfl, rfl⟩,
    ((Gt_Gte_Lt_Lte_match sampleEnv sampleCtx (.basic .int) (.basic .uint)
      (.basic .string) rfl rfl rfl 3 5 [97]).1.1 4).1,
    ((Gt_Gte_Lt_Lte_match sampleEnv sampleCtx (.basic .int) (.basic .uint)
      (.basic .string) rfl rfl rfl 3 5 [97]).1.1 3).2⟩

/-! ## C3: the bounds kinds on reversed operands -/

/-- C3, evaluated on `Between(5, 1, BoundsInOut)` and `Between(5, 1, BoundsOutIn)`
(from = 5 > to = 1): with `BoundsInOut` the operator rejects from and accepts
to, with `BoundsOutIn` it accepts from and rejects to.  The kinds are documented
as "from included, to excluded" and "from excluded, to included". -/
theorem Between_reversed_bounds_kinds :
    rejects sampleEnv (Between (.int (.basic .int) 5) (.int (.basic .int) 1)
        [.BoundsInOut]) sampleCtx (.int (.basic .int) 5) = true
    ∧ accepts sampleEnv (Between (.int (.basic .int) 5) (.int (.basic .int) 1)
        [.BoundsInOut]) sampleCtx (.int (.basic .int) 1) = true
    ∧ accepts sampleEnv (Between (.int (.basic .int) 5) (.int (.basic .int) 1)
        [.BoundsOutIn]) sampleCtx (.int (.basic .int) 5) = true
    ∧ rejects sampleEnv (Between (.int (.basic .int) 5) (.int (.basic .int) 1)
        [.BoundsOutIn]) sampleCtx (.int (.basic .int) 1) = true := by
  simp only [Between_int (.basic .int) rfl, accepts_int sampleEnv sampleCtx (.basic .int) rfl,
    rejects_int sampleEnv sampleCtx (.basic .int) rfl]
  decide

/-! ## C5: N on 64-bit integers -/

theorem MaxInt64_eq : MaxInt64 = 9223372036854775807 := by
  unfold MaxInt64; norm_num

theorem MinInt64_eq : MinInt64 = -9223372036854775808 := by
  unfold MinInt64; norm_num

theorem MaxUint64_eq : MaxUint64 = 18446744073709551615 := by
  unfold MaxUint64; norm_num

theorem wrapInt_64 (x : Int) :
    wrapInt 64 x = (x + 9223372036854775808) % 18446744073709551616
      - 9223372036854775808 := by
  unfold wrapInt; norm_num

theorem wrapUint_64 (x : Int) :
    wrapUint 64 x = (x % 18446744073709551616).toNat := by
  unfold wrapUint; norm_num

/-- The operator `N(num, tol)` builds on int64 operands, for tol >= 0: its bounds
are num - tol and num + tol clamped to the int64 range. -/
theorem N_int64 (env : Env) (t : GoType) (ht : t.kind = .int64) (num tol : Int)
    (hn1 : MinInt64 ≤ num) (hn2 : num ≤ MaxInt64) (ht1 : 0 ≤ tol) (ht2 : tol ≤ MaxInt64) :
    N env (.int t num) [.int t tol]
      = .ok (.tdBetween ⟨.int t (max (num - tol) MinInt64),
          .int t (min (num + tol) MaxInt64), .boundIn, .boundIn⟩) := by
  rw [MinInt64_eq] at hn1
  rw [MaxInt64_eq] at hn2 ht2
  by_cases h0 : tol = 0
  · subst h0
    have e1 : max (num - 0) MinInt64 = num := by
      rw [MinInt64_eq]; omega
    have e2 : min (num + 0) MaxInt64 = num := by
      rw [MaxInt64_eq]; omega
    rw [e1, e2]
    simp [N, Value.kind, Value.typ, ht, Kind.isInt, Value.typeOf, tdBetween.nInt,
      Value.asInt, Bind.bind, Except.bind, pure, Except.pure]
  · have m1 : (if wrapInt 64 (num + tol) < num then MaxInt64 else wrapInt 64 (num + tol))
        = min (num + tol) MaxInt64 := by
      rw [wrapInt_64, MaxInt64_eq]
      split_ifs <;> omega
    have m2 : (if wrapInt 64 (num - tol) > num then MinInt64 else wrapInt 64 (num - tol))
        = max (num - tol) MinInt64 := by
      rw [wrapInt_64, MinInt64_eq]
      split_ifs <;> omega
    have s1 : wrapInt 64 (min (num + tol) MaxInt64) = min (num + tol) MaxInt64 := by
      rw [wrapInt_64, MaxInt64_eq]; omega
    have s2 : wrapInt 64 (max (num - tol) MinInt64) = max (num - tol) MinInt64 := by
      rw [wrapInt_64, MinInt64_eq]; omega
    simp only [N, Value.kind, Value.typ, ht, Kind.isInt, Value.typeOf, tdBetween.nInt,
      Value.asInt, Bind.bind, Except.bind, pure, Except.pure, Value.SetInt, Kind.bits]
    simp [h0, m1, m2, s1, s2]

/-- The operator `N(num, tol)` builds on uint64 operands: its bounds are
num - tol and num + tol clamped to the uint64 range. -/
theorem N_uint64 (env : Env) (t : GoType) (ht : t.kind = .uint64) (num tol : Nat)
    (hn : num ≤ MaxUint64) (htol : tol ≤ MaxUint64) :
    N env (.uint t num) [.uint t tol]
      = .ok (.tdBetween ⟨.uint t (num - tol), .uint t (min (num + tol) MaxUint64),
          .boundIn, .boundIn⟩) := by
  rw [MaxUint64_eq] at hn htol
  by_cases h0 : tol = 0
  · subst h0
    have e2 : min (num + 0) MaxUint64 = num := by
      rw [MaxUint64_eq]; omega
    rw [e2]
    simp [N, Value.kind, Value.typ, ht, Kind.isInt, Kind.isUint, Value.typeOf,
      tdBetween.nUint, Value.asUint, Bind.bind, Except.bind, pure, Except.pure]
  · have m1 : (if wrapUint 64 ((num : Int) + tol) < num then MaxUint64
        else wrapUint 64 ((num : Int) + tol)) = min (num + tol) MaxUint64 := by
      rw [wrapUint_64, MaxUint64_eq]
      split_ifs <;> omega
    have m2 : (if wrapUint 64 ((num : Int) - tol) > num then 0
        else wrapUint 64 ((num : Int) - tol)) = num - tol := by
      rw [wrapUint_64]
      split_ifs <;> omega
    have s1 : wrapUint 64 (min ((num : Int) + (tol : Int)) ((MaxUint64 : Nat) : Int))
        = min (num + tol) MaxUint64 := by
      rw [wrapUint_64, MaxUint64_eq]; push_cast; omega
    have s2 : wrapUint 64 ((num - tol : Nat) : Int) = num - tol := by
      rw [wrapUint_64]; omega
    simp only [N, Value.kind, Value.typ, ht, Kind.isInt, Kind.isUint, Value.typeOf,
      tdBetween.nUint, Value.asUint, Bind.bind, Except.bind, pure, Except.pure,
      Value.SetUint, Kind.bits]
    simp [h0, m1, m2, s1, s2]

theorem N_int_default (env : Env) (t : GoType) (ht : t.kind.isInt = true) (num : Int) :
    N env (.int t num) []
      = .ok (.tdBetween ⟨.int t num, .int t num, .boundIn, .boundIn⟩) := by
  simp [N, Value.kind, Value.typ, ht, Bind.bind, Except.bind, pure, Except.pure]

theorem N_uint_default (env : Env) (t : GoType) (ht : t.kind.isUint = true) (num : Nat) :
    N env (.uint t num) []
      = .ok (.tdBetween ⟨.uint t num, .uint t num, .boundIn, .boundIn⟩) := by
  simp [N, Value.kind, Value.typ, ht, Bind.bind, Except.bind, pure, Except.pure]

/-- C5: on int64 operands with tolerance tol >= 0, and on uint64 operands with
any tolerance, `N(num, tol)` matches got iff num - tol <= got <= num + tol, the
two bounds being taken over the unbounded integers; with the tolerance omitted
or 0, `N(num)` matches got iff got = num. -/
theorem N_matches_within_tolerance (env : Env) (ctx : Context) (ti tu : GoType)
    (hti : ti.kind = .int64) (htu : tu.kind = .uint64)
    (num tol g : Int) (hn1 : MinInt64 ≤ num) (hn2 : num ≤ MaxInt64)
    (ht1 : 0 ≤ tol) (ht2 : tol ≤ MaxInt64) (hg1 : MinInt64 ≤ g) (hg2 : g ≤ MaxInt64)
    (unum utol ug : Nat) (hun : unum ≤ MaxUint64) (hut : utol ≤ MaxUint64)
    (hug : ug ≤ MaxUint64) :
    (accepts env (N env (.int ti num) [.int ti tol]) ctx (.int ti g)
        = decide (num - tol ≤ g ∧ g ≤ num + tol)
      ∧ rejects env (N env (.int ti num) [.int ti tol]) ctx (.int ti g)
        = !decide (num - tol ≤ g ∧ g ≤ num + tol)
      ∧ accepts env (N env (.int ti num) []) ctx (.int ti g) = decide (g = num)
      ∧ rejects env (N env (.int ti num) []) ctx (.int ti g) = !decide (g = num)
      ∧ accepts env (N env (.int ti num) [.int ti 0]) ctx (.int ti g) = decide (g = num)
      ∧ rejects env (N env (.int ti num) [.int ti 0]) ctx (.int ti g)
        = !decide (g = num))
    ∧ (accepts env (N env (.uint tu unum) [.uint tu utol]) ctx (.uint tu ug)
        = decide ((unum : Int) - utol ≤ ug ∧ (ug : Int) ≤ unum + utol)
      ∧ rejects env (N env (.uint tu unum) [.uint tu utol]) ctx (.uint tu ug)
        = !decide ((unum : Int) - utol ≤ ug ∧ (ug : Int) ≤ unum + utol)
      ∧ accepts env (N env (.uint tu unum) []) ctx (.uint tu ug) = decide (ug = unum)
      ∧ rejects env (N env (.uint tu unum) []) ctx (.uint tu ug) = !decide (ug = unum)
      ∧ accepts env (N env (.uint tu unum) [.uint tu 0]) ctx (.uint tu ug)
        = decide (ug = unum)
      ∧ rejects env (N env (.uint tu unum) [.uint tu 0]) ctx (.uint tu ug)
        = !decide (ug = unum)) := by
  have ki : ti.kind.isInt = true := by rw [hti]; rfl
  have ku : tu.kind.isUint = true := by rw [htu]; rfl
  have z2 : (0 : Int) ≤ MaxInt64 := by rw [MaxInt64_eq]; omega
  rw [N_int64 env ti hti num tol hn1 hn2 ht1 ht2,
    N_int64 env ti hti num 0 hn1 hn2 (le_refl 0) z2,
    N_uint64 env tu htu unum utol hun hut,
    N_uint64 env tu htu unum 0 hun (Nat.zero_le _),
    N_int_default env ti ki, N_uint_default env tu ku]
  simp only [accepts_int env ctx ti ki, rejects_int env ctx ti ki,
    accepts_uint env ctx tu ku, rejects_uint env ctx tu ku, admits_in_in]
  rw [MinInt64_eq] at hn1 hg1
  rw [MaxInt64_eq] at hn2 ht2 hg2
  rw [MaxUint64_eq] at hun hut hug
  have p1 : (max (num - tol) MinInt64 ≤ g ∧ g ≤ min (num + tol) MaxInt64)
      ↔ (num - tol ≤ g ∧ g ≤ num + tol) := by
    rw [MinInt64_eq, MaxInt64_eq]; omega
  have p2 : (max (num - 0) MinInt64 ≤ g ∧ g ≤ min (num + 0) MaxInt64) ↔ g = num := by
    rw [MinInt64_eq, MaxInt64_eq]; omega
  have p3 : (num ≤ g ∧ g ≤ num) ↔ g = num := by omega
  have p4 : (unum - utol ≤ ug ∧ ug ≤ min (unum + utol) MaxUint64)
      ↔ ((unum : Int) - utol ≤ ug ∧ (ug : Int) ≤ unum + utol) := by
    rw [MaxUint64_eq]; omega
  have p5 : (unum - 0 ≤ ug ∧ ug ≤ min (unum + 0) MaxUint64) ↔ ug = unum := by
    rw [MaxUint64_eq]; omega
  have p6 : (unum ≤ ug ∧ ug ≤ unum) ↔ ug = unum := by omega
  simp only [p1, p2, p3, p4, p5, p6, and_self]

/-- C5 on concrete operands: `N(int64 10, int64 3)` accepts 13, and
`N(uint64 10, uint64 3)` rejects 14. -/
theorem N_matches_within_tolerance_witness :
    ((GoType.basic .int64).kind = .int64 ∧ (GoType.basic .uint64).kind = .uint64
      ∧ MinInt64 ≤ 10 ∧ (10 : Int) ≤ MaxInt64 ∧ (0 : Int) ≤ 3 ∧ (3 : Int) ≤ MaxInt64
      ∧ MinInt64 ≤ 13 ∧ (13 : Int) ≤ MaxInt64
      ∧ 10 ≤ MaxUint64 ∧ 3 ≤ MaxUint64 ∧ 14 ≤ MaxUint64)
    ∧ accepts sampleEnv (N sampleEnv (.int (.basic .int64) 10) [.int (.basic .int64) 3])
        sampleCtx (.int (.basic .int64) 13)
        = decide ((10 : Int) - 3 ≤ 13 ∧ (13 : Int) ≤ 10 + 3)
    ∧ rejects sampleEnv (N sampleEnv (.uint (.basic .uint64) 10)
        [.uint (.basic .uint64) 3]) sampleCtx (.uint (.basic .uint64) 14)
        = !decide (((10 : Nat) : Int) - (3 : Nat) ≤ (14 : Nat)
            ∧ ((14 : Nat) : Int) ≤ (10 : Nat) + (3 : Nat)) :=
  ⟨⟨rfl, rfl, by decide, by decide, by decide, by decide, by decide, by decide,
      by decide, by decide, by decide⟩,
    (N_matches_within_tolerance sampleEnv sampleCtx (.basic .int64) (.basic .uint64)
      rfl rfl 10 3 13 (by decide) (by decide) (by decide) (by decide) (by decide)
      (by decide) 10 3 14 (by decide) (by decide) (by decide)).1.1,
    (N_matches_within_tolerance sampleEnv sampleCtx (.basic .int64) (.basic .uint64)
      rfl rfl 10 3 13 (by decide) (by decide) (by decide) (by decide) (by decide)
      (by decide) 10 3 14 (by decide) (by decide) (by decide)).2.2.1⟩

/-! ## C6: N on the narrower integer types -/

/-- C6, evaluated on `N(int8(100), int8(100))` and `N(uint8(200), uint8(100))`:
the upper bound the operator stores is 100 + 100 truncated to 8 bits, that is
-56 (not 127), and 200 + 100 truncated to 8 bits, that is 44 (not 255); the
first operator does not even match 100, the second does not match 200. -/
theorem N_int8_bounds_wrap :
    N sampleEnv (.int (.basic .int8) 100) [.int (.basic .int8) 100]
        = .ok (.tdBetween ⟨.int (.basic .int8) 0, .int (.basic .int8) (-56),
            .boundIn, .boundIn⟩)
    ∧ rejects sampleEnv (N sampleEnv (.int (.basic .int8) 100) [.int (.basic .int8) 100])
        sampleCtx (.int (.basic .int8) 100) = true
    ∧ N sampleEnv (.uint (.basic .uint8) 200) [.uint (.basic .uint8) 100]
        = .ok (.tdBetween ⟨.uint (.basic .uint8) 100, .uint (.basic .uint8) 44,
            .boundIn, .boundIn⟩)
    ∧ rejects sampleEnv (N sampleEnv (.uint (.basic .uint8) 200)
        [.uint (.basic .uint8) 100]) sampleCtx (.uint (.basic .uint8) 200) = true := by
  have e1 : N sampleEnv (.int (.basic .int8) 100) [.int (.basic .int8) 100]
        = .ok (.tdBetween ⟨.int (.basic .int8) 0, .int (.basic .int8) (-56),
            .boundIn, .boundIn⟩) := by
    simp only [N, Value.kind, Value.typ, GoType.kind, Kind.isInt, Value.typeOf,
      tdBetween.nInt, Value.asInt, Bind.bind, Except.bind, pure, Except.pure,
      Value.SetInt, Kind.bits, wrapInt, MaxInt64, MinInt64]
    norm_num
  have e2 : N sampleEnv (.uint (.basic .uint8) 200) [.uint (.basic .uint8) 100]
        = .ok (.tdBetween ⟨.uint (.basic .uint8) 100, .uint (.basic .uint8) 44,
            .boundIn, .boundIn⟩) := by
    simp only [N, Value.kind, Value.typ, GoType.kind, Kind.isInt, Kind.isUint,
      Value.typeOf, tdBetween.nUint, Value.asUint, Bind.bind, Except.bind, pure,
      Except.pure, Value.SetUint, Kind.bits, wrapUint, MaxUint64]
    norm_num
    exact ⟨rfl, rfl⟩
  refine ⟨e1, ?_, e2, ?_⟩
  · rw [e1, rejects_int sampleEnv sampleCtx (.basic .int8) rfl]; decide
  · rw [e2, rejects_uint sampleEnv sampleCtx (.basic .uint8) rfl]; decide

/-! ## C7: a got of another type -/

/-- On a got whose type differs from the type of the lower bound, `Match`
returns the "type mismatch" error (the sentinel in boolean mode). -/
theorem Match_type_mismatch (env : Env) (ctx : Context) (b : tdBetween) (got : Value)
    (tb tg : GoType) (htb : b.expectedMin.typ = some tb) (htg : got.typ = some tg)
    (hne : tg ≠ tb) :
    b.Match env ctx got
      = .ok (if ctx.BooleanError = true then .BooleanError
             else .error { Context := some ctx, Message := "type mismatch",
                           Got := .RawString tg.str, Expected := .RawString tb.str }) := by
  simp only [tdBetween.Match, Value.typeOf, htb, htg, Bind.bind, Except.bind, pure,
    Except.pure, Context.CollectError]
  simp [hne]
  split_ifs <;> rfl

theorem initBetween_typ_aux (mn mx : Value) (mb xb : boundCmp) (r : tdBetween)
    (u : String) (hx : mx.typ = mn.typ)
    (h : tdBetween.initBetween ⟨mn, mx, mb, xb⟩ u = .ok (.tdBetween r))
    (hv : mx.IsValid = true) :
    r.expectedMin.typ = mn.typ := by
  simp only [tdBetween.initBetween, Bind.bind, Except.bind, pure, Except.pure, hv] at h
  simp at h
  split_ifs at h
  · cases e1 : mn.asInt <;> cases e2 : mx.asInt <;> simp [e1, e2] at h
    split_ifs at h <;> simp at h <;> subst h <;> simp [hx]
  · cases e1 : mn.asUint <;> cases e2 : mx.asUint <;> simp [e1, e2] at h
    split_ifs at h <;> simp at h <;> subst h <;> simp [hx]
  · cases e1 : mn.asFloat <;> cases e2 : mx.asFloat <;> simp [e1, e2] at h
    split_ifs at h <;> simp at h <;> subst h <;> simp [hx]
  · simp at h; subst h; simp [hx]
  · simp at h; subst h; simp
  · exfalso
    cases e1 : mn.typeOf <;> simp [e1] at h
    split at h
    · simp at h
    · split at h
      · simp at h
      · split_ifs at h <;> simp at h

/-- The lower bound of the operator `initBetween` builds has the type of the
lower bound it was given, when the upper bound is unset or of the same type. -/
theorem initBetween_typ (b r : tdBetween) (u : String)
    (h : b.initBetween u = .ok (.tdBetween r))
    (hx : b.expectedMax = .invalid ∨ b.expectedMax.typ = b.expectedMin.typ) :
    r.expectedMin.typ = b.expectedMin.typ := by
  obtain ⟨mn, mx, mb, xb⟩ := b
  simp only at hx
  by_cases hv : mx.IsValid = true
  · rcases hx with hx | hx
    · rw [hx] at hv; simp [Value.IsValid] at hv
    · exact initBetween_typ_aux mn mx mb xb r u hx h hv
  · have hmx : mx = .invalid := by
      cases mx <;> simp_all [Value.IsValid]
    subst hmx
    rw [initBetween_unset] at h
    by_cases hv2 : mn.IsValid = true
    · exact initBetween_typ_aux mn mn mb xb r u rfl h hv2
    · have hmn : mn = .invalid := by
        cases mn <;> simp_all [Value.IsValid]
      subst hmn
      simp [tdBetween.initBetween, Value.IsValid, Value.kind, Value.typ, Kind.isInt,
        Kind.isUint, Kind.isFloat] at h

theorem typeOf_ok {v : Value} {t : GoType} (h : v.typeOf = .ok t) : v.typ = some t := by
  unfold Value.typeOf at h
  split at h <;> simp_all

theorem Between_typ (from_ to_ : Value) (bs : List BoundsKind) (r : tdBetween)
    (h : Between from_ to_ bs = .ok (.tdBetween r)) :
    r.expectedMin.typ = from_.typ := by
  simp only [Between, Bind.bind, Except.bind, pure, Except.pure] at h
  cases e1 : to_.typeOf with
  | error p => rcases bs with _ | ⟨k, _ | ⟨k2, l⟩⟩ <;> simp [e1] at h
  | ok tmax =>
    cases e2 : from_.typeOf with
    | error p => rcases bs with _ | ⟨k, _ | ⟨k2, l⟩⟩ <;> simp [e1, e2] at h
    | ok tmin =>
      by_cases hne : tmax = tmin
      · subst hne
        have hx : to_.typ = from_.typ := by rw [typeOf_ok e1, typeOf_ok e2]
        rcases bs with _ | ⟨k, _ | ⟨k2, l⟩⟩
        · simp only [e1, e2, ne_eq, not_true_eq_false, if_false] at h
          exact initBetween_typ _ r _ h (Or.inr hx)
        · simp only [e1, e2, ne_eq, not_true_eq_false, if_false] at h
          exact initBetween_typ _ r _ h (Or.inr hx)
        · simp at h
      · rcases bs with _ | ⟨k, _ | ⟨k2, l⟩⟩ <;> simp [e1, e2, hne] at h

theorem nInt_typ (b r : tdBetween) (tol : Value) (h : b.nInt tol = .ok r)
    (ht : tol.typ = b.expectedMin.typ) : r.expectedMin.typ = b.expectedMin.typ := by
  simp only [tdBetween.nInt, Bind.bind, Except.bind, pure, Except.pure] at h
  cases e1 : tol.asInt <;> simp [e1] at h
  split_ifs at h
  · simp at h; subst h; rfl
  · cases e2 : b.expectedMin.asInt <;> simp [e2] at h
    cases e3 : tol.typeOf <;> simp [e3] at h
    subst h
    change (Value.int _ _).typ = b.expectedMin.typ
    rw [← ht, typeOf_ok e3]; rfl

theorem nUint_typ (b r : tdBetween) (tol : Value) (h : b.nUint tol = .ok r)
    (ht : tol.typ = b.expectedMin.typ) : r.expectedMin.typ = b.expectedMin.typ := by
  simp only [tdBetween.nUint, Bind.bind, Except.bind, pure, Except.pure] at h
  cases e1 : tol.asUint <;> simp [e1] at h
  split_ifs at h
  · simp at h; subst h; rfl
  · cases e2 : b.expectedMin.asUint <;> simp [e2] at h
    cases e3 : tol.typeOf <;> simp [e3] at h
    subst h
    change (Value.uint _ _).typ = b.expectedMin.typ
    rw [← ht, typeOf_ok e3]; rfl

theorem nFloat_typ (env : Env) (b r : tdBetween) (tol : Value)
    (h : b.nFloat env tol = .ok r) (ht : tol.typ = b.expectedMin.typ) :
    r.expectedMin.typ = b.expectedMin.typ := by
  simp only [tdBetween.nFloat, Bind.bind, Except.bind, pure, Except.pure] at h
  cases e1 : tol.asFloat <;> simp [e1] at h
  split_ifs at h
  · simp at h; subst h; rfl
  · cases e2 : b.expectedMin.asFloat <;> simp [e2] at h
    cases e3 : tol.typeOf <;> simp [e3] at h
    subst h
    change (Value.float _ _).typ = b.expectedMin.typ
    rw [← ht, typeOf_ok e3]; rfl

theorem N_typ (env : Env) (num : Value) (tol : List Value) (r : tdBetween)
    (h : N env num tol = .ok (.tdBetween r)) : r.expectedMin.typ = num.typ := by
  simp only [N, Bind.bind, Except.bind, pure, Except.pure] at h
  split_ifs at h with hk
  rcases tol with _ | ⟨t, _ | ⟨t2, l⟩⟩
  · simp at h; subst h; rfl
  · simp only at h
    cases e1 : t.typeOf with
    | error p => simp [e1] at h
    | ok ttol =>
      cases e2 : num.typeOf with
      | error p => simp [e1, e2] at h
      | ok tnum =>
        have ht : ttol = tnum → t.typ = num.typ := fun e => by
          rw [typeOf_ok e1, typeOf_ok e2, e]
        by_cases hne : ttol = tnum
        · simp only [e1, e2, hne, ne_eq, not_true_eq_false, if_false] at h
          split_ifs at h
          · cases e3 : tdBetween.nInt ⟨num, num, .boundIn, .boundIn⟩ t with
            | error p => simp [e3] at h
            | ok n =>
              simp [e3] at h; subst h
              exact nInt_typ _ _ _ e3 (ht hne)
          · cases e3 : tdBetween.nUint ⟨num, num, .boundIn, .boundIn⟩ t with
            | error p => simp [e3] at h
            | ok n =>
              simp [e3] at h; subst h
              exact nUint_typ _ _ _ e3 (ht hne)
          · cases e3 : tdBetween.nFloat env ⟨num, num, .boundIn, .boundIn⟩ t with
            | error p => simp [e3] at h
            | ok n =>
              simp [e3] at h; subst h
              exact nFloat_typ env _ _ _ e3 (ht hne)
        · simp [e1, e2, hne] at h
  · simp at h

/-- C7: an operator of the Between family built on non-time bounds (a
`tdBetween` returned by Between, N, Gt, Gte, Lt or Lte for the bound `bound`)
never matches a got whose type differs from the type of the bound: Match returns
the sentinel in boolean mode and, in diagnostic mode, the "type mismatch" error
whose Got is the name of the type of got and whose Expected is the name of the
type of the bound. -/
theorem Between_family_type_mismatch (env : Env) (ctx : Context) (bound to_ : Value)
    (bs : List BoundsKind) (tol : List Value) (b : tdBetween) (got : Value)
    (tb tg : GoType)
    (hb : Between bound to_ bs = .ok (.tdBetween b) ∨ N env bound tol = .ok (.tdBetween b)
      ∨ Gt bound = .ok (.tdBetween b) ∨ Gte bound = .ok (.tdBetween b)
      ∨ Lt bound = .ok (.tdBetween b) ∨ Lte bound = .ok (.tdBetween b))
    (htb : bound.typ = some tb) (htg : got.typ = some tg) (hne : tg ≠ tb) :
    TestDeep.Match env (.tdBetween b) ctx got
        = .ok (if ctx.BooleanError = true then .BooleanError
               else .error { Context := some ctx, Message := "type mismatch",
                             Got := .RawString tg.str, Expected := .RawString tb.str })
      ∧ accepts env (.ok (.tdBetween b)) ctx got = false
      ∧ rejects env (.ok (.tdBetween b)) ctx got = true := by
  have hty : b.expectedMin.typ = some tb := by
    rw [← htb]
    rcases hb with h | h | h | h | h | h
    · exact Between_typ _ _ _ _ h
    · exact N_typ _ _ _ _ h
    · exact initBetween_typ _ _ _ h (Or.inl rfl)
    · exact initBetween_typ _ _ _ h (Or.inl rfl)
    · exact initBetween_typ _ _ _ h (Or.inl rfl)
    · exact initBetween_typ _ _ _ h (Or.inl rfl)
  have hm := Match_type_mismatch env ctx b got tb tg hty htg hne
  refine ⟨hm, ?_, ?_⟩
  · simp only [accepts, TestDeep.Match, hm]
    cases ctx.BooleanError <;> simp
  · simp only [rejects, TestDeep.Match, hm]
    cases ctx.BooleanError <;> simp

/-- C7 on concrete operands: `Between(1, 10)` on int bounds, matched against the
int8 value 5, gives the "type mismatch" error with Got "int8" and Expected
"int". -/
theorem Between_family_type_mismatch_witness :
    ((Between (.int (.basic .int) 1) (.int (.basic .int) 10) []
        = .ok (.tdBetween ⟨.int (.basic .int) 1, .int (.basic .int) 10, .boundIn, .boundIn⟩))
      ∧ (Value.int (.basic .int) 1).typ = some (.basic .int)
      ∧ (Value.int (.basic .int8) 5).typ = some (.basic .int8)
      ∧ GoType.basic .int8 ≠ GoType.basic .int)
    ∧ TestDeep.Match sampleEnv
        (.tdBetween ⟨.int (.basic .int) 1, .int (.basic .int) 10, .boundIn, .boundIn⟩)
        sampleCtx (.int (.basic .int8) 5)
        = .ok (.error { Context := some sampleCtx, Message := "type mismatch",
                        Got := .RawString "int8", Expected := .RawString "int" }) :=
  ⟨⟨Between_int_default (.basic .int) rfl 1 10, rfl, rfl, by decide⟩,
    (Between_family_type_mismatch sampleEnv sampleCtx (.int (.basic .int) 1)
      (.int (.basic .int) 10) [] []
      ⟨.int (.basic .int) 1, .int (.basic .int) 10, .boundIn, .boundIn⟩
      (.int (.basic .int8) 5) (.basic .int) (.basic .int8)
      (Or.inl (Between_int_default (.basic .int) rfl 1 10)) rfl rfl (by decide)).1⟩

/-! ## C8: NaN -/

theorem GoFloat.lt_nan_left (m : GoFloat) : GoFloat.lt .nan m = false := by
  cases m <;> rfl

theorem GoFloat.lt_nan_right (m : GoFloat) : GoFloat.lt m .nan = false := by
  cases m <;> rfl

theorem GoFloat.le_nan_left (m : GoFloat) : GoFloat.le .nan m = false := by
  cases m <;> rfl

theorem GoFloat.le_nan_right (m : GoFloat) : GoFloat.le m .nan = false := by
  cases m <;> rfl

/-- The method `matchFloat` finds no NaN within bounds, as soon as a bound is
set. -/
theorem matchFloat_nan (t u v : GoType) (x y : GoFloat) (mb xb : boundCmp)
    (hb : mb ≠ .boundNone ∨ xb ≠ .boundNone) :
    tdBetween.matchFloat ⟨.float t x, .float u y, mb, xb⟩ (.float v .nan) = .ok false := by
  cases mb <;> cases xb <;>
    simp [tdBetween.matchFloat, Value.asFloat, Bind.bind, Except.bind, pure,
      Except.pure, GoFloat.ge, GoFloat.gt, GoFloat.lt_nan_left, GoFloat.lt_nan_right,
      GoFloat.le_nan_left, GoFloat.le_nan_right] at hb ⊢

/-- An operator with float bounds, one of them at least being set, rejects a NaN
of any type. -/
theorem rejects_nan (env : Env) (ctx : Context) (t u : GoType)
    (ht : t.kind.isFloat = true) (x y : GoFloat) (mb xb : boundCmp)
    (hb : mb ≠ .boundNone ∨ xb ≠ .boundNone) :
    rejects env (.ok (.tdBetween ⟨.float t x, .float t y, mb, xb⟩)) ctx (.float u .nan)
      = true := by
  by_cases hut : u = t
  · subst hut
    obtain ⟨s, hs⟩ := String_ok env ⟨.float u x, .float u y, mb, xb⟩ rfl rfl
    have h1 := Kind.isFloat_not_isInt ht
    have h2 := Kind.isFloat_not_isUint ht
    simp only [rejects, TestDeep.Match, tdBetween.Match, Value.typeOf, Value.typ,
      Value.kind, ht, h1, h2, matchFloat_nan u u u x y mb xb hb, hs, Bind.bind,
      Except.bind, pure, Except.pure, Context.CollectError]
    cases ctx.BooleanError <;> simp
  · have hm := Match_type_mismatch env ctx ⟨.float t x, .float t y, mb, xb⟩
      (.float u .nan) t u rfl rfl hut
    simp only [rejects, TestDeep.Match, hm]
    cases ctx.BooleanError <;> simp

theorem Between_float (t : GoType) (ht : t.kind.isFloat = true) (a b : GoFloat)
    (bs : List BoundsKind) (hbs : bs.length ≤ 1) :
    ∃ x y mb xb, (mb ≠ boundCmp.boundNone ∨ xb ≠ boundCmp.boundNone) ∧
      Between (.float t a) (.float t b) bs
        = .ok (.tdBetween ⟨.float t x, .float t y, mb, xb⟩) := by
  rcases bs with _ | ⟨k, _ | ⟨k2, l⟩⟩
  · by_cases h : GoFloat.gt a b = true
    · exact ⟨b, a, .boundIn, .boundIn, Or.inl (by decide), by
        simp [Between, Value.typeOf, Value.typ, Bind.bind, Except.bind, pure,
          Except.pure, initBetween_float t ht, h]⟩
    · exact ⟨a, b, .boundIn, .boundIn, Or.inl (by decide), by
        simp [Between, Value.typeOf, Value.typ, Bind.bind, Except.bind, pure,
          Except.pure, initBetween_float t ht, h]⟩
  · have hk : (if k = .BoundsInIn ∨ k = .BoundsInOut then boundCmp.boundIn
        else boundCmp.boundOut) ≠ boundCmp.boundNone := by
      split_ifs <;> decide
    by_cases h : GoFloat.gt a b = true
    · exact ⟨b, a, _, _, Or.inl hk, by
        simp only [Between, Value.typeOf, Value.typ, Bind.bind, Except.bind, pure,
          Except.pure, initBetween_float t ht, h, ne_eq, not_true_eq_false, if_false,
          if_true]
        rfl⟩
    · exact ⟨a, b, _, _, Or.inl hk, by
        simp only [Between, Value.typeOf, Value.typ, Bind.bind, Except.bind, pure,
          Except.pure, initBetween_float t ht, h, ne_eq, not_true_eq_false, if_false]
        rfl⟩
  · simp at hbs

theorem Gt_float (t : GoType) (ht : t.kind.isFloat = true) (v : GoFloat)
    (mb xb : boundCmp) (u : String) :
    tdBetween.initBetween ⟨.float t v, .invalid, mb, xb⟩ u
      = .ok (.tdBetween ⟨.float t v, .float t v, mb, xb⟩) := by
  rw [initBetween_unset, initBetween_float t ht]
  split_ifs <;> rfl

theorem N_float (env : Env) (t : GoType) (ht : t.kind.isFloat = true) (a : GoFloat)
    (tol : List GoFloat) (htol : tol.length ≤ 1) :
    ∃ x y, N env (.float t a) (tol.map (Value.float t))
      = .ok (.tdBetween ⟨.float t x, .float t y, .boundIn, .boundIn⟩) := by
  have h1 := Kind.isFloat_not_isInt ht
  have h2 := Kind.isFloat_not_isUint ht
  rcases tol with _ | ⟨d, _ | ⟨d2, l⟩⟩
  · exact ⟨a, a, by
      simp [N, Value.kind, Value.typ, ht, Bind.bind, Except.bind, pure, Except.pure]⟩
  · by_cases h0 : d = .finite 0
    · exact ⟨a, a, by
        simp [N, Value.kind, Value.typ, ht, h1, h2, Value.typeOf, tdBetween.nFloat,
          Value.asFloat, h0, Bind.bind, Except.bind, pure, Except.pure]⟩
    · exact ⟨_, _, by
        simp only [N, Value.kind, Value.typ, ht, h1, h2, Value.typeOf, tdBetween.nFloat,
          Value.asFloat, Bind.bind, Except.bind, pure, Except.pure, List.map,
          Value.SetFloat]
        simp [h0]
        exact ⟨rfl, rfl⟩⟩
  · simp at htol

/-- C8: a NaN float got is rejected by every range operator built on float
bounds, whatever the bounds (NaN included): Between with any bounds kind or
none, Gt, Gte, Lt, Lte, and N with or without a tolerance. -/
theorem NaN_never_in_range (env : Env) (ctx : Context) (t u : GoType)
    (ht : t.kind.isFloat = true) (a b tol : GoFloat) (k : BoundsKind) :
    rejects env (Between (.float t a) (.float t b) [k]) ctx (.float u .nan) = true
    ∧ rejects env (Between (.float t a) (.float t b) []) ctx (.float u .nan) = true
    ∧ rejects env (Between (.float t .nan) (.float t .nan) [k]) ctx (.float u .nan) = true
    ∧ rejects env (Gt (.float t a)) ctx (.float u .nan) = true
    ∧ rejects env (Gte (.float t a)) ctx (.float u .nan) = true
    ∧ rejects env (Lt (.float t a)) ctx (.float u .nan) = true
    ∧ rejects env (Lte (.float t a)) ctx (.float u .nan) = true
    ∧ rejects env (N env (.float t a) []) ctx (.float u .nan) = true
    ∧ rejects env (N env (.float t a) [.float t tol]) ctx (.float u .nan) = true := by
  refine ⟨?_, ?_, ?_, ?_, ?_, ?_, ?_, ?_, ?_⟩
  · obtain ⟨x, y, mb, xb, hb, e⟩ := Between_float t ht a b [k] (le_refl 1)
    rw [e]; exact rejects_nan env ctx t u ht x y mb xb hb
  · obtain ⟨x, y, mb, xb, hb, e⟩ := Between_float t ht a b [] (Nat.zero_le 1)
    rw [e]; exact rejects_nan env ctx t u ht x y mb xb hb
  · obtain ⟨x, y, mb, xb, hb, e⟩ := Between_float t ht .nan .nan [k] (le_refl 1)
    rw [e]; exact rejects_nan env ctx t u ht x y mb xb hb
  · rw [Gt, Gt_float t ht]
    exact rejects_nan env ctx t u ht a a _ _ (Or.inl (by decide))
  · rw [Gte, Gt_float t ht]
    exact rejects_nan env ctx t u ht a a _ _ (Or.inl (by decide))
  · rw [Lt, Gt_float t ht]
    exact rejects_nan env ctx t u ht a a _ _ (Or.inr (by decide))
  · rw [Lte, Gt_float t ht]
    exact rejects_nan env ctx t u ht a a _ _ (Or.inr (by decide))
  · obtain ⟨x, y, e⟩ := N_float env t ht a [] (Nat.zero_le 1)
    simp only [List.map] at e
    rw [e]; exact rejects_nan env ctx t u ht x y _ _ (Or.inl (by decide))
  · obtain ⟨x, y, e⟩ := N_float env t ht a [tol] (le_refl 1)
    simp only [List.map] at e
    rw [e]; exact rejects_nan env ctx t u ht x y _ _ (Or.inl (by decide))

/-- C8 on concrete operands: on float64, `Between(NaN, NaN)`, `Lt(1)` and
`N(1, 2)` reject NaN. -/
theorem NaN_never_in_range_witness :
    (GoType.basic .float64).kind.isFloat = true
    ∧ rejects sampleEnv (Between (.float (.basic .float64) .nan)
        (.float (.basic .float64) .nan) [.BoundsInIn]) sampleCtx
        (.float (.basic .float64) .nan) = true
    ∧ rejects sampleEnv (Lt (.float (.basic .float64) (.finite 1))) sampleCtx
        (.float (.basic .float64) .nan) = true
    ∧ rejects sampleEnv (N sampleEnv (.float (.basic .float64) (.finite 1))
        [.float (.basic .float64) (.finite 2)]) sampleCtx
        (.float (.basic .float64) .nan) = true :=
  ⟨rfl,
    (NaN_never_in_range sampleEnv sampleCtx (.basic .float64) (.basic .float64) rfl
      (.finite 1) (.finite 1) (.finite 2) .BoundsInIn).2.2.1,
    (NaN_never_in_range sampleEnv sampleCtx (.basic .float64) (.basic .float64) rfl
      (.finite 1) (.finite 1) (.finite 2) .BoundsInIn).2.2.2.2.2.1,
    (NaN_never_in_range sampleEnv sampleCtx (.basic .float64) (.basic .float64) rfl
      (.finite 1) (.finite 1) (.finite 2) .BoundsInIn).2.2.2.2.2.2.2.2⟩

/-! ## C9: the panics of Between -/

/-- C9, evaluated on `Between(struct{}{}, struct{}{})`: from and to have one
type, a struct type that is neither `time.Time` nor convertible to it; the
panic Between raises is the `*reflect.ValueError` of `Interface` called on the
zero Value, not the usage message.  With two bounds kinds, and with from and to
of two types, Between panics as the claim says. -/
theorem Between_struct_panic_not_usage :
    Between (.struct (.struct .nil) []) (.struct (.struct .nil) []) []
        = .error (.valueError "reflect.Value.Interface" .invalid)
    ∧ Between (.struct (.struct .nil) []) (.struct (.struct .nil) []) []
        ≠ .error (.msg Between.usage)
    ∧ Between (.int (.basic .int) 1) (.int (.basic .int) 2) [.BoundsInIn, .BoundsInIn]
        = .error (.msg Between.usage)
    ∧ Between (.bool (.basic .bool) true) (.bool (.basic .bool) false) []
        = .error (.msg Between.usage)
    ∧ Between (.int (.basic .int) 1) (.int (.basic .int8) 2) []
        = .error (.msg "from and to params must have the same type") := by
  have e : Between (.struct (.struct .nil) []) (.struct (.struct .nil) []) []
      = .error (.valueError "reflect.Value.Interface" .invalid) := by
    have h1 : ¬ (GoType.struct .nil = timeType) := by decide
    have h2 : GoType.ConvertibleTo (.struct .nil) timeType = false := by decide
    simp [Between, Value.typeOf, Value.typ, Bind.bind, Except.bind, pure, Except.pure,
      tdBetween.initBetween, Value.IsValid, Value.kind, GoType.kind, Kind.isInt,
      Kind.isUint, Kind.isFloat, h1, h2, Value.asTime]
  refine ⟨e, ?_, ?_, ?_, ?_⟩
  · rw [e]; simp
  · rfl
  · simp [Between, Value.typeOf, Value.typ, Bind.bind, Except.bind, pure, Except.pure,
      tdBetween.initBetween, Value.IsValid, Value.kind, GoType.kind, Kind.isInt,
      Kind.isUint, Kind.isFloat, throw, throwThe, MonadExceptOf.throw]
  · have h3 : GoType.basic .int8 ≠ GoType.basic .int := by decide
    simp [Between, Value.typeOf, Value.typ, Bind.bind, Except.bind, pure, Except.pure,
      h3, throw, throwThe, MonadExceptOf.throw]

/-! ## C10: ArrayEach on empty data -/

/-- C10: whatever the inner expectation e and whatever the engine, `ArrayEach(e)`
matches every empty array, every empty slice, every nil slice and every non-nil
pointer to one of them; the engine is given nothing to compare. -/
theorem ArrayEach_empty_matches (env : Env) (ctx : Context) (e : Value)
    (ta ts pa ps : GoType) (hta : ta.kind = .array) (hts : ts.kind = .slice)
    (hpa : pa.kind = .ptr) (hps : ps.kind = .ptr) :
    (ArrayEach e).Match env ctx (.array ta []) = .ok .nil
    ∧ (ArrayEach e).Match env ctx (.slice ts (some [])) = .ok .nil
    ∧ (ArrayEach e).Match env ctx (.slice ts none) = .ok .nil
    ∧ (ArrayEach e).Match env ctx (.ptr pa (some (.array ta []))) = .ok .nil
    ∧ (ArrayEach e).Match env ctx (.ptr ps (some (.slice ts (some [])))) = .ok .nil
    ∧ (ArrayEach e).Match env ctx (.ptr ps (some (.slice ts none))) = .ok .nil := by
  refine ⟨?_, ?_, ?_, ?_, ?_, ?_⟩ <;>
    simp [tdArrayEach.Match, Value.IsValid, Value.kind, Value.typ, hta, hts, hpa, hps,
      Value.Elem, tdArrayEach.matchItems, Value.Len, tdArrayEach.loop, Bind.bind,
      Except.bind, pure, Except.pure]

/-- C10 on concrete data, with an engine that finds no two values equal:
`ArrayEach(4)` matches `[0]int{}`, `[]int{}`, `[]int(nil)` and `&[0]int{}`. -/
theorem ArrayEach_empty_matches_witness :
    ((GoType.array 0 (.basic .int)).kind = .array
      ∧ (GoType.slice (.basic .int)).kind = .slice
      ∧ (GoType.ptr (.array 0 (.basic .int))).kind = .ptr
      ∧ (GoType.ptr (.slice (.basic .int))).kind = .ptr)
    ∧ (ArrayEach (.int (.basic .int) 4)).Match sampleEnv sampleCtx
        (.array (.array 0 (.basic .int)) []) = .ok .nil
    ∧ (ArrayEach (.int (.basic .int) 4)).Match sampleEnv sampleCtx
        (.slice (.slice (.basic .int)) (some [])) = .ok .nil
    ∧ (ArrayEach (.int (.basic .int) 4)).Match sampleEnv sampleCtx
        (.slice (.slice (.basic .int)) none) = .ok .nil
    ∧ (ArrayEach (.int (.basic .int) 4)).Match sampleEnv sampleCtx
        (.ptr (.ptr (.array 0 (.basic .int))) (some (.array (.array 0 (.basic .int)) [])))
        = .ok .nil :=
  ⟨⟨rfl, rfl, rfl, rfl⟩,
    (ArrayEach_empty_matches sampleEnv sampleCtx (.int (.basic .int) 4)
      (.array 0 (.basic .int)) (.slice (.basic .int)) (.ptr (.array 0 (.basic .int)))
      (.ptr (.slice (.basic .int))) rfl rfl rfl rfl).1,
    (ArrayEach_empty_matches sampleEnv sampleCtx (.int (.basic .int) 4)
      (.array 0 (.basic .int)) (.slice (.basic .int)) (.ptr (.array 0 (.basic .int)))
      (.ptr (.slice (.basic .int))) rfl rfl rfl rfl).2.1,
    (ArrayEach_empty_matches sampleEnv sampleCtx (.int (.basic .int) 4)
      (.array 0 (.basic .int)) (.slice (.basic .int)) (.ptr (.array 0 (.basic .int)))
      (.ptr (.slice (.basic .int))) rfl rfl rfl rfl).2.2.1,
    (ArrayEach_empty_matches sampleEnv sampleCtx (.int (.basic .int) 4)
      (.array 0 (.basic .int)) (.slice (.basic .int)) (.ptr (.array 0 (.basic .int)))
      (.ptr (.slice (.basic .int))) rfl rfl rfl rfl).2.2.2.1⟩

/-! ## C11, C12, C13: ArrayEach on arrays, slices and pointers -/

/-- The loop of `Match` runs to its end, returning nil, exactly when the engine
finds every item equal to the expected value. -/
theorem loop_nil_iff (env : Env) (a : tdArrayEach) (ctx : Context) (got : Value)
    (es : List Value)
    (hI : ∀ i v, es.get? i = some v → got.Index i = .ok v) :
    ∀ n idx, idx + n = es.length →
      (tdArrayEach.loop env a ctx got n idx = .ok .nil
        ↔ ∀ i v, idx ≤ i → es.get? i = some v →
            env.deepValueEqual (ctx.AddArrayIndex i) v a.expected = .nil) := by
  intro n
  induction n with
  | zero =>
    intro idx h
    simp only [tdArrayEach.loop, pure, Except.pure, true_iff]
    intro i v hi hv
    have := List.get?_eq_some.mp hv
    obtain ⟨hlt, _⟩ := this
    omega
  | succ n ih =>
    intro idx h
    have hlt : idx < es.length := by omega
    have hget : es.get? idx = some (es.get ⟨idx, hlt⟩) := List.get?_eq_get hlt
    simp only [tdArrayEach.loop, hI idx _ hget, Bind.bind, Except.bind, pure, Except.pure]
    by_cases hz : env.deepValueEqual (ctx.AddArrayIndex idx) (es.get ⟨idx, hlt⟩)
        a.expected = .nil
    · simp only [hz, ne_eq, not_true_eq_false, if_false]
      rw [ih (idx + 1) (by omega)]
      constructor
      · intro hall i v hi hv
        rcases Nat.eq_or_lt_of_le hi with e | l
        · subst e; rw [hget] at hv; cases hv; exact hz
        · exact hall i v l hv
      · intro hall i v hi hv
        exact hall i v (by omega) hv
    · simp only [ne_eq, hz, not_false_eq_true, if_true]
      constructor
      · intro he; simp at he; exact absurd he hz
      · intro hall; exact absurd (hall idx _ (le_refl _) hget) hz

/-- The loop of `Match` never panics on the items of an array or slice. -/
theorem loop_ok (env : Env) (a : tdArrayEach) (ctx : Context) (got : Value)
    (es : List Value)
    (hI : ∀ i v, es.get? i = some v → got.Index i = .ok v) :
    ∀ n idx, idx + n = es.length →
      ∃ r, tdArrayEach.loop env a ctx got n idx = .ok r := by
  intro n
  induction n with
  | zero => intro idx _; exact ⟨.nil, rfl⟩
  | succ n ih =>
    intro idx h
    have hlt : idx < es.length := by omega
    have hget : es.get? idx = some (es.get ⟨idx, hlt⟩) := List.get?_eq_get hlt
    simp only [tdArrayEach.loop, hI idx _ hget, Bind.bind, Except.bind, pure, Except.pure]
    split_ifs
    · exact ⟨_, rfl⟩
    · exact ih (idx + 1) (by omega)

/-- The loop of `Match` returns the error of the first item the engine does not
find equal to the expected value. -/
theorem loop_first_failure (env : Env) (a : tdArrayEach) (ctx : Context) (got : Value)
    (es : List Value) (k : Nat) (x : Value) (err : ErrorPtr)
    (hI : ∀ i v, es.get? i = some v → got.Index i = .ok v)
    (hk : es.get? k = some x)
    (hfail : env.deepValueEqual (ctx.AddArrayIndex k) x a.expected = err)
    (herr : err ≠ .nil)
    (hpass : ∀ i v, i < k → es.get? i = some v →
      env.deepValueEqual (ctx.AddArrayIndex i) v a.expected = .nil) :
    ∀ n idx, idx + n = es.length → idx ≤ k →
      tdArrayEach.loop env a ctx got n idx = .ok err := by
  have hklt : k < es.length := (List.get?_eq_some.mp hk).1
  intro n
  induction n with
  | zero => intro idx h hle; omega
  | succ n ih =>
    intro idx h hle
    have hlt : idx < es.length := by omega
    have hget : es.get? idx = some (es.get ⟨idx, hlt⟩) := List.get?_eq_get hlt
    simp only [tdArrayEach.loop, hI idx _ hget, Bind.bind, Except.bind, pure, Except.pure]
    rcases Nat.eq_or_lt_of_le hle with e | l
    · subst e
      rw [hget] at hk; cases hk
      rw [hfail]; simp [herr]
    · rw [hpass idx _ l hget]
      simp only [ne_eq, not_true_eq_false, if_false]
      exact ih (idx + 1) (by omega) (by omega)

theorem Index_array (t : GoType) (es : List Value) (i : Nat) (v : Value)
    (h : es.get? i = some v) : (Value.array t es).Index i = .ok v := by
  simp only [Value.Index, h]

theorem Index_slice (t : GoType) (es : List Value) (i : Nat) (v : Value)
    (h : es.get? i = some v) : (Value.slice t (some es)).Index i = .ok v := by
  simp only [Value.Index, h]

/-- On a value of kind array or slice, `Match` runs the loop over its items. -/
theorem Match_items (env : Env) (a : tdArrayEach) (ctx : Context) (v : Value)
    (hv : v.kind = .array ∨ v.kind = .slice) :
    a.Match env ctx v = a.matchItems env ctx v := by
  have hval : v.IsValid = true := by
    cases v <;> simp_all [Value.IsValid, Value.kind, Value.typ]
  rcases hv with hv | hv <;>
    simp only [tdArrayEach.Match, hval, hv] <;> simp

theorem Match_array (env : Env) (a : tdArrayEach) (ctx : Context) (t : GoType)
    (es : List Value) (ht : t.kind = .array) :
    a.Match env ctx (.array t es)
      = tdArrayEach.loop env a ctx (.array t es) es.length 0 := by
  rw [Match_items env a ctx _ (Or.inl (by simp [Value.kind, Value.typ, ht]))]
  simp [tdArrayEach.matchItems, Value.Len, Bind.bind, Except.bind]

theorem Match_slice (env : Env) (a : tdArrayEach) (ctx : Context) (t : GoType)
    (es : List Value) (ht : t.kind = .slice) :
    a.Match env ctx (.slice t (some es))
      = tdArrayEach.loop env a ctx (.slice t (some es)) es.length 0 := by
  rw [Match_items env a ctx _ (Or.inr (by simp [Value.kind, Value.typ, ht]))]
  simp [tdArrayEach.matchItems, Value.Len, Bind.bind, Except.bind]

/-- On a non-nil pointer to an array or slice, `Match` does what it does on the
array or slice pointed to. -/
theorem Match_ptr (env : Env) (a : tdArrayEach) (ctx : Context) (pt : GoType)
    (v : Value) (hpt : pt.kind = .ptr) (hv : v.kind = .array ∨ v.kind = .slice) :
    a.Match env ctx (.ptr pt (some v)) = a.Match env ctx v := by
  have hval : v.IsValid = true := by
    cases v <;> simp_all [Value.IsValid, Value.kind, Value.typ]
  have hk : (Value.ptr pt (some v)).kind = .ptr := by
    simp [Value.kind, Value.typ, hpt]
  have hpv : (Value.ptr pt (some v)).IsValid = true := rfl
  rw [Match_items env a ctx v hv]
  simp only [tdArrayEach.Match, hk, hpv, Value.Elem, Bind.bind, Except.bind, hval]
  rcases hv with hv | hv <;> simp [hv]

/-- C11: for an array or slice got and an expectation e, `ArrayEach(e)` matches
got iff the engine finds every item of got equal to e (each compared under the
context of its index), and Match never panics; a nil slice, which has no item,
is matched; on a non-nil pointer to an array or slice the outcome is the one on
the array or slice pointed to. -/
theorem ArrayEach_matches_iff_all_items (env : Env) (ctx : Context) (e : Value)
    (ta ts pt : GoType) (hta : ta.kind = .array) (hts : ts.kind = .slice)
    (hpt : pt.kind = .ptr) (es : List Value) (v : Value)
    (hv : v.kind = .array ∨ v.kind = .slice) :
    ((ArrayEach e).Match env ctx (.array ta es) = .ok .nil
        ↔ ∀ i x, es.get? i = some x →
            env.deepValueEqual (ctx.AddArrayIndex i) x e = .nil)
    ∧ ((ArrayEach e).Match env ctx (.slice ts (some es)) = .ok .nil
        ↔ ∀ i x, es.get? i = some x →
            env.deepValueEqual (ctx.AddArrayIndex i) x e = .nil)
    ∧ (∃ r, (ArrayEach e).Match env ctx (.array ta es) = .ok r)
    ∧ (∃ r, (ArrayEach e).Match env ctx (.slice ts (some es)) = .ok r)
    ∧ (ArrayEach e).Match env ctx (.slice ts none) = .ok .nil
    ∧ (ArrayEach e).Match env ctx (.ptr pt (some v)) = (ArrayEach e).Match env ctx v := by
  refine ⟨?_, ?_, ?_, ?_, ?_, Match_ptr env _ ctx pt v hpt hv⟩
  · rw [Match_array env _ ctx ta es hta,
      loop_nil_iff env _ ctx _ es (Index_array ta es) es.length 0 (by omega)]
    exact ⟨fun h i x hx => h i x (Nat.zero_le _) hx, fun h i x _ hx => h i x hx⟩
  · rw [Match_slice env _ ctx ts es hts,
      loop_nil_iff env _ ctx _ es (Index_slice ts es) es.length 0 (by omega)]
    exact ⟨fun h i x hx => h i x (Nat.zero_le _) hx, fun h i x _ hx => h i x hx⟩
  · rw [Match_array env _ ctx ta es hta]
    exact loop_ok env _ ctx _ es (Index_array ta es) es.length 0 (by omega)
  · rw [Match_slice env _ ctx ts es hts]
    exact loop_ok env _ ctx _ es (Index_slice ts es) es.length 0 (by omega)
  · simp [tdArrayEach.Match, Value.IsValid, Value.kind, Value.typ, hts,
      tdArrayEach.matchItems, Value.Len, tdArrayEach.loop, Bind.bind, Except.bind, pure,
      Except.pure]

/-- C11 on concrete data: `ArrayEach(4)` matches `[3]int{4, 4, 4}`, and
`&[3]int{4, 4, 4}` as well. -/
theorem ArrayEach_matches_iff_all_items_witness :
    ((GoType.array 3 (.basic .int)).kind = .array
      ∧ (GoType.slice (.basic .int)).kind = .slice
      ∧ (GoType.ptr (.array 3 (.basic .int))).kind = .ptr
      ∧ ((Value.array (.array 3 (.basic .int)) [sampleInt 4, sampleInt 4, sampleInt 4]).kind
            = .array
          ∨ (Value.array (.array 3 (.basic .int)) [sampleInt 4, sampleInt 4, sampleInt 4]).kind
            = .slice))
    ∧ ((ArrayEach (sampleInt 4)).Match eqEnv sampleCtx
          (.array (.array 3 (.basic .int)) [sampleInt 4, sampleInt 4, sampleInt 4]) = .ok .nil
        ↔ ∀ i x, [sampleInt 4, sampleInt 4, sampleInt 4].get? i = some x →
            eqEnv.deepValueEqual (sampleCtx.AddArrayIndex i) x (sampleInt 4) = .nil)
    ∧ (ArrayEach (sampleInt 4)).Match eqEnv sampleCtx
          (.ptr (.ptr (.array 3 (.basic .int)))
            (some (.array (.array 3 (.basic .int)) [sampleInt 4, sampleInt 4, sampleInt 4])))
        = (ArrayEach (sampleInt 4)).Match eqEnv sampleCtx
          (.array (.array 3 (.basic .int)) [sampleInt 4, sampleInt 4, sampleInt 4])
    ∧ (ArrayEach (sampleInt 4)).Match eqEnv sampleCtx
          (.array (.array 3 (.basic .int)) [sampleInt 4, sampleInt 4, sampleInt 4]) = .ok .nil :=
  ⟨⟨rfl, rfl, rfl, Or.inl rfl⟩,
    (ArrayEach_matches_iff_all_items eqEnv sampleCtx (sampleInt 4) (.array 3 (.basic .int))
      (.slice (.basic .int)) (.ptr (.array 3 (.basic .int))) rfl rfl rfl
      [sampleInt 4, sampleInt 4, sampleInt 4]
      (.array (.array 3 (.basic .int)) [sampleInt 4, sampleInt 4, sampleInt 4])
      (Or.inl rfl)).1,
    (ArrayEach_matches_iff_all_items eqEnv sampleCtx (sampleInt 4) (.array 3 (.basic .int))
      (.slice (.basic .int)) (.ptr (.array 3 (.basic .int))) rfl rfl rfl
      [sampleInt 4, sampleInt 4, sampleInt 4]
      (.array (.array 3 (.basic .int)) [sampleInt 4, sampleInt 4, sampleInt 4])
      (Or.inl rfl)).2.2.2.2.2,
    rfl⟩

/-- C12: in diagnostic mode `ArrayEach` reports "nil value" (Got "nil") on the
zero Value, "nil pointer" on a nil pointer, and "bad type" (Got the name of the
type of got) on a value that is neither an array, a slice nor a pointer, and on
a non-nil pointer to a value that is neither an array nor a slice; Expected is
"Slice OR Array OR *Slice OR *Array" each time. -/
theorem ArrayEach_unusable_got (env : Env) (ctx : Context) (e : Value)
    (hd : ctx.BooleanError = false) (pt tv tg : GoType) (hpt : pt.kind = .ptr)
    (v g : Value) (hv : v.typ = some tv) (hvk : tv.kind ≠ .array ∧ tv.kind ≠ .slice)
    (hg : g.typ = some tg)
    (hgk : tg.kind ≠ .ptr ∧ tg.kind ≠ .array ∧ tg.kind ≠ .slice) :
    (ArrayEach e).Match env ctx .invalid
        = .ok (.error { Context := some ctx, Message := "nil value",
                        Got := .RawString "nil",
                        Expected := .RawString "Slice OR Array OR *Slice OR *Array" })
    ∧ (ArrayEach e).Match env ctx (.ptr pt none)
        = .ok (.error { Context := some ctx, Message := "nil pointer",
                        Got := .RawString ("nil " ++ pt.str),
                        Expected := .RawString "Slice OR Array OR *Slice OR *Array" })
    ∧ (ArrayEach e).Match env ctx g
        = .ok (.error { Context := some ctx, Message := "bad type",
                        Got := .RawString tg.str,
                        Expected := .RawString "Slice OR Array OR *Slice OR *Array" })
    ∧ (ArrayEach e).Match env ctx (.ptr pt (some v))
        = .ok (.error { Context := some ctx, Message := "bad type",
                        Got := .RawString pt.str,
                        Expected := .RawString "Slice OR Array OR *Slice OR *Array" }) := by
  have hgval : g.IsValid = true := by
    cases g <;> simp_all [Value.IsValid, Value.typ]
  have hvval : v.IsValid = true := by
    cases v <;> simp_all [Value.IsValid, Value.typ]
  have hgkind : g.kind = tg.kind := by simp [Value.kind, hg]
  have hvkind : v.kind = tv.kind := by simp [Value.kind, hv]
  have hpk : (Value.ptr pt (some v)).kind = .ptr := by simp [Value.kind, Value.typ, hpt]
  have hpk2 : (Value.ptr pt none).kind = .ptr := by simp [Value.kind, Value.typ, hpt]
  have hpv : (Value.ptr pt (some v)).IsValid = true := rfl
  have hpv2 : (Value.ptr pt none).IsValid = true := rfl
  refine ⟨?_, ?_, ?_, ?_⟩
  · simp [tdArrayEach.Match, Value.IsValid, hd, Context.CollectError, pure, Except.pure]
  · simp only [tdArrayEach.Match, hpv2, hpk2, Value.Elem, Bind.bind, Except.bind]
    simp [Value.IsValid, hd, Value.typeOf, Value.typ, Context.CollectError, pure,
      Except.pure]
  · simp only [tdArrayEach.Match, hgval, hgkind]
    have hb : tdArrayEach.badType ctx g
        = .ok (.error { Context := some ctx, Message := "bad type",
                        Got := .RawString tg.str,
                        Expected := .RawString "Slice OR Array OR *Slice OR *Array" }) := by
      simp [tdArrayEach.badType, hd, Value.typeOf, hg, Context.CollectError, Bind.bind,
        Except.bind, pure, Except.pure]
    rw [← hb]
    obtain ⟨h1, h2, h3⟩ := hgk
    split <;> simp_all
  · simp only [tdArrayEach.Match, hpv, hpk, Value.Elem, Bind.bind, Except.bind, hvval,
      hvkind]
    simp [hvk.1, hvk.2, tdArrayEach.badType, hd, Value.typeOf, Value.typ,
      Context.CollectError, Bind.bind, Except.bind, pure, Except.pure]

/-- C12 on concrete data, in diagnostic mode at the root: `ArrayEach(4)` on the
untyped nil, on `(*[]int)(nil)`, on the int 666 and on a pointer to it. -/
theorem ArrayEach_unusable_got_witness :
    (sampleCtx.BooleanError = false
      ∧ (GoType.ptr (.basic .int)).kind = .ptr
      ∧ (sampleInt 666).typ = some (.basic .int)
      ∧ ((GoType.basic .int).kind ≠ .array ∧ (GoType.basic .int).kind ≠ .slice)
      ∧ ((GoType.basic .int).kind ≠ .ptr ∧ (GoType.basic .int).kind ≠ .array
          ∧ (GoType.basic .int).kind ≠ .slice))
    ∧ (ArrayEach (sampleInt 4)).Match sampleEnv sampleCtx .invalid
        = .ok (.error { Context := some sampleCtx, Message := "nil value",
                        Got := .RawString "nil",
                        Expected := .RawString "Slice OR Array OR *Slice OR *Array" })
    ∧ (ArrayEach (sampleInt 4)).Match sampleEnv sampleCtx (.ptr (.ptr (.basic .int)) none)
        = .ok (.error { Context := some sampleCtx, Message := "nil pointer",
                        Got := .RawString ("nil " ++ (GoType.ptr (.basic .int)).str),
                        Expected := .RawString "Slice OR Array OR *Slice OR *Array" })
    ∧ (ArrayEach (sampleInt 4)).Match sampleEnv sampleCtx (sampleInt 666)
        = .ok (.error { Context := some sampleCtx, Message := "bad type",
                        Got := .RawString (GoType.basic .int).str,
                        Expected := .RawString "Slice OR Array OR *Slice OR *Array" })
    ∧ (ArrayEach (sampleInt 4)).Match sampleEnv sampleCtx
          (.ptr (.ptr (.basic .int)) (some (sampleInt 666)))
        = .ok (.error { Context := some sampleCtx, Message := "bad type",
                        Got := .RawString (GoType.ptr (.basic .int)).str,
                        Expected := .RawString "Slice OR Array OR *Slice OR *Array" })
    ∧ (GoType.basic .int).str = "int" ∧ (GoType.ptr (.basic .int)).str = "*int" :=
  ⟨⟨rfl, rfl, rfl, ⟨by decide, by decide⟩, ⟨by decide, by decide, by decide⟩⟩,
    (ArrayEach_unusable_got sampleEnv sampleCtx (sampleInt 4) rfl (.ptr (.basic .int))
      (.basic .int) (.basic .int) rfl (sampleInt 666) (sampleInt 666) rfl
      ⟨by decide, by decide⟩ rfl ⟨by decide, by decide, by decide⟩).1,
    (ArrayEach_unusable_got sampleEnv sampleCtx (sampleInt 4) rfl (.ptr (.basic .int))
      (.basic .int) (.basic .int) rfl (sampleInt 666) (sampleInt 666) rfl
      ⟨by decide, by decide⟩ rfl ⟨by decide, by decide, by decide⟩).2.1,
    (ArrayEach_unusable_got sampleEnv sampleCtx (sampleInt 4) rfl (.ptr (.basic .int))
      (.basic .int) (.basic .int) rfl (sampleInt 666) (sampleInt 666) rfl
      ⟨by decide, by decide⟩ rfl ⟨by decide, by decide, by decide⟩).2.2.1,
    (ArrayEach_unusable_got sampleEnv sampleCtx (sampleInt 4) rfl (.ptr (.basic .int))
      (.basic .int) (.basic .int) rfl (sampleInt 666) (sampleInt 666) rfl
      ⟨by decide, by decide⟩ rfl ⟨by decide, by decide, by decide⟩).2.2.2,
    by decide, by decide⟩

/-- C13: when the engine rejects the item of index k of an array or slice got
(or of the array a pointer got points to) and accepts every item before it,
`ArrayEach` returns the very error the engine gave for the index k, the engine
having been called there under the context whose path is the current path
extended with the index k; and the items after the index k play no part: the
result is the same whatever items follow and whatever the engine would say of
them. -/
theorem ArrayEach_first_failure (env : Env) (ctx : Context) (e : Value)
    (ta ts pt : GoType) (hta : ta.kind = .array) (hts : ts.kind = .slice)
    (hpt : pt.kind = .ptr) (es : List Value) (k : Nat) (x : Value) (err : ErrorPtr)
    (hk : es.get? k = some x)
    (hfail : env.deepValueEqual (ctx.AddArrayIndex k) x e = err) (herr : err ≠ .nil)
    (hpass : ∀ i v, i < k → es.get? i = some v →
      env.deepValueEqual (ctx.AddArrayIndex i) v e = .nil) :
    (ArrayEach e).Match env ctx (.array ta es) = .ok err
    ∧ (ArrayEach e).Match env ctx (.slice ts (some es)) = .ok err
    ∧ (ArrayEach e).Match env ctx (.ptr pt (some (.array ta es))) = .ok err
    ∧ (ctx.AddArrayIndex k).Path = ctx.Path ++ [.index k]
    ∧ ∀ (env2 : Env) (rest : List Value),
        (∀ i v, i ≤ k → env2.deepValueEqual (ctx.AddArrayIndex i) v e
          = env.deepValueEqual (ctx.AddArrayIndex i) v e) →
        (ArrayEach e).Match env2 ctx (.array ta (es.take (k + 1) ++ rest)) = .ok err := by
  have hklt : k < es.length := (List.get?_eq_some.mp hk).1
  have harr : (ArrayEach e).Match env ctx (.array ta es) = .ok err := by
    rw [Match_array env _ ctx ta es hta]
    exact loop_first_failure env _ ctx _ es k x err (Index_array ta es) hk hfail herr hpass
      es.length 0 (by omega) (Nat.zero_le _)
  refine ⟨harr, ?_, ?_, rfl, ?_⟩
  · rw [Match_slice env _ ctx ts es hts]
    exact loop_first_failure env _ ctx _ es k x err (Index_slice ts es) hk hfail herr hpass
      es.length 0 (by omega) (Nat.zero_le _)
  · rw [Match_ptr env _ ctx pt _ hpt (Or.inl (by simp [Value.kind, Value.typ, hta]))]
    exact harr
  · intro env2 rest hagree
    have hget : ∀ i, i ≤ k → (es.take (k + 1) ++ rest).get? i = es.get? i := by
      intro i hi
      simp only [List.get?_eq_getElem?]
      rw [List.getElem?_append_left (by simp; omega), List.getElem?_take_of_lt (by omega)]
    rw [Match_array env2 _ ctx ta _ hta]
    refine loop_first_failure env2 _ ctx _ (es.take (k + 1) ++ rest) k x err
      (Index_array ta _) ?_ ?_ herr ?_ _ 0 (by omega) (Nat.zero_le _)
    · rw [hget k (le_refl _)]; exact hk
    · rw [← hfail]; exact hagree k x (le_refl _)
    · intro i v hi hv
      rw [hget i (by omega)] at hv
      show env2.deepValueEqual (ctx.AddArrayIndex i) v e = .nil
      rw [hagree i v (by omega)]
      exact hpass i v hi hv

/-- C13 on concrete data: on `[3]int{4, 5, 4}`, `ArrayEach(4)` returns the
"values differ" error of the item of index 1, whose path is the index 1 from
the root. -/
theorem ArrayEach_first_failure_witness :
    ((GoType.array 3 (.basic .int)).kind = .array
      ∧ (GoType.slice (.basic .int)).kind = .slice
      ∧ (GoType.ptr (.array 3 (.basic .int))).kind = .ptr
      ∧ [sampleInt 4, sampleInt 5, sampleInt 4].get? 1 = some (sampleInt 5)
      ∧ eqEnv.deepValueEqual (sampleCtx.AddArrayIndex 1) (sampleInt 5) (sampleInt 4)
          = .error { Context := some (sampleCtx.AddArrayIndex 1), Message := "values differ" })
    ∧ (ArrayEach (sampleInt 4)).Match eqEnv sampleCtx
          (.array (.array 3 (.basic .int)) [sampleInt 4, sampleInt 5, sampleInt 4])
        = .ok (.error
            { Context := some (sampleCtx.AddArrayIndex 1), Message := "values differ" })
    ∧ (sampleCtx.AddArrayIndex 1).Path = [.index 1] :=
  ⟨⟨rfl, rfl, rfl, rfl, rfl⟩,
    (ArrayEach_first_failure eqEnv sampleCtx (sampleInt 4) (.array 3 (.basic .int))
      (.slice (.basic .int)) (.ptr (.array 3 (.basic .int))) rfl rfl rfl
      [sampleInt 4, sampleInt 5, sampleInt 4] 1 (sampleInt 5)
      (.error { Context := some (sampleCtx.AddArrayIndex 1), Message := "values differ" })
      rfl rfl (by simp)
      (by
        intro i v hi hv
        have h0 : i = 0 := by omega
        subst h0
        cases hv
        rfl)).1,
    rfl⟩

/-! ## Lemmas on the keys of maps -/

theorem GoFloat.eq_symm (a b : GoFloat) : GoFloat.eq a b = GoFloat.eq b a := by
  cases a <;> cases b <;> simp [GoFloat.eq, eq_comm]

theorem GoFloat.eq_trans {a b c : GoFloat} (h1 : GoFloat.eq a b = true)
    (h2 : GoFloat.eq b c = true) : GoFloat.eq a c = true := by
  cases a <;> cases b <;> simp [GoFloat.eq] at h1 <;>
    cases c <;> simp_all [GoFloat.eq]

theorem Value.eqDynList_symm_of : ∀ (names : List String) (as bs : List Value),
    (∀ a ∈ as, ∀ b, Value.eqDyn a b = Value.eqDyn b a) →
    Value.eqDynList names as bs = Value.eqDynList names bs as
  | _, [], [], _ => rfl
  | _, [], _ :: _, _ => by simp [Value.eqDynList]
  | _, _ :: _, [], _ => by simp [Value.eqDynList]
  | names, a :: as, b :: bs, ih => by
    simp only [Value.eqDynList]
    rw [ih a (List.mem_cons_self _ _) b,
      Value.eqDynList_symm_of names.tail as bs
        (fun x hx => ih x (List.mem_cons_of_mem _ hx))]

/-- The operator `==` on dynamic values is symmetric. -/
theorem Value.eqDyn_symm : ∀ (a b : Value), Value.eqDyn a b = Value.eqDyn b a
  | .struct t fs, b => by
    cases b with
    | struct u gs =>
      simp only [Value.eqDyn]
      by_cases h : t = u
      · subst h
        rw [Value.eqDynList_symm_of _ fs gs (fun x _ y => Value.eqDyn_symm x y)]
      · have h2 : ¬ u = t := fun e => h e.symm
        simp [h, h2]
    | iface _ d => cases d <;> rfl
    | _ => rfl
  | .array t es, b => by
    cases b with
    | array u gs =>
      simp only [Value.eqDyn]
      rw [Value.eqDynList_symm_of [] es gs (fun x _ y => Value.eqDyn_symm x y)]
      by_cases h : t = u
      · subst h; rfl
      · have h2 : ¬ u = t := fun e => h e.symm
        simp [h, h2]
    | iface _ d => cases d <;> rfl
    | _ => rfl
  | .iface t none, b => by
    cases b with
    | iface u e => cases e <;> rfl
    | _ => rfl
  | .iface t (some x), b => by
    cases b with
    | iface u e =>
      cases e with
      | none => rfl
      | some y =>
        simp only [Value.eqDyn]
        exact Value.eqDyn_symm x y
    | _ => rfl
  | .invalid, v => by
    cases v with
    | iface _ e => cases e <;> rfl
    | _ => rfl
  | .bool t a, v => by
    cases v with
    | bool u b => simp [Value.eqDyn, eq_comm, GoFloat.eq_symm]
    | iface _ e => cases e <;> rfl
    | _ => rfl
  | .int t a, v => by
    cases v with
    | int u b => simp [Value.eqDyn, eq_comm, GoFloat.eq_symm]
    | iface _ e => cases e <;> rfl
    | _ => rfl
  | .uint t a, v => by
    cases v with
    | uint u b => simp [Value.eqDyn, eq_comm, GoFloat.eq_symm]
    | iface _ e => cases e <;> rfl
    | _ => rfl
  | .float t a, v => by
    cases v with
    | float u b => simp [Value.eqDyn, eq_comm, GoFloat.eq_symm]
    | iface _ e => cases e <;> rfl
    | _ => rfl
  | .complex t a c, v => by
    cases v with
    | complex u b d => simp [Value.eqDyn, eq_comm, GoFloat.eq_symm]
    | iface _ e => cases e <;> rfl
    | _ => rfl
  | .string t a, v => by
    cases v with
    | string u b => simp [Value.eqDyn, eq_comm, GoFloat.eq_symm]
    | iface _ e => cases e <;> rfl
    | _ => rfl
  | .time t a r, v => by
    cases v with
    | time u b q => simp [Value.eqDyn, eq_comm, GoFloat.eq_symm]
    | iface _ e => cases e <;> rfl
    | _ => rfl
  | .ptr t a, v => by
    cases v with
    | ptr u b =>
      cases a <;> cases b <;> by_cases h : t = u <;>
        simp [Value.eqDyn, h, eq_comm]
    | iface _ e => cases e <;> rfl
    | _ => rfl
  | .slice t a, v => by
    cases v with
    | iface _ e => cases e <;> rfl
    | _ => rfl
  | .map t a, v => by
    cases v with
    | iface _ e => cases e <;> rfl
    | _ => rfl
  | .func t a, v => by
    cases v with
    | iface _ e => cases e <;> rfl
    | _ => rfl
  | .chan t a, v => by
    cases v with
    | chan u b =>
      cases a <;> cases b <;> by_cases h : t = u <;>
        simp [Value.eqDyn, h, eq_comm]
    | iface _ e => cases e <;> rfl
    | _ => rfl
termination_by a => sizeOf a
decreasing_by
  all_goals simp_wf
  all_goals try omega
  all_goals
    have hlt := List.sizeOf_lt_of_mem ‹_ ∈ _›
    omega

theorem Value.eqDynList_trans_of : ∀ (names : List String) (as bs cs : List Value),
    (∀ a ∈ as, ∀ b c, Value.eqDyn a b = true → Value.eqDyn b c = true →
      Value.eqDyn a c = true) →
    Value.eqDynList names as bs = true → Value.eqDynList names bs cs = true →
    Value.eqDynList names as cs = true
  | _, [], [], [], _, _, _ => rfl
  | _, [], [], _ :: _, _, _, h => by simp [Value.eqDynList] at h
  | _, [], _ :: _, _, _, h, _ => by simp [Value.eqDynList] at h
  | _, _ :: _, [], _, _, h, _ => by simp [Value.eqDynList] at h
  | _, _ :: _, _ :: _, [], _, _, h => by simp [Value.eqDynList] at h
  | names, a :: as, b :: bs, c :: cs, ih, h1, h2 => by
    simp only [Value.eqDynList, Bool.and_eq_true, Bool.or_eq_true] at h1 h2 ⊢
    refine ⟨?_, Value.eqDynList_trans_of names.tail as bs cs
      (fun x hx => ih x (List.mem_cons_of_mem _ hx)) h1.2 h2.2⟩
    rcases h1.1 with h | h
    · exact Or.inl h
    · rcases h2.1 with h3 | h3
      · exact Or.inl h3
      · exact Or.inr (ih a (List.mem_cons_self _ _) b c h h3)

/-- The operator `==` on dynamic values is transitive. -/
theorem Value.eqDyn_trans : ∀ (a b c : Value), Value.eqDyn a b = true →
    Value.eqDyn b c = true → Value.eqDyn a c = true
  | .struct t fs, b, c, h1, h2 => by
    cases b with
    | struct u gs =>
      cases c with
      | struct w hs =>
        simp only [Value.eqDyn, Bool.and_eq_true, decide_eq_true_eq] at h1 h2 ⊢
        obtain ⟨rfl, h1⟩ := h1
        obtain ⟨rfl, h2⟩ := h2
        exact ⟨rfl, Value.eqDynList_trans_of _ fs _ _
          (fun x _ y z => Value.eqDyn_trans x y z) h1 h2⟩
      | iface _ d => cases d <;> simp [Value.eqDyn] at h2
      | _ => simp [Value.eqDyn] at h2
    | iface _ d => cases d <;> simp [Value.eqDyn] at h1
    | _ => simp [Value.eqDyn] at h1
  | .array t es, b, c, h1, h2 => by
    cases b with
    | array u gs =>
      cases c with
      | array w hs =>
        simp only [Value.eqDyn, Bool.and_eq_true, decide_eq_true_eq] at h1 h2 ⊢
        obtain ⟨rfl, h1⟩ := h1
        obtain ⟨rfl, h2⟩ := h2
        exact ⟨rfl, Value.eqDynList_trans_of _ es _ _
          (fun x _ y z => Value.eqDyn_trans x y z) h1 h2⟩
      | iface _ d => cases d <;> simp [Value.eqDyn] at h2
      | _ => simp [Value.eqDyn] at h2
    | iface _ d => cases d <;> simp [Value.eqDyn] at h1
    | _ => simp [Value.eqDyn] at h1
  | .iface t none, b, c, h1, h2 => by
    cases b with
    | iface u e =>
      cases e with
      | none =>
        cases c with
        | iface w f => cases f <;> simp [Value.eqDyn] at h2 ⊢
        | _ => simp [Value.eqDyn] at h2
      | some y => simp [Value.eqDyn] at h1
    | _ => simp [Value.eqDyn] at h1
  | .iface t (some x), b, c, h1, h2 => by
    cases b with
    | iface u e =>
      cases e with
      | none => simp [Value.eqDyn] at h1
      | some y =>
        cases c with
        | iface w f =>
          cases f with
          | none => simp [Value.eqDyn] at h2
          | some z =>
            simp only [Value.eqDyn] at h1 h2 ⊢
            exact Value.eqDyn_trans x y z h1 h2
        | _ => simp [Value.eqDyn] at h2
    | _ => simp [Value.eqDyn] at h1
  | .invalid, v, w, h1, h2 => by
    cases v with
    | iface _ e => cases e <;> simp [Value.eqDyn] at h1
    | _ => simp [Value.eqDyn] at h1
  | .bool t a, v, w, h1, h2 => by
    cases v with
    | bool u b =>
      cases w with
      | bool x y =>
        simp only [Value.eqDyn, Bool.and_eq_true, decide_eq_true_eq] at h1 h2 ⊢
        simp_all
      | iface _ e => cases e <;> simp [Value.eqDyn] at h2
      | _ => simp [Value.eqDyn] at h2
    | iface _ e => cases e <;> simp [Value.eqDyn] at h1
    | _ => simp [Value.eqDyn] at h1
  | .int t a, v, w, h1, h2 => by
    cases v with
    | int u b =>
      cases w with
      | int x y =>
        simp only [Value.eqDyn, Bool.and_eq_true, decide_eq_true_eq] at h1 h2 ⊢
        simp_all
      | iface _ e => cases e <;> simp [Value.eqDyn] at h2
      | _ => simp [Value.eqDyn] at h2
    | iface _ e => cases e <;> simp [Value.eqDyn] at h1
    | _ => simp [Value.eqDyn] at h1
  | .uint t a, v, w, h1, h2 => by
    cases v with
    | uint u b =>
      cases w with
      | uint x y =>
        simp only [Value.eqDyn, Bool.and_eq_true, decide_eq_true_eq] at h1 h2 ⊢
        simp_all
      | iface _ e => cases e <;> simp [Value.eqDyn] at h2
      | _ => simp [Value.eqDyn] at h2
    | iface _ e => cases e <;> simp [Value.eqDyn] at h1
    | _ => simp [Value.eqDyn] at h1
  | .float t a, v, w, h1, h2 => by
    cases v with
    | float u b =>
      cases w with
      | float x y =>
        simp only [Value.eqDyn, Bool.and_eq_true, decide_eq_true_eq] at h1 h2 ⊢
        exact ⟨h1.1.trans h2.1, GoFloat.eq_trans h1.2 h2.2⟩
      | iface _ e => cases e <;> simp [Value.eqDyn] at h2
      | _ => simp [Value.eqDyn] at h2
    | iface _ e => cases e <;> simp [Value.eqDyn] at h1
    | _ => simp [Value.eqDyn] at h1
  | .complex t a c, v, w, h1, h2 => by
    cases v with
    | complex u b d =>
      cases w with
      | complex x y z =>
        simp only [Value.eqDyn, Bool.and_eq_true, decide_eq_true_eq] at h1 h2 ⊢
        exact ⟨⟨h1.1.1.trans h2.1.1, GoFloat.eq_trans h1.1.2 h2.1.2⟩,
          GoFloat.eq_trans h1.2 h2.2⟩
      | iface _ e => cases e <;> simp [Value.eqDyn] at h2
      | _ => simp [Value.eqDyn] at h2
    | iface _ e => cases e <;> simp [Value.eqDyn] at h1
    | _ => simp [Value.eqDyn] at h1
  | .string t a, v, w, h1, h2 => by
    cases v with
    | string u b =>
      cases w with
      | string x y =>
        simp only [Value.eqDyn, Bool.and_eq_true, decide_eq_true_eq] at h1 h2 ⊢
        simp_all
      | iface _ e => cases e <;> simp [Value.eqDyn] at h2
      | _ => simp [Value.eqDyn] at h2
    | iface _ e => cases e <;> simp [Value.eqDyn] at h1
    | _ => simp [Value.eqDyn] at h1
  | .time t a r, v, w, h1, h2 => by
    cases v with
    | time u b q =>
      cases w with
      | time x y z =>
        simp only [Value.eqDyn, Bool.and_eq_true, decide_eq_true_eq] at h1 h2 ⊢
        simp_all
      | iface _ e => cases e <;> simp [Value.eqDyn] at h2
      | _ => simp [Value.eqDyn] at h2
    | iface _ e => cases e <;> simp [Value.eqDyn] at h1
    | _ => simp [Value.eqDyn] at h1
  | .ptr t a, v, w, h1, h2 => by
    cases v with
    | ptr u b =>
      cases w with
      | ptr x y =>
        simp only [Value.eqDyn, Bool.and_eq_true, decide_eq_true_eq] at h1 h2 ⊢
        simp_all
      | iface _ e => cases e <;> simp [Value.eqDyn] at h2
      | _ => simp [Value.eqDyn] at h2
    | iface _ e => cases e <;> simp [Value.eqDyn] at h1
    | _ => simp [Value.eqDyn] at h1
  | .slice t a, v, w, h1, h2 => by
    cases v with
    | iface _ e => cases e <;> simp [Value.eqDyn] at h1
    | _ => simp [Value.eqDyn] at h1
  | .map t a, v, w, h1, h2 => by
    cases v with
    | iface _ e => cases e <;> simp [Value.eqDyn] at h1
    | _ => simp [Value.eqDyn] at h1
  | .func t a, v, w, h1, h2 => by
    cases v with
    | iface _ e => cases e <;> simp [Value.eqDyn] at h1
    | _ => simp [Value.eqDyn] at h1
  | .chan t a, v, w, h1, h2 => by
    cases v with
    | chan u b =>
      cases w with
      | chan x y =>
        simp only [Value.eqDyn, Bool.and_eq_true, decide_eq_true_eq] at h1 h2 ⊢
        simp_all
      | iface _ e => cases e <;> simp [Value.eqDyn] at h2
      | _ => simp [Value.eqDyn] at h2
    | iface _ e => cases e <;> simp [Value.eqDyn] at h1
    | _ => simp [Value.eqDyn] at h1
termination_by a => sizeOf a
decreasing_by
  all_goals simp_wf
  all_goals try omega
  all_goals
    have hlt := List.sizeOf_lt_of_mem ‹_ ∈ _›
    omega

/-- The operator `==` on keys is symmetric. -/
theorem Value.eqIface_symm (a b : Value) : Value.eqIface a b = Value.eqIface b a :=
  Value.eqDyn_symm a.dynamic b.dynamic

/-- The operator `==` on keys is transitive. -/
theorem Value.eqIface_trans {a b c : Value} (h1 : Value.eqIface a b = true)
    (h2 : Value.eqIface b c = true) : Value.eqIface a c = true :=
  Value.eqDyn_trans a.dynamic b.dynamic c.dynamic h1 h2

/-! ## Counting the keys two lists share -/

theorem countP_eq_one_of_pairwise {α : Type} (P : α → Bool) (G : List α)
    (hG : G.Pairwise (fun p q => ¬ (P p = true ∧ P q = true)))
    (hex : ∃ p ∈ G, P p = true) : G.countP P = 1 := by
  induction G with
  | nil => simp at hex
  | cons x xs ih =>
    rw [List.pairwise_cons] at hG
    by_cases hx : P x = true
    · have hnone : ∀ q ∈ xs, ¬ P q = true := fun q hq hPq => hG.1 q hq ⟨hx, hPq⟩
      have h0 : xs.countP P = 0 := by
        rw [List.countP_eq_zero]; exact hnone
      rw [List.countP_cons_of_pos _ _ hx, h0]
    · obtain ⟨p, hp, hPp⟩ := hex
      rcases List.mem_cons.mp hp with rfl | hp2
      · exact absurd hPp hx
      · rw [List.countP_cons_of_neg _ _ hx]
        exact ih hG.2 ⟨p, hp2, hPp⟩

theorem countP_le_one_of_pairwise {α : Type} (P : α → Bool) (E : List α)
    (hE : E.Pairwise (fun p q => ¬ (P p = true ∧ P q = true))) : E.countP P ≤ 1 := by
  by_cases hex : ∃ p ∈ E, P p = true
  · exact le_of_eq (countP_eq_one_of_pairwise P E hE hex)
  · have h0 : E.countP P = 0 := by
      rw [List.countP_eq_zero]
      intro q hq hPq; exact hex ⟨q, hq, hPq⟩
    omega

theorem sum_map_ite_eq_countP {α : Type} (P : α → Bool) (G : List α) :
    (G.map (fun p => if P p = true then 1 else 0)).sum = G.countP P := by
  induction G with
  | nil => rfl
  | cons x xs ih =>
    by_cases hx : P x = true
    · rw [List.countP_cons_of_pos _ _ hx]; simp [hx, ih]; omega
    · rw [List.countP_cons_of_neg _ _ hx]; simp [hx, ih]

/-- Counting the pairs (p, e) with `r p e` by rows or by columns. -/
theorem sum_countP_comm {α β : Type} (r : α → β → Bool) (G : List α) (E : List β) :
    (E.map (fun e => G.countP (fun p => r p e))).sum
      = (G.map (fun p => E.countP (fun e => r p e))).sum := by
  induction E with
  | nil => simp
  | cons e es ih =>
    simp only [List.map_cons, List.sum_cons, ih]
    rw [← sum_map_ite_eq_countP (fun p => r p e) G]
    rw [← List.sum_map_add]
    congr 1
    apply List.map_congr_left
    intro p _
    by_cases h : r p e = true
    · simp [h, List.countP_cons_of_pos]; omega
    · simp [h, List.countP_cons_of_neg]

/-- When every element of E is matched by an element of G, elements at distinct
places never sharing a match, G and E have the same length exactly when every
element of G matches an element of E. -/
theorem length_eq_iff_all_matched {α β : Type} (r : α → β → Bool) (G : List α)
    (E : List β)
    (hG : G.Pairwise (fun p q => ∀ e, ¬ (r p e = true ∧ r q e = true)))
    (hE : E.Pairwise (fun e f => ∀ p, ¬ (r p e = true ∧ r p f = true)))
    (hex : ∀ e ∈ E, ∃ p ∈ G, r p e = true) :
    G.length = E.length ↔ ∀ p ∈ G, ∃ e ∈ E, r p e = true := by
  have h1 : ∀ e ∈ E, G.countP (fun p => r p e) = 1 := fun e he =>
    countP_eq_one_of_pairwise _ G (hG.imp (fun h => h e)) (hex e he)
  have h2 : ∀ p ∈ G, E.countP (fun e => r p e) = if E.any (fun e => r p e) = true then 1 else 0 := by
    intro p _
    have hle := countP_le_one_of_pairwise (fun e => r p e) E (hE.imp (fun h => h p))
    by_cases hany : E.any (fun e => r p e) = true
    · rw [if_pos hany]
      have hpos : 0 < E.countP (fun e => r p e) := by
        rw [List.countP_pos_iff]
        obtain ⟨e, he, hr⟩ := List.any_eq_true.mp hany
        exact ⟨e, he, hr⟩
      omega
    · rw [if_neg hany]
      rw [List.countP_eq_zero]
      intro e he hr
      exact hany (List.any_eq_true.mpr ⟨e, he, hr⟩)
  have hlen : E.length = G.countP (fun p => E.any (fun e => r p e)) := by
    have e1 : (E.map (fun e => G.countP (fun p => r p e))).sum = E.length := by
      rw [List.map_congr_left h1]; simp
    rw [← e1, sum_countP_comm, List.map_congr_left h2, sum_map_ite_eq_countP]
  rw [hlen, eq_comm, List.countP_eq_length]
  constructor
  · intro h p hp
    obtain ⟨e, he, hr⟩ := List.any_eq_true.mp (h p hp)
    exact ⟨e, he, hr⟩
  · intro h p hp
    obtain ⟨e, he, hr⟩ := h p hp
    exact List.any_eq_true.mpr ⟨e, he, hr⟩

/-! ## Lemmas on `(*tdMap).Match` -/

theorem MapIndex_map (t : GoType) (es : Option (List (Value × Value))) (k : Value) :
    (Value.map t es).MapIndex k = .ok ((Value.map t es).mapGet k) := by
  simp only [Value.MapIndex, Value.mapGet]
  split <;> rfl

/-- A map holds a key exactly when `MapIndex` returns a valid Value there, the
values a map holds being valid. -/
theorem mapGet_IsValid (got k : Value)
    (hvalid : ∀ p ∈ got.mapEntries, p.2.IsValid = true) :
    (got.mapGet k).IsValid = got.hasKey k := by
  simp only [Value.mapGet, Value.hasKey]
  cases hf : got.mapEntries.find? (fun p => Value.eqIface p.1 k) with
  | none =>
    have : got.mapEntries.any (fun p => Value.eqIface p.1 k) = false := by
      rw [List.any_eq_false]
      intro p hp
      have := List.find?_eq_none.mp hf p hp
      simpa using this
    simp [this, Value.IsValid]
  | some p =>
    have hm : p ∈ got.mapEntries := List.mem_of_find?_eq_some hf
    have hp : Value.eqIface p.1 k = true := by
      have := List.find?_some hf
      simpa using this
    have : got.mapEntries.any (fun p => Value.eqIface p.1 k) = true :=
      List.any_eq_true.mpr ⟨p, hm, hp⟩
    simp [this, hvalid p hm]

/-- What the loop of `Match` returns on a map: it never panics; it returns nil
exactly when the engine finds, for every expected key the map holds, the value
held there equal to the expected one; and then `notFoundKeys` are the expected
keys the map does not hold and `foundKeys` gathers those it holds. -/
theorem matchEntries_spec (env : Env) (ctx : Context) (t : GoType)
    (es : Option (List (Value × Value)))
    (hvalid : ∀ p ∈ (Value.map t es).mapEntries, p.2.IsValid = true) :
    ∀ (E : List mapEntryInfo) (nf fk : List Value),
      ∃ r nf2 fk2, tdMap.matchEntries env ctx (.map t es) E nf fk = .ok (r, nf2, fk2)
        ∧ (r = .nil ↔ ∀ e ∈ E, (Value.map t es).hasKey e.key = true →
            env.deepValueEqual (ctx.AddMapKey (env.ToString e.key))
              ((Value.map t es).mapGet e.key) e.expected = .nil)
        ∧ (r = .nil →
            nf2 = nf ++ (E.filter (fun e => !(Value.map t es).hasKey e.key)).map
              (fun e => e.key)
            ∧ fk2 = (E.filter (fun e => (Value.map t es).hasKey e.key)).foldl
              (fun s e => keySetInsert s e.key) fk) := by
  intro E
  induction E with
  | nil =>
    intro nf fk
    exact ⟨.nil, nf, fk, rfl, by simp, by simp⟩
  | cons e rest ih =>
    intro nf fk
    simp only [tdMap.matchEntries, MapIndex_map, Bind.bind, Except.bind,
      mapGet_IsValid _ _ hvalid]
    by_cases hk : (Value.map t es).hasKey e.key = true
    · simp only [hk, Bool.not_true, Bool.false_eq_true, if_false]
      by_cases hz : env.deepValueEqual (ctx.AddMapKey (env.ToString e.key))
          ((Value.map t es).mapGet e.key) e.expected = .nil
      · simp only [hz, ne_eq, not_true_eq_false, if_false]
        obtain ⟨r, nf2, fk2, h1, h2, h3⟩ := ih nf (keySetInsert fk e.key)
        refine ⟨r, nf2, fk2, h1, ?_, ?_⟩
        · rw [h2]
          constructor
          · intro h x hx
            rcases List.mem_cons.mp hx with rfl | hx2
            · intro _; exact hz
            · exact h x hx2
          · intro h x hx; exact h x (List.mem_cons_of_mem _ hx)
        · intro hr
          obtain ⟨a1, a2⟩ := h3 hr
          refine ⟨?_, ?_⟩
          · rw [a1]; simp [List.filter_cons, hk]
          · rw [a2]; simp [List.filter_cons, hk]
      · simp only [ne_eq, hz, not_false_eq_true, if_true, pure, Except.pure]
        refine ⟨_, nf, fk, rfl, ?_, ?_⟩
        · constructor
          · intro h; exact absurd h hz
          · intro h; exact absurd (h e (List.mem_cons_self _ _) hk) hz
        · intro h; exact absurd h hz
    · have hk2 : (Value.map t es).hasKey e.key = false := by
        cases h : (Value.map t es).hasKey e.key <;> simp_all
      simp only [hk2, Bool.not_false, if_true]
      obtain ⟨r, nf2, fk2, h1, h2, h3⟩ := ih (nf ++ [e.key]) fk
      refine ⟨r, nf2, fk2, h1, ?_, ?_⟩
      · rw [h2]
        constructor
        · intro h x hx
          rcases List.mem_cons.mp hx with rfl | hx2
          · intro hc; rw [hk2] at hc; cases hc
          · exact h x hx2
        · intro h x hx; exact h x (List.mem_cons_of_mem _ hx)
      · intro hr
        obtain ⟨a1, a2⟩ := h3 hr
        refine ⟨?_, ?_⟩
        · rw [a1]; simp [List.filter_cons, hk2]
        · rw [a2]; simp [List.filter_cons, hk2]

/-! ## Lemmas on `(*tdMap).Match` -/

theorem keySetMem_iff (s : List Value) (k : Value) :
    keySetMem s k = true ↔ ∃ x ∈ s, Value.eqIface x k = true := by
  simp [keySetMem, List.any_eq_true]

/-- Inserting keys that are pairwise different, and different from the keys of
the set, appends them. -/
theorem foldl_keySetInsert (L : List mapEntryInfo) :
    ∀ fk : List Value,
      L.Pairwise (fun a b => Value.eqIface a.key b.key = false) →
      (∀ x ∈ fk, ∀ e ∈ L, Value.eqIface x e.key = false) →
      L.foldl (fun s e => keySetInsert s e.key) fk = fk ++ L.map (fun e => e.key) := by
  induction L with
  | nil => intro fk _ _; simp
  | cons a L ih =>
    intro fk hp hfk
    rw [List.pairwise_cons] at hp
    have hnot : keySetMem fk a.key = false := by
      cases h : keySetMem fk a.key
      · rfl
      · obtain ⟨x, hx, hxa⟩ := (keySetMem_iff fk a.key).1 h
        rw [hfk x hx a (List.mem_cons_self _ _)] at hxa
        cases hxa
    have hstep : keySetInsert fk a.key = fk ++ [a.key] := by
      simp only [keySetInsert, hnot, Bool.false_eq_true, if_false]
    rw [List.foldl_cons, hstep, ih (fk ++ [a.key]) hp.2]
    · simp
    · intro x hx e he
      rcases List.mem_append.1 hx with hx | hx
      · exact hfk x hx e (List.mem_cons_of_mem _ he)
      · rw [List.mem_singleton] at hx
        subst hx
        exact hp.1 e he

theorem hasKey_iff (g k : Value) :
    g.hasKey k = true ↔ ∃ p ∈ g.mapEntries, Value.eqIface p.1 k = true := by
  simp [Value.hasKey, List.any_eq_true]

theorem isExpected_iff (m : tdMap) (k : Value) :
    m.isExpected k = true ↔ ∃ e ∈ m.expectedEntries, Value.eqIface e.key k = true := by
  simp [tdMap.isExpected, List.any_eq_true]

theorem Len_map (t : GoType) (es : Option (List (Value × Value))) :
    (Value.map t es).Len = .ok (Value.map t es).mapEntries.length := by
  cases es <;> rfl

/-- The number of keys of got equals the number of expected keys got holds
exactly when every key of got is expected. -/
theorem length_found_iff (m : tdMap) (g : Value)
    (hG : g.mapEntries.Pairwise (fun p q => Value.eqIface p.1 q.1 = false))
    (hE : m.expectedEntries.Pairwise (fun a b => Value.eqIface a.key b.key = false)) :
    g.mapEntries.length = (m.expectedEntries.filter (fun e => g.hasKey e.key)).length
      ↔ ∀ p ∈ g.mapEntries, m.isExpected p.1 = true := by
  rw [length_eq_iff_all_matched (fun (p : Value × Value) (e : mapEntryInfo) =>
    Value.eqIface p.1 e.key) g.mapEntries
    (m.expectedEntries.filter (fun e => g.hasKey e.key))]
  · constructor
    · intro h p hp
      obtain ⟨e, he, hpe⟩ := h p hp
      rw [isExpected_iff]
      refine ⟨e, (List.mem_filter.1 he).1, ?_⟩
      rw [Value.eqIface_symm]; exact hpe
    · intro h p hp
      obtain ⟨e, he, hpe⟩ := (isExpected_iff m p.1).1 (h p hp)
      refine ⟨e, List.mem_filter.2 ⟨he, ?_⟩, ?_⟩
      · simp only [hasKey_iff]
        exact ⟨p, hp, by rw [Value.eqIface_symm]; exact hpe⟩
      · show Value.eqIface p.1 e.key = true
        rw [Value.eqIface_symm]; exact hpe
  · refine hG.imp ?_
    intro p q hpq e ⟨h1, h2⟩
    have h3 : Value.eqIface e.key q.1 = true := by rw [Value.eqIface_symm]; exact h2
    have := Value.eqIface_trans h1 h3
    rw [hpq] at this; cases this
  · refine (hE.filter _).imp ?_
    intro e f hef p ⟨h1, h2⟩
    have h3 : Value.eqIface e.key p.1 = true := by rw [Value.eqIface_symm]; exact h1
    have := Value.eqIface_trans h3 h2
    rw [hef] at this; cases this
  · intro e he
    have := (List.mem_filter.1 he).2
    simp only [hasKey_iff] at this
    exact this

theorem keysError_ne_nil (env : Env) (ctx : Context) (missing extra : List Value) :
    tdMap.keysError env ctx missing extra ≠ .nil := by
  unfold tdMap.keysError
  split_ifs <;> simp

theorem missingKeys_length_eq_zero_iff (m : tdMap) (g : Value) :
    (m.missingKeys g).length = 0 ↔ ∀ e ∈ m.expectedEntries, g.hasKey e.key = true := by
  simp [tdMap.missingKeys, List.filter_eq_nil_iff]

/-- What `Match` returns on a map got of the expected type when the engine
accepts the value at every expected key got holds. -/
theorem Match_of_pass (env : Env) (m : tdMap) (ctx : Context) (got : Value) (t : GoType)
    (es : Option (List (Value × Value)))
    (hptr : env.checkPtr m.totdExpectedType ctx got true = (.map t es, .nil))
    (htype : env.checkType m.totdExpectedType ctx (.map t es) = .nil)
    (hvalid : ∀ p ∈ (Value.map t es).mapEntries, p.2.IsValid = true)
    (hG : (Value.map t es).mapEntries.Pairwise (fun p q => Value.eqIface p.1 q.1 = false))
    (hE : m.expectedEntries.Pairwise (fun a b => Value.eqIface a.key b.key = false))
    (hpass : ∀ e ∈ m.expectedEntries, (Value.map t es).hasKey e.key = true →
      tdMap.compareEntry env ctx (.map t es) e = .nil) :
    m.Match env ctx got = .ok
      (if m.kind = .superMap then
        if (m.missingKeys (.map t es)).length = 0 then .nil
        else tdMap.keysError env ctx (m.missingKeys (.map t es)) []
      else if ∀ p ∈ (Value.map t es).mapEntries, m.isExpected p.1 = true then
        if m.kind = .subMap then .nil
        else if (m.missingKeys (.map t es)).length = 0 then .nil
        else tdMap.keysError env ctx (m.missingKeys (.map t es)) []
      else
        tdMap.keysError env ctx (m.missingKeys (.map t es))
          ((env.MapSortedKeys (.map t es)).filter (fun k =>
            !keySetMem ((m.expectedEntries.filter
              (fun e => (Value.map t es).hasKey e.key)).map (fun e => e.key)) k))) := by
  obtain ⟨r, nf2, fk2, hrun, hnil, hshape⟩ :=
    matchEntries_spec env ctx t es hvalid m.expectedEntries [] []
  have hr : r = .nil := hnil.2 hpass
  subst hr
  obtain ⟨hnf, hfk⟩ := hshape rfl
  rw [foldl_keySetInsert _ [] (hE.filter _) (by intro x hx; cases hx)] at hfk
  simp only [List.nil_append] at hnf hfk
  have hlen := length_found_iff m (.map t es) hG hE
  have hmiss : nf2 = m.missingKeys (.map t es) := hnf
  subst hmiss
  subst hfk
  simp only [tdMap.Match, hptr, htype, hrun, Len_map, Bind.bind, Except.bind, pure,
    Except.pure, ne_eq, not_true_eq_false, if_false, List.length_map, hlen,
    tdMap.keysError, Context.CollectError]
  split_ifs <;> rfl

/-- What `Match` returns on a map got of the expected type when the engine
rejects the value at an expected key got holds. -/
theorem Match_of_fail (env : Env) (m : tdMap) (ctx : Context) (got : Value) (t : GoType)
    (es : Option (List (Value × Value)))
    (hptr : env.checkPtr m.totdExpectedType ctx got true = (.map t es, .nil))
    (htype : env.checkType m.totdExpectedType ctx (.map t es) = .nil)
    (hvalid : ∀ p ∈ (Value.map t es).mapEntries, p.2.IsValid = true)
    (hfail : ¬ ∀ e ∈ m.expectedEntries, (Value.map t es).hasKey e.key = true →
      tdMap.compareEntry env ctx (.map t es) e = .nil) :
    ∃ r, m.Match env ctx got = .ok r ∧ r ≠ .nil := by
  obtain ⟨r, nf2, fk2, hrun, hnil, -⟩ :=
    matchEntries_spec env ctx t es hvalid m.expectedEntries [] []
  have hr : r ≠ .nil := fun h => hfail (hnil.1 h)
  refine ⟨r, ?_, hr⟩
  simp only [tdMap.Match, hptr, htype, hrun, Bind.bind, Except.bind, pure,
    Except.pure, ne_eq, not_true_eq_false, if_false, hr, not_false_eq_true, if_true]

/-! ## Lemmas on `newMap` -/

theorem Except.bind_eq_ok {ε α β : Type} (x : Except ε α) (f : α → Except ε β) (b : β) :
    bind x f = .ok b ↔ ∃ a, x = .ok a ∧ f a = .ok b := by
  cases x with
  | error e => simp [bind, Except.bind]
  | ok a => simp [bind, Except.bind]

theorem populateFromEntries_keys (env : Env) (keyType valueType : GoType) :
    ∀ (entries : List (Value × Value)) (L : List mapEntryInfo),
      tdMap.populateFromEntries env keyType valueType entries = .ok L →
      L.map (fun e => e.key) = entries.map Prod.fst := by
  intro entries
  induction entries with
  | nil =>
    intro L h
    simp only [tdMap.populateFromEntries, pure, Except.pure, Except.ok.injEq] at h
    subst h; rfl
  | cons p rest ih =>
    intro L h
    obtain ⟨key, expectedValue⟩ := p
    rw [tdMap.populateFromEntries] at h
    obtain ⟨tkey, -, h⟩ := (Except.bind_eq_ok _ _ _).1 h
    have hshape : ∃ expected tail,
        tdMap.populateFromEntries env keyType valueType rest = .ok tail
          ∧ L = { key := key, expected := expected } :: tail := by
      split at h
      · cases h
      · split at h
        · split at h <;> obtain ⟨expected, hexp, h⟩ := (Except.bind_eq_ok _ _ _).1 h <;>
            (obtain ⟨tail, hrest, h⟩ := (Except.bind_eq_ok _ _ _).1 h
             simp only [pure, Except.pure, Except.ok.injEq] at h
             exact ⟨expected, tail, hrest, h.symm⟩)
        · obtain ⟨texp, -, h⟩ := (Except.bind_eq_ok _ _ _).1 h
          split at h <;> obtain ⟨expected, hexp, h⟩ := (Except.bind_eq_ok _ _ _).1 h <;>
            (obtain ⟨tail, hrest, h⟩ := (Except.bind_eq_ok _ _ _).1 h
             simp only [pure, Except.pure, Except.ok.injEq] at h
             exact ⟨expected, tail, hrest, h.symm⟩)
    obtain ⟨expected, tail, hrest, rfl⟩ := hshape
    simp [ih tail hrest]

theorem populateFromModel_spec (env : Env) (checked : List Value) :
    ∀ (mes : List (Value × Value)) (L : List mapEntryInfo),
      tdMap.populateFromModel env checked mes = .ok L →
      L = mes.map (fun p => { key := p.1, expected := p.2 })
        ∧ ∀ p ∈ mes, keySetMem checked p.1 = false := by
  intro mes
  induction mes with
  | nil =>
    intro L h
    simp only [tdMap.populateFromModel, pure, Except.pure, Except.ok.injEq] at h
    subst h
    exact ⟨rfl, by intro p hp; cases hp⟩
  | cons p rest ih =>
    intro L h
    obtain ⟨k, v⟩ := p
    rw [tdMap.populateFromModel] at h
    split_ifs at h with hmem
    obtain ⟨tail, hrest, h⟩ := (Except.bind_eq_ok _ _ _).1 h
    simp only [pure, Except.pure, Except.ok.injEq] at h
    subst h
    obtain ⟨h1, h2⟩ := ih tail hrest
    refine ⟨by simp [h1], ?_⟩
    intro p hp
    rcases List.mem_cons.1 hp with hp | hp
    · subst hp; simpa using hmem
    · exact h2 p hp

/-- What `populateExpectedEntries` stores: the kind and the expected type are
kept; the expected entries are those of `entries`, followed by one entry per
key/value pair of the model, whatever the value. -/
theorem populateExpectedEntries_spec (env : Env) (m m2 : tdMap)
    (entries : List (Value × Value)) (expectedModel : Value)
    (h : tdMap.populateExpectedEntries env m entries expectedModel = .ok m2) :
    m2.kind = m.kind ∧ m2.totdExpectedType = m.totdExpectedType ∧
    ∃ fe : List mapEntryInfo, fe.map (fun e => e.key) = entries.map Prod.fst ∧
      (m2.expectedEntries = fe ∨
        (m2.expectedEntries =
            fe ++ expectedModel.mapEntries.map (fun p => { key := p.1, expected := p.2 })
          ∧ ∀ p ∈ expectedModel.mapEntries, keySetMem (entries.map Prod.fst) p.1 = false)) := by
  rw [tdMap.populateExpectedEntries] at h
  have hshape : ∃ (keysInModel : Nat) (et : GoType),
      (do
        let keyType ← et.Key
        let valueType ← et.Elem
        let fromEntries ← tdMap.populateFromEntries env keyType valueType entries
        if keysInModel = 0 then
          (pure { m with expectedEntries := fromEntries } : Except Panic tdMap)
        else do
          let fromModel ←
            tdMap.populateFromModel env (entries.map Prod.fst) expectedModel.mapEntries
          pure { m with expectedEntries := fromEntries ++ fromModel }) = .ok m2 := by
    split at h <;> obtain ⟨keysInModel, -, h⟩ := (Except.bind_eq_ok _ _ _).1 h <;>
      split at h <;> obtain ⟨et, -, h⟩ := (Except.bind_eq_ok _ _ _).1 h <;>
      exact ⟨keysInModel, et, h⟩
  obtain ⟨keysInModel, et, h⟩ := hshape
  obtain ⟨keyType, -, h⟩ := (Except.bind_eq_ok _ _ _).1 h
  obtain ⟨valueType, -, h⟩ := (Except.bind_eq_ok _ _ _).1 h
  obtain ⟨fe, hfe, h⟩ := (Except.bind_eq_ok _ _ _).1 h
  have hkeys := populateFromEntries_keys env keyType valueType entries fe hfe
  split_ifs at h with hzero
  · simp only [pure, Except.pure, Except.ok.injEq] at h
    subst h
    exact ⟨rfl, rfl, fe, hkeys, Or.inl rfl⟩
  · obtain ⟨fm, hfm, h⟩ := (Except.bind_eq_ok _ _ _).1 h
    simp only [pure, Except.pure, Except.ok.injEq] at h
    subst h
    obtain ⟨h1, h2⟩ := populateFromModel_spec env _ _ fm hfm
    exact ⟨rfl, rfl, fe, hkeys, Or.inr ⟨by rw [h1], h2⟩⟩

/-- What `newMap` builds: an operator of the kind asked for, its expected
entries being those of `entries` followed by one entry per key/value pair of
the model (of the map the model points to, for a pointer). -/
theorem newMap_spec (env : Env) (base : Base) (model : Value)
    (entries : List (Value × Value)) (kind : mapKind) (m : tdMap)
    (h : newMap env base model entries kind = .ok m) :
    m.kind = kind ∧
    ∃ (fe : List mapEntryInfo) (mv : Value),
      fe.map (fun e => e.key) = entries.map Prod.fst ∧
      (mv = model ∨ mv = .invalid ∨ model.Elem = .ok mv) ∧
      (m.expectedEntries = fe ∨
        (m.expectedEntries =
            fe ++ mv.mapEntries.map (fun p => { key := p.1, expected := p.2 })
          ∧ ∀ p ∈ mv.mapEntries, keySetMem (entries.map Prod.fst) p.1 = false)) := by
  have hshape : ∃ (m0 : tdMap) (mv : Value), m0.kind = kind ∧
      (mv = model ∨ mv = .invalid ∨ model.Elem = .ok mv) ∧
      tdMap.populateExpectedEntries env m0 entries mv = .ok m := by
    rw [newMap] at h
    simp only at h
    split at h
    · obtain ⟨t, -, h⟩ := (Except.bind_eq_ok _ _ _).1 h
      obtain ⟨te, -, h⟩ := (Except.bind_eq_ok _ _ _).1 h
      split at h
      · cases h
      · obtain ⟨b, -, h⟩ := (Except.bind_eq_ok _ _ _).1 h
        split at h
        · exact ⟨_, _, rfl, Or.inr (Or.inl rfl), h⟩
        · obtain ⟨v, hv, h⟩ := (Except.bind_eq_ok _ _ _).1 h
          obtain ⟨t2, -, h⟩ := (Except.bind_eq_ok _ _ _).1 h
          exact ⟨_, _, rfl, Or.inr (Or.inr hv), h⟩
    · obtain ⟨t, -, h⟩ := (Except.bind_eq_ok _ _ _).1 h
      exact ⟨_, _, rfl, Or.inl rfl, h⟩
    · cases h
  obtain ⟨m0, mv, hk, hmv, hpop⟩ := hshape
  obtain ⟨h1, -, fe, hfe, h3⟩ := populateExpectedEntries_spec env m0 m entries mv hpop
  exact ⟨h1.trans hk, fe, mv, hfe, hmv, h3⟩

/-- The expected keys `newMap` stores are pairwise different when the keys of
`entries` are and those of the model are. -/
theorem newMap_distinct (env : Env) (base : Base) (model : Value)
    (entries : List (Value × Value)) (kind : mapKind) (m : tdMap)
    (h : newMap env base model entries kind = .ok m)
    (hentries : distinctKeys entries) (hmodel : distinctKeys model.mapEntries)
    (hpointee : ∀ v, model.Elem = .ok v → distinctKeys v.mapEntries) :
    m.expectedEntries.Pairwise (fun a b => Value.eqIface a.key b.key = false) := by
  obtain ⟨-, fe, mv, hfe, hmv, hE⟩ := newMap_spec env base model entries kind m h
  have hfeP : fe.Pairwise (fun a b => Value.eqIface a.key b.key = false) := by
    have h1 : (fe.map (fun e => e.key)).Pairwise (fun a b => Value.eqIface a b = false) := by
      rw [hfe]
      exact (List.pairwise_map).2 hentries
    exact (List.pairwise_map).1 h1
  have hmvP : distinctKeys mv.mapEntries := by
    rcases hmv with rfl | rfl | hmv
    · exact hmodel
    · exact List.Pairwise.nil
    · exact hpointee mv hmv
  rcases hE with hE | ⟨hE, hdisj⟩
  · rw [hE]; exact hfeP
  · rw [hE, List.pairwise_append]
    refine ⟨hfeP, (List.pairwise_map).2 hmvP, ?_⟩
    intro a ha b hb
    obtain ⟨p, hp, rfl⟩ := List.mem_map.1 hb
    have hnot := hdisj p hp
    cases hab : Value.eqIface a.key p.1
    · rfl
    · have hmem : keySetMem (entries.map Prod.fst) p.1 = true := by
        rw [keySetMem_iff]
        exact ⟨a.key, by rw [← hfe]; exact List.mem_map.2 ⟨a, ha, rfl⟩, hab⟩
      rw [hnot] at hmem; cases hmem

/-- On a map got of the expected type `Match` returns, and it returns nil
exactly when the engine accepts the value at every expected key got holds,
every expected key is held by got unless the kind is `subMap`, and every key of
got is expected unless the kind is `superMap`. -/
theorem Match_nil_iff (env : Env) (m : tdMap) (ctx : Context) (got g : Value)
    (hgot : m.gotIsMap env ctx got g)
    (hE : m.expectedEntries.Pairwise (fun a b => Value.eqIface a.key b.key = false)) :
    (∃ r, m.Match env ctx got = .ok r) ∧
    (m.Match env ctx got = .ok .nil ↔
      (∀ e ∈ m.expectedEntries, g.hasKey e.key = true →
        tdMap.compareEntry env ctx g e = .nil)
      ∧ (m.kind ≠ .subMap → ∀ e ∈ m.expectedEntries, g.hasKey e.key = true)
      ∧ (m.kind ≠ .superMap → ∀ p ∈ g.mapEntries, m.isExpected p.1 = true)) := by
  obtain ⟨hptr, htype, ⟨t, es, rfl⟩, hG, hvalid, -⟩ := hgot
  by_cases hpass : ∀ e ∈ m.expectedEntries, (Value.map t es).hasKey e.key = true →
      tdMap.compareEntry env ctx (.map t es) e = .nil
  · have hM := Match_of_pass env m ctx got t es hptr htype hvalid hG hE hpass
    refine ⟨⟨_, hM⟩, ?_⟩
    rw [hM]
    have hne := keysError_ne_nil env ctx
    have hmiss := missingKeys_length_eq_zero_iff m (.map t es)
    cases hk : m.kind <;>
      simp only [hk, reduceCtorEq, if_false, if_true, ne_eq, not_true_eq_false,
        not_false_eq_true, false_implies, true_implies, true_and, and_true] <;>
      split_ifs <;>
      simp_all <;>
      assumption
  · obtain ⟨r, hr, hne⟩ := Match_of_fail env m ctx got t es hptr htype hvalid hpass
    refine ⟨⟨r, hr⟩, ?_⟩
    rw [hr]
    constructor
    · intro h
      simp only [Except.ok.injEq] at h
      exact absurd h hne
    · intro h
      exact absurd h.1 hpass

/-! ## C14, C15, C16: what Map, SubMapOf and SuperMapOf match -/

theorem sampleArgs_distinct : distinctArgs (sampleMap [(97, 1), (98, 2)]) [] :=
  ⟨⟨by decide, by decide, by intro v h; cases h⟩,
    by decide, by decide, by intro v h; cases h⟩

theorem sampleMap_takesKey (es : List (Fin 256 × Int)) (c : Fin 256) :
    (sampleMap es).takesKey (sampleKey c) :=
  ⟨sampleMapType, .basic .string, rfl, rfl, Or.inr rfl⟩

theorem sampleMapOp_gotIsMap (kind : mapKind) (es : List (Fin 256 × Int))
    (h : distinctKeys (sampleMap es).mapEntries) :
    (sampleMapOp kind).gotIsMap eqEnv sampleCtx (sampleMap es) (sampleMap es) := by
  refine ⟨rfl, rfl, ⟨_, _, rfl⟩, h, ?_, ?_, ?_⟩
  · intro p hp
    simp only [sampleMap, Value.mapEntries, List.mem_map] at hp
    obtain ⟨q, -, rfl⟩ := hp
    rfl
  · intro p hp
    simp only [sampleMap, Value.mapEntries, List.mem_map] at hp
    obtain ⟨q, -, rfl⟩ := hp
    rfl
  · intro e he
    simp only [sampleMapOp, List.mem_cons, List.mem_singleton, List.not_mem_nil,
      or_false] at he
    rcases he with rfl | rfl <;> exact sampleMap_takesKey es _

/-- C14: for every map got of the expected type, `Map(model, entries)` matches
got iff got holds every expected key, the engine accepts the value got holds at
each expected key against its expectation, and every key of got is an expected
key; Match never panics on such a got.  The keys (of any comparable kind:
numbers, strings, arrays, structs, ...) are compared by value and are of the key
type of got, as `distinctArgs` and `gotIsMap` say. -/
theorem Map_matches_iff (env : Env) (base : Base) (model : Value)
    (entries : List (Value × Value)) (m : tdMap)
    (hm : Map env base model entries = .ok m) (hargs : distinctArgs model entries)
    (ctx : Context) (got g : Value) (hgot : m.gotIsMap env ctx got g) :
    (∃ r, m.Match env ctx got = .ok r) ∧
    (m.Match env ctx got = .ok .nil ↔
      (∀ e ∈ m.expectedEntries, g.hasKey e.key = true)
      ∧ (∀ e ∈ m.expectedEntries, tdMap.compareEntry env ctx g e = .nil)
      ∧ (∀ p ∈ g.mapEntries, m.isExpected p.1 = true)) := by
  have hE := newMap_distinct env base model entries .allMap m hm hargs.1.1 hargs.1.2.1 hargs.1.2.2
  have hk : m.kind = .allMap := (newMap_spec env base model entries .allMap m hm).1
  obtain ⟨hret, hiff⟩ := Match_nil_iff env m ctx got g hgot hE
  refine ⟨hret, hiff.trans ?_⟩
  simp only [hk, ne_eq, reduceCtorEq, not_false_eq_true, true_implies]
  constructor
  · rintro ⟨h1, h2, h3⟩
    exact ⟨h2, fun e he => h1 e he (h2 e he), h3⟩
  · rintro ⟨h1, h2, h3⟩
    exact ⟨fun e he _ => h2 e he, h1, h3⟩

/-- C14 on concrete data: `Map(map[string]int{"a": 1, "b": 2}, nil)` matches
`{"a": 1, "b": 2}`; it matches neither `{"a": 1}` (a key is missing) nor
`{"a": 1, "b": 2, "c": 3}` (a key is not expected) nor `{"a": 1, "b": 3}`.  On
array keys, `Map(map[[1]int]int{{1}: 7}, nil)` matches the map itself and not
`{{2}: 7}`, where the key `{1}` is missing and the key `{2}` is not expected;
and likewise on struct keys. -/
theorem Map_matches_iff_witness :
    (Map eqEnv {} (sampleMap [(97, 1), (98, 2)]) [] = .ok (sampleMapOp .allMap)
      ∧ distinctArgs (sampleMap [(97, 1), (98, 2)]) []
      ∧ (sampleMapOp .allMap).gotIsMap eqEnv sampleCtx (sampleMap [(97, 1), (98, 2)])
          (sampleMap [(97, 1), (98, 2)]))
    ∧ ((∃ r, (sampleMapOp .allMap).Match eqEnv sampleCtx (sampleMap [(97, 1), (98, 2)])
          = .ok r) ∧
      ((sampleMapOp .allMap).Match eqEnv sampleCtx (sampleMap [(97, 1), (98, 2)]) = .ok .nil ↔
        (∀ e ∈ (sampleMapOp .allMap).expectedEntries,
          (sampleMap [(97, 1), (98, 2)]).hasKey e.key = true)
        ∧ (∀ e ∈ (sampleMapOp .allMap).expectedEntries,
          tdMap.compareEntry eqEnv sampleCtx (sampleMap [(97, 1), (98, 2)]) e = .nil)
        ∧ (∀ p ∈ (sampleMap [(97, 1), (98, 2)]).mapEntries,
          (sampleMapOp .allMap).isExpected p.1 = true)))
    ∧ (sampleMapOp .allMap).Match eqEnv sampleCtx (sampleMap [(97, 1), (98, 2)]) = .ok .nil
    ∧ (sampleMapOp .allMap).Match eqEnv sampleCtx (sampleMap [(97, 1)])
        = .ok (tdMap.keysError eqEnv sampleCtx [sampleKey 98] [])
    ∧ (sampleMapOp .allMap).Match eqEnv sampleCtx (sampleMap [(97, 1), (98, 2), (99, 3)])
        = .ok (tdMap.keysError eqEnv sampleCtx [] [sampleKey 99])
    ∧ (sampleMapOp .allMap).Match eqEnv sampleCtx (sampleMap [(97, 1), (98, 3)])
        = .ok (.error { Context := some (sampleCtx.AddMapKey (eqEnv.ToString (sampleKey 98))),
                        Message := "values differ" })
    ∧ (Map eqEnv {} (sampleArrayMap [(1, 7)]) []).bind
          (fun m => m.Match eqEnv sampleCtx (sampleArrayMap [(1, 7)])) = .ok .nil
    ∧ (Map eqEnv {} (sampleArrayMap [(1, 7)]) []).bind
          (fun m => m.Match eqEnv sampleCtx (sampleArrayMap [(2, 7)]))
        = .ok (tdMap.keysError eqEnv sampleCtx [sampleArrayKey 1] [sampleArrayKey 2])
    ∧ (Map eqEnv {} (sampleStructMap [((1, 97), 7)]) []).bind
          (fun m => m.Match eqEnv sampleCtx (sampleStructMap [((1, 97), 7)])) = .ok .nil
    ∧ (Map eqEnv {} (sampleStructMap [((1, 97), 7)]) []).bind
          (fun m => m.Match eqEnv sampleCtx (sampleStructMap [((1, 98), 7)]))
        = .ok (tdMap.keysError eqEnv sampleCtx [sampleStructKey 1 97]
            [sampleStructKey 1 98]) :=
  ⟨⟨rfl, sampleArgs_distinct, sampleMapOp_gotIsMap .allMap _ (by decide)⟩,
    Map_matches_iff eqEnv {} (sampleMap [(97, 1), (98, 2)]) [] (sampleMapOp .allMap) rfl
      sampleArgs_distinct sampleCtx _ _ (sampleMapOp_gotIsMap .allMap _ (by decide)),
    rfl, rfl, rfl, rfl, rfl, rfl, rfl, rfl⟩

/-- C15: for every map got of the expected type, `SubMapOf(model, entries)`
matches got iff every key of got is an expected key and the engine accepts the
value got holds at each expected key it holds; an expected key got does not
hold plays no part.  Match never panics on such a got. The keys (of any comparable
kind) are compared by value and are of the key type of got, as `distinctArgs`
and `gotIsMap` say. -/
theorem SubMapOf_matches_iff (env : Env) (base : Base) (model : Value)
    (entries : List (Value × Value)) (m : tdMap)
    (hm : SubMapOf env base model entries = .ok m) (hargs : distinctArgs model entries)
    (ctx : Context) (got g : Value) (hgot : m.gotIsMap env ctx got g) :
    (∃ r, m.Match env ctx got = .ok r) ∧
    (m.Match env ctx got = .ok .nil ↔
      (∀ p ∈ g.mapEntries, m.isExpected p.1 = true)
      ∧ (∀ e ∈ m.expectedEntries, g.hasKey e.key = true →
          tdMap.compareEntry env ctx g e = .nil)) := by
  have hE := newMap_distinct env base model entries .subMap m hm hargs.1.1 hargs.1.2.1 hargs.1.2.2
  have hk : m.kind = .subMap := (newMap_spec env base model entries .subMap m hm).1
  obtain ⟨hret, hiff⟩ := Match_nil_iff env m ctx got g hgot hE
  refine ⟨hret, hiff.trans ?_⟩
  simp only [hk, ne_eq, reduceCtorEq, not_false_eq_true, true_implies, not_true_eq_false,
    false_implies, true_and]
  exact ⟨fun h => ⟨h.2, h.1⟩, fun h => ⟨h.2, h.1⟩⟩

/-- C15 on concrete data: `SubMapOf(map[string]int{"a": 1, "b": 2}, nil)`
matches `{"a": 1}` and does not match `{"a": 1, "c": 3}`; on array keys,
`SubMapOf(map[[1]int]int{{1}: 7, {2}: 8}, nil)` matches `{{1}: 7}`. -/
theorem SubMapOf_matches_iff_witness :
    (SubMapOf eqEnv {} (sampleMap [(97, 1), (98, 2)]) [] = .ok (sampleMapOp .subMap)
      ∧ distinctArgs (sampleMap [(97, 1), (98, 2)]) []
      ∧ (sampleMapOp .subMap).gotIsMap eqEnv sampleCtx (sampleMap [(97, 1)])
          (sampleMap [(97, 1)]))
    ∧ ((∃ r, (sampleMapOp .subMap).Match eqEnv sampleCtx (sampleMap [(97, 1)]) = .ok r) ∧
      ((sampleMapOp .subMap).Match eqEnv sampleCtx (sampleMap [(97, 1)]) = .ok .nil ↔
        (∀ p ∈ (sampleMap [(97, 1)]).mapEntries, (sampleMapOp .subMap).isExpected p.1 = true)
        ∧ (∀ e ∈ (sampleMapOp .subMap).expectedEntries,
            (sampleMap [(97, 1)]).hasKey e.key = true →
              tdMap.compareEntry eqEnv sampleCtx (sampleMap [(97, 1)]) e = .nil)))
    ∧ (sampleMapOp .subMap).Match eqEnv sampleCtx (sampleMap [(97, 1)]) = .ok .nil
    ∧ (sampleMapOp .subMap).Match eqEnv sampleCtx (sampleMap [(97, 1), (99, 3)])
        = .ok (tdMap.keysError eqEnv sampleCtx [sampleKey 98] [sampleKey 99])
    ∧ (SubMapOf eqEnv {} (sampleArrayMap [(1, 7), (2, 8)]) []).bind
          (fun m => m.Match eqEnv sampleCtx (sampleArrayMap [(1, 7)])) = .ok .nil :=
  ⟨⟨rfl, sampleArgs_distinct, sampleMapOp_gotIsMap .subMap _ (by decide)⟩,
    SubMapOf_matches_iff eqEnv {} (sampleMap [(97, 1), (98, 2)]) [] (sampleMapOp .subMap) rfl
      sampleArgs_distinct sampleCtx _ _ (sampleMapOp_gotIsMap .subMap _ (by decide)),
    rfl, rfl, rfl⟩

/-- C16: for every map got of the expected type, `SuperMapOf(model, entries)`
matches got iff got holds every expected key and the engine accepts the value
got holds there against its expectation; the keys of got that are not expected
play no part.  Match never panics on such a got. The keys (of any comparable
kind) are compared by value and are of the key type of got, as `distinctArgs`
and `gotIsMap` say. -/
theorem SuperMapOf_matches_iff (env : Env) (base : Base) (model : Value)
    (entries : List (Value × Value)) (m : tdMap)
    (hm : SuperMapOf env base model entries = .ok m) (hargs : distinctArgs model entries)
    (ctx : Context) (got g : Value) (hgot : m.gotIsMap env ctx got g) :
    (∃ r, m.Match env ctx got = .ok r) ∧
    (m.Match env ctx got = .ok .nil ↔
      ∀ e ∈ m.expectedEntries,
        g.hasKey e.key = true ∧ tdMap.compareEntry env ctx g e = .nil) := by
  have hE := newMap_distinct env base model entries .superMap m hm hargs.1.1 hargs.1.2.1
    hargs.1.2.2
  have hk : m.kind = .superMap := (newMap_spec env base model entries .superMap m hm).1
  obtain ⟨hret, hiff⟩ := Match_nil_iff env m ctx got g hgot hE
  refine ⟨hret, hiff.trans ?_⟩
  simp only [hk, ne_eq, reduceCtorEq, not_false_eq_true, true_implies, not_true_eq_false,
    false_implies, and_true]
  constructor
  · rintro ⟨h1, h2⟩ e he
    exact ⟨h2 e he, h1 e he (h2 e he)⟩
  · intro h
    exact ⟨fun e he _ => (h e he).2, fun e he => (h e he).1⟩

/-- C16 on concrete data: `SuperMapOf(map[string]int{"a": 1, "b": 2}, nil)`
matches `{"a": 1, "b": 2, "c": 3}` and does not match `{"a": 1, "c": 3}`; on
array keys, `SuperMapOf(map[[1]int]int{{1}: 7}, nil)` matches the map itself
and `{{1}: 7, {2}: 8}`; on interface keys,
`SuperMapOf(map[interface{}]int{}, MapEntries{"a": 1})` matches the
`map[interface{}]int{"a": 1, "b": 2}`, the string key being found under the
interface key that holds it, and `SuperMapOf(map[interface{}]int{"a": 1}, nil)`
does not match `{"b": 2}`. -/
theorem SuperMapOf_matches_iff_witness :
    (SuperMapOf eqEnv {} (sampleMap [(97, 1), (98, 2)]) [] = .ok (sampleMapOp .superMap)
      ∧ distinctArgs (sampleMap [(97, 1), (98, 2)]) []
      ∧ (sampleMapOp .superMap).gotIsMap eqEnv sampleCtx
          (sampleMap [(97, 1), (98, 2), (99, 3)]) (sampleMap [(97, 1), (98, 2), (99, 3)]))
    ∧ ((∃ r, (sampleMapOp .superMap).Match eqEnv sampleCtx
          (sampleMap [(97, 1), (98, 2), (99, 3)]) = .ok r) ∧
      ((sampleMapOp .superMap).Match eqEnv sampleCtx (sampleMap [(97, 1), (98, 2), (99, 3)])
          = .ok .nil ↔
        ∀ e ∈ (sampleMapOp .superMap).expectedEntries,
          (sampleMap [(97, 1), (98, 2), (99, 3)]).hasKey e.key = true
          ∧ tdMap.compareEntry eqEnv sampleCtx (sampleMap [(97, 1), (98, 2), (99, 3)]) e
              = .nil))
    ∧ (sampleMapOp .superMap).Match eqEnv sampleCtx (sampleMap [(97, 1), (98, 2), (99, 3)])
        = .ok .nil
    ∧ (sampleMapOp .superMap).Match eqEnv sampleCtx (sampleMap [(97, 1), (99, 3)])
        = .ok (tdMap.keysError eqEnv sampleCtx [sampleKey 98] [])
    ∧ (SuperMapOf eqEnv {} (sampleArrayMap [(1, 7)]) []).bind
          (fun m => m.Match eqEnv sampleCtx (sampleArrayMap [(1, 7)])) = .ok .nil
    ∧ (SuperMapOf eqEnv {} (sampleArrayMap [(1, 7)]) []).bind
          (fun m => m.Match eqEnv sampleCtx (sampleArrayMap [(1, 7), (2, 8)])) = .ok .nil
    ∧ (SuperMapOf eqEnv {} (sampleIfaceMap []) [(sampleKey 97, sampleInt 1)]).bind
          (fun m => m.Match eqEnv sampleCtx (sampleIfaceMap [(97, 1), (98, 2)])) = .ok .nil
    ∧ (SuperMapOf eqEnv {} (sampleIfaceMap [(97, 1)]) []).bind
          (fun m => m.Match eqEnv sampleCtx (sampleIfaceMap [(98, 2)]))
        = .ok (tdMap.keysError eqEnv sampleCtx [.iface (.iface []) (some (sampleKey 97))]
            []) :=
  ⟨⟨rfl, sampleArgs_distinct, sampleMapOp_gotIsMap .superMap _ (by decide)⟩,
    SuperMapOf_matches_iff eqEnv {} (sampleMap [(97, 1), (98, 2)]) [] (sampleMapOp .superMap)
      rfl sampleArgs_distinct sampleCtx _ _ (sampleMapOp_gotIsMap .superMap _ (by decide)),
    rfl, rfl, rfl, rfl, rfl, rfl⟩

/-! ## C17, C18: the summary of a failure on the keys -/

theorem mem_missingKeys_iff (m : tdMap) (g k : Value) :
    k ∈ m.missingKeys g ↔ ∃ e ∈ m.expectedEntries, e.key = k ∧ g.hasKey k = false := by
  simp only [tdMap.missingKeys, List.mem_map, List.mem_filter, Bool.not_eq_true,
    Bool.not_eq_eq_eq_not, Bool.not_true]
  constructor
  · rintro ⟨e, ⟨he, hh⟩, rfl⟩
    exact ⟨e, he, rfl, hh⟩
  · rintro ⟨e, he, rfl, hh⟩
    exact ⟨e, ⟨he, hh⟩, rfl⟩

theorem mem_extraKeys_iff (env : Env) (m : tdMap) (g k : Value)
    (hsorted : (env.MapSortedKeys g).Perm (g.mapEntries.map Prod.fst)) :
    k ∈ m.extraKeys env g ↔ (∃ p ∈ g.mapEntries, p.1 = k) ∧ m.isExpected k = false := by
  simp only [tdMap.extraKeys, List.mem_filter, hsorted.mem_iff, List.mem_map,
    Bool.not_eq_true, Bool.not_eq_eq_eq_not, Bool.not_true]

/-- On a key of got, the set of the keys found and the expected entries agree. -/
theorem keySetMem_found (m : tdMap) (g k : Value) (hk : ∃ p ∈ g.mapEntries, p.1 = k) :
    keySetMem ((m.expectedEntries.filter (fun e => g.hasKey e.key)).map (fun e => e.key)) k
      = m.isExpected k := by
  rw [Bool.eq_iff_iff, keySetMem_iff, isExpected_iff]
  constructor
  · rintro ⟨x, hx, hxk⟩
    obtain ⟨e, he, rfl⟩ := List.mem_map.1 hx
    exact ⟨e, (List.mem_filter.1 he).1, hxk⟩
  · rintro ⟨e, he, hek⟩
    obtain ⟨p, hp, rfl⟩ := hk
    refine ⟨e.key, List.mem_map.2 ⟨e, List.mem_filter.2 ⟨he, ?_⟩, rfl⟩, hek⟩
    rw [hasKey_iff]
    exact ⟨p, hp, by rw [Value.eqIface_symm]; exact hek⟩

/-- C17: when `Map` fails on the keys of a map got of the expected type, in
diagnostic mode (the engine accepting the value at every expected key got
holds), the error carries the summary of one `tdSetResult` flagged to be
sorted: its Missing holds every expected key got does not hold, its Extra every
key of got that is not expected, in the order of the sorted keys of got. The keys (of any comparable
kind) are compared by value and are of the key type of got, as `distinctArgs`
and `gotIsMap` say. -/
theorem Map_key_failure_summary (env : Env) (base : Base) (model : Value)
    (entries : List (Value × Value)) (m : tdMap)
    (hm : Map env base model entries = .ok m) (hargs : distinctArgs model entries)
    (ctx : Context) (got g : Value) (hgot : m.gotIsMap env ctx got g)
    (hd : ctx.BooleanError = false)
    (hsorted : (env.MapSortedKeys g).Perm (g.mapEntries.map Prod.fst))
    (hpass : ∀ e ∈ m.expectedEntries, g.hasKey e.key = true →
      tdMap.compareEntry env ctx g e = .nil)
    (hkeys : ¬ ((∀ e ∈ m.expectedEntries, g.hasKey e.key = true)
      ∧ (∀ p ∈ g.mapEntries, m.isExpected p.1 = true))) :
    m.Match env ctx got = .ok (.error
      { Context := some ctx, Message := "comparing hash keys of %%",
        Summary := some (env.Summary
          { Kind := .keysSetResult, Missing := m.missingKeys g,
            Extra := m.extraKeys env g, Sort_ := true }) })
    ∧ (∀ k, k ∈ m.missingKeys g ↔
        ∃ e ∈ m.expectedEntries, e.key = k ∧ g.hasKey k = false)
    ∧ (∀ k, k ∈ m.extraKeys env g ↔
        (∃ p ∈ g.mapEntries, p.1 = k) ∧ m.isExpected k = false)
    ∧ (m.extraKeys env g).Sublist (env.MapSortedKeys g) := by
  have hE := newMap_distinct env base model entries .allMap m hm hargs.1.1 hargs.1.2.1 hargs.1.2.2
  have hk : m.kind = .allMap := (newMap_spec env base model entries .allMap m hm).1
  refine ⟨?_, mem_missingKeys_iff m g, fun k => mem_extraKeys_iff env m g k hsorted,
    List.filter_sublist _⟩
  obtain ⟨hptr, htype, ⟨t, es, rfl⟩, hG, hvalid, -⟩ := hgot
  rw [Match_of_pass env m ctx got t es hptr htype hvalid hG hE hpass]
  have hmem : ∀ k ∈ env.MapSortedKeys (.map t es),
      ∃ p ∈ (Value.map t es).mapEntries, p.1 = k := by
    intro k hk
    exact List.mem_map.1 (hsorted.mem_iff.1 hk)
  simp only [hk, reduceCtorEq, if_false]
  by_cases hall : ∀ p ∈ (Value.map t es).mapEntries, m.isExpected p.1 = true
  · have hmiss : ¬ (m.missingKeys (.map t es)).length = 0 := by
      intro h0
      exact hkeys ⟨(missingKeys_length_eq_zero_iff m _).1 h0, hall⟩
    have hextra : m.extraKeys env (.map t es) = [] := by
      rw [tdMap.extraKeys, List.filter_eq_nil_iff]
      intro k hk
      obtain ⟨p, hp, rfl⟩ := hmem k hk
      simp [hall p hp]
    rw [if_pos hall, if_neg hmiss, hextra]
    simp only [tdMap.keysError, hd, Bool.false_eq_true, if_false, tdMap.errorMessage]
  · have hextra : (env.MapSortedKeys (.map t es)).filter (fun k =>
        !keySetMem ((m.expectedEntries.filter
          (fun e => (Value.map t es).hasKey e.key)).map (fun e => e.key)) k)
        = m.extraKeys env (.map t es) := by
      rw [tdMap.extraKeys]
      apply List.filter_congr
      intro k hk
      rw [keySetMem_found m _ k (hmem k hk)]
    rw [if_neg hall, hextra]
    simp only [tdMap.keysError, hd, Bool.false_eq_true, if_false, tdMap.errorMessage]

/-- C17 on concrete data: against `Map(map[string]int{"a": 1, "b": 2}, nil)`,
the got `{"a": 1, "c": 3, "d": 4}` gives the summary of the missing key "b" and
of the extra keys "c" and "d"; on array keys, against
`Map(map[[1]int]int{{1}: 7, {2}: 8}, nil)` the got `{{1}: 7, {3}: 9}` gives the
missing key `{2}` and the extra key `{3}`, the key `{1}` being neither. -/
theorem Map_key_failure_summary_witness :
    (Map eqEnv {} (sampleMap [(97, 1), (98, 2)]) [] = .ok (sampleMapOp .allMap)
      ∧ distinctArgs (sampleMap [(97, 1), (98, 2)]) []
      ∧ (sampleMapOp .allMap).gotIsMap eqEnv sampleCtx
          (sampleMap [(97, 1), (99, 3), (100, 4)]) (sampleMap [(97, 1), (99, 3), (100, 4)])
      ∧ sampleCtx.BooleanError = false)
    ∧ (sampleMapOp .allMap).Match eqEnv sampleCtx (sampleMap [(97, 1), (99, 3), (100, 4)])
        = .ok (.error
          { Context := some sampleCtx, Message := "comparing hash keys of %%",
            Summary := some (eqEnv.Summary
              { Kind := .keysSetResult,
                Missing := (sampleMapOp .allMap).missingKeys
                  (sampleMap [(97, 1), (99, 3), (100, 4)]),
                Extra := (sampleMapOp .allMap).extraKeys eqEnv
                  (sampleMap [(97, 1), (99, 3), (100, 4)]),
                Sort_ := true }) })
    ∧ (sampleMapOp .allMap).missingKeys (sampleMap [(97, 1), (99, 3), (100, 4)])
        = [sampleKey 98]
    ∧ (sampleMapOp .allMap).extraKeys eqEnv (sampleMap [(97, 1), (99, 3), (100, 4)])
        = [sampleKey 99, sampleKey 100]
    ∧ (Map eqEnv {} (sampleArrayMap [(1, 7), (2, 8)]) []).bind
          (fun m => m.Match eqEnv sampleCtx (sampleArrayMap [(1, 7), (3, 9)]))
        = .ok (.error
          { Context := some sampleCtx, Message := "comparing hash keys of %%",
            Summary := some (eqEnv.Summary
              { Kind := .keysSetResult, Missing := [sampleArrayKey 2],
                Extra := [sampleArrayKey 3], Sort_ := true }) }) :=
  ⟨⟨rfl, sampleArgs_distinct, sampleMapOp_gotIsMap .allMap _ (by decide), rfl⟩,
    (Map_key_failure_summary eqEnv {} (sampleMap [(97, 1), (98, 2)]) []
      (sampleMapOp .allMap) rfl sampleArgs_distinct sampleCtx _ _
      (sampleMapOp_gotIsMap .allMap _ (by decide)) rfl (List.Perm.refl _)
      (by decide) (by decide)).1,
    rfl, rfl, rfl⟩

/-- C18: when `SuperMapOf` fails on the keys of a map got of the expected type,
in diagnostic mode (the engine accepting the value at every expected key got
holds), the error carries the summary of a `tdSetResult` whose Missing holds
exactly the expected keys got does not hold and whose Extra is empty, whatever
the keys of got that are not expected. The keys (of any comparable
kind) are compared by value and are of the key type of got, as `distinctArgs`
and `gotIsMap` say. -/
theorem SuperMapOf_key_failure_summary (env : Env) (base : Base) (model : Value)
    (entries : List (Value × Value)) (m : tdMap)
    (hm : SuperMapOf env base model entries = .ok m) (hargs : distinctArgs model entries)
    (ctx : Context) (got g : Value) (hgot : m.gotIsMap env ctx got g)
    (hd : ctx.BooleanError = false)
    (hpass : ∀ e ∈ m.expectedEntries, g.hasKey e.key = true →
      tdMap.compareEntry env ctx g e = .nil)
    (hkeys : ¬ ∀ e ∈ m.expectedEntries, g.hasKey e.key = true) :
    m.Match env ctx got = .ok (.error
      { Context := some ctx, Message := "comparing hash keys of %%",
        Summary := some (env.Summary
          { Kind := .keysSetResult, Missing := m.missingKeys g, Extra := [],
            Sort_ := true }) })
    ∧ (∀ k, k ∈ m.missingKeys g ↔
        ∃ e ∈ m.expectedEntries, e.key = k ∧ g.hasKey k = false) := by
  have hE := newMap_distinct env base model entries .superMap m hm hargs.1.1 hargs.1.2.1
    hargs.1.2.2
  have hk : m.kind = .superMap := (newMap_spec env base model entries .superMap m hm).1
  refine ⟨?_, mem_missingKeys_iff m g⟩
  obtain ⟨hptr, htype, ⟨t, es, rfl⟩, hG, hvalid, -⟩ := hgot
  rw [Match_of_pass env m ctx got t es hptr htype hvalid hG hE hpass]
  have hmiss : ¬ (m.missingKeys (.map t es)).length = 0 := by
    intro h0
    exact hkeys ((missingKeys_length_eq_zero_iff m _).1 h0)
  rw [if_pos hk, if_neg hmiss]
  simp only [tdMap.keysError, hd, Bool.false_eq_true, if_false, tdMap.errorMessage]

/-- C18 on concrete data: against `SuperMapOf(map[string]int{"a": 1, "b": 2},
nil)`, the got `{"a": 1, "c": 3}` gives the summary of the missing key "b" and
of no extra key; on array keys, against
`SuperMapOf(map[[1]int]int{{1}: 7, {2}: 8}, nil)` the got `{{1}: 7, {3}: 9}`
gives the missing key `{2}` only. -/
theorem SuperMapOf_key_failure_summary_witness :
    (SuperMapOf eqEnv {} (sampleMap [(97, 1), (98, 2)]) [] = .ok (sampleMapOp .superMap)
      ∧ distinctArgs (sampleMap [(97, 1), (98, 2)]) []
      ∧ (sampleMapOp .superMap).gotIsMap eqEnv sampleCtx
          (sampleMap [(97, 1), (99, 3)]) (sampleMap [(97, 1), (99, 3)])
      ∧ sampleCtx.BooleanError = false)
    ∧ (sampleMapOp .superMap).Match eqEnv sampleCtx (sampleMap [(97, 1), (99, 3)])
        = .ok (.error
          { Context := some sampleCtx, Message := "comparing hash keys of %%",
            Summary := some (eqEnv.Summary
              { Kind := .keysSetResult,
                Missing := (sampleMapOp .superMap).missingKeys (sampleMap [(97, 1), (99, 3)]),
                Extra := [], Sort_ := true }) })
    ∧ (sampleMapOp .superMap).missingKeys (sampleMap [(97, 1), (99, 3)]) = [sampleKey 98]
    ∧ (SuperMapOf eqEnv {} (sampleArrayMap [(1, 7), (2, 8)]) []).bind
          (fun m => m.Match eqEnv sampleCtx (sampleArrayMap [(1, 7), (3, 9)]))
        = .ok (.error
          { Context := some sampleCtx, Message := "comparing hash keys of %%",
            Summary := some (eqEnv.Summary
              { Kind := .keysSetResult, Missing := [sampleArrayKey 2],
                Extra := [], Sort_ := true }) }) :=
  ⟨⟨rfl, sampleArgs_distinct, sampleMapOp_gotIsMap .superMap _ (by decide), rfl⟩,
    (SuperMapOf_key_failure_summary eqEnv {} (sampleMap [(97, 1), (98, 2)]) []
      (sampleMapOp .superMap) rfl sampleArgs_distinct sampleCtx _ _
      (sampleMapOp_gotIsMap .superMap _ (by decide)) rfl (by decide) (by decide)).1,
    rfl, rfl⟩

/-! ## C19: what SubMapOf reports when it fails on the keys -/

/-- C19: against `SubMapOf(map[string]int{"a": 1, "b": 2}, nil)`, the got
`map[string]int{"a": 1, "c": 3}` fails in diagnostic mode with the summary of a
`tdSetResult` whose Extra is the key "c" and whose Missing is the key "b": the
expected key got does not hold is reported as missing. -/
theorem SubMapOf_failure_reports_missing :
    SubMapOf eqEnv {} (sampleMap [(97, 1), (98, 2)]) [] = .ok (sampleMapOp .subMap)
    ∧ (sampleMapOp .subMap).Match eqEnv sampleCtx (sampleMap [(97, 1), (99, 3)])
        = .ok (.error
          { Context := some sampleCtx, Message := "comparing hash keys of %%",
            Summary := some (eqEnv.Summary
              { Kind := .keysSetResult, Missing := [sampleKey 98],
                Extra := [sampleKey 99], Sort_ := true }) })
    ∧ eqEnv.Summary
        { Kind := .keysSetResult, Missing := [sampleKey 98], Extra := [sampleKey 99],
          Sort_ := true }
      ≠ eqEnv.Summary
        { Kind := .keysSetResult, Missing := [], Extra := [sampleKey 99], Sort_ := true } :=
  ⟨rfl, rfl, by decide⟩

/-! ## C20: the zero values of the model -/

/-- C20: the model `map[string]int{"a": 0}` holds the zero value of `int` at
"a", and `Map`, `SubMapOf` and `SuperMapOf` all expect the entry "a": 0 from it:
`Map` and `SuperMapOf` do not match the empty map (the key "a" is missing),
and `SubMapOf` matches `map[string]int{"a": 0}`, whose only key would be an
extra one if the model gave no expectation. -/
theorem Map_model_zero_value_expected :
    sampleInt 0 = Value.Zero (.basic .int)
    ∧ Map eqEnv {} (sampleMap [(97, 0)]) [] = .ok
        { expectedType := some sampleMapType,
          expectedEntries := [⟨sampleKey 97, sampleInt 0⟩], kind := .allMap }
    ∧ SubMapOf eqEnv {} (sampleMap [(97, 0)]) [] = .ok
        { expectedType := some sampleMapType,
          expectedEntries := [⟨sampleKey 97, sampleInt 0⟩], kind := .subMap }
    ∧ SuperMapOf eqEnv {} (sampleMap [(97, 0)]) [] = .ok
        { expectedType := some sampleMapType,
          expectedEntries := [⟨sampleKey 97, sampleInt 0⟩], kind := .superMap }
    ∧ tdMap.Match eqEnv
        { expectedType := some sampleMapType,
          expectedEntries := [⟨sampleKey 97, sampleInt 0⟩], kind := .allMap }
        sampleCtx (sampleMap [])
        = .ok (tdMap.keysError eqEnv sampleCtx [sampleKey 97] [])
    ∧ tdMap.Match eqEnv
        { expectedType := some sampleMapType,
          expectedEntries := [⟨sampleKey 97, sampleInt 0⟩], kind := .superMap }
        sampleCtx (sampleMap [])
        = .ok (tdMap.keysError eqEnv sampleCtx [sampleKey 97] [])
    ∧ tdMap.Match eqEnv
        { expectedType := some sampleMapType,
          expectedEntries := [⟨sampleKey 97, sampleInt 0⟩], kind := .subMap }
        sampleCtx (sampleMap [(97, 0)])
        = .ok .nil
    ∧ tdMap.Match eqEnv
        { expectedType := some sampleMapType, expectedEntries := [], kind := .subMap }
        sampleCtx (sampleMap [(97, 0)])
        = .ok (tdMap.keysError eqEnv sampleCtx [] [sampleKey 97]) :=
  ⟨rfl, rfl, rfl, rfl, rfl, rfl, rfl, rfl⟩

/-! ## Lemmas on Values -/

theorem IsValid_of_typ (got : Value) (t : GoType) (hg : got.typ = some t) :
    got.IsValid = true := by
  cases got <;> simp_all [Value.IsValid, Value.typ]

/-! ## C21: the constructors of the Map family panic on bad arguments -/

theorem GoType.kind_underlying : ∀ t : GoType, t.underlying.kind = t.kind
  | .named _ _ u => by
    simp only [GoType.underlying, GoType.kind]
    exact GoType.kind_underlying u
  | .basic _ | .ptr _ | .slice _ | .array _ _ | .map _ _ | .chan _ | .func _
  | .iface _ | .struct _ => rfl

theorem not_ok_error {α : Type} (x : Except Panic α) (h : ∀ a, x ≠ .ok a) :
    ∃ e, x = .error e := by
  cases x with
  | error e => exact ⟨e, rfl⟩
  | ok a => exact absurd rfl (h a)

/-- What an expected entry is when `populateExpectedEntries` takes it. -/
theorem populateFromEntries_cons_ok (env : Env) (kt vt : GoType) (key ev : Value)
    (rest : List (Value × Value)) (L : List mapEntryInfo)
    (h : tdMap.populateFromEntries env kt vt ((key, ev) :: rest) = .ok L) :
    ∃ tk expected tail, key.typ = some tk ∧ tk.AssignableTo env kt = true
      ∧ ((ev.IsValid = false ∧ vt.kind.isNilable = true ∧ expected = Value.Zero vt)
        ∨ (∃ tv, ev.typ = some tv
            ∧ (env.Implements tv testDeeper = true ∨ tv.AssignableTo env vt = true)
            ∧ expected = ev))
      ∧ tdMap.populateFromEntries env kt vt rest = .ok tail
      ∧ L = { key := key, expected := expected } :: tail := by
  rw [tdMap.populateFromEntries] at h
  obtain ⟨tkey, hk, h⟩ := (Except.bind_eq_ok _ _ _).1 h
  have hkt : key.typ = some tkey := by
    cases hkk : key.typ with
    | none => simp [Value.typeOf, hkk] at hk
    | some t => simp [Value.typeOf, hkk] at hk; rw [hk]
  split at h
  · cases h
  · rename_i hassign
    have hassign2 : tkey.AssignableTo env kt = true := by simpa using hassign
    split at h
    · rename_i hinv
      have hinv2 : ev.IsValid = false := by simpa using hinv
      split at h <;> obtain ⟨expected, hexp, h⟩ := (Except.bind_eq_ok _ _ _).1 h <;>
        obtain ⟨tail, hrest, h⟩ := (Except.bind_eq_ok _ _ _).1 h <;>
        simp only [pure, Except.pure, Except.ok.injEq] at h hexp <;>
        first
        | exact ⟨tkey, expected, tail, hkt, hassign2,
            Or.inl ⟨hinv2, by simp_all [Kind.isNilable], hexp.symm⟩, hrest, h.symm⟩
        | cases hexp
    · obtain ⟨texp, hte, h⟩ := (Except.bind_eq_ok _ _ _).1 h
      have hevt : ev.typ = some texp := by
        cases hkk : ev.typ with
        | none => simp [Value.typeOf, hkk] at hte
        | some t => simp [Value.typeOf, hkk] at hte; rw [hte]
      by_cases hok : (!env.Implements texp testDeeper && !texp.AssignableTo env vt) = true
      · rw [if_pos hok] at h
        obtain ⟨expected, hexp, -⟩ := (Except.bind_eq_ok _ _ _).1 h
        cases hexp
      · rw [if_neg hok] at h
        obtain ⟨expected, hexp, h2⟩ := (Except.bind_eq_ok _ _ _).1 h
        obtain ⟨tail, hrest, h3⟩ := (Except.bind_eq_ok _ _ _).1 h2
        simp only [pure, Except.pure, Except.ok.injEq] at h3 hexp
        refine ⟨tkey, expected, tail, hkt, hassign2, Or.inr ⟨texp, hevt, ?_, hexp.symm⟩,
          hrest, h3.symm⟩
        cases h1 : env.Implements texp testDeeper
        · cases h2 : texp.AssignableTo env vt
          · simp [h1, h2] at hok
          · exact Or.inr rfl
        · exact Or.inl rfl

/-- When `populateExpectedEntries` takes the entries, none of them breaks the
contract. -/
theorem populateFromEntries_ok_no_bad (env : Env) (kt vt : GoType) :
    ∀ (entries : List (Value × Value)) (L : List mapEntryInfo),
      tdMap.populateFromEntries env kt vt entries = .ok L →
      ∀ p ∈ entries, ¬ badEntry env kt vt p := by
  intro entries
  induction entries with
  | nil => intro L _ p hp; cases hp
  | cons q rest ih =>
    intro L h p hp
    obtain ⟨key, ev⟩ := q
    obtain ⟨tk, expected, tail, hk, hassign, hval, hrest, -⟩ :=
      populateFromEntries_cons_ok env kt vt key ev rest L h
    rcases List.mem_cons.1 hp with rfl | hp
    · rintro (⟨tk2, h1, h2⟩ | ⟨h1, h2⟩ | ⟨tv, h1, h2, h3⟩)
      · rw [hk] at h1; cases h1; rw [hassign] at h2; cases h2
      · rcases hval with ⟨-, hn, -⟩ | ⟨tv, htv, -, -⟩
        · rw [hn] at h2; cases h2
        · have := IsValid_of_typ _ tv htv
          simp only at h1 this
          rw [this] at h1; cases h1
      · rcases hval with ⟨hinv, -, -⟩ | ⟨tv2, htv, hor, -⟩
        · have := IsValid_of_typ _ tv h1
          simp only at hinv this
          rw [this] at hinv; cases hinv
        · simp only at h1 htv
          rw [htv] at h1; cases h1
          rcases hor with hor | hor
          · rw [hor] at h2; cases h2
          · rw [hor] at h3; cases h3
    · exact ih tail hrest p hp

/-- An entry whose value is nil is taken when the value type is a chan, func,
interface, map, pointer or slice type: the expected value is the zero value of
that type. -/
theorem populateFromEntries_nil_value (env : Env) (kt vt : GoType) (key : Value)
    (tk : GoType) (rest : List (Value × Value)) (hk : key.typ = some tk)
    (hassign : tk.AssignableTo env kt = true) (hn : vt.kind.isNilable = true) :
    tdMap.populateFromEntries env kt vt ((key, .invalid) :: rest) =
      (tdMap.populateFromEntries env kt vt rest).bind
        (fun tail => .ok ({ key := key, expected := Value.Zero vt } :: tail)) := by
  rw [tdMap.populateFromEntries]
  cases hK : vt.kind <;> simp [hK, Kind.isNilable] at hn <;>
    simp [Value.typeOf, hk, hassign, Value.IsValid, hK, Bind.bind, Except.bind, pure,
      Except.pure]

theorem zeroOf_IsNil (vt : GoType) :
    ∀ u : GoType, u.kind.isNilable = true → (∀ k, u.underlying ≠ .basic k) →
      (Value.zeroOf vt u).IsNil = .ok true ∧ (Value.zeroOf vt u).typ = some vt
  | .named _ _ w, hk, hb => by
    rw [Value.zeroOf]
    exact zeroOf_IsNil vt w (by simpa [GoType.kind] using hk)
      (by simpa [GoType.underlying] using hb)
  | .basic k, _, hb => absurd rfl (hb k)
  | .struct _, hk, _ => by simp [GoType.kind, Kind.isNilable] at hk
  | .array _ _, hk, _ => by simp [GoType.kind, Kind.isNilable] at hk
  | .ptr _, _, _ | .slice _, _, _ | .map _ _, _, _ | .chan _, _, _ | .func _, _, _
  | .iface _, _, _ => by
    simp [Value.zeroOf, Value.IsNil, Value.typ]

/-- The zero value of a chan, func, interface, map, pointer or slice type is
nil. -/
theorem Zero_IsNil (vt : GoType) (hn : vt.kind.isNilable = true)
    (hb : ∀ k, vt.underlying ≠ .basic k) :
    (Value.Zero vt).IsNil = .ok true ∧ (Value.Zero vt).typ = some vt :=
  zeroOf_IsNil vt vt hn hb

/-- What `populateExpectedEntries` has gone through when it returns. -/
theorem populateExpectedEntries_inv (env : Env) (m m2 : tdMap)
    (entries : List (Value × Value)) (mv : Value)
    (h : tdMap.populateExpectedEntries env m entries mv = .ok m2) :
    ∃ (n : Nat) (et kt vt : GoType) (fe : List mapEntryInfo),
      (if mv.IsValid then mv.Len else .ok 0) = .ok n
      ∧ m.expectedType = some et ∧ et.Key = .ok kt ∧ et.Elem = .ok vt
      ∧ tdMap.populateFromEntries env kt vt entries = .ok fe
      ∧ (n = 0 ∨ ∃ fm, tdMap.populateFromModel env (entries.map Prod.fst) mv.mapEntries
          = .ok fm) := by
  rw [tdMap.populateExpectedEntries] at h
  have hshape : ∃ (n : Nat) (et : GoType),
      (if mv.IsValid then mv.Len else .ok 0) = .ok n ∧ m.expectedType = some et ∧
      (do
        let keyType ← et.Key
        let valueType ← et.Elem
        let fromEntries ← tdMap.populateFromEntries env keyType valueType entries
        if n = 0 then
          (pure { m with expectedEntries := fromEntries } : Except Panic tdMap)
        else do
          let fromModel ←
            tdMap.populateFromModel env (entries.map Prod.fst) mv.mapEntries
          pure { m with expectedEntries := fromEntries ++ fromModel }) = .ok m2 := by
    by_cases hv : mv.IsValid = true
    · rw [if_pos hv] at h
      obtain ⟨n, hn, h2⟩ := (Except.bind_eq_ok _ _ _).1 h
      cases hm : m.expectedType with
      | none =>
        simp only [hm] at h2
        obtain ⟨et, het, -⟩ := (Except.bind_eq_ok _ _ _).1 h2
        cases het
      | some t =>
        simp only [hm] at h2
        obtain ⟨et, het, h3⟩ := (Except.bind_eq_ok _ _ _).1 h2
        simp only [pure, Except.pure, Except.ok.injEq] at het
        subst het
        exact ⟨n, t, by rw [if_pos hv]; exact hn, rfl, h3⟩
    · rw [if_neg hv] at h
      obtain ⟨n, hn, h2⟩ := (Except.bind_eq_ok _ _ _).1 h
      cases hm : m.expectedType with
      | none =>
        simp only [hm] at h2
        obtain ⟨et, het, -⟩ := (Except.bind_eq_ok _ _ _).1 h2
        cases het
      | some t =>
        simp only [hm] at h2
        obtain ⟨et, het, h3⟩ := (Except.bind_eq_ok _ _ _).1 h2
        simp only [pure, Except.pure, Except.ok.injEq] at het
        subst het
        exact ⟨n, t, by rw [if_neg hv]; exact hn, rfl, h3⟩
  obtain ⟨n, et, hn, het, h⟩ := hshape
  obtain ⟨kt, hkt, h⟩ := (Except.bind_eq_ok _ _ _).1 h
  obtain ⟨vt, hvt, h⟩ := (Except.bind_eq_ok _ _ _).1 h
  obtain ⟨fe, hfe, h⟩ := (Except.bind_eq_ok _ _ _).1 h
  refine ⟨n, et, kt, vt, fe, hn, het, hkt, hvt, hfe, ?_⟩
  by_cases hz : n = 0
  · exact Or.inl hz
  · rw [if_neg hz] at h
    obtain ⟨fm, hfm, -⟩ := (Except.bind_eq_ok _ _ _).1 h
    exact Or.inr ⟨fm, hfm⟩

theorem kind_of_underlying_map (t kt vt : GoType) (h : t.underlying = .map kt vt) :
    t.kind = .map := by
  rw [← GoType.kind_underlying, h]; rfl

theorem Key_Elem_of_underlying_map (t kt vt : GoType) (h : t.underlying = .map kt vt) :
    t.Key = .ok kt ∧ t.Elem = .ok vt := by
  simp [GoType.Key, GoType.Elem, h]

/-- On a model that is a map or a pointer to a map, `newMap` is
`populateExpectedEntries` on an operator of the expected type of the map. -/
theorem newMap_of_model (env : Env) (base : Base) (model : Value) (t kt vt : GoType)
    (mv : Value) (entries : List (Value × Value)) (kind : mapKind)
    (hmodel : isMapModel model t kt vt mv) :
    ∃ m0 : tdMap, m0.expectedType = some t ∧ m0.kind = kind ∧
      newMap env base model entries kind
        = tdMap.populateExpectedEntries env m0 entries mv := by
  obtain ⟨hu, hshape⟩ := hmodel
  have hk := kind_of_underlying_map t kt vt hu
  rcases hshape with ⟨es, rfl, rfl⟩ | ⟨pt, hpk, hpe, ⟨rfl, rfl⟩ | ⟨es, rfl, rfl⟩⟩
  · refine ⟨{ toBase := base, kind := kind, expectedType := some t }, rfl, rfl, ?_⟩
    simp [newMap, Value.kind, Value.typ, hk, Value.typeOf, Bind.bind, Except.bind]
  · refine ⟨{ toBase := base, kind := kind, isPtr := true, expectedType := some t },
      rfl, rfl, ?_⟩
    simp [newMap, Value.kind, Value.typ, hpk, hpe, hk, Value.typeOf, Value.IsNil,
      Bind.bind, Except.bind, pure, Except.pure]
  · refine ⟨{ toBase := base, kind := kind, isPtr := true, expectedType := some t },
      rfl, rfl, ?_⟩
    simp [newMap, Value.kind, Value.typ, hpk, hpe, hk, Value.typeOf, Value.IsNil,
      Value.Elem, Bind.bind, Except.bind, pure, Except.pure]

/-- `newMap` panics on a model that is neither a map nor a pointer to a map. -/
theorem newMap_bad_model (env : Env) (base : Base) (model : Value)
    (entries : List (Value × Value)) (kind : mapKind) (hk : model.kind ≠ .map)
    (hp : model.kind = .ptr →
      ∀ tp te, model.typ = some tp → tp.Elem = .ok te → te.kind ≠ .map) :
    ∃ e, newMap env base model entries kind = .error e := by
  apply not_ok_error
  intro m h
  rw [newMap] at h
  simp only at h
  split at h
  · rename_i hkp
    obtain ⟨t, ht, h2⟩ := (Except.bind_eq_ok _ _ _).1 h
    obtain ⟨te, hte, h3⟩ := (Except.bind_eq_ok _ _ _).1 h2
    have hmt : model.typ = some t := by
      cases hkk : model.typ with
      | none => simp [Value.typeOf, hkk] at ht
      | some t2 => simp [Value.typeOf, hkk] at ht; rw [ht]
    have hne := hp hkp t te hmt hte
    rw [if_pos hne] at h3
    cases h3
  · rename_i hkm
    exact hk hkm
  · cases h

/-- `newMap` panics when an entry of `expectedEntries` breaks the contract. -/
theorem newMap_bad_entry (env : Env) (base : Base) (model : Value) (t kt vt : GoType)
    (mv : Value) (entries : List (Value × Value)) (kind : mapKind)
    (hmodel : isMapModel model t kt vt mv) (hbad : ∃ p ∈ entries, badEntry env kt vt p) :
    ∃ e, newMap env base model entries kind = .error e := by
  apply not_ok_error
  intro m h
  obtain ⟨m0, het0, -, hnew⟩ := newMap_of_model env base model t kt vt mv entries kind hmodel
  rw [hnew] at h
  obtain ⟨n, et, kt2, vt2, fe, -, het, hkt, hvt, hfe, -⟩ :=
    populateExpectedEntries_inv env m0 m entries mv h
  rw [het0] at het; cases het
  obtain ⟨h1, h2⟩ := Key_Elem_of_underlying_map t kt vt hmodel.1
  rw [h1] at hkt; cases hkt
  rw [h2] at hvt; cases hvt
  obtain ⟨p, hp, hb⟩ := hbad
  exact populateFromEntries_ok_no_bad env kt vt entries fe hfe p hp hb

/-- `newMap` panics when a key of the model is a key of `expectedEntries`. -/
theorem newMap_key_in_both (env : Env) (base : Base) (model : Value) (t kt vt : GoType)
    (mv : Value) (entries : List (Value × Value)) (kind : mapKind)
    (hmodel : isMapModel model t kt vt mv)
    (hboth : ∃ p ∈ entries, ∃ q ∈ mv.mapEntries, Value.eqIface p.1 q.1 = true) :
    ∃ e, newMap env base model entries kind = .error e := by
  apply not_ok_error
  intro m h
  obtain ⟨m0, -, -, hnew⟩ := newMap_of_model env base model t kt vt mv entries kind hmodel
  rw [hnew] at h
  obtain ⟨n, et, kt2, vt2, fe, hn, -, -, -, -, hfm⟩ :=
    populateExpectedEntries_inv env m0 m entries mv h
  obtain ⟨p, hp, q, hq, hpq⟩ := hboth
  have hmem : keySetMem (entries.map Prod.fst) q.1 = true := by
    rw [keySetMem_iff]
    exact ⟨p.1, List.mem_map.2 ⟨p, hp, rfl⟩, hpq⟩
  rcases hfm with hz | ⟨fm, hfm⟩
  · subst hz
    cases mv with
    | map tm eo =>
      cases eo with
      | none => simp [Value.mapEntries] at hq
      | some es =>
        simp only [Value.IsValid, if_true, Value.Len, Except.ok.injEq] at hn
        simp only [Value.mapEntries] at hq
        rw [List.length_eq_zero] at hn
        rw [hn] at hq
        cases hq
    | _ => simp [Value.mapEntries] at hq
  · have := (populateFromModel_spec env _ _ fm hfm).2 q hq
    rw [this] at hmem
    cases hmem

/-- C21: `Map`, `SubMapOf` and `SuperMapOf` panic when they are called (so
before any match) on a model that is neither a map nor a pointer to a map; and,
the model being a map or a pointer to a map, on `expectedEntries` that hold a
key whose type is not assignable to the key type of the model, a nil value
while the value type is not a chan, func, interface, map, pointer or slice
type, a value that is not an operator and whose type is not assignable to the
value type, or a key the model holds too (the keys, of any comparable kind,
being compared by value).  An entry whose value is nil is taken when the value
type is one of these six kinds, the expected value being the zero value of the
value type, which is nil. -/
theorem Map_family_construction_panics (env : Env) (base : Base)
    (entries : List (Value × Value)) :
    (∀ model, model.kind ≠ .map →
      (model.kind = .ptr →
        ∀ tp te, model.typ = some tp → tp.Elem = .ok te → te.kind ≠ .map) →
      constructorsPanic env base model entries)
    ∧ (∀ model t kt vt mv, isMapModel model t kt vt mv →
      ((∃ p ∈ entries, badEntry env kt vt p)
        ∨ (keysByValue entries ∧ keysByValue mv.mapEntries
          ∧ ∃ p ∈ entries, ∃ q ∈ mv.mapEntries, Value.eqIface p.1 q.1 = true)) →
      constructorsPanic env base model entries)
    ∧ (∀ kt vt key tk, key.typ = some tk → tk.AssignableTo env kt = true →
      vt.kind.isNilable = true → (∀ k, vt.underlying ≠ .basic k) →
      tdMap.populateFromEntries env kt vt ((key, .invalid) :: entries)
          = (tdMap.populateFromEntries env kt vt entries).bind
              (fun tail => .ok ({ key := key, expected := Value.Zero vt } :: tail))
        ∧ (Value.Zero vt).IsNil = .ok true ∧ (Value.Zero vt).typ = some vt) := by
  refine ⟨?_, ?_, ?_⟩
  · intro model hk hp
    exact ⟨newMap_bad_model env base model entries .allMap hk hp,
      newMap_bad_model env base model entries .subMap hk hp,
      newMap_bad_model env base model entries .superMap hk hp⟩
  · intro model t kt vt mv hmodel hbad
    rcases hbad with hbad | ⟨-, -, hboth⟩
    · exact ⟨newMap_bad_entry env base model t kt vt mv entries .allMap hmodel hbad,
        newMap_bad_entry env base model t kt vt mv entries .subMap hmodel hbad,
        newMap_bad_entry env base model t kt vt mv entries .superMap hmodel hbad⟩
    · exact ⟨newMap_key_in_both env base model t kt vt mv entries .allMap hmodel hboth,
        newMap_key_in_both env base model t kt vt mv entries .subMap hmodel hboth,
        newMap_key_in_both env base model t kt vt mv entries .superMap hmodel hboth⟩
  · intro kt vt key tk hk hassign hn hb
    exact ⟨populateFromEntries_nil_value env kt vt key tk entries hk hassign hn,
      Zero_IsNil vt hn hb⟩

theorem sampleMap_isMapModel (es : List (Fin 256 × Int)) :
    isMapModel (sampleMap es) sampleMapType (.basic .string) (.basic .int) (sampleMap es) :=
  ⟨rfl, Or.inl ⟨_, rfl, rfl⟩⟩

/-- C21 on concrete data: `Map` panics on the int 5 as a model; with the model
`map[string]int{"a": 1}` it panics on the entries `{1: 2}` (an int key),
`{"b": nil}`, `{"b": "c"}` and `{"a": 5}`; with the model
`map[[1]int]int{{1}: 7}` it panics on the entries `{[1]int{1}: 8}`, the array
key being in both, and with the model `map[interface{}]int{"a": 1}` on the
entries `{"a": 8}`; with the model `map[string][]int{}` it takes the entry
`{"a": nil}`, which stands for the nil slice. -/
theorem Map_family_construction_panics_witness :
    ((sampleInt 5).kind ≠ .map
      ∧ isMapModel (sampleMap [(97, 1)]) sampleMapType (.basic .string) (.basic .int)
          (sampleMap [(97, 1)])
      ∧ badEntry eqEnv (.basic .string) (.basic .int) (sampleInt 1, sampleInt 2))
    ∧ constructorsPanic eqEnv {} (sampleInt 5) [(sampleInt 1, sampleInt 2)]
    ∧ constructorsPanic eqEnv {} (sampleMap [(97, 1)]) [(sampleInt 1, sampleInt 2)]
    ∧ Map eqEnv {} (sampleInt 5) []
        = .error (.msg "usage: (MAP|&MAP, EXPECTED_ENTRIES)")
    ∧ Map eqEnv {} (sampleMap [(97, 1)]) [(sampleKey 98, .invalid)]
        = .error (.msg ("expected key got value cannot be nil as entries value type is int"))
    ∧ (∃ e, Map eqEnv {} (sampleMap [(97, 1)]) [(sampleKey 98, sampleKey 99)] = .error e)
    ∧ Map eqEnv {} (sampleMap [(97, 1)]) [(sampleKey 97, sampleInt 5)]
        = .error (.msg "got entry exists in both model & expectedEntries")
    ∧ constructorsPanic eqEnv {} (sampleArrayMap [(1, 7)]) [(sampleArrayKey 1, sampleInt 8)]
    ∧ Map eqEnv {} (sampleArrayMap [(1, 7)]) [(sampleArrayKey 1, sampleInt 8)]
        = .error (.msg "got entry exists in both model & expectedEntries")
    ∧ Map eqEnv {} (sampleIfaceMap [(97, 1)]) [(sampleKey 97, sampleInt 8)]
        = .error (.msg "got entry exists in both model & expectedEntries")
    ∧ Map eqEnv {} (.map sampleSliceMapType (some [])) [(sampleKey 97, .invalid)]
        = .ok { expectedType := some sampleSliceMapType,
                expectedEntries := [⟨sampleKey 97, .slice (.slice (.basic .int)) none⟩],
                kind := .allMap } :=
  ⟨⟨by decide, sampleMap_isMapModel _, Or.inl ⟨_, rfl, rfl⟩⟩,
    (Map_family_construction_panics eqEnv {} [(sampleInt 1, sampleInt 2)]).1 (sampleInt 5)
      (by decide) (by intro h; cases h),
    (Map_family_construction_panics eqEnv {} [(sampleInt 1, sampleInt 2)]).2.1
      (sampleMap [(97, 1)]) sampleMapType (.basic .string) (.basic .int)
      (sampleMap [(97, 1)]) (sampleMap_isMapModel _)
      (Or.inl ⟨_, List.mem_cons_self _ _, Or.inl ⟨_, rfl, rfl⟩⟩),
    rfl, rfl, ⟨_, rfl⟩, rfl,
    (Map_family_construction_panics eqEnv {} [(sampleArrayKey 1, sampleInt 8)]).2.1
      (sampleArrayMap [(1, 7)]) sampleArrayMapType (.array 1 (.basic .int)) (.basic .int)
      (sampleArrayMap [(1, 7)]) ⟨rfl, Or.inl ⟨_, rfl, rfl⟩⟩
      (Or.inr ⟨by decide, by decide, _, List.mem_cons_self _ _, _, List.mem_cons_self _ _,
        rfl⟩),
    rfl, rfl, rfl⟩

/-! ## C22: a key got holds is never missing -/

/-- The keys the loop of `Match` adds to `notFoundKeys` are expected keys the
map got does not hold. -/
theorem matchEntries_notFound (env : Env) (ctx : Context) (t : GoType)
    (es : Option (List (Value × Value)))
    (hvalid : ∀ p ∈ (Value.map t es).mapEntries, p.2.IsValid = true) :
    ∀ (E : List mapEntryInfo) (nf fk : List Value) (r : ErrorPtr) (nf2 fk2 : List Value),
      tdMap.matchEntries env ctx (.map t es) E nf fk = .ok (r, nf2, fk2) →
      ∀ k ∈ nf2, k ∈ nf ∨ (∃ e ∈ E, e.key = k ∧ (Value.map t es).hasKey k = false) := by
  intro E
  induction E with
  | nil =>
    intro nf fk r nf2 fk2 h k hk
    simp only [tdMap.matchEntries, pure, Except.pure, Except.ok.injEq, Prod.mk.injEq] at h
    obtain ⟨-, rfl, -⟩ := h
    exact Or.inl hk
  | cons e rest ih =>
    intro nf fk r nf2 fk2 h k hk
    simp only [tdMap.matchEntries, MapIndex_map, Bind.bind, Except.bind,
      mapGet_IsValid _ _ hvalid] at h
    cases hh : (Value.map t es).hasKey e.key
    · simp only [hh, Bool.not_false, if_true] at h
      rcases ih _ _ _ _ _ h k hk with h1 | ⟨e2, he2, h2, h3⟩
      · rcases List.mem_append.1 h1 with h1 | h1
        · exact Or.inl h1
        · rw [List.mem_singleton] at h1
          subst h1
          exact Or.inr ⟨e, List.mem_cons_self _ _, rfl, hh⟩
      · exact Or.inr ⟨e2, List.mem_cons_of_mem _ he2, h2, h3⟩
    · simp only [hh, Bool.not_true, Bool.false_eq_true, if_false] at h
      split at h
      · simp only [pure, Except.pure, Except.ok.injEq, Prod.mk.injEq] at h
        obtain ⟨-, rfl, -⟩ := h
        exact Or.inl hk
      · rcases ih _ _ _ _ _ h k hk with h1 | ⟨e2, he2, h2, h3⟩
        · exact Or.inl h1
        · exact Or.inr ⟨e2, List.mem_cons_of_mem _ he2, h2, h3⟩

/-- C22: in a match of `Map`, `SubMapOf` or `SuperMapOf` (the three kinds of
`newMap`) on a map got of the expected type, a key got holds, whatever the
value held there (nil and zero values included), is found by `MapIndex` with a
valid Value, so it is never put among the keys not found, which are all absent
from got, and never among the missing keys; and when Match returns nil the
engine has accepted the value held at every expected key got holds. The keys (of any comparable
kind) are compared by value and are of the key type of got, as `distinctArgs`
and `gotIsMap` say. -/
theorem Map_present_key_never_missing (env : Env) (base : Base) (model : Value)
    (entries : List (Value × Value)) (kind : mapKind) (m : tdMap)
    (hm : newMap env base model entries kind = .ok m) (hargs : distinctArgs model entries)
    (ctx : Context) (got g : Value) (hgot : m.gotIsMap env ctx got g) :
    (∀ k, g.hasKey k = true → ∃ v, g.MapIndex k = .ok v ∧ v.IsValid = true)
    ∧ (∀ r nf fk, tdMap.matchEntries env ctx g m.expectedEntries [] [] = .ok (r, nf, fk) →
        ∀ k ∈ nf, g.hasKey k = false)
    ∧ (∀ k ∈ m.missingKeys g, g.hasKey k = false)
    ∧ (∀ e ∈ m.expectedEntries, g.hasKey e.key = true → e.key ∉ m.missingKeys g)
    ∧ (m.Match env ctx got = .ok .nil →
        ∀ e ∈ m.expectedEntries, g.hasKey e.key = true →
          tdMap.compareEntry env ctx g e = .nil) := by
  have hE := newMap_distinct env base model entries kind m hm hargs.1.1 hargs.1.2.1 hargs.1.2.2
  have hiff := (Match_nil_iff env m ctx got g hgot hE).2
  obtain ⟨-, -, ⟨t, es, rfl⟩, -, hvalid, -⟩ := hgot
  have hmiss : ∀ k ∈ m.missingKeys (.map t es), (Value.map t es).hasKey k = false := by
    intro k hk
    obtain ⟨e, -, rfl, h⟩ := (mem_missingKeys_iff m _ k).1 hk
    exact h
  refine ⟨?_, ?_, hmiss, ?_, ?_⟩
  · intro k hk
    refine ⟨_, MapIndex_map t es k, ?_⟩
    rw [mapGet_IsValid _ _ hvalid]
    exact hk
  · intro r nf fk h k hk
    rcases matchEntries_notFound env ctx t es hvalid _ _ _ _ _ _ h k hk with h1 | ⟨e, -, -, h2⟩
    · cases h1
    · exact h2
  · intro e _ hk hmem
    rw [hmiss _ hmem] at hk
    cases hk
  · intro h
    exact (hiff.1 h).1

/-- C22 on concrete data: the got `map[string]int{"a": 0, "b": 2}` holds the
key "a" with the zero value; against `Map(map[string]int{"a": 1, "b": 2}, nil)`
the key "a" is not missing and its value is compared: the result is the
engine's "values differ" at the key, not a failure on the keys.  Likewise the
got `map[[1]int]int{{1}: 0}` holds the array key `{1}`, which is found, and
against `Map(map[[1]int]int{{1}: 7}, nil)` its value is compared. -/
theorem Map_present_key_never_missing_witness :
    (newMap eqEnv {} (sampleMap [(97, 1), (98, 2)]) [] .allMap = .ok (sampleMapOp .allMap)
      ∧ distinctArgs (sampleMap [(97, 1), (98, 2)]) []
      ∧ (sampleMapOp .allMap).gotIsMap eqEnv sampleCtx (sampleMap [(97, 0), (98, 2)])
          (sampleMap [(97, 0), (98, 2)]))
    ∧ (∀ k ∈ (sampleMapOp .allMap).missingKeys (sampleMap [(97, 0), (98, 2)]),
        (sampleMap [(97, 0), (98, 2)]).hasKey k = false)
    ∧ (sampleMap [(97, 0), (98, 2)]).hasKey (sampleKey 97) = true
    ∧ (sampleMap [(97, 0), (98, 2)]).MapIndex (sampleKey 97) = .ok (sampleInt 0)
    ∧ (sampleMapOp .allMap).missingKeys (sampleMap [(97, 0), (98, 2)]) = []
    ∧ (sampleMapOp .allMap).Match eqEnv sampleCtx (sampleMap [(97, 0), (98, 2)])
        = .ok (.error { Context := some (sampleCtx.AddMapKey (eqEnv.ToString (sampleKey 97))),
                        Message := "values differ" })
    ∧ (sampleArrayMap [(1, 0)]).hasKey (sampleArrayKey 1) = true
    ∧ (sampleArrayMap [(1, 0)]).MapIndex (sampleArrayKey 1) = .ok (sampleInt 0)
    ∧ (Map eqEnv {} (sampleArrayMap [(1, 7)]) []).bind
          (fun m => m.Match eqEnv sampleCtx (sampleArrayMap [(1, 0)]))
        = .ok (.error
          { Context := some (sampleCtx.AddMapKey (eqEnv.ToString (sampleArrayKey 1))),
            Message := "values differ" }) :=
  ⟨⟨rfl, sampleArgs_distinct, sampleMapOp_gotIsMap .allMap _ (by decide)⟩,
    (Map_present_key_never_missing eqEnv {} (sampleMap [(97, 1), (98, 2)]) [] .allMap
      (sampleMapOp .allMap) rfl sampleArgs_distinct sampleCtx _ _
      (sampleMapOp_gotIsMap .allMap _ (by decide))).2.2.1,
    rfl, rfl, rfl, rfl, rfl, rfl, rfl⟩

/-! ## C23: Isa -/

theorem empty_append_str (s : String) : "" ++ s = s := by
  apply String.ext
  simp

/-- What `Match` returns for an operator `Isa` built on a type that is not of
kind pointer, or whose element type is `e`. -/
theorem tdIsa_Match_eq (env : Env) (i : tdIsa) (ctx : Context) (got : Value)
    (tm tg : GoType) (impl : Bool) (hg : got.typ = some tg)
    (he : i.expectedType = some tm) (hp : i.isPtr = false)
    (himpl : (if i.checkImplement then
        (tm.Elem.bind fun e => .ok (env.Implements tg e)) else .ok false) = .ok impl) :
    i.Match env ctx got =
      .ok (if tg = tm then .nil
        else if impl then .nil
        else if ctx.BooleanError then .BooleanError
        else .error { Context := some ctx, Message := "type mismatch",
                      Got := .RawString tg.str, Expected := .RawString tm.str }) := by
  simp only [tdIsa.Match, Value.typeOf, hg, he, Bind.bind, Except.bind, Option.some.injEq]
  by_cases hEq : tg = tm
  · simp [hEq, pure, Except.pure]
  · simp only [hEq, if_false]
    cases hc : i.checkImplement
    · simp only [hc, Bool.false_eq_true, if_false, Except.ok.injEq] at himpl
      subst himpl
      cases ctx.BooleanError <;>
        simp [hc, pure, Except.pure, Context.CollectError,
          tdExpectedType.errorTypeMismatch, he, hp, empty_append_str]
    · simp only [hc, if_true] at himpl
      cases hE : tm.Elem with
      | error p => simp [hE, Except.bind] at himpl
      | ok e =>
        simp only [hE, Except.bind, Except.ok.injEq] at himpl
        subst himpl
        cases hI : env.Implements tg e <;> cases ctx.BooleanError <;>
          simp [hc, hE, hI, pure, Except.pure, Context.CollectError,
            tdExpectedType.errorTypeMismatch, he, hp, empty_append_str]

/-- What `Isa` builds on a model of type `tm`. -/
theorem Isa_eq (base : Base) (model : Value) (tm : GoType) (hm : model.typ = some tm)
    (hwf : tm.kind = .ptr → ∃ e, tm.Elem = .ok e) :
    ∃ i, Isa base model = .ok i ∧ i.expectedType = some tm ∧ i.isPtr = false
      ∧ i.location = base.location
      ∧ (i.checkImplement = true ↔
          tm.kind = .ptr ∧ ∃ e, tm.Elem = .ok e ∧ e.kind = .interface) := by
  by_cases hk : tm.kind = .ptr
  · obtain ⟨e, he⟩ := hwf hk
    refine ⟨{ toBase := base, expectedType := some tm,
              checkImplement := decide (e.kind = .interface) }, ?_, rfl, rfl, rfl, ?_⟩
    · simp [Isa, Value.typeOf, hm, hk, he, Bind.bind, Except.bind, pure, Except.pure]
    · simp only [decide_eq_true_eq, hk, true_and]
      constructor
      · intro h; exact ⟨e, he, h⟩
      · rintro ⟨e2, he2, h⟩
        rw [he] at he2; cases he2; exact h
  · refine ⟨{ toBase := base, expectedType := some tm, checkImplement := false },
      ?_, rfl, rfl, rfl, ?_⟩
    · simp [Isa, Value.typeOf, hm, hk, Bind.bind, Except.bind, pure, Except.pure]
    · simp [hk]

/-- C23: `Isa(model)` matches a valid got iff the type of got is the type of
the model, or the type of the model is a pointer to an interface type that the
type of got implements; Match never panics, and every other got gets the "type
mismatch" diagnostic whose Got is the name of the type of got (the sentinel in
boolean mode). -/
theorem Isa_matches_iff (env : Env) (base : Base) (model got : Value) (tm tg : GoType)
    (ctx : Context) (hm : model.typ = some tm) (hg : got.typ = some tg)
    (hwf : tm.kind = .ptr → ∃ e, tm.Elem = .ok e) :
    ∃ i, Isa base model = .ok i
      ∧ (i.Match env ctx got = .ok .nil ↔
          tg = tm ∨ (tm.kind = .ptr ∧ ∃ e, tm.Elem = .ok e ∧ e.kind = .interface
            ∧ env.Implements tg e = true))
      ∧ (¬ (tg = tm ∨ (tm.kind = .ptr ∧ ∃ e, tm.Elem = .ok e ∧ e.kind = .interface
            ∧ env.Implements tg e = true)) →
          i.Match env ctx got
            = .ok (if ctx.BooleanError then .BooleanError
                else .error { Context := some ctx, Message := "type mismatch",
                              Got := .RawString tg.str,
                              Expected := .RawString tm.str })) := by
  obtain ⟨i, hi, he, hp, -, hc⟩ := Isa_eq base model tm hm hwf
  refine ⟨i, hi, ?_⟩
  have hne : (if ctx.BooleanError then ErrorPtr.BooleanError
      else .error { Context := some ctx, Message := "type mismatch",
                    Got := .RawString tg.str, Expected := .RawString tm.str }) ≠ .nil := by
    split_ifs <;> simp
  cases hci : i.checkImplement
  · have hno : ¬ (tm.kind = .ptr ∧ ∃ e, tm.Elem = .ok e ∧ e.kind = .interface) := by
      intro h; rw [hc.2 h] at hci; cases hci
    have hno2 : ¬ (tm.kind = .ptr ∧ ∃ e, tm.Elem = .ok e ∧ e.kind = .interface
        ∧ env.Implements tg e = true) := by
      rintro ⟨h1, e, h2, h3, -⟩; exact hno ⟨h1, e, h2, h3⟩
    rw [tdIsa_Match_eq env i ctx got tm tg false hg he hp (by simp [hci])]
    by_cases hEq : tg = tm
    · simp [hEq]
    · simp only [hEq, if_false, Bool.false_eq_true, Except.ok.injEq, hno2, or_self,
        iff_false, not_false_eq_true, true_implies, and_true]
      exact hne
  · obtain ⟨hk, e, hE, hek⟩ := hc.1 hci
    rw [tdIsa_Match_eq env i ctx got tm tg (env.Implements tg e) hg he hp
      (by simp [hci, hE, Except.bind])]
    have hiff : (tm.kind = .ptr ∧ ∃ e2, tm.Elem = .ok e2 ∧ e2.kind = .interface
        ∧ env.Implements tg e2 = true) ↔ env.Implements tg e = true := by
      constructor
      · rintro ⟨-, e2, h2, -, h4⟩
        rw [hE] at h2; cases h2; exact h4
      · intro h; exact ⟨hk, e, hE, hek, h⟩
    rw [hiff]
    by_cases hEq : tg = tm
    · simp [hEq]
    · cases hI : env.Implements tg e
      · simp only [hEq, if_false, Bool.false_eq_true, Except.ok.injEq, or_self, iff_false,
          not_false_eq_true, true_implies, and_true]
        exact hne
      · simp [hEq]

/-- C23 on concrete data: `Isa(0)` matches the int 5 and not the `MyInt` 5 (a
type of the same kind, convertible to int), which gets "type mismatch" with Got
"main.MyInt"; `Isa((*interface{})(nil))` matches the int 5, whose type
implements the empty interface. -/
theorem Isa_matches_iff_witness :
    ((sampleInt 0).typ = some (.basic .int)
      ∧ (Value.int sampleMyInt 5).typ = some sampleMyInt
      ∧ ((GoType.basic .int).kind = .ptr → ∃ e, (GoType.basic .int).Elem = .ok e))
    ∧ (∃ i, Isa {} (sampleInt 0) = .ok i
      ∧ (i.Match sampleEnv sampleCtx (.int sampleMyInt 5) = .ok .nil ↔
          sampleMyInt = .basic .int
            ∨ ((GoType.basic .int).kind = .ptr
              ∧ ∃ e, (GoType.basic .int).Elem = .ok e ∧ e.kind = .interface
                ∧ sampleEnv.Implements sampleMyInt e = true))
      ∧ (¬ (sampleMyInt = .basic .int
            ∨ ((GoType.basic .int).kind = .ptr
              ∧ ∃ e, (GoType.basic .int).Elem = .ok e ∧ e.kind = .interface
                ∧ sampleEnv.Implements sampleMyInt e = true)) →
          i.Match sampleEnv sampleCtx (.int sampleMyInt 5)
            = .ok (if sampleCtx.BooleanError then .BooleanError
                else .error { Context := some sampleCtx, Message := "type mismatch",
                              Got := .RawString sampleMyInt.str,
                              Expected := .RawString (GoType.basic .int).str })))
    ∧ Isa {} (sampleInt 0) = .ok { expectedType := some (.basic .int) }
    ∧ tdIsa.Match sampleEnv { expectedType := some (.basic .int) } sampleCtx (sampleInt 5)
        = .ok .nil
    ∧ tdIsa.Match sampleEnv { expectedType := some (.basic .int) } sampleCtx
          (.int sampleMyInt 5)
        = .ok (.error { Context := some sampleCtx, Message := "type mismatch",
                        Got := .RawString "main.MyInt", Expected := .RawString "int" })
    ∧ Isa {} (.ptr (.ptr (.iface [])) none)
        = .ok { expectedType := some (.ptr (.iface [])), checkImplement := true }
    ∧ tdIsa.Match sampleEnv { expectedType := some (.ptr (.iface [])), checkImplement := true }
          sampleCtx (sampleInt 5)
        = .ok .nil :=
  ⟨⟨rfl, rfl, by intro h; cases h⟩,
    Isa_matches_iff sampleEnv {} (sampleInt 0) (.int sampleMyInt 5) (.basic .int)
      sampleMyInt sampleCtx rfl rfl (by intro h; cases h),
    rfl, rfl, rfl, rfl, rfl⟩

/-! ## C24: Nil and NotNil -/

/-- What `Nil` returns on a valid value, after whether the value is nil. -/
theorem tdNil_Match_valid (n : tdNil) (ctx : Context) (got : Value) (b : Bool)
    (hv : got.IsValid = true)
    (h : (if got.kind.isNilable then got.IsNil else .ok false) = .ok b) :
    n.Match ctx got =
      .ok (if b then .nil
        else if ctx.BooleanError then .BooleanError
        else .error { Context := some ctx, Message := "non-nil", Got := .gotValue,
                      Expected := .operator "nil" }) := by
  cases hk : got.kind <;>
    simp only [hk, Kind.isNilable, Bool.false_eq_true, if_false, if_true,
      Except.ok.injEq] at h <;>
    simp only [tdNil.Match, hv, hk, h, Bool.not_true, Bool.false_eq_true,
      if_false, if_true, Bind.bind, Except.bind, pure, Except.pure,
      Context.CollectError, tdNil.String] <;>
    (try subst h) <;>
    (try cases b) <;>
    cases ctx.BooleanError <;>
    simp

/-- `Nil` panics on a valid value exactly when `IsNil` does. -/
theorem tdNil_Match_panic (n : tdNil) (ctx : Context) (got : Value) (p : Panic)
    (hv : got.IsValid = true)
    (h : (if got.kind.isNilable then got.IsNil else .ok false) = .error p) :
    n.Match ctx got = .error p := by
  cases hk : got.kind <;>
    simp only [hk, Kind.isNilable, Bool.false_eq_true, if_false, if_true, reduceCtorEq] at h <;>
    simp only [tdNil.Match, hv, hk, h, Bool.not_true, Bool.false_eq_true,
      if_false, Bind.bind, Except.bind]

theorem tdNil_Match_invalid (n : tdNil) (ctx : Context) (got : Value)
    (hv : got.IsValid = false) : n.Match ctx got = .ok .nil := by
  simp [tdNil.Match, hv, pure, Except.pure]

/-- What `NotNil` returns on a valid value, after whether the value is nil. -/
theorem tdNotNil_Match_valid (n : tdNotNil) (ctx : Context) (got : Value) (b : Bool)
    (hv : got.IsValid = true)
    (h : (if got.kind.isNilable then got.IsNil else .ok false) = .ok b) :
    n.Match ctx got =
      .ok (if b then
          (if ctx.BooleanError then .BooleanError
          else .error { Context := some ctx, Message := "nil value", Got := .gotValue,
                        Expected := .operator "not nil" })
        else .nil) := by
  cases hk : got.kind <;>
    simp only [hk, Kind.isNilable, Bool.false_eq_true, if_false, if_true,
      Except.ok.injEq] at h <;>
    simp only [tdNotNil.Match, hv, hk, h, Bool.not_true, Bool.false_eq_true,
      if_false, if_true, Bind.bind, Except.bind, pure, Except.pure,
      Context.CollectError, tdNotNil.String] <;>
    (try subst h) <;>
    (try cases b) <;>
    cases ctx.BooleanError <;>
    simp

theorem tdNotNil_Match_panic (n : tdNotNil) (ctx : Context) (got : Value) (p : Panic)
    (hv : got.IsValid = true)
    (h : (if got.kind.isNilable then got.IsNil else .ok false) = .error p) :
    n.Match ctx got = .error p := by
  cases hk : got.kind <;>
    simp only [hk, Kind.isNilable, Bool.false_eq_true, if_false, if_true, reduceCtorEq] at h <;>
    simp only [tdNotNil.Match, hv, hk, h, Bool.not_true, Bool.false_eq_true,
      if_false, if_true, Bind.bind, Except.bind]

theorem tdNotNil_Match_invalid (n : tdNotNil) (ctx : Context) (got : Value)
    (hv : got.IsValid = false) :
    n.Match ctx got =
      .ok (if ctx.BooleanError then .BooleanError
        else .error { Context := some ctx, Message := "nil value", Got := .gotValue,
                      Expected := .operator "not nil" }) := by
  cases hb : ctx.BooleanError <;>
    simp [tdNotNil.Match, hv, hb, Bind.bind, Except.bind, pure, Except.pure,
      Context.CollectError, tdNotNil.String]

/-- C24: `Nil` matches got iff got is the zero Value (untyped nil) or got is of
kind chan, func, interface, map, pointer or slice and is nil; `NotNil` matches
got iff got is valid and, when of one of these kinds, not nil; so a valid value
of any other kind gets the "non-nil" failure from `Nil` (the sentinel in boolean
mode) and is matched by `NotNil`. -/
theorem Nil_NotNil_match (b1 b2 : BaseOKNil) (ctx : Context) (got : Value) :
    ((Nil b1).Match ctx got = .ok .nil ↔
      got.IsValid = false ∨ (got.kind.isNilable = true ∧ got.IsNil = .ok true))
    ∧ ((NotNil b2).Match ctx got = .ok .nil ↔
      got.IsValid = true ∧ (got.kind.isNilable = true → got.IsNil = .ok false))
    ∧ (got.IsValid = true → got.kind.isNilable = false →
        (Nil b1).Match ctx got
            = .ok (if ctx.BooleanError then .BooleanError
                else .error { Context := some ctx, Message := "non-nil", Got := .gotValue,
                              Expected := .operator "nil" })
          ∧ (NotNil b2).Match ctx got = .ok .nil) := by
  have hne : ∀ (m e : String), (if ctx.BooleanError then ErrorPtr.BooleanError
      else .error { Context := some ctx, Message := m, Got := .gotValue,
                    Expected := .operator e }) ≠ .nil := by
    intro m e; split_ifs <;> simp
  cases hv : got.IsValid
  · rw [tdNil_Match_invalid _ ctx got hv, tdNotNil_Match_invalid _ ctx got hv]
    refine ⟨by simp, ?_, by simp⟩
    simp only [Except.ok.injEq, Bool.false_eq_true, false_and, iff_false]
    exact hne _ _
  · cases hk : got.kind.isNilable
    · have h : (if got.kind.isNilable then got.IsNil else .ok false) = .ok false := by
        simp [hk]
      rw [tdNil_Match_valid _ ctx got false hv h, tdNotNil_Match_valid _ ctx got false hv h]
      refine ⟨?_, by simp, by simp⟩
      simp only [Bool.false_eq_true, if_false, Except.ok.injEq, reduceCtorEq, false_and,
        or_self, iff_false]
      exact hne _ _
    · cases hn : got.IsNil with
      | error p =>
        have h : (if got.kind.isNilable then got.IsNil else .ok false) = .error p := by
          simp [hk, hn]
        rw [tdNil_Match_panic _ ctx got p hv h, tdNotNil_Match_panic _ ctx got p hv h]
        simp
      | ok b =>
        have h : (if got.kind.isNilable then got.IsNil else .ok false) = .ok b := by
          simp [hk, hn]
        rw [tdNil_Match_valid _ ctx got b hv h, tdNotNil_Match_valid _ ctx got b hv h]
        cases b
        · refine ⟨?_, by simp, by simp⟩
          simp only [Bool.false_eq_true, if_false, Except.ok.injEq, reduceCtorEq, and_false,
            or_self, iff_false]
          exact hne _ _
        · refine ⟨by simp, ?_, by simp⟩
          simp only [if_true, Except.ok.injEq, true_and, true_implies, reduceCtorEq,
            Bool.true_eq_false, iff_false]
          exact hne _ _

/-- C24 on concrete data: the int 5 is not matched by `Nil` and is matched by
`NotNil`; the nil pointer `(*int)(nil)` and the untyped nil are matched by
`Nil`. -/
theorem Nil_NotNil_match_witness :
    ((sampleInt 5).IsValid = true ∧ (sampleInt 5).kind.isNilable = false)
    ∧ ((Nil {}).Match sampleCtx (sampleInt 5)
          = .ok (if sampleCtx.BooleanError then .BooleanError
              else .error { Context := some sampleCtx, Message := "non-nil",
                            Got := .gotValue, Expected := .operator "nil" })
        ∧ (NotNil {}).Match sampleCtx (sampleInt 5) = .ok .nil)
    ∧ (Nil {}).Match sampleCtx (.ptr (.ptr (.basic .int)) none) = .ok .nil
    ∧ (Nil {}).Match sampleCtx .invalid = .ok .nil :=
  ⟨⟨rfl, rfl⟩,
    (Nil_NotNil_match {} {} sampleCtx (sampleInt 5)).2.2 rfl rfl,
    rfl, rfl⟩

/-! ## C25, C26: Zero and NotZero -/

theorem tdZero_Match_valid (env : Env) (z : tdZero) (ctx : Context) (got : Value)
    (t : GoType) (hg : got.typ = some t) :
    z.Match env ctx got = .ok (env.deepValueEqual ctx got (Value.Zero t)) := by
  simp [tdZero.Match, IsValid_of_typ got t hg, Value.typeOf, hg, Bind.bind, Except.bind,
    pure, Except.pure]

theorem tdNotZero_Match_valid (env : Env) (z : tdNotZero) (ctx : Context) (got : Value)
    (t : GoType) (hg : got.typ = some t) :
    z.Match env ctx got =
      .ok (if env.deepValueEqualOK got (Value.Zero t) then
          (if ctx.BooleanError then .BooleanError
          else .error { Context := some ctx, Message := "zero value", Got := .gotValue,
                        Expected := .operator "NotZero()" })
        else .nil) := by
  cases hb : ctx.BooleanError <;>
    cases hz : env.deepValueEqualOK got (Value.Zero t) <;>
    simp [tdNotZero.Match, IsValid_of_typ got t hg, Value.typeOf, hg, hz, hb, Bind.bind,
      Except.bind, pure, Except.pure, Context.CollectError, tdNotZero.String]

theorem tdNotZero_Match_invalid (env : Env) (z : tdNotZero) (ctx : Context) :
    z.Match env ctx .invalid =
      .ok (if ctx.BooleanError then .BooleanError
        else .error { Context := some ctx, Message := "zero value", Got := .gotValue,
                      Expected := .operator "NotZero()" }) := by
  cases hb : ctx.BooleanError <;>
    simp [tdNotZero.Match, Value.IsValid, hb, Bind.bind, Except.bind, pure, Except.pure,
      Context.CollectError, tdNotZero.String]

/-- C25: for every got, valid or not, `Zero` and `NotZero` both return, and
exactly one of them matches got, provided the engine in diagnostic form
(`deepValueEqual`) and the engine in boolean form (`deepValueEqualOK`) agree on
whether got equals the zero value of its type. -/
theorem Zero_NotZero_complement (env : Env) (b1 b2 : BaseOKNil) (ctx : Context)
    (got : Value)
    (hagree : ∀ t, got.typ = some t →
      (env.deepValueEqual ctx got (Value.Zero t) = .nil
        ↔ env.deepValueEqualOK got (Value.Zero t) = true)) :
    (∃ r, (Zero b1).Match env ctx got = .ok r)
    ∧ (∃ r, (NotZero b2).Match env ctx got = .ok r)
    ∧ (((Zero b1).Match env ctx got = .ok .nil
          ∧ (NotZero b2).Match env ctx got ≠ .ok .nil)
        ∨ ((Zero b1).Match env ctx got ≠ .ok .nil
          ∧ (NotZero b2).Match env ctx got = .ok .nil)) := by
  cases hg : got.typ with
  | none =>
    have hinv : got = .invalid := by
      cases got <;> simp_all [Value.typ]
    subst hinv
    rw [tdNotZero_Match_invalid]
    refine ⟨⟨.nil, rfl⟩, ⟨_, rfl⟩, Or.inl ⟨rfl, ?_⟩⟩
    cases ctx.BooleanError <;> simp
  | some t =>
    rw [tdZero_Match_valid env _ ctx got t hg, tdNotZero_Match_valid env _ ctx got t hg]
    refine ⟨⟨_, rfl⟩, ⟨_, rfl⟩, ?_⟩
    have h := hagree t hg
    cases hz : env.deepValueEqualOK got (Value.Zero t)
    · right
      refine ⟨?_, by simp⟩
      intro hc
      simp only [Except.ok.injEq] at hc
      rw [h.1 hc] at hz
      cases hz
    · left
      refine ⟨by rw [h.2 hz], ?_⟩
      cases ctx.BooleanError <;> simp

/-- C25 on concrete data, the engine comparing with `==` in both forms: the
int 0 is matched by `Zero` and not by `NotZero`. -/
theorem Zero_NotZero_complement_witness :
    (∀ t, (sampleInt 0).typ = some t →
      (eqEnv.deepValueEqual sampleCtx (sampleInt 0) (Value.Zero t) = .nil
        ↔ eqEnv.deepValueEqualOK (sampleInt 0) (Value.Zero t) = true))
    ∧ (((Zero {}).Match eqEnv sampleCtx (sampleInt 0) = .ok .nil
          ∧ (NotZero {}).Match eqEnv sampleCtx (sampleInt 0) ≠ .ok .nil)
        ∨ ((Zero {}).Match eqEnv sampleCtx (sampleInt 0) ≠ .ok .nil
          ∧ (NotZero {}).Match eqEnv sampleCtx (sampleInt 0) = .ok .nil))
    ∧ (Zero {}).Match eqEnv sampleCtx (sampleInt 0) = .ok .nil
    ∧ (NotZero {}).Match eqEnv sampleCtx (sampleInt 5) = .ok .nil :=
  ⟨by intro t ht; cases ht; decide,
    (Zero_NotZero_complement eqEnv {} {} sampleCtx (sampleInt 0)
      (by intro t ht; cases ht; decide)).2.2,
    rfl, rfl⟩

/-- C26: `Zero` matches the zero Value (nil), and on a valid got returns,
unchanged, what the engine returns when it compares got with the zero value of
the type of got, so it matches got iff the engine finds them equal; `NotZero`
fails on the zero Value and on every got the engine (in boolean form) finds
equal to the zero value of its type, with the "zero value" diagnostic (the
sentinel in boolean mode), and matches every other valid got. -/
theorem Zero_NotZero_match (env : Env) (b1 b2 : BaseOKNil) (ctx : Context) (got : Value)
    (t : GoType) (hg : got.typ = some t) :
    (Zero b1).Match env ctx .invalid = .ok .nil
    ∧ (Zero b1).Match env ctx got = .ok (env.deepValueEqual ctx got (Value.Zero t))
    ∧ ((Zero b1).Match env ctx got = .ok .nil
        ↔ env.deepValueEqual ctx got (Value.Zero t) = .nil)
    ∧ (NotZero b2).Match env ctx .invalid
        = .ok (if ctx.BooleanError then .BooleanError
            else .error { Context := some ctx, Message := "zero value", Got := .gotValue,
                          Expected := .operator "NotZero()" })
    ∧ (env.deepValueEqualOK got (Value.Zero t) = true →
        (NotZero b2).Match env ctx got
          = .ok (if ctx.BooleanError then .BooleanError
              else .error { Context := some ctx, Message := "zero value", Got := .gotValue,
                            Expected := .operator "NotZero()" }))
    ∧ (env.deepValueEqualOK got (Value.Zero t) = false →
        (NotZero b2).Match env ctx got = .ok .nil) := by
  rw [tdZero_Match_valid env _ ctx got t hg, tdNotZero_Match_valid env _ ctx got t hg,
    tdNotZero_Match_invalid]
  refine ⟨rfl, rfl, by simp, rfl, ?_, ?_⟩
  · intro h; rw [h]; rfl
  · intro h; rw [h]; rfl

/-- C26 on concrete data, the engine comparing with `==`: `Zero` matches the
int 0 and returns the engine's "values differ" on the int 5; `NotZero` returns
"zero value" on the int 0. -/
theorem Zero_NotZero_match_witness :
    (sampleInt 0).typ = some (.basic .int)
    ∧ (Zero {}).Match eqEnv sampleCtx (sampleInt 0)
        = .ok (eqEnv.deepValueEqual sampleCtx (sampleInt 0) (Value.Zero (.basic .int)))
    ∧ (Zero {}).Match eqEnv sampleCtx (sampleInt 0) = .ok .nil
    ∧ (Zero {}).Match eqEnv sampleCtx (sampleInt 5)
        = .ok (.error { Context := some sampleCtx, Message := "values differ" })
    ∧ (NotZero {}).Match eqEnv sampleCtx (sampleInt 0)
        = .ok (.error { Context := some sampleCtx, Message := "zero value",
                        Got := .gotValue, Expected := .operator "NotZero()" }) :=
  ⟨rfl,
    (Zero_NotZero_match eqEnv {} {} sampleCtx (sampleInt 0) (.basic .int) rfl).2.1,
    rfl, rfl, rfl⟩

/-! ## C27: Ptr and PPtr -/

/-- C27, counterexample: `Ptr` wrapping an operator, given the pointer to
pointer `**int` (two levels of indirection), reports no "pointer type
mismatch": it follows one level and returns what the engine returns, here a
match; `PPtr` does the same on a `***int`; and `Ptr(5)` on the `**int` returns
the engine's own "values differ". -/
theorem Ptr_deeper_indirection_not_reported :
    Ptr opEnv {} sampleOp = .ok { expectedValue := sampleOp, isTestDeeper := true }
    ∧ tdPtr.Match opEnv { expectedValue := sampleOp, isTestDeeper := true } sampleCtx
        (.ptr (.ptr (.ptr (.basic .int)))
          (some (.ptr (.ptr (.basic .int)) (some (sampleInt 5)))))
        = .ok .nil
    ∧ PPtr opEnv {} sampleOp
        = .ok { expectedValue := sampleOp, isTestDeeper := true }
    ∧ tdPPtr.Match opEnv { expectedValue := sampleOp, isTestDeeper := true } sampleCtx
        (.ptr (.ptr (.ptr (.ptr (.basic .int))))
          (some (.ptr (.ptr (.ptr (.basic .int)))
            (some (.ptr (.ptr (.basic .int)) (some (sampleInt 5)))))))
        = .ok .nil
    ∧ Ptr opEnv {} (sampleInt 5)
        = .ok { expectedValue := .ptr (.ptr (.basic .int)) (some (sampleInt 5)) }
    ∧ tdPtr.Match opEnv { expectedValue := .ptr (.ptr (.basic .int)) (some (sampleInt 5)) }
        sampleCtx
        (.ptr (.ptr (.ptr (.basic .int)))
          (some (.ptr (.ptr (.basic .int)) (some (sampleInt 5)))))
        = .ok (.error { Context := some sampleCtx, Message := "values differ",
                        Location := some {} }) :=
  ⟨rfl, rfl, rfl, rfl, rfl, rfl⟩

theorem kind_ptr_Value (t : GoType) (eo : Option Value) (ht : t.kind = .ptr) :
    (Value.ptr t eo).kind = .ptr := by
  simp [Value.kind, Value.typ, ht]

theorem Elem_ptr (t : GoType) (eo : Option Value) :
    (Value.ptr t eo).Elem = .ok (eo.getD .invalid) := by
  cases eo <;> rfl

/-- C27, amended: in diagnostic mode `Ptr` reports "pointer type mismatch"
(Got the name of the type of got) on every valid got that is not a pointer, and
`PPtr` on every valid got that is not a pointer and on every pointer that does
not point to a pointer (a nil pointer included); on a pointer `Ptr` returns
what the engine returns (on what got points to, against the wrapped operator,
or on got itself against the pointer built from the literal), and so does
`PPtr` on a pointer to a pointer, however many levels of indirection are
left. -/
theorem Ptr_PPtr_pointer_type_mismatch (env : Env) (p : tdPtr) (pp : tdPPtr)
    (ctx : Context) (s ss : String) (hd : ctx.BooleanError = false)
    (hs : p.String = .ok s) (hss : pp.String = .ok ss) :
    (∀ got tg, got.typ = some tg → tg.kind ≠ .ptr →
      p.Match env ctx got
          = .ok (.error { Context := some ctx, Message := "pointer type mismatch",
                          Got := .RawString tg.str, Expected := .RawString s,
                          Location := some p.location })
        ∧ pp.Match env ctx got
          = .ok (.error { Context := some ctx, Message := "pointer type mismatch",
                          Got := .RawString tg.str, Expected := .RawString ss,
                          Location := some pp.location }))
    ∧ (∀ t eo, t.kind = .ptr → (eo.getD .invalid).kind ≠ .ptr →
      pp.Match env ctx (.ptr t eo)
        = .ok (.error { Context := some ctx, Message := "pointer type mismatch",
                        Got := .RawString t.str, Expected := .RawString ss,
                        Location := some pp.location }))
    ∧ (∀ t eo, t.kind = .ptr →
      p.Match env ctx (.ptr t eo)
        = .ok ((if p.isTestDeeper then
              env.deepValueEqual (ctx.AddPtr 1) (eo.getD .invalid) p.expectedValue
            else env.deepValueEqual ctx (.ptr t eo) p.expectedValue).SetLocationIfMissing
            p.location))
    ∧ (∀ t t2 eo, t.kind = .ptr → t2.kind = .ptr →
      pp.Match env ctx (.ptr t (some (.ptr t2 eo)))
        = .ok ((if pp.isTestDeeper then
              env.deepValueEqual (ctx.AddPtr 2) (eo.getD .invalid) pp.expectedValue
            else env.deepValueEqual ctx (.ptr t (some (.ptr t2 eo)))
              pp.expectedValue).SetLocationIfMissing pp.location)) := by
  refine ⟨?_, ?_, ?_, ?_⟩
  · intro got tg hg hk
    have hkind : got.kind = tg.kind := by simp [Value.kind, hg]
    constructor
    · simp [tdPtr.Match, hkind, hk, hd, Value.typeOf, hg, hs, Bind.bind, Except.bind,
        pure, Except.pure]
    · simp [tdPPtr.Match, hkind, hk, hd, Value.typeOf, hg, hss, Bind.bind, Except.bind,
        pure, Except.pure]
  · intro t eo ht he
    simp [tdPPtr.Match, kind_ptr_Value t eo ht, Elem_ptr, he, hd, Value.typeOf, Value.typ,
      hss, Bind.bind, Except.bind, pure, Except.pure]
  · intro t eo ht
    cases hT : p.isTestDeeper <;>
      simp [tdPtr.Match, kind_ptr_Value t eo ht, Elem_ptr, hT, Bind.bind, Except.bind,
        pure, Except.pure]
  · intro t t2 eo ht ht2
    cases hT : pp.isTestDeeper <;>
      simp [tdPPtr.Match, kind_ptr_Value t _ ht, kind_ptr_Value t2 eo ht2, Elem_ptr, hT,
        Bind.bind, Except.bind, pure, Except.pure]

/-- C27, amended, on concrete data: `Ptr` and `PPtr` wrapping an operator
report "pointer type mismatch" on the int 5, and `PPtr` on the `*int` pointing
to it. -/
theorem Ptr_PPtr_pointer_type_mismatch_witness :
    (sampleCtx.BooleanError = false
      ∧ tdPtr.String { expectedValue := sampleOp, isTestDeeper := true } = .ok "*<something>"
      ∧ tdPPtr.String { expectedValue := sampleOp, isTestDeeper := true }
          = .ok "**<something>"
      ∧ (sampleInt 5).typ = some (.basic .int) ∧ (GoType.basic .int).kind ≠ .ptr)
    ∧ (tdPtr.Match opEnv { expectedValue := sampleOp, isTestDeeper := true } sampleCtx
          (sampleInt 5)
        = .ok (.error { Context := some sampleCtx, Message := "pointer type mismatch",
                        Got := .RawString (GoType.basic .int).str,
                        Expected := .RawString "*<something>",
                        Location := some {} })
      ∧ tdPPtr.Match opEnv { expectedValue := sampleOp, isTestDeeper := true } sampleCtx
          (sampleInt 5)
        = .ok (.error { Context := some sampleCtx, Message := "pointer type mismatch",
                        Got := .RawString (GoType.basic .int).str,
                        Expected := .RawString "**<something>",
                        Location := some {} }))
    ∧ tdPPtr.Match opEnv { expectedValue := sampleOp, isTestDeeper := true } sampleCtx
          (.ptr (.ptr (.basic .int)) (some (sampleInt 5)))
        = .ok (.error { Context := some sampleCtx, Message := "pointer type mismatch",
                        Got := .RawString (GoType.ptr (.basic .int)).str,
                        Expected := .RawString "**<something>",
                        Location := some {} }) :=
  ⟨⟨rfl, rfl, rfl, rfl, by decide⟩,
    (Ptr_PPtr_pointer_type_mismatch opEnv { expectedValue := sampleOp, isTestDeeper := true }
      { expectedValue := sampleOp, isTestDeeper := true } sampleCtx "*<something>"
      "**<something>" rfl rfl rfl).1 (sampleInt 5) (.basic .int) rfl (by decide),
    (Ptr_PPtr_pointer_type_mismatch opEnv { expectedValue := sampleOp, isTestDeeper := true }
      { expectedValue := sampleOp, isTestDeeper := true } sampleCtx "*<something>"
      "**<something>" rfl rfl rfl).2.1 (.ptr (.basic .int)) (some (sampleInt 5)) rfl
      (by decide)⟩

/-! ## C28: Ignore -/

/-- C28: `Ignore().Match` returns nil under every context (so in both modes)
and for every got, the zero Value included; and `HandleInvalid` of `Ignore()`
is true. -/
theorem Ignore_always_matches (ctx : Context) (got : Value) :
    Ignore.Match ctx got = .ok .nil
    ∧ Ignore.Match ctx .invalid = .ok .nil
    ∧ Ignore.HandleInvalid = true :=
  ⟨rfl, rfl, rfl⟩

/-! ## C29: NaN and NotNaN -/

theorem tdNaN_Match_float (n : tdNaN) (ctx : Context) (t : GoType) (f : GoFloat)
    (ht : t.kind = .float32 ∨ t.kind = .float64) :
    n.Match ctx (.float t f) =
      .ok (if f.IsNaN then .nil
        else .error { Context := some ctx, Message := "values differ", Got := .gotValue,
                      Expected := .operator "NaN" }) := by
  rcases ht with ht | ht <;>
    cases hf : f.IsNaN <;>
    simp [tdNaN.Match, Value.kind, Value.typ, ht, Value.asFloat, hf, Bind.bind,
      Except.bind, pure, Except.pure, Context.CollectError, tdNaN.String]

theorem tdNotNaN_Match_float (n : tdNotNaN) (ctx : Context) (t : GoType) (f : GoFloat)
    (ht : t.kind = .float32 ∨ t.kind = .float64) :
    n.Match ctx (.float t f) =
      .ok (if f.IsNaN then
          .error { Context := some ctx, Message := "values differ", Got := .gotValue,
                   Expected := .operator "not NaN" }
        else .nil) := by
  rcases ht with ht | ht <;>
    cases hf : f.IsNaN <;>
    simp [tdNotNaN.Match, Value.kind, Value.typ, ht, Value.asFloat, hf, Bind.bind,
      Except.bind, pure, Except.pure, Context.CollectError, tdNotNaN.String]

theorem tdNaN_Match_other (n : tdNaN) (ctx : Context) (g : Value) (tg : GoType)
    (hg : g.typ = some tg) (hgk : tg.kind ≠ .float32 ∧ tg.kind ≠ .float64) :
    n.Match ctx g =
      .ok (.error { Context := some ctx, Message := "type mismatch",
                    Got := .RawString tg.str,
                    Expected := .RawString "float32 OR float64" }) := by
  have hk : g.kind = tg.kind := by simp [Value.kind, hg]
  obtain ⟨h1, h2⟩ := hgk
  simp only [tdNaN.Match, hk]
  simp [Value.typeOf, hg, Bind.bind, Except.bind, pure, Except.pure,
    Context.CollectError]

theorem tdNotNaN_Match_other (n : tdNotNaN) (ctx : Context) (g : Value) (tg : GoType)
    (hg : g.typ = some tg) (hgk : tg.kind ≠ .float32 ∧ tg.kind ≠ .float64) :
    n.Match ctx g =
      .ok (.error { Context := some ctx, Message := "type mismatch",
                    Got := .RawString tg.str,
                    Expected := .RawString "float32 OR float64" }) := by
  have hk : g.kind = tg.kind := by simp [Value.kind, hg]
  obtain ⟨h1, h2⟩ := hgk
  simp only [tdNotNaN.Match, hk]
  simp [Value.typeOf, hg, Bind.bind, Except.bind, pure, Except.pure,
    Context.CollectError]

/-- C29: on a float32 or float64 got, `NaN` matches iff got is not-a-number and
`NotNaN` matches iff it is not, so exactly one of them matches, and neither
panics; on a valid got of another kind both return the "type mismatch"
diagnostic, Got being the name of the type of got and Expected
"float32 OR float64". -/
theorem NaN_NotNaN_match (b1 b2 : Base) (ctx : Context) (t : GoType) (f : GoFloat)
    (g : Value) (tg : GoType) (ht : t.kind = .float32 ∨ t.kind = .float64)
    (hg : g.typ = some tg) (hgk : tg.kind ≠ .float32 ∧ tg.kind ≠ .float64) :
    ((NaN b1).Match ctx (.float t f) = .ok .nil ↔ f.IsNaN = true)
    ∧ ((NotNaN b2).Match ctx (.float t f) = .ok .nil ↔ f.IsNaN = false)
    ∧ (((NaN b1).Match ctx (.float t f) = .ok .nil
          ∧ (NotNaN b2).Match ctx (.float t f) ≠ .ok .nil)
        ∨ ((NaN b1).Match ctx (.float t f) ≠ .ok .nil
          ∧ (NotNaN b2).Match ctx (.float t f) = .ok .nil))
    ∧ (∃ r, (NaN b1).Match ctx (.float t f) = .ok r)
    ∧ (∃ r, (NotNaN b2).Match ctx (.float t f) = .ok r)
    ∧ (NaN b1).Match ctx g
        = .ok (.error { Context := some ctx, Message := "type mismatch",
                        Got := .RawString tg.str,
                        Expected := .RawString "float32 OR float64" })
    ∧ (NotNaN b2).Match ctx g
        = .ok (.error { Context := some ctx, Message := "type mismatch",
                        Got := .RawString tg.str,
                        Expected := .RawString "float32 OR float64" }) := by
  rw [tdNaN_Match_float _ ctx t f ht, tdNotNaN_Match_float _ ctx t f ht]
  refine ⟨?_, ?_, ?_, ⟨_, rfl⟩, ⟨_, rfl⟩, tdNaN_Match_other _ ctx g tg hg hgk,
    tdNotNaN_Match_other _ ctx g tg hg hgk⟩ <;>
    cases f.IsNaN <;> simp

/-- C29 on concrete data: the float64 NaN is matched by `NaN` and not by
`NotNaN`; the int 5 gets "type mismatch" from both. -/
theorem NaN_NotNaN_match_witness :
    (((GoType.basic .float64).kind = .float32 ∨ (GoType.basic .float64).kind = .float64)
      ∧ (sampleInt 5).typ = some (.basic .int)
      ∧ ((GoType.basic .int).kind ≠ .float32 ∧ (GoType.basic .int).kind ≠ .float64))
    ∧ ((NaN {}).Match sampleCtx (.float (.basic .float64) .nan) = .ok .nil ↔
        GoFloat.nan.IsNaN = true)
    ∧ (NaN {}).Match sampleCtx (.float (.basic .float64) .nan) = .ok .nil
    ∧ (NotNaN {}).Match sampleCtx (.float (.basic .float64) .nan)
        = .ok (.error { Context := some sampleCtx, Message := "values differ",
                        Got := .gotValue, Expected := .operator "not NaN" })
    ∧ (NaN {}).Match sampleCtx (sampleInt 5)
        = .ok (.error { Context := some sampleCtx, Message := "type mismatch",
                        Got := .RawString (GoType.basic .int).str,
                        Expected := .RawString "float32 OR float64" }) :=
  ⟨⟨Or.inr rfl, rfl, ⟨by decide, by decide⟩⟩,
    (NaN_NotNaN_match {} {} sampleCtx (.basic .float64) .nan (sampleInt 5) (.basic .int)
      (Or.inr rfl) rfl ⟨by decide, by decide⟩).1,
    rfl, rfl,
    (NaN_NotNaN_match {} {} sampleCtx (.basic .float64) .nan (sampleInt 5) (.basic .int)
      (Or.inr rfl) rfl ⟨by decide, by decide⟩).2.2.2.2.2.1⟩

/-! ## C30: the sentinel of the boolean mode -/

theorem tdBetween_Match_bool (env : Env) (b : tdBetween) (ctx : Context) (got : Value)
    (r : ErrorPtr) (hb : ctx.BooleanError = true) (h : b.Match env ctx got = .ok r) :
    r = .nil ∨ r = .BooleanError := by
  rw [tdBetween.Match] at h
  obtain ⟨tgot, -, h⟩ := (Except.bind_eq_ok _ _ _).1 h
  obtain ⟨tmin, -, h⟩ := (Except.bind_eq_ok _ _ _).1 h
  simp only [hb, if_true] at h
  split at h
  · simp only [pure, Except.pure, Except.ok.injEq] at h
    exact Or.inr h.symm
  · have hjp : ∀ x : Except Panic Bool,
        (x >>= fun ok => if ok = true then (pure .nil : Except Panic ErrorPtr)
          else pure .BooleanError) = .ok r → r = .nil ∨ r = .BooleanError := by
      intro x hx
      obtain ⟨ok, -, hx⟩ := (Except.bind_eq_ok _ _ _).1 hx
      cases ok <;> simp [pure, Except.pure] at hx <;> simp [hx.symm]
    split at h
    · exact hjp _ h
    · split at h
      · exact hjp _ h
      · split at h
        · exact hjp _ h
        · split at h
          · exact hjp _ h
          · exact hjp _ h

theorem tdBetweenTime_Match_bool (env : Env) (b : tdBetweenTime) (ctx : Context)
    (got : Value) (r : ErrorPtr) (hb : ctx.BooleanError = true)
    (hgt : (env.getTime ctx got b.mustConvert).2 = .nil)
    (h : b.Match env ctx got = .ok r) :
    r = .nil ∨ r = .BooleanError := by
  rw [tdBetweenTime.Match] at h
  obtain ⟨tgot, -, h⟩ := (Except.bind_eq_ok _ _ _).1 h
  simp only [hb, if_true] at h
  split at h
  · simp only [pure, Except.pure, Except.ok.injEq] at h
    exact Or.inr h.symm
  · rw [if_neg (by rw [hgt]; simp)] at h
    have hjp2 : ∀ x : Except Panic Bool,
        (x >>= fun ok => if ok = true then (pure .nil : Except Panic ErrorPtr)
          else pure .BooleanError) = .ok r → r = .nil ∨ r = .BooleanError := by
      intro x hx
      obtain ⟨ok, -, hx⟩ := (Except.bind_eq_ok _ _ _).1 hx
      cases ok <;> simp [pure, Except.pure] at hx <;> simp [hx.symm]
    have hjp1 : ∀ y : Bool,
        (if y = true ∧ b.maxBound ≠ .boundNone then do
            let max ← b.expectedMax.asTime
            if b.maxBound = .boundIn then do
              let y ← pure (decide ¬max < (env.getTime ctx got b.mustConvert).1)
              if y = true then (pure .nil : Except Panic ErrorPtr) else pure .BooleanError
            else do
              let y ← pure (decide ((env.getTime ctx got b.mustConvert).1 < max))
              if y = true then (pure .nil : Except Panic ErrorPtr) else pure .BooleanError
          else do
            let y ← pure y
            if y = true then (pure .nil : Except Panic ErrorPtr)
            else pure .BooleanError) = .ok r →
        r = .nil ∨ r = .BooleanError := by
      intro y hy
      split at hy
      · obtain ⟨mx, -, hy⟩ := (Except.bind_eq_ok _ _ _).1 hy
        split at hy <;> exact hjp2 _ hy
      · exact hjp2 _ hy
    split at h
    · obtain ⟨mn, -, h⟩ := (Except.bind_eq_ok _ _ _).1 h
      split at h <;> obtain ⟨y, -, h⟩ := (Except.bind_eq_ok _ _ _).1 h <;> exact hjp1 y h
    · obtain ⟨y, -, h⟩ := (Except.bind_eq_ok _ _ _).1 h
      exact hjp1 y h

theorem TestDeep_Match_bool (env : Env) (op : TestDeep) (ctx : Context) (got : Value)
    (r : ErrorPtr) (hb : ctx.BooleanError = true)
    (hgt : ∀ bt, op = .tdBetweenTime bt → (env.getTime ctx got bt.mustConvert).2 = .nil)
    (h : op.Match env ctx got = .ok r) :
    r = .nil ∨ r = .BooleanError := by
  cases op with
  | tdBetween b => exact tdBetween_Match_bool env b ctx got r hb h
  | tdBetweenTime bt => exact tdBetweenTime_Match_bool env bt ctx got r hb (hgt bt rfl) h

theorem tdArrayEach_Match_bool (env : Env) (a : tdArrayEach) (ctx : Context)
    (hb : ctx.BooleanError = true) :
    a.Match env ctx .invalid = .ok .BooleanError
    ∧ (∀ pt, pt.kind = .ptr → a.Match env ctx (.ptr pt none) = .ok .BooleanError)
    ∧ (∀ g tg, g.typ = some tg → tg.kind ≠ .ptr → tg.kind ≠ .array → tg.kind ≠ .slice →
        a.Match env ctx g = .ok .BooleanError)
    ∧ (∀ pt v, pt.kind = .ptr → v.IsValid = true → v.kind ≠ .array → v.kind ≠ .slice →
        a.Match env ctx (.ptr pt (some v)) = .ok .BooleanError) := by
  refine ⟨?_, ?_, ?_, ?_⟩
  · simp [tdArrayEach.Match, Value.IsValid, hb, pure, Except.pure]
  · intro pt hpt
    have hpk2 : (Value.ptr pt none).kind = .ptr := by simp [Value.kind, Value.typ, hpt]
    have hpv2 : (Value.ptr pt none).IsValid = true := rfl
    simp only [tdArrayEach.Match, hpv2, hpk2, Value.Elem, Bind.bind, Except.bind]
    simp [Value.IsValid, hb, pure, Except.pure]
  · intro g tg hg h1 h2 h3
    have hgval : g.IsValid = true := IsValid_of_typ g tg hg
    have hgkind : g.kind = tg.kind := by simp [Value.kind, hg]
    have hbt : tdArrayEach.badType ctx g = .ok .BooleanError := by
      simp [tdArrayEach.badType, hb, pure, Except.pure]
    simp only [tdArrayEach.Match, hgval, hgkind]
    rw [← hbt]
    split <;> simp_all
  · intro pt v hpt hv h1 h2
    have hpk : (Value.ptr pt (some v)).kind = .ptr := by simp [Value.kind, Value.typ, hpt]
    have hpv : (Value.ptr pt (some v)).IsValid = true := rfl
    simp only [tdArrayEach.Match, hpv, hpk, Value.Elem, Bind.bind, Except.bind, hv]
    simp [h1, h2, tdArrayEach.badType, hb, pure, Except.pure]

theorem tdMap_Match_bool (env : Env) (m : tdMap) (ctx : Context) (got g : Value)
    (hb : ctx.BooleanError = true) (hgot : m.gotIsMap env ctx got g)
    (hE : m.expectedEntries.Pairwise (fun a b => Value.eqIface a.key b.key = false))
    (hpass : ∀ e ∈ m.expectedEntries, g.hasKey e.key = true →
      tdMap.compareEntry env ctx g e = .nil) :
    m.Match env ctx got = .ok .nil ∨ m.Match env ctx got = .ok .BooleanError := by
  obtain ⟨hptr, htype, ⟨t, es, rfl⟩, hG, hvalid, -⟩ := hgot
  rw [Match_of_pass env m ctx got t es hptr htype hvalid hG hE hpass]
  simp only [tdMap.keysError, hb, if_true]
  split_ifs <;> simp

theorem tdIsa_Match_bool (env : Env) (i : tdIsa) (ctx : Context) (got : Value)
    (r : ErrorPtr) (hb : ctx.BooleanError = true) (h : i.Match env ctx got = .ok r) :
    r = .nil ∨ r = .BooleanError := by
  rw [tdIsa.Match] at h
  obtain ⟨tgot, -, h⟩ := (Except.bind_eq_ok _ _ _).1 h
  split at h
  · simp only [pure, Except.pure, Except.ok.injEq] at h
    exact Or.inl h.symm
  · obtain ⟨impl, -, h⟩ := (Except.bind_eq_ok _ _ _).1 h
    try simp only [hb, if_true] at h
    split at h <;> simp only [pure, Except.pure, Except.ok.injEq] at h
    · exact Or.inl h.symm
    · exact Or.inr h.symm

theorem tdNil_Match_bool (n : tdNil) (ctx : Context) (got : Value)
    (r : ErrorPtr) (hb : ctx.BooleanError = true) (h : n.Match ctx got = .ok r) :
    r = .nil ∨ r = .BooleanError := by
  rw [tdNil.Match] at h
  split at h
  · simp only [pure, Except.pure, Except.ok.injEq] at h
    exact Or.inl h.symm
  · obtain ⟨isNil, -, h⟩ := (Except.bind_eq_ok _ _ _).1 h
    try simp only [hb, if_true] at h
    split at h <;> simp only [pure, Except.pure, Except.ok.injEq] at h
    · exact Or.inl h.symm
    · exact Or.inr h.symm

theorem tdNotNil_Match_bool (n : tdNotNil) (ctx : Context) (got : Value)
    (r : ErrorPtr) (hb : ctx.BooleanError = true) (h : n.Match ctx got = .ok r) :
    r = .nil ∨ r = .BooleanError := by
  rw [tdNotNil.Match] at h
  obtain ⟨notNil, -, h⟩ := (Except.bind_eq_ok _ _ _).1 h
  simp only [hb, if_true] at h
  split at h <;> simp only [pure, Except.pure, Except.ok.injEq] at h
  · exact Or.inl h.symm
  · exact Or.inr h.symm

theorem tdNotZero_Match_bool (env : Env) (z : tdNotZero) (ctx : Context) (got : Value)
    (r : ErrorPtr) (hb : ctx.BooleanError = true) (h : z.Match env ctx got = .ok r) :
    r = .nil ∨ r = .BooleanError := by
  rw [tdNotZero.Match] at h
  obtain ⟨notZero, -, h⟩ := (Except.bind_eq_ok _ _ _).1 h
  simp only [hb, if_true] at h
  split at h <;> simp only [pure, Except.pure, Except.ok.injEq] at h
  · exact Or.inl h.symm
  · exact Or.inr h.symm

theorem tdPtr_Match_bool (env : Env) (p : tdPtr) (pp : tdPPtr) (ctx : Context)
    (hb : ctx.BooleanError = true) :
    (∀ got, got.kind ≠ .ptr →
      p.Match env ctx got = .ok .BooleanError ∧ pp.Match env ctx got = .ok .BooleanError)
    ∧ (∀ t eo, t.kind = .ptr → (eo.getD .invalid).kind ≠ .ptr →
      pp.Match env ctx (.ptr t eo) = .ok .BooleanError) := by
  refine ⟨?_, ?_⟩
  · intro got hk
    constructor
    · simp [tdPtr.Match, hk, hb, pure, Except.pure]
    · simp [tdPPtr.Match, hk, hb, Bind.bind, Except.bind, pure, Except.pure]
  · intro t eo ht he
    simp [tdPPtr.Match, kind_ptr_Value t eo ht, Elem_ptr, he, hb, Bind.bind, Except.bind,
      pure, Except.pure]

/-- In boolean mode, what `(*tdBetween).Match` returns on a got of the type of
the bounds, after the result of the comparison the kind of got selects. -/
theorem tdBetween_Match_bool_range (env : Env) (b : tdBetween) (ctx : Context) (got : Value)
    (t : GoType) (ok : Bool) (hb : ctx.BooleanError = true) (hg : got.typ = some t)
    (hm : b.expectedMin.typ = some t)
    (hok : (if got.kind.isInt then b.matchInt got
      else if got.kind.isUint then b.matchUint got
      else if got.kind.isFloat then b.matchFloat got
      else if got.kind = .string then .ok (b.matchString got)
      else .ok false) = .ok ok) :
    b.Match env ctx got = .ok (if ok then .nil else .BooleanError) := by
  rw [tdBetween.Match]
  simp only [Value.typeOf, hg, hm, Bind.bind, Except.bind, ne_eq, not_true_eq_false,
    if_false, hb, if_true, pure, Except.pure]
  split_ifs at hok ⊢ <;> simp_all

theorem tdBetweenTime_Match_bool_type (env : Env) (bt : tdBetweenTime) (ctx : Context)
    (got : Value) (tg : GoType) (hb : ctx.BooleanError = true) (hg : got.typ = some tg)
    (hne : some tg ≠ bt.expectedType) :
    bt.Match env ctx got = .ok .BooleanError := by
  rw [tdBetweenTime.Match]
  simp only [Value.typeOf, hg, Bind.bind, Except.bind, ne_eq, hne, not_false_eq_true,
    if_true, hb, pure, Except.pure]

/-- In boolean mode, what `(*tdBetweenTime).Match` returns on a got of the
expected type whose time `getTime` hands over. -/
theorem tdBetweenTime_Match_bool_range (env : Env) (bt : tdBetweenTime) (ctx : Context)
    (got : Value) (tg : GoType) (t mn mx : Int) (hb : ctx.BooleanError = true)
    (hg : got.typ = some tg) (he : bt.expectedType = some tg)
    (hgt : env.getTime ctx got bt.mustConvert = (t, .nil))
    (hmn : bt.expectedMin.asTime = .ok mn) (hmx : bt.expectedMax.asTime = .ok mx) :
    bt.Match env ctx got
      = .ok (if bt.minBound.admitsMin mn t && bt.maxBound.admitsMax mx t then .nil
          else .BooleanError) := by
  rw [tdBetweenTime.Match]
  simp only [Value.typeOf, hg, he, hgt, hmn, hmx, Bind.bind, Except.bind, ne_eq,
    not_true_eq_false, if_false, hb, if_true, pure, Except.pure]
  cases h1 : bt.minBound <;> cases h2 : bt.maxBound <;>
    simp [boundCmp.admitsMin, boundCmp.admitsMax] <;>
    split_ifs <;> simp_all

/-- In boolean mode, on a map got of the expected type whose values the engine
accepts, `(*tdMap).Match` returns nil when no key is missing (but for
`SubMapOf`) and no key is extra (but for `SuperMapOf`), the sentinel
otherwise. -/
theorem tdMap_Match_bool_keys (env : Env) (m : tdMap) (ctx : Context) (got g : Value)
    (hb : ctx.BooleanError = true) (hgot : m.gotIsMap env ctx got g)
    (hE : m.expectedEntries.Pairwise (fun a b => Value.eqIface a.key b.key = false))
    (hpass : ∀ e ∈ m.expectedEntries, g.hasKey e.key = true →
      tdMap.compareEntry env ctx g e = .nil) :
    (((m.kind ≠ .subMap → ∀ e ∈ m.expectedEntries, g.hasKey e.key = true)
        ∧ (m.kind ≠ .superMap → ∀ p ∈ g.mapEntries, m.isExpected p.1 = true)) →
      m.Match env ctx got = .ok .nil)
    ∧ (¬ ((m.kind ≠ .subMap → ∀ e ∈ m.expectedEntries, g.hasKey e.key = true)
        ∧ (m.kind ≠ .superMap → ∀ p ∈ g.mapEntries, m.isExpected p.1 = true)) →
      m.Match env ctx got = .ok .BooleanError) := by
  have hiff := (Match_nil_iff env m ctx got g hgot hE).2
  refine ⟨fun hc => hiff.2 ⟨hpass, hc.1, hc.2⟩, fun hc => ?_⟩
  rcases tdMap_Match_bool env m ctx got g hb hgot hE hpass with h | h
  · exact absurd ⟨(hiff.1 h).2.1, (hiff.1 h).2.2⟩ hc
  · exact h

/-- C30: in boolean mode, every mismatch an operator finds itself comes back
as the sentinel `BooleanError`.  An operator of the Between family returns the
sentinel on a got of another type than its bounds, and, on a got of that type,
nil when the comparison of its kind admits got and the sentinel when it does
not (for times, `getTime` having handed over the time of got).  `ArrayEach`
returns the sentinel for its "nil value", "nil pointer" and "bad type".  On a
map got of the expected type whose values the engine accepts, a Map-family
operator returns nil when no key is missing or extra (after its kind) and the
sentinel otherwise.  `Isa` returns the sentinel on a got of another type that
does not implement the model; `Nil` on a valid got that is not nil; `NotNil` on
the zero Value and on a nil got; `NotZero` on the zero Value and on a got the
engine finds equal to the zero value of its type; `Ptr` and `PPtr` for their
"pointer type mismatch".  And whatever the Between family, `Isa`, `Nil`,
`NotNil` and `NotZero` return is nil or the sentinel: no diagnostic is built. -/
theorem boolean_mode_sentinel (env : Env) (ctx : Context)
    (hb : ctx.BooleanError = true) :
    (∀ (b : tdBetween) (got : Value) (tb tg : GoType),
      b.expectedMin.typ = some tb → got.typ = some tg → tg ≠ tb →
      b.Match env ctx got = .ok .BooleanError)
    ∧ (∀ (b : tdBetween) (got : Value) (t : GoType),
      got.typ = some t → b.expectedMin.typ = some t →
      (t.kind.isInt = true → ∀ ok, b.matchInt got = .ok ok →
        b.Match env ctx got = .ok (if ok then .nil else .BooleanError))
      ∧ (t.kind.isUint = true → ∀ ok, b.matchUint got = .ok ok →
        b.Match env ctx got = .ok (if ok then .nil else .BooleanError))
      ∧ (t.kind.isFloat = true → ∀ ok, b.matchFloat got = .ok ok →
        b.Match env ctx got = .ok (if ok then .nil else .BooleanError))
      ∧ (t.kind = .string →
        b.Match env ctx got = .ok (if b.matchString got then .nil else .BooleanError))
      ∧ (t.kind.isInt = false → t.kind.isUint = false → t.kind.isFloat = false →
        t.kind ≠ .string → b.Match env ctx got = .ok .BooleanError))
    ∧ (∀ (bt : tdBetweenTime) (got : Value) (tg : GoType),
      got.typ = some tg → some tg ≠ bt.expectedType →
      bt.Match env ctx got = .ok .BooleanError)
    ∧ (∀ (bt : tdBetweenTime) (got : Value) (tg : GoType) (t mn mx : Int),
      got.typ = some tg → bt.expectedType = some tg →
      env.getTime ctx got bt.mustConvert = (t, .nil) →
      bt.expectedMin.asTime = .ok mn → bt.expectedMax.asTime = .ok mx →
      bt.Match env ctx got
        = .ok (if bt.minBound.admitsMin mn t && bt.maxBound.admitsMax mx t then .nil
            else .BooleanError))
    ∧ (∀ a : tdArrayEach,
      a.Match env ctx .invalid = .ok .BooleanError
      ∧ (∀ pt, pt.kind = .ptr → a.Match env ctx (.ptr pt none) = .ok .BooleanError)
      ∧ (∀ g tg, g.typ = some tg → tg.kind ≠ .ptr → tg.kind ≠ .array → tg.kind ≠ .slice →
          a.Match env ctx g = .ok .BooleanError)
      ∧ (∀ pt v, pt.kind = .ptr → v.IsValid = true → v.kind ≠ .array → v.kind ≠ .slice →
          a.Match env ctx (.ptr pt (some v)) = .ok .BooleanError))
    ∧ (∀ (m : tdMap) (got g : Value), m.gotIsMap env ctx got g →
      m.expectedEntries.Pairwise (fun a b => Value.eqIface a.key b.key = false) →
      (∀ e ∈ m.expectedEntries, e.key.comparedByValue = true) →
      (∀ e ∈ m.expectedEntries, g.hasKey e.key = true →
        tdMap.compareEntry env ctx g e = .nil) →
      (((m.kind ≠ .subMap → ∀ e ∈ m.expectedEntries, g.hasKey e.key = true)
          ∧ (m.kind ≠ .superMap → ∀ p ∈ g.mapEntries, m.isExpected p.1 = true)) →
        m.Match env ctx got = .ok .nil)
      ∧ (¬ ((m.kind ≠ .subMap → ∀ e ∈ m.expectedEntries, g.hasKey e.key = true)
          ∧ (m.kind ≠ .superMap → ∀ p ∈ g.mapEntries, m.isExpected p.1 = true)) →
        m.Match env ctx got = .ok .BooleanError))
    ∧ (∀ (i : tdIsa) (got : Value) (tm tg : GoType),
      got.typ = some tg → i.expectedType = some tm → i.isPtr = false → tg ≠ tm →
      (if i.checkImplement then (tm.Elem.bind fun e => .ok (env.Implements tg e))
        else .ok false) = .ok false →
      i.Match env ctx got = .ok .BooleanError)
    ∧ (∀ (n : tdNil) (got : Value), got.IsValid = true →
      (if got.kind.isNilable then got.IsNil else .ok false) = .ok false →
      n.Match ctx got = .ok .BooleanError)
    ∧ (∀ (n : tdNotNil) (got : Value),
      (got.IsValid = false → n.Match ctx got = .ok .BooleanError)
      ∧ (got.IsValid = true →
        (if got.kind.isNilable then got.IsNil else .ok false) = .ok true →
        n.Match ctx got = .ok .BooleanError))
    ∧ (∀ (z : tdNotZero) (got : Value) (t : GoType),
      z.Match env ctx .invalid = .ok .BooleanError
      ∧ (got.typ = some t → env.deepValueEqualOK got (Value.Zero t) = true →
        z.Match env ctx got = .ok .BooleanError))
    ∧ (∀ (p : tdPtr) (pp : tdPPtr),
      (∀ got, got.kind ≠ .ptr →
        p.Match env ctx got = .ok .BooleanError ∧ pp.Match env ctx got = .ok .BooleanError)
      ∧ (∀ t eo, t.kind = .ptr → (eo.getD .invalid).kind ≠ .ptr →
        pp.Match env ctx (.ptr t eo) = .ok .BooleanError))
    ∧ ((∀ (op : TestDeep) (got : Value) (r : ErrorPtr),
        (∀ bt, op = .tdBetweenTime bt → (env.getTime ctx got bt.mustConvert).2 = .nil) →
        op.Match env ctx got = .ok r → r = .nil ∨ r = .BooleanError)
      ∧ (∀ (i : tdIsa) (got : Value) (r : ErrorPtr),
        i.Match env ctx got = .ok r → r = .nil ∨ r = .BooleanError)
      ∧ (∀ (n : tdNil) (got : Value) (r : ErrorPtr),
        n.Match ctx got = .ok r → r = .nil ∨ r = .BooleanError)
      ∧ (∀ (n : tdNotNil) (got : Value) (r : ErrorPtr),
        n.Match ctx got = .ok r → r = .nil ∨ r = .BooleanError)
      ∧ (∀ (z : tdNotZero) (got : Value) (r : ErrorPtr),
        z.Match env ctx got = .ok r → r = .nil ∨ r = .BooleanError)) := by
  refine ⟨?_, ?_, ?_, ?_, ?_, ?_, ?_, ?_, ?_, ?_, ?_, ?_⟩
  · intro b got tb tg htb htg hne
    rw [Match_type_mismatch env ctx b got tb tg htb htg hne, if_pos hb]
  · intro b got t hg hm
    have hkind : got.kind = t.kind := by simp [Value.kind, hg]
    refine ⟨?_, ?_, ?_, ?_, ?_⟩
    · intro hk ok hres
      refine tdBetween_Match_bool_range env b ctx got t ok hb hg hm ?_
      simp [hkind, hk, hres]
    · intro hk ok hres
      refine tdBetween_Match_bool_range env b ctx got t ok hb hg hm ?_
      simp [hkind, hk, Kind.isUint_not_isInt hk, hres]
    · intro hk ok hres
      refine tdBetween_Match_bool_range env b ctx got t ok hb hg hm ?_
      simp [hkind, hk, Kind.isFloat_not_isInt hk, Kind.isFloat_not_isUint hk, hres]
    · intro hk
      refine tdBetween_Match_bool_range env b ctx got t _ hb hg hm ?_
      simp [hkind, hk, Kind.isInt, Kind.isUint, Kind.isFloat]
    · intro h1 h2 h3 h4
      have := tdBetween_Match_bool_range env b ctx got t false hb hg hm
        (by simp [hkind, h1, h2, h3, h4])
      simpa using this
  · intro bt got tg hg hne
    exact tdBetweenTime_Match_bool_type env bt ctx got tg hb hg hne
  · intro bt got tg t mn mx hg he hgt hmn hmx
    exact tdBetweenTime_Match_bool_range env bt ctx got tg t mn mx hb hg he hgt hmn hmx
  · exact fun a => tdArrayEach_Match_bool env a ctx hb
  · intro m got g hgot hE _ hpass
    exact tdMap_Match_bool_keys env m ctx got g hb hgot hE hpass
  · intro i got tm tg hg he hp hne himpl
    rw [tdIsa_Match_eq env i ctx got tm tg false hg he hp himpl]
    simp [hne, hb]
  · intro n got hv h
    rw [tdNil_Match_valid n ctx got false hv h]
    simp [hb]
  · intro n got
    refine ⟨fun hv => ?_, fun hv h => ?_⟩
    · rw [tdNotNil_Match_invalid n ctx got hv, if_pos hb]
    · rw [tdNotNil_Match_valid n ctx got true hv h]
      simp [hb]
  · intro z got t
    refine ⟨?_, fun hg hz => ?_⟩
    · rw [tdNotZero_Match_invalid env z ctx, if_pos hb]
    · rw [tdNotZero_Match_valid env z ctx got t hg, hz]
      simp [hb]
  · exact fun p pp => tdPtr_Match_bool env p pp ctx hb
  · exact ⟨fun op got r hgt h => TestDeep_Match_bool env op ctx got r hb hgt h,
      fun i got r h => tdIsa_Match_bool env i ctx got r hb h,
      fun n got r h => tdNil_Match_bool n ctx got r hb h,
      fun n got r h => tdNotNil_Match_bool n ctx got r hb h,
      fun z got r h => tdNotZero_Match_bool env z ctx got r hb h⟩

/-- C30 on concrete data, in boolean mode at the root: `ArrayEach(4)` on the
untyped nil and on the int 666, `Nil` on the int 5, `NotNil` on the untyped
nil, `NotZero` on the int 0, `Isa(0)` on a `MyInt`, `Ptr` on the int 5,
`Map(map[string]int{"a": 1, "b": 2}, nil)` on `{"a": 1}`, `Between(1, 3)` on
the int 5 (out of the range) and on the string "a" (another type) all return the
sentinel, and `Between(1, 3)` on the int 2 returns nil. -/
theorem boolean_mode_sentinel_witness :
    boolCtx.BooleanError = true
    ∧ ((ArrayEach (sampleInt 4)).Match eqEnv boolCtx .invalid = .ok .BooleanError
      ∧ (∀ pt, pt.kind = .ptr →
          (ArrayEach (sampleInt 4)).Match eqEnv boolCtx (.ptr pt none) = .ok .BooleanError)
      ∧ (∀ g tg, g.typ = some tg → tg.kind ≠ .ptr → tg.kind ≠ .array → tg.kind ≠ .slice →
          (ArrayEach (sampleInt 4)).Match eqEnv boolCtx g = .ok .BooleanError)
      ∧ (∀ pt v, pt.kind = .ptr → v.IsValid = true → v.kind ≠ .array → v.kind ≠ .slice →
          (ArrayEach (sampleInt 4)).Match eqEnv boolCtx (.ptr pt (some v))
            = .ok .BooleanError))
    ∧ ((sampleInt 1).typ = some (.basic .int) ∧ (sampleKey 97).typ = some (.basic .string)
      ∧ GoType.basic .string ≠ GoType.basic .int)
    ∧ tdBetween.Match eqEnv ⟨sampleInt 1, sampleInt 3, .boundIn, .boundIn⟩ boolCtx
        (sampleKey 97) = .ok .BooleanError
    ∧ tdBetween.Match eqEnv ⟨sampleInt 1, sampleInt 3, .boundIn, .boundIn⟩ boolCtx
        (sampleInt 5) = .ok .BooleanError
    ∧ tdBetween.Match eqEnv ⟨sampleInt 1, sampleInt 3, .boundIn, .boundIn⟩ boolCtx
        (sampleInt 2) = .ok .nil
    ∧ (ArrayEach (sampleInt 4)).Match eqEnv boolCtx (sampleInt 666) = .ok .BooleanError
    ∧ (Nil {}).Match boolCtx (sampleInt 5) = .ok .BooleanError
    ∧ (NotNil {}).Match boolCtx .invalid = .ok .BooleanError
    ∧ (NotZero {}).Match eqEnv boolCtx (sampleInt 0) = .ok .BooleanError
    ∧ tdIsa.Match eqEnv { expectedType := some (.basic .int) } boolCtx (.int sampleMyInt 5)
        = .ok .BooleanError
    ∧ tdPtr.Match opEnv { expectedValue := sampleOp, isTestDeeper := true } boolCtx
        (sampleInt 5) = .ok .BooleanError
    ∧ (sampleMapOp .allMap).Match eqEnv boolCtx (sampleMap [(97, 1)]) = .ok .BooleanError
    ∧ rejects eqEnv (Between (sampleInt 1) (sampleInt 3) []) boolCtx (sampleInt 5) = true
    ∧ (match Between (sampleInt 1) (sampleInt 3) [] with
        | .ok op => op.Match eqEnv boolCtx (sampleInt 5)
        | .error p => .error p) = .ok .BooleanError :=
  ⟨rfl, (boolean_mode_sentinel eqEnv boolCtx rfl).2.2.2.2.1 (ArrayEach (sampleInt 4)),
    ⟨rfl, rfl, by decide⟩,
    (boolean_mode_sentinel eqEnv boolCtx rfl).1 ⟨sampleInt 1, sampleInt 3, .boundIn, .boundIn⟩
      (sampleKey 97) (.basic .int) (.basic .string) rfl rfl (by decide),
    rfl, rfl, rfl, rfl, rfl, rfl, rfl, rfl, rfl, rfl, rfl⟩

/-! ## C31: NaN and NotNaN in boolean mode -/

/-- C31: in boolean mode `NaN` returns, on the float64 1, on the int 5 and
`NotNaN` on the float64 NaN, a diagnostic that holds its message and its Got
and Expected fields, not the sentinel `BooleanError`. -/
theorem NaN_boolean_mode_builds_diagnostic :
    boolCtx.BooleanError = true
    ∧ (NaN {}).Match boolCtx (.float (.basic .float64) (.finite 1))
        = .ok (.error { Context := some boolCtx, Message := "values differ",
                        Got := .gotValue, Expected := .operator "NaN" })
    ∧ (NotNaN {}).Match boolCtx (.float (.basic .float64) .nan)
        = .ok (.error { Context := some boolCtx, Message := "values differ",
                        Got := .gotValue, Expected := .operator "not NaN" })
    ∧ (NaN {}).Match boolCtx (sampleInt 5)
        = .ok (.error { Context := some boolCtx, Message := "type mismatch",
                        Got := .RawString "int",
                        Expected := .RawString "float32 OR float64" })
    ∧ (NotNaN {}).Match boolCtx (sampleInt 5)
        = .ok (.error { Context := some boolCtx, Message := "type mismatch",
                        Got := .RawString "int",
                        Expected := .RawString "float32 OR float64" })
    ∧ (Nil {}).Match boolCtx (sampleInt 5) = .ok .BooleanError :=
  ⟨rfl, rfl, rfl, rfl, rfl, rfl⟩

/-! ## C32: the method String of the Map family -/

/-- C32: the two lists hold the same entries `"a": 1` and `"b": 2`, in the two
orders in which a `range` over the Go map `MapEntries` may visit them; built on
the one and on the other, `Map` of an empty `map[string]int` and these
entries gives two different strings, the entries being written in the order of
the visit. -/
theorem Map_String_follows_iteration_order :
    [(sampleKey 97, sampleInt 1), (sampleKey 98, sampleInt 2)].Perm
      [(sampleKey 98, sampleInt 2), (sampleKey 97, sampleInt 1)]
    ∧ (Map renderEnv {} (sampleMap [])
          [(sampleKey 97, sampleInt 1), (sampleKey 98, sampleInt 2)]).toOption.map
        (tdMap.String renderEnv)
        = some "map[string]int\x7b\n  a: 1,\n  b: 2,\n\x7d"
    ∧ (Map renderEnv {} (sampleMap [])
          [(sampleKey 98, sampleInt 2), (sampleKey 97, sampleInt 1)]).toOption.map
        (tdMap.String renderEnv)
        = some "map[string]int\x7b\n  b: 2,\n  a: 1,\n\x7d"
    ∧ "map[string]int\x7b\n  a: 1,\n  b: 2,\n\x7d"
        ≠ "map[string]int\x7b\n  b: 2,\n  a: 1,\n\x7d" :=
  ⟨List.Perm.swap _ _ _, by decide, by decide, by decide⟩

/-! ## C33: HandleInvalid and TypeBehind -/

/-- C33: `HandleInvalid` is true for `Nil`, `NotNil`, `Zero`, `NotZero`,
`ArrayEach` and `Ignore`, which embed `BaseOKNil`, and false for what `Between`,
`N`, `Gt`, `Gte`, `Lt` and `Lte` return, for `Isa`, `NaN`, `NotNaN` and the Map
family, which embed `Base`; and `TypeBehind` is the nil type for the operators
that keep the method of `Base`: `ArrayEach`, `Nil`, `NotNil`, `Zero`, `NotZero`,
`Ignore`, `NaN` and `NotNaN`. -/
theorem HandleInvalid_by_base :
    ((∀ n : tdNil, n.HandleInvalid = true) ∧ (∀ n : tdNotNil, n.HandleInvalid = true)
      ∧ (∀ z : tdZero, z.HandleInvalid = true) ∧ (∀ z : tdNotZero, z.HandleInvalid = true)
      ∧ (∀ a : tdArrayEach, a.HandleInvalid = true)
      ∧ (∀ i : tdIgnore, i.HandleInvalid = true))
    ∧ ((∀ op : TestDeep, op.HandleInvalid = false) ∧ (∀ i : tdIsa, i.HandleInvalid = false)
      ∧ (∀ n : tdNaN, n.HandleInvalid = false) ∧ (∀ n : tdNotNaN, n.HandleInvalid = false)
      ∧ (∀ m : tdMap, m.HandleInvalid = false))
    ∧ ((∀ a : tdArrayEach, a.TypeBehind = none) ∧ (∀ n : tdNil, n.TypeBehind = none)
      ∧ (∀ n : tdNotNil, n.TypeBehind = none) ∧ (∀ z : tdZero, z.TypeBehind = none)
      ∧ (∀ z : tdNotZero, z.TypeBehind = none) ∧ (∀ i : tdIgnore, i.TypeBehind = none)
      ∧ (∀ n : tdNaN, n.TypeBehind = none) ∧ (∀ n : tdNotNaN, n.TypeBehind = none)) := by
  refine ⟨⟨?_, ?_, ?_, ?_, ?_, ?_⟩, ⟨?_, ?_, ?_, ?_, ?_⟩, ⟨?_, ?_, ?_, ?_, ?_, ?_, ?_, ?_⟩⟩
  all_goals intro x
  all_goals first | rfl | (cases x <;> rfl)

/-! ## C34: N with a negative tolerance -/

/-- C34: `N(int64(10), int64(-1))` stores the bounds `math.MinInt64` and
`math.MaxInt64`, so it matches the int64 1000, which `N(int64(10), int64(1))`,
whose bounds are 9 and 11, does not match. -/
theorem N_negative_tolerance_accepts_all :
    N sampleEnv (.int (.basic .int64) 10) [.int (.basic .int64) (-1)]
        = .ok (.tdBetween ⟨.int (.basic .int64) MinInt64, .int (.basic .int64) MaxInt64,
            .boundIn, .boundIn⟩)
    ∧ N sampleEnv (.int (.basic .int64) 10) [.int (.basic .int64) 1]
        = .ok (.tdBetween ⟨.int (.basic .int64) 9, .int (.basic .int64) 11,
            .boundIn, .boundIn⟩)
    ∧ accepts sampleEnv (N sampleEnv (.int (.basic .int64) 10) [.int (.basic .int64) (-1)])
        sampleCtx (.int (.basic .int64) 1000) = true
    ∧ rejects sampleEnv (N sampleEnv (.int (.basic .int64) 10) [.int (.basic .int64) 1])
        sampleCtx (.int (.basic .int64) 1000) = true := by
  have e1 : N sampleEnv (.int (.basic .int64) 10) [.int (.basic .int64) (-1)]
        = .ok (.tdBetween ⟨.int (.basic .int64) MinInt64, .int (.basic .int64) MaxInt64,
            .boundIn, .boundIn⟩) := by
    simp only [N, Value.kind, Value.typ, GoType.kind, Kind.isInt, Value.typeOf,
      tdBetween.nInt, Value.asInt, Bind.bind, Except.bind, pure, Except.pure,
      Value.SetInt, Kind.bits, wrapInt, MaxInt64, MinInt64]
    norm_num
  have e2 : N sampleEnv (.int (.basic .int64) 10) [.int (.basic .int64) 1]
        = .ok (.tdBetween ⟨.int (.basic .int64) 9, .int (.basic .int64) 11,
            .boundIn, .boundIn⟩) := by
    simp only [N, Value.kind, Value.typ, GoType.kind, Kind.isInt, Value.typeOf,
      tdBetween.nInt, Value.asInt, Bind.bind, Except.bind, pure, Except.pure,
      Value.SetInt, Kind.bits, wrapInt, MaxInt64, MinInt64]
    norm_num
  refine ⟨e1, e2, ?_, ?_⟩
  · rw [e1]
    rw [accepts_int sampleEnv sampleCtx (.basic .int64) rfl]
    simp [boundCmp.admitsMin, boundCmp.admitsMax, MinInt64, MaxInt64]
  · rw [e2]
    rw [rejects_int sampleEnv sampleCtx (.basic .int64) rfl]
    simp [boundCmp.admitsMin, boundCmp.admitsMax]

/-! ## C35: Ptr and PPtr wrapping an operator -/

theorem SetLocationIfMissing_eq_nil_iff (err : ErrorPtr) (loc : Location) :
    err.SetLocationIfMissing loc = .nil ↔ err = .nil := by
  cases err with
  | nil => simp [ErrorPtr.SetLocationIfMissing]
  | BooleanError => simp [ErrorPtr.SetLocationIfMissing]
  | error e =>
    simp only [ErrorPtr.SetLocationIfMissing]
    cases e.Location <;> simp

/-- C35: for a value `op` whose type implements `TestDeep`, `Ptr(op)` and
`PPtr(op)` keep `op` as the expectation.  On every valid got that is not a
pointer both return "pointer type mismatch" (the sentinel in boolean mode), a
result in which the engine has no part; on a pointer, `Ptr(op)` returns what
the engine returns on what got points to against `op`, under the context
extended by one level of indirection, so it matches iff the engine accepts
there.  `PPtr(op)` returns "pointer type mismatch" on a pointer that does not
point to a pointer, a nil pointer included; on a pointer to a pointer it
matches iff the engine accepts what the inner pointer points to against `op`,
under the context extended by two levels. -/
theorem Ptr_PPtr_operator_match (env : Env) (b1 b2 : Base) (op : Value) (top : GoType)
    (hop : op.typ = some top) (himpl : env.Implements top testDeeper = true) :
    Ptr env b1 op = .ok { toBase := b1, expectedValue := op, isTestDeeper := true }
    ∧ PPtr env b2 op = .ok { toBase := b2, expectedValue := op, isTestDeeper := true }
    ∧ (∀ (engine : Env) (ctx : Context) (got : Value) (tg : GoType),
        got.typ = some tg → tg.kind ≠ .ptr →
        tdPtr.Match engine { toBase := b1, expectedValue := op, isTestDeeper := true } ctx got
          = .ok (if ctx.BooleanError then .BooleanError
              else .error { Context := some ctx, Message := "pointer type mismatch",
                            Got := .RawString tg.str, Expected := .RawString "*<something>",
                            Location := some b1.location })
        ∧ tdPPtr.Match engine { toBase := b2, expectedValue := op, isTestDeeper := true }
            ctx got
          = .ok (if ctx.BooleanError then .BooleanError
              else .error { Context := some ctx, Message := "pointer type mismatch",
                            Got := .RawString tg.str, Expected := .RawString "**<something>",
                            Location := some b2.location }))
    ∧ (∀ (engine : Env) (ctx : Context) (t : GoType) (eo : Option Value), t.kind = .ptr →
        tdPtr.Match engine { toBase := b1, expectedValue := op, isTestDeeper := true } ctx
            (.ptr t eo)
          = .ok ((engine.deepValueEqual (ctx.AddPtr 1) (eo.getD .invalid)
              op).SetLocationIfMissing b1.location)
        ∧ (tdPtr.Match engine { toBase := b1, expectedValue := op, isTestDeeper := true } ctx
              (.ptr t eo) = .ok .nil
            ↔ engine.deepValueEqual (ctx.AddPtr 1) (eo.getD .invalid) op = .nil)
        ∧ (ctx.AddPtr 1).Path = ctx.Path ++ [.ptr 1])
    ∧ (∀ (engine : Env) (ctx : Context) (t : GoType) (eo : Option Value), t.kind = .ptr →
        (eo.getD .invalid).kind ≠ .ptr →
        tdPPtr.Match engine { toBase := b2, expectedValue := op, isTestDeeper := true } ctx
            (.ptr t eo)
          = .ok (if ctx.BooleanError then .BooleanError
              else .error { Context := some ctx, Message := "pointer type mismatch",
                            Got := .RawString t.str, Expected := .RawString "**<something>",
                            Location := some b2.location }))
    ∧ (∀ (engine : Env) (ctx : Context) (t t2 : GoType) (eo : Option Value),
        t.kind = .ptr → t2.kind = .ptr →
        tdPPtr.Match engine { toBase := b2, expectedValue := op, isTestDeeper := true } ctx
            (.ptr t (some (.ptr t2 eo)))
          = .ok ((engine.deepValueEqual (ctx.AddPtr 2) (eo.getD .invalid)
              op).SetLocationIfMissing b2.location)
        ∧ (tdPPtr.Match engine { toBase := b2, expectedValue := op, isTestDeeper := true }
              ctx (.ptr t (some (.ptr t2 eo))) = .ok .nil
            ↔ engine.deepValueEqual (ctx.AddPtr 2) (eo.getD .invalid) op = .nil)
        ∧ (ctx.AddPtr 2).Path = ctx.Path ++ [.ptr 2]) := by
  have hv : op.IsValid = true := IsValid_of_typ op top hop
  refine ⟨?_, ?_, ?_, ?_, ?_, ?_⟩
  · simp [Ptr, hv, Value.typeOf, hop, himpl, Bind.bind, Except.bind, pure, Except.pure]
  · simp [PPtr, hv, Value.typeOf, hop, himpl, Bind.bind, Except.bind, pure, Except.pure]
  · intro engine ctx got tg hg hk
    have hkind : got.kind = tg.kind := by simp [Value.kind, hg]
    constructor
    · cases hb : ctx.BooleanError <;>
        simp [tdPtr.Match, tdPtr.String, hkind, hk, hb, Value.typeOf, hg, Bind.bind,
          Except.bind, pure, Except.pure]
    · cases hb : ctx.BooleanError <;>
        simp [tdPPtr.Match, tdPPtr.String, hkind, hk, hb, Value.typeOf, hg, Bind.bind,
          Except.bind, pure, Except.pure]
  · intro engine ctx t eo ht
    have hM : tdPtr.Match engine { toBase := b1, expectedValue := op, isTestDeeper := true }
        ctx (.ptr t eo)
        = .ok ((engine.deepValueEqual (ctx.AddPtr 1) (eo.getD .invalid)
            op).SetLocationIfMissing b1.location) := by
      simp [tdPtr.Match, kind_ptr_Value t eo ht, Elem_ptr, Bind.bind, Except.bind, pure,
        Except.pure]
    refine ⟨hM, ?_, rfl⟩
    rw [hM]
    simp only [Except.ok.injEq]
    exact SetLocationIfMissing_eq_nil_iff _ _
  · intro engine ctx t eo ht he
    cases hb : ctx.BooleanError <;>
      simp [tdPPtr.Match, tdPPtr.String, kind_ptr_Value t eo ht, Elem_ptr, he, hb,
        Value.typeOf, Value.typ, Bind.bind, Except.bind, pure, Except.pure]
  · intro engine ctx t t2 eo ht ht2
    have hM : tdPPtr.Match engine { toBase := b2, expectedValue := op, isTestDeeper := true }
        ctx (.ptr t (some (.ptr t2 eo)))
        = .ok ((engine.deepValueEqual (ctx.AddPtr 2) (eo.getD .invalid)
            op).SetLocationIfMissing b2.location) := by
      simp [tdPPtr.Match, kind_ptr_Value t _ ht, kind_ptr_Value t2 eo ht2, Elem_ptr,
        Bind.bind, Except.bind, pure, Except.pure]
    refine ⟨hM, ?_, rfl⟩
    rw [hM]
    simp only [Except.ok.injEq]
    exact SetLocationIfMissing_eq_nil_iff _ _

/-- C35 on concrete data: the sample operator implements `TestDeep`; `Ptr` of
it returns "pointer type mismatch" on the int 5 and matches the `*int` pointing
to 5, the engine accepting the pointee; `PPtr` of it returns "pointer type
mismatch" on that `*int` and on a nil `**int`, and matches the `**int` pointing
to it. -/
theorem Ptr_PPtr_operator_match_witness :
    (sampleOp.typ = some sampleOpType ∧ opEnv.Implements sampleOpType testDeeper = true)
    ∧ (tdPtr.Match opEnv { expectedValue := sampleOp, isTestDeeper := true } sampleCtx
          (.ptr (.ptr (.basic .int)) (some (sampleInt 5))) = .ok .nil
        ↔ opEnv.deepValueEqual (sampleCtx.AddPtr 1) (sampleInt 5) sampleOp = .nil)
    ∧ tdPtr.Match opEnv { expectedValue := sampleOp, isTestDeeper := true } sampleCtx
        (.ptr (.ptr (.basic .int)) (some (sampleInt 5))) = .ok .nil
    ∧ tdPtr.Match opEnv { expectedValue := sampleOp, isTestDeeper := true } sampleCtx
        (sampleInt 5)
        = .ok (.error { Context := some sampleCtx, Message := "pointer type mismatch",
                        Got := .RawString "int", Expected := .RawString "*<something>",
                        Location := some {} })
    ∧ tdPPtr.Match opEnv { expectedValue := sampleOp, isTestDeeper := true } sampleCtx
        (.ptr (.ptr (.basic .int)) (some (sampleInt 5)))
        = .ok (.error { Context := some sampleCtx, Message := "pointer type mismatch",
                        Got := .RawString "*int", Expected := .RawString "**<something>",
                        Location := some {} })
    ∧ tdPPtr.Match opEnv { expectedValue := sampleOp, isTestDeeper := true } sampleCtx
        (.ptr (.ptr (.ptr (.basic .int))) none)
        = .ok (.error { Context := some sampleCtx, Message := "pointer type mismatch",
                        Got := .RawString "**int", Expected := .RawString "**<something>",
                        Location := some {} })
    ∧ tdPPtr.Match opEnv { expectedValue := sampleOp, isTestDeeper := true } boolCtx
        (.ptr (.ptr (.ptr (.basic .int))) none) = .ok .BooleanError
    ∧ tdPPtr.Match opEnv { expectedValue := sampleOp, isTestDeeper := true } sampleCtx
        (.ptr (.ptr (.ptr (.basic .int)))
          (some (.ptr (.ptr (.basic .int)) (some (sampleInt 5))))) = .ok .nil :=
  ⟨⟨rfl, rfl⟩,
    ((Ptr_PPtr_operator_match opEnv {} {} sampleOp sampleOpType rfl rfl).2.2.2.1 opEnv
      sampleCtx (.ptr (.basic .int)) (some (sampleInt 5)) rfl).2.1,
    rfl, rfl, rfl, rfl, rfl, rfl⟩

/-! ## Lemmas on the expected entries `newMap` stores -/

/-- The method `populateExpectedEntries`, step by step. -/
theorem populateExpectedEntries_eq (env : Env) (m : tdMap)
    (entries : List (Value × Value)) (mv : Value) :
    tdMap.populateExpectedEntries env m entries mv =
      (if mv.IsValid then mv.Len else .ok 0).bind fun n =>
      (match m.expectedType with
        | some t => (Except.ok t : Except Panic GoType)
        | none =>
          Except.error
            (Panic.msg "runtime error: invalid memory address or nil pointer dereference")
        ).bind fun et =>
      et.Key.bind fun kt =>
      et.Elem.bind fun vt =>
      (tdMap.populateFromEntries env kt vt entries).bind fun fe =>
      (if n = 0 then (Except.ok [] : Except Panic (List mapEntryInfo))
        else tdMap.populateFromModel env (entries.map Prod.fst) mv.mapEntries).bind fun fm =>
      .ok { m with expectedEntries := fe ++ fm } := by
  rw [tdMap.populateExpectedEntries]
  cases hn : (if mv.IsValid then mv.Len else Except.ok 0) with
  | error e =>
    by_cases hv : mv.IsValid = true
    · simp only [hv, if_true] at hn ⊢
      simp [hn, Bind.bind, Except.bind]
    · simp only [hv, if_false] at hn
      cases hn
  | ok n =>
    have hstart : ∀ (k : Nat → Except Panic tdMap),
        (if mv.IsValid = true then mv.Len >>= k else (pure 0 : Except Panic Nat) >>= k)
          = k n := by
      intro k
      by_cases hv : mv.IsValid = true
      · simp only [hv, if_true] at hn ⊢
        simp [hn, Bind.bind, Except.bind]
      · have hv2 : mv.IsValid = false := by simpa using hv
        simp only [hv2, Bool.false_eq_true, if_false, Except.ok.injEq] at hn ⊢
        subst hn
        simp [Bind.bind, Except.bind, pure, Except.pure]
    rw [hstart]
    simp only [Except.bind]
    cases het : m.expectedType with
    | none =>
      simp only [Bind.bind, Except.bind, throw, throwThe, MonadExceptOf.throw]
    | some et =>
      simp only [Bind.bind, Except.bind, pure, Except.pure]
      cases hK : et.Key with
      | error e => simp only [hK]
      | ok kt =>
        simp only [hK]
        cases hE : et.Elem with
        | error e => simp only [hE]
        | ok vt =>
          simp only [hE]
          cases hfe : tdMap.populateFromEntries env kt vt entries with
          | error e => simp only [hfe]
          | ok fe =>
            simp only [hfe]
            by_cases hz : n = 0
            · simp [hz]
            · simp only [hz, if_false]

/-- The expected entries `populateExpectedEntries` stores depend neither on
the kind of the operator nor on its Base, which it leaves as they are. -/
theorem populateExpectedEntries_kind (env : Env) (m m2 : tdMap)
    (entries : List (Value × Value)) (mv : Value) (b : Base) (k : mapKind)
    (h : tdMap.populateExpectedEntries env m entries mv = .ok m2) :
    tdMap.populateExpectedEntries env { m with toBase := b, kind := k } entries mv
      = .ok { m2 with toBase := b, kind := k } := by
  rw [populateExpectedEntries_eq] at h ⊢
  obtain ⟨n, hn, h⟩ := (Except.bind_eq_ok _ _ _).1 h
  obtain ⟨et, het, h⟩ := (Except.bind_eq_ok _ _ _).1 h
  obtain ⟨kt, hkt, h⟩ := (Except.bind_eq_ok _ _ _).1 h
  obtain ⟨vt, hvt, h⟩ := (Except.bind_eq_ok _ _ _).1 h
  obtain ⟨fe, hfe, h⟩ := (Except.bind_eq_ok _ _ _).1 h
  obtain ⟨fm, hfm, h⟩ := (Except.bind_eq_ok _ _ _).1 h
  simp only [Except.ok.injEq] at h
  subst h
  simp only [hn, het, hkt, hvt, hfe, hfm, Except.bind]

/-- What `populateExpectedEntries` stores for the model map `mv`: the entries
of `expectedEntries`, then those of the model. -/
theorem populateExpectedEntries_entries (env : Env) (m m2 : tdMap)
    (entries : List (Value × Value)) (mv : Value)
    (h : tdMap.populateExpectedEntries env m entries mv = .ok m2) :
    m2.expectedEntries.map (fun e => e.key)
      = entries.map Prod.fst ++ mv.mapEntries.map Prod.fst := by
  rw [populateExpectedEntries_eq] at h
  obtain ⟨n, hn, h⟩ := (Except.bind_eq_ok _ _ _).1 h
  obtain ⟨et, het, h⟩ := (Except.bind_eq_ok _ _ _).1 h
  obtain ⟨kt2, hkt, h⟩ := (Except.bind_eq_ok _ _ _).1 h
  obtain ⟨vt2, hvt, h⟩ := (Except.bind_eq_ok _ _ _).1 h
  obtain ⟨fe, hfe, h⟩ := (Except.bind_eq_ok _ _ _).1 h
  obtain ⟨fm, hfm, h⟩ := (Except.bind_eq_ok _ _ _).1 h
  simp only [Except.ok.injEq] at h
  subst h
  have hkeys := populateFromEntries_keys env kt2 vt2 entries fe hfe
  simp only [List.map_append, hkeys]
  congr 1
  by_cases hz : n = 0
  · simp only [hz, if_true, Except.ok.injEq] at hfm
    subst hfm
    subst hz
    have hempty : mv.mapEntries = [] := by
      cases mv with
      | map tm eo =>
        cases eo with
        | none => rfl
        | some es =>
          simp only [Value.IsValid, if_true, Value.Len, Except.ok.injEq] at hn
          simp only [Value.mapEntries]
          exact List.length_eq_zero.1 hn
      | _ => rfl
    rw [hempty]; rfl
  · simp only [hz, if_false] at hfm
    obtain ⟨h1, -⟩ := populateFromModel_spec env _ _ fm hfm
    rw [h1]
    simp [List.map_map, Function.comp]

/-- The function `newMap` reads the model, then calls `populateExpectedEntries`
on an operator of the kind asked for; how the model is read depends neither on
the kind nor on the Base, which only the usage message shows. -/
theorem newMap_eq (env : Env) (model : Value) (entries : List (Value × Value)) :
    ∃ X : Except Panic (Option (Bool × GoType × Value)),
      (∀ r, X = .ok (some r) →
        (model.kind = .map ∧ r.2.2 = model)
        ∨ (model.kind = .ptr ∧ model.IsNil = .ok true ∧ r.2.2 = .invalid)
        ∨ (model.kind = .ptr ∧ model.IsNil = .ok false ∧ model.Elem = .ok r.2.2)) ∧
      ∀ (base : Base) (kind : mapKind),
        newMap env base model entries kind = X.bind (fun o =>
          match o with
          | none =>
            .error (.msg ("usage: " ++ base.location.Func ++ "(MAP|&MAP, EXPECTED_ENTRIES)"))
          | some r =>
            tdMap.populateExpectedEntries env
              { toBase := base, kind := kind, isPtr := r.1, expectedType := some r.2.1 }
              entries r.2.2) := by
  refine ⟨(match model.kind with
    | .ptr =>
      model.typeOf.bind fun t =>
      t.Elem.bind fun te =>
      if te.kind ≠ .map then .ok none
      else
        model.IsNil.bind fun b =>
        if b then .ok (some (true, te, .invalid))
        else
          model.Elem.bind fun v =>
          v.typeOf.bind fun t2 => .ok (some (true, t2, v))
    | .map => model.typeOf.bind fun t => .ok (some (false, t, model))
    | _ => .ok none),
    ?_, ?_⟩
  · intro r hr
    cases hk : model.kind <;> simp only [hk] at hr <;> try cases hr
    case map =>
      obtain ⟨t, -, h⟩ := (Except.bind_eq_ok _ _ _).1 hr
      simp only [Except.ok.injEq, Option.some.injEq] at h
      subst h
      exact Or.inl ⟨rfl, rfl⟩
    case ptr =>
      obtain ⟨t, -, h⟩ := (Except.bind_eq_ok _ _ _).1 hr
      obtain ⟨te, -, h⟩ := (Except.bind_eq_ok _ _ _).1 h
      split at h
      · cases h
      · obtain ⟨b, hb, h⟩ := (Except.bind_eq_ok _ _ _).1 h
        cases b
        · simp only [Bool.false_eq_true, if_false] at h
          obtain ⟨v, hv, h⟩ := (Except.bind_eq_ok _ _ _).1 h
          obtain ⟨t2, -, h⟩ := (Except.bind_eq_ok _ _ _).1 h
          simp only [Except.ok.injEq, Option.some.injEq] at h
          subst h
          exact Or.inr (Or.inr ⟨rfl, hb, hv⟩)
        · simp only [if_true, Except.ok.injEq, Option.some.injEq] at h
          subst h
          exact Or.inr (Or.inl ⟨rfl, hb, rfl⟩)
  intro base kind
  rw [newMap]
  cases hk : model.kind
  case ptr =>
    simp only [Bind.bind, Except.bind]
    cases model.typeOf with
    | error e => rfl
    | ok t =>
      try dsimp only
      cases t.Elem with
      | error e => rfl
      | ok te =>
        try dsimp only
        by_cases hte : te.kind ≠ .map
        · rw [if_pos hte, if_pos hte]
          rfl
        · rw [if_neg hte, if_neg hte]
          cases model.IsNil with
          | error e => rfl
          | ok b =>
            cases b
            · simp only [Bool.false_eq_true, if_false]
              cases model.Elem with
              | error e => rfl
              | ok v =>
                try dsimp only
                cases v.typeOf with
                | error e => rfl
                | ok t2 => rfl
            · rfl
  case map =>
    simp only [Bind.bind, Except.bind]
    cases model.typeOf with
    | error e => rfl
    | ok t => rfl
  all_goals rfl

/-- The three constructors differ by the kind and the Base they store only:
when `newMap` builds an operator for a kind at a place, it builds the same
operator, kind and Base apart, for every other kind at every other place. -/
theorem newMap_kind (env : Env) (b1 b2 : Base) (model : Value)
    (entries : List (Value × Value)) (k1 k2 : mapKind) (m : tdMap)
    (h : newMap env b1 model entries k1 = .ok m) :
    newMap env b2 model entries k2 = .ok { m with toBase := b2, kind := k2 } := by
  obtain ⟨X, -, hX⟩ := newMap_eq env model entries
  rw [hX] at h ⊢
  obtain ⟨o, hr, h⟩ := (Except.bind_eq_ok _ _ _).1 h
  rw [hr]
  cases o with
  | none => cases h
  | some r => exact populateExpectedEntries_kind env _ m entries r.2.2 b2 k2 h

/-- The keys of the expected entries `newMap` stores: those of
`expectedEntries`, then those of the map `mv` the model is or points to (the
zero Value for a nil pointer). -/
theorem newMap_keys (env : Env) (base : Base) (model : Value)
    (entries : List (Value × Value)) (kind : mapKind) (m : tdMap)
    (h : newMap env base model entries kind = .ok m) :
    ∃ mv : Value,
      ((model.kind = .map ∧ mv = model)
        ∨ (model.kind = .ptr ∧ model.IsNil = .ok true ∧ mv = .invalid)
        ∨ (model.kind = .ptr ∧ model.IsNil = .ok false ∧ model.Elem = .ok mv)) ∧
      m.expectedEntries.map (fun e => e.key)
        = entries.map Prod.fst ++ mv.mapEntries.map Prod.fst := by
  obtain ⟨X, hP, hX⟩ := newMap_eq env model entries
  rw [hX] at h
  obtain ⟨o, hr, h⟩ := (Except.bind_eq_ok _ _ _).1 h
  cases o with
  | none => cases h
  | some r =>
    exact ⟨r.2.2, hP r hr, populateExpectedEntries_entries env _ m entries r.2.2 h⟩

/-! ## C36: Map is SubMapOf and SuperMapOf together -/

/-- C36: when `Map(model, expectedEntries)` builds the operator `m`, `SubMapOf`
and `SuperMapOf` on the same arguments build the same operator, kind and Base
apart, and for every map got of the expected type `Map` matches got iff both
`SubMapOf` and `SuperMapOf` match it.  The keys (of any comparable kind) are
compared by value and are of the key type of got, as `distinctArgs` and
`gotIsMap` say. -/
theorem Map_iff_SubMapOf_and_SuperMapOf (env : Env) (b1 b2 b3 : Base) (model : Value)
    (entries : List (Value × Value)) (m : tdMap)
    (hm : Map env b1 model entries = .ok m) (hargs : distinctArgs model entries) :
    SubMapOf env b2 model entries = .ok { m with toBase := b2, kind := .subMap }
    ∧ SuperMapOf env b3 model entries = .ok { m with toBase := b3, kind := .superMap }
    ∧ ∀ (ctx : Context) (got g : Value), m.gotIsMap env ctx got g →
        tdMap.gotIsMap env { m with toBase := b2, kind := .subMap } ctx got g →
        tdMap.gotIsMap env { m with toBase := b3, kind := .superMap } ctx got g →
        (m.Match env ctx got = .ok .nil ↔
          tdMap.Match env { m with toBase := b2, kind := .subMap } ctx got = .ok .nil
          ∧ tdMap.Match env { m with toBase := b3, kind := .superMap } ctx got = .ok .nil) := by
  have hE := newMap_distinct env b1 model entries .allMap m hm hargs.1.1 hargs.1.2.1 hargs.1.2.2
  have hk : m.kind = .allMap := (newMap_spec env b1 model entries .allMap m hm).1
  refine ⟨newMap_kind env b1 b2 model entries .allMap .subMap m hm,
    newMap_kind env b1 b3 model entries .allMap .superMap m hm, ?_⟩
  intro ctx got g h1 h2 h3
  have i1 := (Match_nil_iff env m ctx got g h1 hE).2
  have i2 := (Match_nil_iff env { m with toBase := b2, kind := .subMap } ctx got g h2 hE).2
  have i3 := (Match_nil_iff env { m with toBase := b3, kind := .superMap } ctx got g h3 hE).2
  rw [i1, i2, i3]
  simp only [hk, ne_eq, reduceCtorEq, not_false_eq_true, true_implies, not_true_eq_false,
    false_implies, and_true, true_and]
  have hexp : ∀ k, tdMap.isExpected { m with toBase := b2, kind := .subMap } k
      = m.isExpected k := fun _ => rfl
  simp only [hexp]
  constructor
  · rintro ⟨h1, h2, h3⟩
    exact ⟨⟨h1, h3⟩, h1, h2⟩
  · rintro ⟨⟨h1, h3⟩, -, h2⟩
    exact ⟨h1, h2, h3⟩

/-- C36 on concrete data: with the model `map[string]int{"a": 1, "b": 2}` the
three operators agree on `{"a": 1, "b": 2}`, which all match; on `{"a": 1}`
`SubMapOf` matches while `SuperMapOf` and `Map` do not.  With the model
`map[[1]int]int{{1}: 7}` all three match the map itself, and on
`{{1}: 7, {2}: 8}` `SuperMapOf` matches while `SubMapOf` and `Map` do not. -/
theorem Map_iff_SubMapOf_and_SuperMapOf_witness :
    (Map eqEnv {} (sampleMap [(97, 1), (98, 2)]) [] = .ok (sampleMapOp .allMap)
      ∧ distinctArgs (sampleMap [(97, 1), (98, 2)]) []
      ∧ (sampleMapOp .allMap).gotIsMap eqEnv sampleCtx (sampleMap [(97, 1)])
          (sampleMap [(97, 1)])
      ∧ (sampleMapOp .subMap).gotIsMap eqEnv sampleCtx (sampleMap [(97, 1)])
          (sampleMap [(97, 1)])
      ∧ (sampleMapOp .superMap).gotIsMap eqEnv sampleCtx (sampleMap [(97, 1)])
          (sampleMap [(97, 1)]))
    ∧ SubMapOf eqEnv {} (sampleMap [(97, 1), (98, 2)]) [] = .ok (sampleMapOp .subMap)
    ∧ SuperMapOf eqEnv {} (sampleMap [(97, 1), (98, 2)]) [] = .ok (sampleMapOp .superMap)
    ∧ ((sampleMapOp .allMap).Match eqEnv sampleCtx (sampleMap [(97, 1)]) = .ok .nil ↔
        (sampleMapOp .subMap).Match eqEnv sampleCtx (sampleMap [(97, 1)]) = .ok .nil
        ∧ (sampleMapOp .superMap).Match eqEnv sampleCtx (sampleMap [(97, 1)]) = .ok .nil)
    ∧ (sampleMapOp .subMap).Match eqEnv sampleCtx (sampleMap [(97, 1)]) = .ok .nil
    ∧ (sampleMapOp .superMap).Match eqEnv sampleCtx (sampleMap [(97, 1)])
        = .ok (tdMap.keysError eqEnv sampleCtx [sampleKey 98] [])
    ∧ (sampleMapOp .allMap).Match eqEnv sampleCtx (sampleMap [(97, 1)])
        = .ok (tdMap.keysError eqEnv sampleCtx [sampleKey 98] [])
    ∧ (sampleMapOp .allMap).Match eqEnv sampleCtx (sampleMap [(97, 1), (98, 2)]) = .ok .nil
    ∧ (sampleMapOp .subMap).Match eqEnv sampleCtx (sampleMap [(97, 1), (98, 2)]) = .ok .nil
    ∧ (sampleMapOp .superMap).Match eqEnv sampleCtx (sampleMap [(97, 1), (98, 2)])
        = .ok .nil
    ∧ (Map eqEnv {} (sampleArrayMap [(1, 7)]) []).bind
          (fun m => m.Match eqEnv sampleCtx (sampleArrayMap [(1, 7)])) = .ok .nil
    ∧ (SubMapOf eqEnv {} (sampleArrayMap [(1, 7)]) []).bind
          (fun m => m.Match eqEnv sampleCtx (sampleArrayMap [(1, 7)])) = .ok .nil
    ∧ (SuperMapOf eqEnv {} (sampleArrayMap [(1, 7)]) []).bind
          (fun m => m.Match eqEnv sampleCtx (sampleArrayMap [(1, 7)])) = .ok .nil
    ∧ (SuperMapOf eqEnv {} (sampleArrayMap [(1, 7)]) []).bind
          (fun m => m.Match eqEnv sampleCtx (sampleArrayMap [(1, 7), (2, 8)])) = .ok .nil
    ∧ (SubMapOf eqEnv {} (sampleArrayMap [(1, 7)]) []).bind
          (fun m => m.Match eqEnv sampleCtx (sampleArrayMap [(1, 7), (2, 8)]))
        = .ok (tdMap.keysError eqEnv sampleCtx [] [sampleArrayKey 2])
    ∧ (Map eqEnv {} (sampleArrayMap [(1, 7)]) []).bind
          (fun m => m.Match eqEnv sampleCtx (sampleArrayMap [(1, 7), (2, 8)]))
        = .ok (tdMap.keysError eqEnv sampleCtx [] [sampleArrayKey 2]) :=
  ⟨⟨rfl, sampleArgs_distinct, sampleMapOp_gotIsMap .allMap _ (by decide),
      sampleMapOp_gotIsMap .subMap _ (by decide),
      sampleMapOp_gotIsMap .superMap _ (by decide)⟩,
    rfl, rfl,
    (Map_iff_SubMapOf_and_SuperMapOf eqEnv {} {} {} (sampleMap [(97, 1), (98, 2)]) []
      (sampleMapOp .allMap) rfl sampleArgs_distinct).2.2 sampleCtx _ _
      (sampleMapOp_gotIsMap .allMap _ (by decide))
      (sampleMapOp_gotIsMap .subMap _ (by decide))
      (sampleMapOp_gotIsMap .superMap _ (by decide)),
    rfl, rfl, rfl, rfl, rfl, rfl, rfl, rfl, rfl, rfl, rfl, rfl⟩

/-! ## C37: the expected entries of the Map family -/

/-- C37: after `newMap` (the body of `Map`, `SubMapOf` and `SuperMapOf`)
succeeds, the keys of the expected entries are those of `expectedEntries`
followed by those of the map `mv` the model is or points to (none for a nil
pointer), so their number is the sum of both lengths, and they are pairwise
different; hence, on a map got of the expected type, the loop of Match returns,
and when it runs to its end the length of got equals the number of found keys
iff every key of got is an expected key.  The keys (of any comparable kind) are
compared by value and are of the key type of got, as `distinctArgs` and
`gotIsMap` say. -/
theorem Map_family_expected_entries (env : Env) (base : Base) (model : Value)
    (entries : List (Value × Value)) (kind : mapKind) (m : tdMap)
    (hm : newMap env base model entries kind = .ok m) (hargs : distinctArgs model entries) :
    (∃ mv : Value,
      ((model.kind = .map ∧ mv = model)
        ∨ (model.kind = .ptr ∧ model.IsNil = .ok true ∧ mv = .invalid)
        ∨ (model.kind = .ptr ∧ model.IsNil = .ok false ∧ model.Elem = .ok mv))
      ∧ m.expectedEntries.map (fun e => e.key)
          = entries.map Prod.fst ++ mv.mapEntries.map Prod.fst
      ∧ m.expectedEntries.length = entries.length + mv.mapEntries.length)
    ∧ m.expectedEntries.Pairwise (fun a b => Value.eqIface a.key b.key = false)
    ∧ ∀ (ctx : Context) (got g : Value), m.gotIsMap env ctx got g →
        ∃ r nf fk, tdMap.matchEntries env ctx g m.expectedEntries [] [] = .ok (r, nf, fk)
          ∧ (r = .nil →
              ∃ n, g.Len = .ok n
                ∧ (n = fk.length ↔ ∀ p ∈ g.mapEntries, m.isExpected p.1 = true)) := by
  have hE := newMap_distinct env base model entries kind m hm hargs.1.1 hargs.1.2.1 hargs.1.2.2
  refine ⟨?_, hE, ?_⟩
  · obtain ⟨mv, hmv, hkeys⟩ := newMap_keys env base model entries kind m hm
    refine ⟨mv, hmv, hkeys, ?_⟩
    have := congrArg List.length hkeys
    simpa using this
  · intro ctx got g hgot
    obtain ⟨-, -, ⟨t, es, rfl⟩, hG, hvalid, -⟩ := hgot
    obtain ⟨r, nf, fk, hrun, -, hnil⟩ :=
      matchEntries_spec env ctx t es hvalid m.expectedEntries [] []
    refine ⟨r, nf, fk, hrun, ?_⟩
    intro hr
    obtain ⟨-, hfk⟩ := hnil hr
    refine ⟨_, Len_map t es, ?_⟩
    rw [hfk, foldl_keySetInsert _ [] (hE.filter _) (by intro x hx; cases hx)]
    simp only [List.nil_append, List.length_map]
    exact length_found_iff m (.map t es) hG hE

/-- C37 on concrete data: `Map(map[string]int{"a": 1, "b": 2}, nil)` stores
the two keys "a" and "b"; on the got `{"a": 1, "b": 2, "c": 3}` the loop finds
two keys for a got of length three, "c" being no expected key.  With the model
`map[[1]int]int{{1}: 7}`, the entries `{[1]int{2}: 8}` give the two keys `{2}`
and `{1}`, and the entries `{[1]int{1}: 8}`, whose key the model holds, make
the constructor panic. -/
theorem Map_family_expected_entries_witness :
    (newMap eqEnv {} (sampleMap [(97, 1), (98, 2)]) [] .allMap = .ok (sampleMapOp .allMap)
      ∧ distinctArgs (sampleMap [(97, 1), (98, 2)]) [])
    ∧ (sampleMapOp .allMap).expectedEntries.Pairwise
        (fun a b => Value.eqIface a.key b.key = false)
    ∧ (sampleMapOp .allMap).expectedEntries.map (fun e => e.key)
        = [sampleKey 97, sampleKey 98]
    ∧ (sampleMapOp .allMap).expectedEntries.length
        = 0 + (sampleMap [(97, 1), (98, 2)]).mapEntries.length
    ∧ tdMap.matchEntries eqEnv sampleCtx (sampleMap [(97, 1), (98, 2), (99, 3)])
        (sampleMapOp .allMap).expectedEntries [] []
        = .ok (.nil, [], [sampleKey 97, sampleKey 98])
    ∧ (sampleMap [(97, 1), (98, 2), (99, 3)]).Len = .ok 3
    ∧ (sampleMapOp .allMap).isExpected (sampleKey 99) = false
    ∧ (newMap eqEnv {} (sampleArrayMap [(1, 7)]) [(sampleArrayKey 2, sampleInt 8)]
          .allMap).toOption.map (fun m => m.expectedEntries.map (fun e => e.key))
        = some [sampleArrayKey 2, sampleArrayKey 1]
    ∧ newMap eqEnv {} (sampleArrayMap [(1, 7)]) [(sampleArrayKey 1, sampleInt 8)] .allMap
        = .error (.msg "got entry exists in both model & expectedEntries") :=
  ⟨⟨rfl, sampleArgs_distinct⟩,
    (Map_family_expected_entries eqEnv {} (sampleMap [(97, 1), (98, 2)]) [] .allMap
      (sampleMapOp .allMap) rfl sampleArgs_distinct).2.1,
    rfl, rfl, rfl, rfl, rfl, rfl, rfl⟩

/-! ## C38: Nil and NotNil are complements -/

/-- C38: for every got, valid or not, and under every context (so in both
modes), `Nil` and `NotNil` both return and exactly one of them matches got;
`IsNil` is taken to be defined on got when got is of kind chan, func, interface,
map, pointer or slice, as it is on every Value of package reflect. -/
theorem Nil_NotNil_complement (b1 b2 : BaseOKNil) (ctx : Context) (got : Value)
    (hwf : got.kind.isNilable = true → ∃ b, got.IsNil = .ok b) :
    (∃ r, (Nil b1).Match ctx got = .ok r)
    ∧ (∃ r, (NotNil b2).Match ctx got = .ok r)
    ∧ (((Nil b1).Match ctx got = .ok .nil ∧ (NotNil b2).Match ctx got ≠ .ok .nil)
      ∨ ((Nil b1).Match ctx got ≠ .ok .nil ∧ (NotNil b2).Match ctx got = .ok .nil)) := by
  cases hv : got.IsValid
  · rw [tdNil_Match_invalid _ ctx got hv, tdNotNil_Match_invalid _ ctx got hv]
    refine ⟨⟨_, rfl⟩, ⟨_, rfl⟩, Or.inl ⟨rfl, ?_⟩⟩
    cases ctx.BooleanError <;> simp
  · have hres : ∃ b, (if got.kind.isNilable then got.IsNil else .ok false) = .ok b := by
      cases hk : got.kind.isNilable
      · exact ⟨false, by simp⟩
      · obtain ⟨b, hb⟩ := hwf hk
        exact ⟨b, by simp [hb]⟩
    obtain ⟨b, hb⟩ := hres
    rw [tdNil_Match_valid _ ctx got b hv hb, tdNotNil_Match_valid _ ctx got b hv hb]
    refine ⟨⟨_, rfl⟩, ⟨_, rfl⟩, ?_⟩
    cases b <;> cases ctx.BooleanError <;> simp

/-- C38 on concrete data: in boolean mode the nil pointer `(*int)(nil)` is
matched by `Nil` and not by `NotNil`; the int 5 is matched by `NotNil` and not
by `Nil`. -/
theorem Nil_NotNil_complement_witness :
    ((Value.ptr (.ptr (.basic .int)) none).kind.isNilable = true →
      ∃ b, (Value.ptr (.ptr (.basic .int)) none).IsNil = .ok b)
    ∧ (((Nil {}).Match boolCtx (.ptr (.ptr (.basic .int)) none) = .ok .nil
          ∧ (NotNil {}).Match boolCtx (.ptr (.ptr (.basic .int)) none) ≠ .ok .nil)
      ∨ ((Nil {}).Match boolCtx (.ptr (.ptr (.basic .int)) none) ≠ .ok .nil
          ∧ (NotNil {}).Match boolCtx (.ptr (.ptr (.basic .int)) none) = .ok .nil))
    ∧ (Nil {}).Match boolCtx (.ptr (.ptr (.basic .int)) none) = .ok .nil
    ∧ (NotNil {}).Match boolCtx (.ptr (.ptr (.basic .int)) none) = .ok .BooleanError
    ∧ (Nil {}).Match sampleCtx (sampleInt 5)
        = .ok (.error { Context := some sampleCtx, Message := "non-nil", Got := .gotValue,
                        Expected := .operator "nil" })
    ∧ (NotNil {}).Match sampleCtx (sampleInt 5) = .ok .nil :=
  ⟨fun _ => ⟨true, rfl⟩,
    (Nil_NotNil_complement {} {} boolCtx (.ptr (.ptr (.basic .int)) none)
      (fun _ => ⟨true, rfl⟩)).2.2,
    rfl, rfl, rfl, rfl⟩

/-! ## C39: pkgFunc -/

theorem lastIndexByte_none (c : Fin 256) :
    ∀ f : List (Fin 256), c ∉ f → lastIndexByte c f = none := by
  intro f
  induction f with
  | nil => intro _; rfl
  | cons x xs ih =>
    intro h
    have hx : x ≠ c := fun e => h (e ▸ List.mem_cons_self _ _)
    have hxs : c ∉ xs := fun e => h (List.mem_cons_of_mem _ e)
    simp [lastIndexByte, ih hxs, hx]

theorem lastIndexByte_append (c : Fin 256) (f : List (Fin 256)) (hf : c ∉ f) :
    ∀ p : List (Fin 256), lastIndexByte c (p ++ c :: f) = some p.length := by
  intro p
  induction p with
  | nil => simp [lastIndexByte, lastIndexByte_none c f hf]
  | cons x xs ih => simp [lastIndexByte, ih]

theorem LastIndex_append (c : Fin 256) (p f : List (Fin 256)) (hf : c ∉ f) :
    LastIndex (p ++ c :: f) c = (p.length : Int) := by
  simp [LastIndex, lastIndexByte_append c f hf p]

/-- C39: for fn that holds no dot, and pkg that is empty or does not end with a
closing parenthesis, `pkgFunc(pkg + "." + fn)` is `(pkg, fn)`; and for every
pkg, every recv that ends with a closing parenthesis and holds no dot, and such
fn, `pkgFunc(pkg + "." + recv + "." + fn)` is `(pkg, recv + "." + fn)`. -/
theorem pkgFunc_splits (pkg recv fn : List (Fin 256)) (hfn : (46 : Fin 256) ∉ fn) :
    ((pkg = [] ∨ pkg.getLast? ≠ some 41) → pkgFunc (pkg ++ [46] ++ fn) = .ok (pkg, fn))
    ∧ (recv.getLast? = some 41 → (46 : Fin 256) ∉ recv →
        pkgFunc (pkg ++ [46] ++ recv ++ [46] ++ fn) = .ok (pkg, recv ++ [46] ++ fn)) := by
  constructor
  · intro hpkg
    have hfull : pkg ++ [46] ++ fn = pkg ++ 46 :: fn := by simp
    rw [hfull]
    have hd := LastIndex_append 46 pkg fn hfn
    have hcond : ¬ ((pkg.length : Int) > 0
        ∧ ((pkg ++ 46 :: fn).take pkg.length).getLast? = some 41) := by
      rintro ⟨h1, h2⟩
      rw [List.take_left] at h2
      rcases hpkg with rfl | h
      · simp at h1
      · exact h h2
    simp only [pkgFunc, hd, Int.toNat_ofNat]
    rw [if_neg (by omega), if_neg hcond]
    simp [pure, Except.pure, List.take_left]
  · intro hrecv hdot
    have hfull : pkg ++ [46] ++ recv ++ [46] ++ fn = (pkg ++ 46 :: recv) ++ 46 :: fn := by
      simp
    rw [hfull]
    have hd := LastIndex_append 46 (pkg ++ 46 :: recv) fn hfn
    have hd2 := LastIndex_append 46 pkg recv hdot
    have hne : recv ≠ [] := by
      intro e; rw [e] at hrecv; cases hrecv
    have hlast : (pkg ++ 46 :: recv).getLast? = some 41 := by
      cases recv with
      | nil => exact absurd rfl hne
      | cons y ys =>
        rw [List.getLast?_append, List.getLast?_cons_cons, hrecv]
        rfl
    have hpos : ((pkg ++ 46 :: recv).length : Int) > 0 := by
      simp only [List.length_append, List.length_cons]
      omega
    have htake : ((pkg ++ 46 :: recv) ++ 46 :: fn).take (pkg ++ 46 :: recv).length
        = pkg ++ 46 :: recv := List.take_left _ _
    have hfull2 : (pkg ++ 46 :: recv) ++ 46 :: fn = pkg ++ 46 :: (recv ++ 46 :: fn) := by
      simp
    simp only [pkgFunc, hd, Int.toNat_ofNat]
    rw [if_neg (by omega), htake, if_pos ⟨hpos, hlast⟩]
    simp only [hd2, Int.toNat_ofNat]
    rw [if_neg (by omega), hfull2]
    simp [pure, Except.pure, List.take_left]

/-- C39 on concrete data: "the/package.Foo" gives ("the/package", "Foo"),
"the/package.(*T).Foo" gives ("the/package", "(*T).Foo"), and ".Foo" gives
("", "Foo"). -/
theorem pkgFunc_splits_witness :
    ((46 : Fin 256) ∉ ([70, 111, 111] : List (Fin 256))
      ∧ (([] : List (Fin 256)) = [] ∨ ([] : List (Fin 256)).getLast? ≠ some 41))
    ∧ pkgFunc ([] ++ [46] ++ [70, 111, 111]) = .ok ([], [70, 111, 111])
    ∧ pkgFunc samplePkgFoo
        = .ok ([116, 104, 101, 47, 112, 97, 99, 107, 97, 103, 101], [70, 111, 111])
    ∧ pkgFunc samplePkgMethod
        = .ok ([116, 104, 101, 47, 112, 97, 99, 107, 97, 103, 101],
            [40, 42, 84, 41, 46, 70, 111, 111]) :=
  ⟨⟨by decide, Or.inl rfl⟩,
    (pkgFunc_splits [] [] [70, 111, 111] (by decide)).1 (Or.inl rfl),
    rfl, rfl⟩

end testdeep
